import Mathlib

/-!
Process lifecycle of the 2.6 kernel: creation, switch, exit, wait

A shallow embedding of `arch/i386/kernel/process.c` and `kernel/exit.c`.
Machine words are natural numbers, signed `int`s are integers, a pointer is
the natural number of its address with `0` for `NULL`.  Calls into other
subsystems (signal delivery, user-memory access, the allocator) are recorded
in an event log or answered by an explicit oracle argument.
-/

namespace Proc

/-! ## Part I: `arch/i386/kernel/process.c` -/

/-- Modelled from the spec: the ResourceExhausted error number `ENOMEM` of
`include/asm-generic/errno-base.h`, which is not among the sources. -/
def ENOMEM : Int := 12

/-- Modelled from the spec: the error number `EFAULT` (bad user address) of
`include/asm-generic/errno-base.h`, which is not among the sources. -/
def EFAULT : Int := 14

/-- Modelled from the spec: the InvalidArgument error number `EINVAL` of
`include/asm-generic/errno-base.h`, which is not among the sources. -/
def EINVAL : Int := 22

/-- Modelled from the spec: the clone flag `CLONE_SETTLS` (install a new
thread-local-storage descriptor) of `include/linux/sched.h`, which is not
among the sources. -/
def CLONE_SETTLS : Nat := 0x00080000

/-- Modelled from the spec: the clone flag `CLONE_VM` (share the address
space with the caller) of `include/linux/sched.h`. -/
def CLONE_VM : Nat := 0x00000100

/-- Modelled from the spec: the clone flag `CLONE_VFORK` of
`include/linux/sched.h`. -/
def CLONE_VFORK : Nat := 0x00004000

/-- Modelled from the spec: the default child-death signal `SIGCHLD` of
`include/asm-i386/signal.h`, which is not among the sources. -/
def SIGCHLD : Int := 17

/-- The register frame `struct pt_regs`, with the fields `dump_thread`
copies out of it one by one. -/
structure pt_regs where
  ebx : Nat := 0
  ecx : Nat := 0
  edx : Nat := 0
  esi : Nat := 0
  edi : Nat := 0
  ebp : Nat := 0
  eax : Nat := 0
  xds : Nat := 0
  xes : Nat := 0
  orig_eax : Nat := 0
  eip : Nat := 0
  xcs : Nat := 0
  eflags : Nat := 0
  esp : Nat := 0
  xss : Nat := 0
  deriving DecidableEq, Repr

/-- A descriptor-table entry `struct desc_struct`: the two words `a`, `b`. -/
structure desc_struct where
  a : Nat := 0
  b : Nat := 0
  deriving DecidableEq, Repr

/-- The caller-supplied descriptor `struct user_desc`, with the fields
`sys_get_thread_area` fills in. -/
structure user_desc where
  entry_number : Int := 0
  base_addr : Nat := 0
  limit : Nat := 0
  seg_32bit : Nat := 0
  contents : Nat := 0
  read_exec_only : Nat := 0
  limit_in_pages : Nat := 0
  seg_not_present : Nat := 0
  useable : Nat := 0
  deriving DecidableEq, Repr

/-- What `process.c` takes from headers that are not among the sources: the
TLS slot range of `asm/segment.h`, the descriptor macros of `asm/ldt.h`, the
stack size of `asm/thread_info.h`, the size of `struct pt_regs`, the address
of `ret_from_fork` and the size of an I/O bitmap. -/
structure Arch where
  GDT_ENTRY_TLS_MIN : Int
  GDT_ENTRY_TLS_MAX : Int
  LDT_empty : user_desc → Bool
  LDT_entry_a : user_desc → Nat
  LDT_entry_b : user_desc → Nat
  THREAD_SIZE : Nat
  sizeof_pt_regs : Nat
  ret_from_fork : Nat
  IO_BITMAP_BYTES : Nat
  IO_BITMAP_OFFSET : Nat
  INVALID_IO_BITMAP_OFFSET : Nat
  INVALID_IO_BITMAP_OFFSET_LAZY : Nat

/-- The per-task CPU context `struct thread_struct`, restricted to the fields
`process.c` reads or writes.  `tls_array` and `debugreg` are arrays indexed
by a natural number; `i387` stands for the saved floating-point area. -/
structure thread_struct where
  esp0 : Nat := 0
  eip : Nat := 0
  esp : Nat := 0
  fs : Nat := 0
  gs : Nat := 0
  debugreg : Nat → Nat := fun _ => 0
  tls_array : Nat → desc_struct := fun _ => {}
  i387 : Nat := 0
  io_bitmap_ptr : Nat := 0
  io_bitmap_max : Nat := 0

/-- The part of `struct task_struct` that `process.c` works on: the address
of the task itself, of its `thread_info` (the base of its kernel stack), the
lazy-FPU status bit `TS_USEDFPU`, the CPU context, and the register frame
that sits at the top of its kernel stack. -/
structure task where
  addr : Nat := 0
  thread_info : Nat := 0
  used_fpu : Bool := false
  thread : thread_struct := {}
  stack_regs : pt_regs := {}

/-- The allocator as `copy_thread` sees it: the contents of each bitmap
block, the blocks handed to `kfree`, in order, and the number of `kmalloc`
calls made. -/
structure Heap where
  bitmap : Nat → List Nat := fun _ => []
  freed : List Nat := []
  allocs : Nat := 0

/-- The result of `copy_thread`: the value returned, the child, the heap. -/
structure CopyResult where
  err : Int
  p : task
  heap : Heap

/-- The bitwise test `flags & bit` of C as a truth value. -/
def hasFlag (flags bit : Nat) : Bool := flags &&& bit != 0

/-- The `CLONE_SETTLS` block of `copy_thread`: the value of `err` when the
block is left and the TLS array as it is then.  `esi` is `childregs->esi`. -/
def copy_thread_settls_block (A : Arch) (copy_from_user : Nat → Option user_desc)
    (clone_flags esi : Nat) (tls_array : Nat → desc_struct) : Int × (Nat → desc_struct) :=
  if hasFlag clone_flags CLONE_SETTLS then
    match copy_from_user esi with
    | none => (-EFAULT, tls_array)
    | some info =>
      if A.LDT_empty info then (-EINVAL, tls_array)
      else
        let idx := info.entry_number
        if idx < A.GDT_ENTRY_TLS_MIN ∨ idx > A.GDT_ENTRY_TLS_MAX then
          (-EINVAL, tls_array)
        else
          (0, fun i =>
            if i = (idx - A.GDT_ENTRY_TLS_MIN).toNat then
              { a := A.LDT_entry_a info, b := A.LDT_entry_b info }
            else tls_array i)
  else (0, tls_array)

/-- The function `copy_thread`.  `cur` is `current`, `fs` and `gs` are the
live segment registers read by `savesegment`, `kmalloc` is the block the
allocator returns (`0` when it fails) and `copy_from_user` answers the read
of a `user_desc` at a user address (`none` when the read faults). -/
def copy_thread (A : Arch) (kmalloc : Nat) (copy_from_user : Nat → Option user_desc)
    (cur : task) (fs gs : Nat) (heap : Heap)
    (clone_flags esp : Nat) (p : task) (regs : pt_regs) : CopyResult :=
  -- *childregs = *regs; childregs->eax = 0; childregs->esp = esp;
  let childregs : pt_regs := { regs with eax := 0, esp := esp }
  let childregs_addr := (A.THREAD_SIZE + p.thread_info - A.sizeof_pt_regs) % 2 ^ 32
  let th : thread_struct :=
    { p.thread with
      esp := childregs_addr
      esp0 := (childregs_addr + A.sizeof_pt_regs) % 2 ^ 32
      eip := A.ret_from_fork
      fs := fs
      gs := gs }
  let p1 : task := { p with stack_regs := childregs, thread := th }
  -- the caller owns an I/O bitmap: duplicate it
  if cur.thread.io_bitmap_ptr ≠ 0 ∧ kmalloc = 0 then
    { err := -ENOMEM
      p := { p1 with thread := { th with io_bitmap_ptr := 0, io_bitmap_max := 0 } }
      heap := { heap with allocs := heap.allocs + 1 } }
  else
    let dup := decide (cur.thread.io_bitmap_ptr ≠ 0)
    let th2 : thread_struct := if dup then { th with io_bitmap_ptr := kmalloc } else th
    let heap2 : Heap :=
      if dup then
        { heap with
          allocs := heap.allocs + 1
          bitmap := fun a =>
            if a = kmalloc then (heap.bitmap cur.thread.io_bitmap_ptr).take A.IO_BITMAP_BYTES
            else heap.bitmap a }
      else heap
    let tls := copy_thread_settls_block A copy_from_user clone_flags childregs.esi th2.tls_array
    let th3 : thread_struct := { th2 with tls_array := tls.2 }
    -- out:
    if tls.1 ≠ 0 ∧ th3.io_bitmap_ptr ≠ 0 then
      { err := tls.1
        p := { p1 with thread := { th3 with io_bitmap_max := 0 } }
        heap := { heap2 with freed := heap2.freed ++ [th3.io_bitmap_ptr] } }
    else
      { err := tls.1, p := { p1 with thread := th3 }, heap := heap2 }

/-- The arguments `sys_fork` hands to `do_fork`: the clone flags and the
start of the child's stack. -/
def sys_fork (regs : pt_regs) : Nat × Nat :=
  (SIGCHLD.toNat, regs.esp)

/-- The arguments `sys_clone` hands to `do_fork`: the flags come from `ebx`,
the new stack pointer from `ecx`, and a zero stack pointer means the
caller's `esp`. -/
def sys_clone (regs : pt_regs) : Nat × Nat :=
  let clone_flags := regs.ebx
  let newsp := regs.ecx
  (clone_flags, if newsp = 0 then regs.esp else newsp)

/-- The arguments `sys_vfork` hands to `do_fork`. -/
def sys_vfork (regs : pt_regs) : Nat × Nat :=
  (CLONE_VFORK ||| CLONE_VM ||| SIGCHLD.toNat, regs.esp)

/-- The 2.6.11 i386 instance of the header constants: TLS slots 6 to 8, the
descriptor macros of `asm/ldt.h`, an 8 KiB stack and a 60-byte frame. -/
def i386 : Arch where
  GDT_ENTRY_TLS_MIN := 6
  GDT_ENTRY_TLS_MAX := 8
  LDT_empty := fun i =>
    i.base_addr == 0 && i.limit == 0 && i.contents == 0 && i.read_exec_only == 1 &&
    i.seg_32bit == 0 && i.limit_in_pages == 0 && i.seg_not_present == 1 && i.useable == 0
  LDT_entry_a := fun i => ((i.base_addr &&& 0x0000ffff) <<< 16) ||| (i.limit &&& 0x0ffff)
  LDT_entry_b := fun i =>
    (i.base_addr &&& 0xff000000) ||| ((i.base_addr &&& 0x00ff0000) >>> 16) |||
    (i.limit &&& 0xf0000) ||| ((i.read_exec_only ^^^ 1) <<< 9) ||| (i.contents <<< 10) |||
    ((i.seg_not_present ^^^ 1) <<< 15) ||| (i.seg_32bit <<< 22) |||
    (i.limit_in_pages <<< 23) ||| (i.useable <<< 20) ||| 0x7000
  THREAD_SIZE := 8192
  sizeof_pt_regs := 60
  ret_from_fork := 0xc0102f10
  IO_BITMAP_BYTES := 8192
  IO_BITMAP_OFFSET := 104
  INVALID_IO_BITMAP_OFFSET := 0x8000
  INVALID_IO_BITMAP_OFFSET_LAZY := 0x9000

/-- The per-CPU task-state segment `struct tss_struct`, restricted to the
fields `process.c` touches. -/
structure tss_struct where
  esp0 : Nat := 0
  io_bitmap_base : Nat := 0
  io_bitmap_owner : Nat := 0
  io_bitmap_max : Nat := 0
  io_bitmap : List Nat := []
  deriving DecidableEq, Repr

/-- The state of one processor: its TSS, the TLS entries of its descriptor
table, the live `%fs` and `%gs`, the debug registers, the live
floating-point state with the `CR0.TS` bit, and which selector values load
without a fault. -/
structure Cpu where
  tss : tss_struct := {}
  gdt_tls : Nat → desc_struct := fun _ => {}
  fs : Nat := 0
  gs : Nat := 0
  db : Nat → Nat := fun _ => 0
  fpu : Nat := 0
  ts : Bool := false
  seg_loadable : Nat → Bool := fun _ => true

/-- Modelled from the spec: `__unlazy_fpu` of `asm/i387.h`, which is not
among the sources: it flushes the lazily-deferred floating-point state that
still belongs to `prev` into its save area and sets `CR0.TS`. -/
def __unlazy_fpu (cpu : Cpu) (t : task) : Cpu × task :=
  if t.used_fpu then
    ({ cpu with ts := true }, { t with used_fpu := false, thread := { t.thread with i387 := cpu.fpu } })
  else (cpu, t)

/-- Modelled from the spec: `load_esp0` of `asm/processor.h`, which is not
among the sources: it installs the kernel-entry stack pointer of `next` in
the per-CPU TSS. -/
def load_esp0 (tss : tss_struct) (next : thread_struct) : tss_struct :=
  { tss with esp0 := next.esp0 }

/-- Modelled from the spec: `load_TLS` of `asm/desc.h`, which is not among
the sources: it copies the TLS descriptors of `next` into the per-CPU
descriptor table. -/
def load_TLS (A : Arch) (gdt_tls : Nat → desc_struct) (next : thread_struct) : Nat → desc_struct :=
  fun i => if (i : Int) ≤ A.GDT_ENTRY_TLS_MAX - A.GDT_ENTRY_TLS_MIN then next.tls_array i else gdt_tls i

/-- Modelled from the spec: `loadsegment` of `asm/system.h`, which is not
among the sources: it loads a segment register, and its fault fixup loads
the null selector in place of a value that cannot be loaded. -/
def loadsegment (cpu : Cpu) (v : Nat) : Nat :=
  if cpu.seg_loadable v then v else 0

/-- The macro `loaddebug(thread, register)`. -/
def loaddebug (db : Nat → Nat) (thread : thread_struct) (register : Nat) : Nat → Nat :=
  fun r => if r = register then thread.debugreg register else db r

/-- The function `handle_io_bitmap`; `next_addr` is the pointer `next`. -/
def handle_io_bitmap (A : Arch) (next : thread_struct) (next_addr : Nat) (tss : tss_struct) :
    tss_struct :=
  if next.io_bitmap_ptr = 0 then
    { tss with io_bitmap_base := A.INVALID_IO_BITMAP_OFFSET }
  else if next_addr = tss.io_bitmap_owner then
    { tss with io_bitmap_base := A.IO_BITMAP_OFFSET }
  else
    { tss with io_bitmap_base := A.INVALID_IO_BITMAP_OFFSET_LAZY }

/-- What `__switch_to` leaves behind: the processor, the task `prev_p` it
returns, and the task `next_p`, which it only reads. -/
structure SwitchResult where
  cpu : Cpu
  prev : task
  next : task

/-- The function `__switch_to(prev_p, next_p)`. -/
def __switch_to (A : Arch) (cpu : Cpu) (prev_p next_p : task) : SwitchResult :=
  let u := __unlazy_fpu cpu prev_p
  let cpu1 := u.1
  let prev1 := u.2
  let next := next_p.thread
  let cpu2 : Cpu := { cpu1 with tss := load_esp0 cpu1.tss next }
  let cpu3 : Cpu := { cpu2 with gdt_tls := load_TLS A cpu2.gdt_tls next }
  -- save away %fs and %gs
  let prev : thread_struct := { prev1.thread with fs := cpu3.fs, gs := cpu3.gs }
  let cpu4 : Cpu :=
    if prev.fs ||| prev.gs ||| next.fs ||| next.gs ≠ 0 then
      { cpu3 with fs := loadsegment cpu3 next.fs, gs := loadsegment cpu3 next.gs }
    else cpu3
  let cpu5 : Cpu :=
    if next.debugreg 7 ≠ 0 then
      { cpu4 with
        db := loaddebug (loaddebug (loaddebug (loaddebug (loaddebug (loaddebug cpu4.db
          next 0) next 1) next 2) next 3) next 6) next 7 }
    else cpu4
  let cpu6 : Cpu :=
    if prev.io_bitmap_ptr ≠ 0 ∨ next.io_bitmap_ptr ≠ 0 then
      { cpu5 with tss := handle_io_bitmap A next next_p.addr cpu5.tss }
    else cpu5
  { cpu := cpu6, prev := { prev1 with thread := prev }, next := next_p }

/-- The round trip A to B and back: `__switch_to(A, B)` followed by
`__switch_to(B, A)` on what the first call left. -/
def switch_round_trip (A : Arch) (cpu : Cpu) (a b : task) : SwitchResult :=
  let r1 := __switch_to A cpu a b
  __switch_to A r1.cpu r1.next r1.prev

/-- A well-formed request for TLS slot 7: base 0x1000, limit 0xfff. -/
def tls_request : user_desc := { entry_number := 7, base_addr := 0x1000, limit := 0xfff }

/-! ## Part II: `kernel/exit.c`

The task states, signal numbers, wait options and error numbers below are
declared in kernel headers that are not among the sources; they carry the
values of the 2.6.11 i386 tree. -/

/-- Modelled from the spec: the Running state, `TASK_RUNNING` of `linux/sched.h`. -/
def TASK_RUNNING : Int := 0
/-- Modelled from the spec: the Interruptible-Sleep state of `linux/sched.h`. -/
def TASK_INTERRUPTIBLE : Int := 1
/-- Modelled from the spec: the Stopped state, `TASK_STOPPED` of `linux/sched.h`. -/
def TASK_STOPPED : Int := 4
/-- Modelled from the spec: the Traced state, `TASK_TRACED` of `linux/sched.h`. -/
def TASK_TRACED : Int := 8
/-- Modelled from the spec: the Zombie state, `EXIT_ZOMBIE` of `linux/sched.h`. -/
def EXIT_ZOMBIE : Int := 16
/-- Modelled from the spec: the Dead state, `EXIT_DEAD` of `linux/sched.h`. -/
def EXIT_DEAD : Int := 32

/-- Modelled from the spec: the "exiting" flag `PF_EXITING` of `linux/sched.h`. -/
def PF_EXITING : Nat := 0x4
/-- Modelled from the spec: the "dead, awaiting final release" flag `PF_DEAD`
of `linux/sched.h`. -/
def PF_DEAD : Nat := 0x8

/-- Modelled from the spec: the continuation flag `SIGNAL_STOP_CONTINUED` of
`linux/sched.h`. -/
def SIGNAL_STOP_CONTINUED : Nat := 0x4
/-- Modelled from the spec: the "group is exiting" flag `SIGNAL_GROUP_EXIT`
of `linux/sched.h`. -/
def SIGNAL_GROUP_EXIT : Nat := 0x8

/-- Modelled from the spec: the ptrace flag `PT_PTRACED` of `linux/ptrace.h`. -/
def PT_PTRACED : Nat := 0x1
/-- Modelled from the spec: the ptrace flag `PT_TRACE_EXIT` of `linux/ptrace.h`. -/
def PT_TRACE_EXIT : Nat := 0x200
/-- Modelled from the spec: the ptrace flag `PT_ATTACHED` of `linux/ptrace.h`. -/
def PT_ATTACHED : Nat := 0x400

/-- Modelled from the spec: the hang-up signal `SIGHUP` of `asm/signal.h`. -/
def SIGHUP : Int := 1
/-- Modelled from the spec: the continue signal `SIGCONT` of `asm/signal.h`. -/
def SIGCONT : Int := 18
/-- Modelled from the spec: the stop signal `SIGSTOP` of `asm/signal.h`. -/
def SIGSTOP : Int := 19
/-- Modelled from the spec: the stop signal `SIGTSTP` of `asm/signal.h`. -/
def SIGTSTP : Int := 20
/-- Modelled from the spec: the stop signal `SIGTTIN` of `asm/signal.h`. -/
def SIGTTIN : Int := 21
/-- Modelled from the spec: the stop signal `SIGTTOU` of `asm/signal.h`. -/
def SIGTTOU : Int := 22

/-- Modelled from the spec: the non-blocking option `WNOHANG` of `linux/wait.h`. -/
def WNOHANG : Nat := 0x00000001
/-- Modelled from the spec: the include-stopped option `WUNTRACED` of `linux/wait.h`. -/
def WUNTRACED : Nat := 0x00000002
/-- Modelled from the spec: the include-exited option `WEXITED` of `linux/wait.h`. -/
def WEXITED : Nat := 0x00000004
/-- Modelled from the spec: the include-continued option `WCONTINUED` of `linux/wait.h`. -/
def WCONTINUED : Nat := 0x00000008
/-- Modelled from the spec: the peek-without-consuming option `WNOWAIT` of
`linux/wait.h`. -/
def WNOWAIT : Nat := 0x01000000
/-- Modelled from the spec: the calling-thread-only option `__WNOTHREAD` of
`linux/wait.h`. -/
def __WNOTHREAD : Nat := 0x20000000
/-- Modelled from the spec: the clone-and-non-clone option `__WALL` of `linux/wait.h`. -/
def __WALL : Nat := 0x40000000
/-- Modelled from the spec: the clone-style-only option `__WCLONE` of `linux/wait.h`. -/
def __WCLONE : Nat := 0x80000000

/-- Modelled from the spec: the reason code `CLD_EXITED` of `asm/siginfo.h`. -/
def CLD_EXITED : Int := 1
/-- Modelled from the spec: the reason code `CLD_KILLED` of `asm/siginfo.h`. -/
def CLD_KILLED : Int := 2
/-- Modelled from the spec: the reason code `CLD_DUMPED` of `asm/siginfo.h`. -/
def CLD_DUMPED : Int := 3
/-- Modelled from the spec: the reason code `CLD_TRAPPED` of `asm/siginfo.h`. -/
def CLD_TRAPPED : Int := 4
/-- Modelled from the spec: the reason code `CLD_STOPPED` of `asm/siginfo.h`. -/
def CLD_STOPPED : Int := 5
/-- Modelled from the spec: the reason code `CLD_CONTINUED` of `asm/siginfo.h`. -/
def CLD_CONTINUED : Int := 6

/-- Modelled from the spec: the NoEligibleChild error number `ECHILD` of
`asm-generic/errno-base.h`. -/
def ECHILD : Int := 10
/-- Modelled from the spec: the retry error number `EAGAIN` of
`asm-generic/errno-base.h`. -/
def EAGAIN : Int := 11
/-- Modelled from the spec: the interrupted-wait error number `ERESTARTSYS`
of `linux/errno.h`. -/
def ERESTARTSYS : Int := 512

/-- The bitwise AND `a & m` of a C `int` with a mask: the 32-bit pattern of
`a` is `a % 2 ^ 32`. -/
def band (a : Int) (m : Nat) : Int := (((a % 2 ^ 32).toNat &&& m : Nat) : Int)

/-- The four identifier classes `enum pid_type` of the pid hash. -/
inductive pid_type
  | PIDTYPE_PID
  | PIDTYPE_TGID
  | PIDTYPE_PGID
  | PIDTYPE_SID
  deriving DecidableEq, Repr

/-- The per-group `struct signal_struct`, restricted to the fields `exit.c`
reads or writes. -/
structure signal_struct where
  pgrp : Int := 0
  session : Int := 0
  leader : Int := 0
  flags : Nat := 0
  group_exit_code : Int := 0
  group_stop_count : Int := 0
  live : Int := 1
  utime : Nat := 0
  stime : Nat := 0
  cutime : Nat := 0
  cstime : Nat := 0
  min_flt : Nat := 0
  maj_flt : Nat := 0
  cmin_flt : Nat := 0
  cmaj_flt : Nat := 0
  nvcsw : Nat := 0
  nivcsw : Nat := 0
  cnvcsw : Nat := 0
  cnivcsw : Nat := 0
  deriving DecidableEq, Repr

/-- The execution context `struct task_struct`, restricted to the fields
`exit.c` reads or writes.  Pointers to other tasks, to the signal structure
and to the resource handles are addresses; `children` and `ptrace_children`
are the two list heads, holding the tasks linked on them through `sibling`
and `ptrace_list`, first to last. -/
structure task_struct where
  pid : Int := 0
  tgid : Int := 0
  uid : Int := 0
  state : Int := 0
  exit_state : Int := 0
  exit_code : Int := 0
  exit_signal : Int := 0
  pdeath_signal : Int := 0
  flags : Nat := 0
  ptrace : Nat := 0
  ptrace_message : Int := 0
  parent : Nat := 0
  real_parent : Nat := 0
  group_leader : Nat := 0
  children : List Nat := []
  ptrace_children : List Nat := []
  signal : Nat := 0
  sigpending : Bool := false
  recalc_pending : Bool := false
  parent_exec_id : Nat := 0
  self_exec_id : Nat := 0
  cap_kill : Bool := false
  mm : Nat := 0
  active_mm : Nat := 0
  files : Nat := 0
  fs : Nat := 0
  io_context : Nat := 0
  binfmt : Nat := 0
  io_bitmap_ptr : Nat := 0
  io_bitmap_max : Nat := 0
  usage : Int := 2
  user : Nat := 0
  utime : Nat := 0
  stime : Nat := 0
  min_flt : Nat := 0
  maj_flt : Nat := 0
  nvcsw : Nat := 0
  nivcsw : Nat := 0
  it_virt_value : Nat := 0
  it_prof_value : Nat := 0
  deriving DecidableEq, Repr

/-- The functions of other subsystems that `exit.c` calls and whose effect
on the state of this model is only that they were called. -/
inductive Callee
  | profile_task_exit
  | exit_io_context
  | ptrace_notify
  | del_timer_sync
  | acct_update_integrals
  | update_mem_hiwater
  | acct_process
  | mm_release
  | mmput
  | exit_sem
  | close_files
  | free_fs
  | exit_namespace
  | kfree_io_bitmap
  | exit_keys
  | disassociate_ctty
  | module_put
  | schedule
  | group_send_sig_info
  | __kill_pg_info
  | do_notify_parent
  | recalc_sigpending_tsk
  | signal_wake_up
  | wait_for_completion
  | add_wait_queue
  | remove_wait_queue
  | ptrace_untrace
  | getrusage
  | __exit_signal
  | __exit_sighand
  | sched_exit
  | proc_pid_flush
  | release_thread
  | free_task
  deriving DecidableEq, Repr

/-- One call out of `exit.c`: the callee and two arguments. -/
structure Event where
  fn : Callee
  a : Int := 0
  b : Int := 0
  deriving DecidableEq, Repr

/-- The state of the kernel that `exit.c` works on: the task and signal
structures in memory by address, the addresses of all tasks, the pid hash by
identifier class and number, the system reaper, the running task, whether
the processor is in interrupt context, the thread count, the reference
counts of the three shared resource handles by address, user memory (a cell
that is `none` faults), and the calls made out of `exit.c`, oldest first. -/
structure Kernel where
  tasks : Nat → task_struct := fun _ => {}
  signals : Nat → signal_struct := fun _ => {}
  procs : List Nat := []
  pid_hash : pid_type → Int → List Nat := fun _ _ => []
  child_reaper : Nat := 0
  current : Nat := 0
  in_interrupt : Bool := false
  nr_threads : Int := 0
  process_counts : Int := 0
  task_list : List Nat := []
  user_processes : Nat → Int := fun _ => 0
  mm_context_size : Nat → Nat := fun _ => 0
  mm_core_waiters : Nat → Int := fun _ => 0
  mm_users : Nat → Int := fun _ => 0
  mm_count : Nat → Int := fun _ => 0
  files_count : Nat → Int := fun _ => 0
  fs_count : Nat → Int := fun _ => 0
  security_task_wait : Nat → Int := fun _ => 0
  notify_self_reaps : Nat → Int → Bool := fun _ _ => false
  umem : Nat → Option Int := fun _ => none
  tss : tss_struct := {}
  log : List Event := []

/-- Why the kernel stopped: a `panic` or a `BUG` at a line of `exit.c`. -/
inductive Fatal
  | panic (line : Nat)
  | BUG (line : Nat)
  deriving DecidableEq, Repr

/-- Why a run of the model ended without a result: the kernel stopped, in
the state given, or the model ran out of the loop budget it was given. -/
inductive Stop
  | halt (why : Fatal) (k : Kernel)
  | fuel

/-- The macro `BUG_ON(condition)` at a line of `exit.c`. -/
def BUG_ON (c : Bool) (line : Nat) (k : Kernel) : Except Stop Unit :=
  if c then .error (.halt (.BUG line) k) else .ok ()

/-- Replace the task at address `p`. -/
def Kernel.setTask (k : Kernel) (p : Nat) (t : task_struct) : Kernel :=
  { k with tasks := fun q => if q = p then t else k.tasks q }

/-- The assignment `p->children = v`. -/
def Kernel.set_children (k : Kernel) (p : Nat) (v : List Nat) : Kernel :=
  k.setTask p { k.tasks p with children := v }

/-- The assignment `p->ptrace_children = v`. -/
def Kernel.set_ptrace_children (k : Kernel) (p : Nat) (v : List Nat) : Kernel :=
  k.setTask p { k.tasks p with ptrace_children := v }

/-- The assignment `p->exit_signal = v`. -/
def Kernel.set_exit_signal (k : Kernel) (p : Nat) (v : Int) : Kernel :=
  k.setTask p { k.tasks p with exit_signal := v }

/-- The assignment `p->exit_state = v`. -/
def Kernel.set_exit_state (k : Kernel) (p : Nat) (v : Int) : Kernel :=
  k.setTask p { k.tasks p with exit_state := v }

/-- The assignment `p->exit_code = v`. -/
def Kernel.set_exit_code (k : Kernel) (p : Nat) (v : Int) : Kernel :=
  k.setTask p { k.tasks p with exit_code := v }

/-- The assignment `p->state = v`. -/
def Kernel.set_state (k : Kernel) (p : Nat) (v : Int) : Kernel :=
  k.setTask p { k.tasks p with state := v }

/-- The assignment `p->flags = v`. -/
def Kernel.set_flags (k : Kernel) (p : Nat) (v : Nat) : Kernel :=
  k.setTask p { k.tasks p with flags := v }

/-- The assignment `p->ptrace = v`. -/
def Kernel.set_ptrace (k : Kernel) (p : Nat) (v : Nat) : Kernel :=
  k.setTask p { k.tasks p with ptrace := v }

/-- The assignment `p->ptrace_message = v`. -/
def Kernel.set_ptrace_message (k : Kernel) (p : Nat) (v : Int) : Kernel :=
  k.setTask p { k.tasks p with ptrace_message := v }

/-- The assignment `p->parent = v`. -/
def Kernel.set_parent (k : Kernel) (p : Nat) (v : Nat) : Kernel :=
  k.setTask p { k.tasks p with parent := v }

/-- The assignment `p->real_parent = v`. -/
def Kernel.set_real_parent (k : Kernel) (p : Nat) (v : Nat) : Kernel :=
  k.setTask p { k.tasks p with real_parent := v }

/-- The assignment `p->usage = v`. -/
def Kernel.set_usage (k : Kernel) (p : Nat) (v : Int) : Kernel :=
  k.setTask p { k.tasks p with usage := v }

/-- The assignment `p->sigpending = v`. -/
def Kernel.set_sigpending (k : Kernel) (p : Nat) (v : Bool) : Kernel :=
  k.setTask p { k.tasks p with sigpending := v }

/-- The assignment `p->mm = v`. -/
def Kernel.set_mm (k : Kernel) (p : Nat) (v : Nat) : Kernel :=
  k.setTask p { k.tasks p with mm := v }

/-- The assignment `p->files = v`. -/
def Kernel.set_files (k : Kernel) (p : Nat) (v : Nat) : Kernel :=
  k.setTask p { k.tasks p with files := v }

/-- The assignment `p->fs = v`. -/
def Kernel.set_fs (k : Kernel) (p : Nat) (v : Nat) : Kernel :=
  k.setTask p { k.tasks p with fs := v }

/-- The assignment `p->io_bitmap_ptr = v`. -/
def Kernel.set_io_bitmap_ptr (k : Kernel) (p : Nat) (v : Nat) : Kernel :=
  k.setTask p { k.tasks p with io_bitmap_ptr := v }

/-- The assignment `p->io_bitmap_max = v`. -/
def Kernel.set_io_bitmap_max (k : Kernel) (p : Nat) (v : Nat) : Kernel :=
  k.setTask p { k.tasks p with io_bitmap_max := v }

/-- The assignment `p->it_virt_value = v`. -/
def Kernel.set_it_virt_value (k : Kernel) (p : Nat) (v : Nat) : Kernel :=
  k.setTask p { k.tasks p with it_virt_value := v }

/-- The assignment `p->it_prof_value = v`. -/
def Kernel.set_it_prof_value (k : Kernel) (p : Nat) (v : Nat) : Kernel :=
  k.setTask p { k.tasks p with it_prof_value := v }

/-- Replace the signal structure at address `s`. -/
def Kernel.setSignal (k : Kernel) (s : Nat) (v : signal_struct) : Kernel :=
  { k with signals := fun q => if q = s then v else k.signals q }

/-- Record a call out of `exit.c`. -/
def Kernel.call (k : Kernel) (fn : Callee) (a b : Int) : Kernel :=
  { k with log := k.log ++ [{ fn := fn, a := a, b := b }] }

/-- The signal structure `p->signal` of the task at `p`. -/
def Kernel.sig (k : Kernel) (p : Nat) : signal_struct := k.signals (k.tasks p).signal

/-- The macro `process_group(p)`: `p->signal->pgrp`. -/
def process_group (k : Kernel) (p : Nat) : Int := (k.sig p).pgrp

/-- Modelled from the spec: `detach(id-class, context)` of the execution
context store, `detach_pid` of `kernel/pid.c`, which is not among the
sources: the task leaves the chains of that identifier class. -/
def detach_pid (k : Kernel) (p : Nat) (type : pid_type) : Kernel :=
  { k with
    pid_hash := fun ty nr =>
      if ty = type then (k.pid_hash ty nr).filter (fun q => q ≠ p) else k.pid_hash ty nr }

/-- Modelled from the spec: the walk `do_each_task_pid(nr, type, p)` of
`linux/pid.h`, which is not among the sources: the members attached under
that number, in chain order. -/
def tasks_of_pid (k : Kernel) (type : pid_type) (nr : Int) : List Nat :=
  k.pid_hash type nr

/-- The thread-group ring as seen from `p`: the chain of `p`'s `tgid`
in the `PIDTYPE_TGID` class, rotated so that it starts at `p`. -/
def thread_ring (k : Kernel) (p : Nat) : List Nat :=
  let chain := k.pid_hash .PIDTYPE_TGID (k.tasks p).tgid
  if p ∈ chain then chain.dropWhile (fun q => q ≠ p) ++ chain.takeWhile (fun q => q ≠ p)
  else [p]

/-- The function `next_thread`: the next task on the `PIDTYPE_TGID` ring. -/
def next_thread (k : Kernel) (p : Nat) : Nat :=
  match thread_ring k p with
  | _ :: q :: _ => q
  | _ => p

/-- Modelled from the spec: the macro `thread_group_empty(p)` of
`linux/sched.h`: the ring of `p` holds no other task. -/
def thread_group_empty (k : Kernel) (p : Nat) : Bool :=
  next_thread k p == p

/-- Modelled from the spec: the macro `thread_group_leader(p)` of
`linux/sched.h`: `p->pid == p->tgid`. -/
def thread_group_leader (k : Kernel) (p : Nat) : Bool :=
  (k.tasks p).pid == (k.tasks p).tgid

/-- Modelled from the spec: the macro `delay_group_leader(p)` of
`linux/sched.h`: a group leader whose thread group is not empty. -/
def delay_group_leader (k : Kernel) (p : Nat) : Bool :=
  thread_group_leader k p && !thread_group_empty k p

/-- The list operation `list_del_init(&p->sibling)`: `p` leaves the
`children` list it is linked on. -/
def remove_parent (k : Kernel) (p : Nat) : Kernel :=
  { k with
    tasks := fun t =>
      { k.tasks t with children := (k.tasks t).children.filter (fun q => q ≠ p) } }

/-- The list operation `list_add_tail(&p->sibling, &parent->children)`. -/
def add_parent (k : Kernel) (p parent : Nat) : Kernel :=
  k.set_children parent ((k.tasks parent).children ++ [p])

/-- The list operation `list_del_init(&p->ptrace_list)`. -/
def ptrace_list_del (k : Kernel) (p : Nat) : Kernel :=
  { k with
    tasks := fun t =>
      { k.tasks t with ptrace_children := (k.tasks t).ptrace_children.filter (fun q => q ≠ p) } }

/-- The list operation `list_add(&p->ptrace_list, &head->ptrace_children)`. -/
def ptrace_list_add (k : Kernel) (p head : Nat) : Kernel :=
  k.set_ptrace_children head (p :: (k.tasks head).ptrace_children)

/-- The test `list_empty(&p->ptrace_list)`: `p` is on no `ptrace_children`
list of a task in memory. -/
def ptrace_list_empty (k : Kernel) (p : Nat) : Bool :=
  !(k.procs.any fun t => decide (p ∈ (k.tasks t).ptrace_children))

/-- Modelled from the spec: the macro `REMOVE_LINKS(p)` of `linux/sched.h`:
a group leader leaves the global task list, and `p` leaves its parent's
child list. -/
def REMOVE_LINKS (k : Kernel) (p : Nat) : Kernel :=
  let k1 : Kernel :=
    if thread_group_leader k p then { k with task_list := k.task_list.filter (fun q => q ≠ p) }
    else k
  remove_parent k1 p

/-- Modelled from the spec: the macro `SET_LINKS(p)` of `linux/sched.h`: a
group leader joins the global task list, and `p` joins the tail of its
parent's child list. -/
def SET_LINKS (k : Kernel) (p : Nat) : Kernel :=
  let k1 : Kernel :=
    if thread_group_leader k p then { k with task_list := k.task_list ++ [p] } else k
  add_parent k1 p (k1.tasks p).parent

/-- Modelled from the spec: the notify primitive `notify_parent(context,
signal)`, `do_notify_parent` of `kernel/signal.c`, which is not among the
sources.  It signals the parent, and, as `release_task` says of it, marks
the task self-reaping (`exit_signal = -1`) when the parent ignores the
signal; whether the parent does is the oracle `notify_self_reaps`. -/
def do_notify_parent (k : Kernel) (tsk : Nat) (sig : Int) : Kernel :=
  let k1 := k.call .do_notify_parent tsk sig
  if k1.notify_self_reaps tsk sig then
    k1.set_exit_signal tsk (-1)
  else k1

/-- Modelled from the spec: the body of `__ptrace_unlink` of
`kernel/ptrace.c`, which is not among the sources, after its entry check:
the observer linkage of `child` is dropped, the child goes back to the child
list of its real parent, and a child at a trace stop is released from it. -/
def ptrace_unlinked (k : Kernel) (child : Nat) : Kernel :=
  let k1 := k.set_ptrace child 0
  let k2 :=
    if !ptrace_list_empty k1 child then
      let a := ptrace_list_del k1 child
      let b := REMOVE_LINKS a child
      let c := b.set_parent child (b.tasks child).real_parent
      SET_LINKS c child
    else k1
  if (k2.tasks child).state = TASK_TRACED then k2.call .ptrace_untrace child 0 else k2

/-- Modelled from the spec: `__ptrace_unlink` of `kernel/ptrace.c`, which is
not among the sources: a `BUG` when the child is not traced, and otherwise
the observer linkage of `child` is dropped. -/
def __ptrace_unlink (k : Kernel) (child : Nat) : Except Stop Kernel := do
  BUG_ON ((k.tasks child).ptrace == 0) 0 k
  pure (ptrace_unlinked k child)

/-- The loop of `will_become_orphaned_pgrp` over the members of the group. -/
def will_become_orphaned_pgrp_loop (k : Kernel) (pgrp : Int) (ignored_task : Nat) :
    List Nat → Int
  | [] => 1
  | p :: rest =>
    if p = ignored_task ∨ (k.tasks p).exit_state ≠ 0
        ∨ (k.tasks (k.tasks p).real_parent).pid = 1 then
      will_become_orphaned_pgrp_loop k pgrp ignored_task rest
    else if process_group k (k.tasks p).real_parent ≠ pgrp
        ∧ (k.sig (k.tasks p).real_parent).session = (k.sig p).session then
      0
    else
      will_become_orphaned_pgrp_loop k pgrp ignored_task rest

/-- The function `will_become_orphaned_pgrp(pgrp, ignored_task)`; a `NULL`
`ignored_task` is the address 0. -/
def will_become_orphaned_pgrp (k : Kernel) (pgrp : Int) (ignored_task : Nat) : Int :=
  will_become_orphaned_pgrp_loop k pgrp ignored_task (tasks_of_pid k .PIDTYPE_PGID pgrp)

/-- The loop of `has_stopped_jobs` over the members of the group. -/
def has_stopped_jobs_loop (k : Kernel) : List Nat → Int
  | [] => 0
  | p :: rest =>
    if (k.tasks p).state ≠ TASK_STOPPED then has_stopped_jobs_loop k rest
    else if (k.tasks p).ptrace ≠ 0
        ∧ (k.tasks p).exit_code ≠ SIGSTOP
        ∧ (k.tasks p).exit_code ≠ SIGTSTP
        ∧ (k.tasks p).exit_code ≠ SIGTTOU
        ∧ (k.tasks p).exit_code ≠ SIGTTIN then
      has_stopped_jobs_loop k rest
    else 1

/-- The function `has_stopped_jobs(pgrp)`. -/
def has_stopped_jobs (k : Kernel) (pgrp : Int) : Int :=
  has_stopped_jobs_loop k (tasks_of_pid k .PIDTYPE_PGID pgrp)

/-- The call `__kill_pg_info(sig, (void *)1, pgrp)` into the signal code. -/
def __kill_pg_info (k : Kernel) (sig : Int) (pgrp : Int) : Kernel :=
  k.call .__kill_pg_info sig pgrp

/-- The function `choose_new_parent(p, reaper, child_reaper)`. -/
def choose_new_parent (k : Kernel) (p reaper : Nat) : Except Stop Kernel := do
  BUG_ON (p == reaper || decide ((k.tasks reaper).exit_state ≥ EXIT_ZOMBIE)) 594 k
  BUG_ON (((k.set_real_parent p reaper).tasks p).parent
    == ((k.set_real_parent p reaper).tasks p).real_parent) 597 (k.set_real_parent p reaper)
  pure (k.set_real_parent p reaper)

/-- The head of `reparent_thread`: a child that reports its death reports it
with `SIGCHLD` from now on, and the parent-death signal it asked for is sent. -/
def reparent_signals (k : Kernel) (p : Nat) : Kernel :=
  -- We don't want people slaying init.
  let k1 := if (k.tasks p).exit_signal ≠ -1 then k.set_exit_signal p SIGCHLD else k
  if (k1.tasks p).pdeath_signal ≠ 0 then
    k1.call .group_send_sig_info (k1.tasks p).pdeath_signal p
  else k1

/-- The branch of `reparent_thread` for a child traced by someone else: the
ptrace link is kept, on the list of the new real parent. -/
def reparent_traced (k : Kernel) (p : Nat) : Kernel :=
  if ((ptrace_list_del k p).tasks p).parent ≠ ((ptrace_list_del k p).tasks p).real_parent then
    ptrace_list_add (ptrace_list_del k p) p ((ptrace_list_del k p).tasks p).real_parent
  else ptrace_list_del k p

/-- The move of the child in the other branch of `reparent_thread`: tracing
by the dying parent ends and the child joins the tail of the child list of
its new parent. -/
def reparent_move (k : Kernel) (p : Nat) : Kernel :=
  let b := remove_parent (k.set_ptrace p 0) p
  let c := b.set_parent p (b.tasks p).real_parent
  add_parent c p (c.tasks p).parent

/-- The end of the untraced branch of `reparent_thread`: the new parent of a
zombie is told of the death, and a child at a trace stop is released from it. -/
def reparent_notify (k : Kernel) (p : Nat) : Kernel :=
  if (k.tasks p).exit_state = EXIT_ZOMBIE ∧ (k.tasks p).exit_signal ≠ -1
      ∧ thread_group_empty k p then
    do_notify_parent k p (k.tasks p).exit_signal
  else if (k.tasks p).state = TASK_TRACED then
    k.call .ptrace_untrace p 0
  else k

/-- The process-group orphan check of `reparent_thread` ("case ii"): the
child is in another group of the same session, and was the only connection
of that group to the outside. -/
def reparent_orphan (k : Kernel) (p father : Nat) : Kernel :=
  if process_group k p ≠ process_group k father
      ∧ (k.sig p).session = (k.sig father).session then
    if will_become_orphaned_pgrp k (process_group k p) 0 ≠ 0
        ∧ has_stopped_jobs k (process_group k p) ≠ 0 then
      __kill_pg_info (__kill_pg_info k SIGHUP (process_group k p)) SIGCONT (process_group k p)
    else k
  else k

/-- The function `reparent_thread(p, father, traced)`. -/
def reparent_thread (k : Kernel) (p father : Nat) (traced : Bool) : Kernel :=
  reparent_orphan
    (if traced then reparent_traced (reparent_signals k p) p
      else reparent_notify (reparent_move (reparent_signals k p) p) p)
    p father

/-- The search for the new parent at the head of `forget_original_parent`:
the first task after `father` on its thread-group ring whose `exit_state` is
0, and the system reaper when the walk comes back to `father`. -/
def find_reaper (k : Kernel) (father : Nat) : Nat :=
  match (thread_ring k father).tail.find? (fun r => (k.tasks r).exit_state == 0) with
  | some r => r
  | none => k.child_reaper

/-- The notification that was deferred while the thread group of `p` was
not empty or `p` was traced: a zombie that wants one has its parent told. -/
def renotify (k : Kernel) (p : Nat) : Kernel :=
  if (k.tasks p).exit_state = EXIT_ZOMBIE ∧ (k.tasks p).exit_signal ≠ -1
      ∧ thread_group_empty k p then
    do_notify_parent k p (k.tasks p).exit_signal
  else k

/-- The two branches of the body of the first loop of
`forget_original_parent`: a child of `father` goes to the reaper, and a task
that `father` only traces goes back to its real parent. -/
def forget_child_reparent (k : Kernel) (father reaper p : Nat) : Except Stop Kernel :=
  if father = (k.tasks p).real_parent then
    -- reparent with a reaper, real father it's us
    (choose_new_parent k p reaper).map fun a => reparent_thread a p father false
  else
    -- reparent ptraced task to its real parent
    (__ptrace_unlink k p).map fun a => renotify a p

/-- The body of the first loop of `forget_original_parent`, for the child
`p` of the list `father->children`. -/
def forget_child (k : Kernel) (father reaper : Nat) (to_release : List Nat) (p : Nat) :
    Except Stop (Kernel × List Nat) := do
  -- if father isn't the real parent, then ptrace must be enabled
  BUG_ON (father != (k.tasks p).real_parent && (k.tasks p).ptrace == 0) 697 k
  let k1 ← forget_child_reparent k father reaper p
  pure (k1,
    if (k.tasks p).ptrace ≠ 0 ∧ (k1.tasks p).exit_state = EXIT_ZOMBIE
        ∧ (k1.tasks p).exit_signal = -1 then
      p :: to_release
    else to_release)

/-- The first loop of `forget_original_parent`: `list_for_each_safe` over
the tasks that were on `father->children` when the loop began. -/
def forget_children (father reaper : Nat) :
    List Nat → Kernel → List Nat → Except Stop (Kernel × List Nat)
  | [], k, to_release => pure (k, to_release)
  | p :: rest, k, to_release => do
    let r ← forget_child k father reaper to_release p
    forget_children father reaper rest r.1 r.2

/-- The second loop of `forget_original_parent`, over the tasks that were on
`father->ptrace_children` when the loop began. -/
def forget_ptrace_children (father reaper : Nat) : List Nat → Kernel → Except Stop Kernel
  | [], k => pure k
  | p :: rest, k => do
    let a ← choose_new_parent k p reaper
    forget_ptrace_children father reaper rest (reparent_thread a p father true)

/-- The function `forget_original_parent(father, to_release)`; the list
`to_release` starts empty and is returned. -/
def forget_original_parent (k : Kernel) (father : Nat) : Except Stop (Kernel × List Nat) := do
  let reaper := find_reaper k father
  let r ← forget_children father reaper (k.tasks father).children k []
  let k2 ← forget_ptrace_children father reaper (r.1.tasks father).ptrace_children r.1
  pure (k2, r.2)

/-- The function `__unhash_process`. -/
def __unhash_process (k : Kernel) (p : Nat) : Kernel :=
  let k1 : Kernel := { k with nr_threads := k.nr_threads - 1 }
  let k2 := detach_pid k1 p .PIDTYPE_PID
  let k3 := detach_pid k2 p .PIDTYPE_TGID
  let k4 :=
    if thread_group_leader k3 p then
      let a := detach_pid k3 p .PIDTYPE_PGID
      let b := detach_pid a p .PIDTYPE_SID
      if (b.tasks p).pid ≠ 0 then { b with process_counts := b.process_counts - 1 } else b
    else k3
  REMOVE_LINKS k4 p

/-- The function `release_thread` of `process.c`. -/
def release_thread (k : Kernel) (dead_task : Nat) : Except Stop Kernel := do
  BUG_ON (decide ((k.tasks dead_task).mm ≠ 0)
    && decide (k.mm_context_size (k.tasks dead_task).mm ≠ 0)) 388 k
  pure (k.call .release_thread dead_task 0)

/-- Modelled from the spec: `put_task_struct` of `linux/sched.h`, which is
not among the sources: one reference to the task is dropped, and the last
one frees it. -/
def put_task_struct (k : Kernel) (p : Nat) : Kernel :=
  let k1 := k.set_usage p ((k.tasks p).usage - 1)
  if (k1.tasks p).usage = 0 then k1.call .free_task p 0 else k1

/-- Modelled from the spec: `get_task_struct` of `linux/sched.h`, which is
not among the sources: one more reference to the task is held. -/
def get_task_struct (k : Kernel) (p : Nat) : Kernel :=
  k.set_usage p ((k.tasks p).usage + 1)

/-- The leader check of `release_task`: when `p` was the last non-leader
member of its group and the leader is a zombie, the leader's parent is
told, and `zap_leader` says whether the leader became self-reaping. -/
def release_task_leader (k : Kernel) (p : Nat) : Except Stop (Kernel × Bool) :=
  if (k.tasks p).group_leader ≠ p ∧ thread_group_empty k (k.tasks p).group_leader
      ∧ (k.tasks (k.tasks p).group_leader).exit_state = EXIT_ZOMBIE then do
    BUG_ON ((k.tasks (k.tasks p).group_leader).exit_signal == -1) 110 k
    pure (do_notify_parent k (k.tasks p).group_leader
        (k.tasks (k.tasks p).group_leader).exit_signal,
      ((do_notify_parent k (k.tasks p).group_leader
        (k.tasks (k.tasks p).group_leader).exit_signal).tasks
          (k.tasks p).group_leader).exit_signal == -1)
  else pure (k, false)

/-- One pass of the `repeat:` loop of `release_task`: the state after the
pass, the leader, and the value of `zap_leader`. -/
def release_task_pass (k : Kernel) (p : Nat) : Except Stop (Kernel × Nat × Bool) := do
  let k1 : Kernel :=
    { k with
      user_processes := fun u =>
        if u = (k.tasks p).user then k.user_processes u - 1 else k.user_processes u }
  let k2 ← (if (k1.tasks p).ptrace ≠ 0 then __ptrace_unlink k1 p else pure k1)
  BUG_ON (!ptrace_list_empty k2 p || !(k2.tasks p).ptrace_children.isEmpty) 79 k2
  let k4 := __unhash_process ((k2.call .__exit_signal p 0).call .__exit_sighand p 0) p
  let r ← release_task_leader k4 p
  let k7 ← release_thread ((r.1.call .sched_exit p 0).call .proc_pid_flush p 0) p
  pure (put_task_struct k7 p, (k4.tasks p).group_leader, r.2)

/-- The function `release_task`; `fuel` bounds the number of passes of the
`repeat:` loop. -/
def release_task : Nat → Kernel → Nat → Except Stop Kernel
  | 0, _, _ => throw .fuel
  | fuel + 1, k, p =>
    release_task_pass k p >>= fun r =>
      if r.2.2 then release_task fuel r.1 r.2.1 else pure r.1

/-- The final loop of `exit_notify`: each task on the list `ptrace_dead` is
taken off it and released. -/
def release_ptrace_dead (fuel : Nat) : List Nat → Kernel → Except Stop Kernel
  | [], k => pure k
  | t :: rest, k => do
    let a ← release_task fuel k t
    release_ptrace_dead fuel rest a

/-- The wake-up loop at the head of `exit_notify`, over the other threads of
the group: a thread that is not exiting and has no signal pending has its
pending state recomputed (to `recalc_pending`, the answer of the signal
code) and is woken if a signal is pending then. -/
def exit_notify_wake (k : Kernel) : List Nat → Kernel
  | [] => k
  | t :: rest =>
    if !(k.tasks t).sigpending && !hasFlag (k.tasks t).flags PF_EXITING then
      let a := (k.call .recalc_sigpending_tsk t 0).set_sigpending t (k.tasks t).recalc_pending
      if (a.tasks t).sigpending then exit_notify_wake (a.call .signal_wake_up t 0) rest
      else exit_notify_wake a rest
    else exit_notify_wake k rest

/-- The orphaned-group check of `exit_notify` ("case i"): the signals sent
to the process group of the terminating task. -/
def exit_notify_orphan (k : Kernel) (tsk : Nat) : Kernel :=
  let t := (k.tasks tsk).real_parent
  if process_group k t ≠ process_group k tsk
      ∧ (k.sig t).session = (k.sig tsk).session
      ∧ will_become_orphaned_pgrp k (process_group k tsk) tsk ≠ 0
      ∧ has_stopped_jobs k (process_group k tsk) ≠ 0 then
    __kill_pg_info (__kill_pg_info k SIGHUP (process_group k tsk)) SIGCONT (process_group k tsk)
  else k

/-- The exit-signal check of `exit_notify` ("Thread signals are
configurable, but you aren't going to use that to send signals to arbitrary
processes"); `capable(CAP_KILL)` is the field `cap_kill` of the caller. -/
def exit_notify_exit_signal (k : Kernel) (tsk : Nat) : Kernel :=
  let t := (k.tasks tsk).real_parent
  if (k.tasks tsk).exit_signal ≠ SIGCHLD ∧ (k.tasks tsk).exit_signal ≠ -1
      ∧ ((k.tasks tsk).parent_exec_id ≠ (k.tasks t).self_exec_id
        ∨ (k.tasks tsk).self_exec_id ≠ (k.tasks tsk).parent_exec_id)
      ∧ ¬ (k.tasks k.current).cap_kill then
    k.set_exit_signal tsk SIGCHLD
  else k

/-- The parent-notification step of `exit_notify`: the exit signal is
settled and the parent is notified. -/
def exit_notify_signal (k : Kernel) (tsk : Nat) : Kernel :=
  let k1 := exit_notify_exit_signal k tsk
  if (k1.tasks tsk).exit_signal ≠ -1 ∧ thread_group_empty k1 tsk then
    let signal :=
      if (k1.tasks tsk).parent = (k1.tasks tsk).real_parent then (k1.tasks tsk).exit_signal
      else SIGCHLD
    do_notify_parent k1 tsk signal
  else if (k1.tasks tsk).ptrace ≠ 0 then
    do_notify_parent k1 tsk SIGCHLD
  else k1

/-- The value of the local `state` of `exit_notify`: the terminal state
chosen once the parent has been notified. -/
def exit_notify_choose (k : Kernel) (tsk : Nat) : Int :=
  if (k.tasks tsk).exit_signal = -1
      ∧ ((k.tasks tsk).ptrace = 0
        ∨ hasFlag (k.sig (k.tasks tsk).parent).flags SIGNAL_GROUP_EXIT) then
    EXIT_DEAD
  else EXIT_ZOMBIE

/-- The head of `exit_notify`: when a signal is pending for the terminating
task, its group is not exiting and it has sibling threads, the siblings are
woken to take the signal. -/
def exit_notify_woken (k : Kernel) (tsk : Nat) : Kernel :=
  if (k.tasks tsk).sigpending ∧ ¬ hasFlag (k.sig tsk).flags SIGNAL_GROUP_EXIT
      ∧ ¬ thread_group_empty k tsk then
    exit_notify_wake k (thread_ring k tsk).tail
  else k

/-- The function `exit_notify` up to and including the parent-notification
step: the state reached and the list `ptrace_dead`. -/
def exit_notify_notified (k : Kernel) (tsk : Nat) : Except Stop (Kernel × List Nat) := do
  let r ← forget_original_parent (exit_notify_woken k tsk) tsk
  BUG_ON (!(r.1.tasks tsk).children.isEmpty) 782 r.1
  BUG_ON (!(r.1.tasks tsk).ptrace_children.isEmpty) 783 r.1
  pure (exit_notify_signal (exit_notify_orphan r.1 tsk) tsk, r.2)

/-- The function `exit_notify`; `fuel` bounds each `release_task` loop. -/
def exit_notify (fuel : Nat) (k : Kernel) (tsk : Nat) : Except Stop Kernel := do
  let r ← exit_notify_notified k tsk
  let state := exit_notify_choose r.1 tsk
  let k1 := r.1.set_exit_state tsk state
  let k2 := (k1.set_it_virt_value tsk 0).set_it_prof_value tsk 0
  let k3 ← release_ptrace_dead fuel r.2 k2
  -- If the process is dead, release it - nobody will wait for it
  let k4 ← (if state = EXIT_DEAD then release_task fuel k3 tsk else pure k3)
  pure (k4.set_flags tsk ((k4.tasks tsk).flags ||| PF_DEAD))

/-- The part of `exit_mm` after the check of `active_mm`: the task lets go
of the address space and `mmput` drops one user of it. -/
def exit_mm_put (k : Kernel) (tsk mm : Nat) : Kernel :=
  let k4 := k.set_mm tsk 0
  let k5 : Kernel :=
    { k4 with mm_users := fun m => if m = mm then k4.mm_users m - 1 else k4.mm_users m }
  if k5.mm_users mm = 0 then k5.call .mmput mm 0 else k5

/-- The part of `exit_mm` before the check of `active_mm`: a pending core
dump is served and `mm_count` is raised. -/
def exit_mm_pin (k : Kernel) (mm : Nat) : Kernel :=
  let k2 : Kernel :=
    if k.mm_core_waiters mm ≠ 0 then
      ({ k with
          mm_core_waiters := fun m =>
            if m = mm then k.mm_core_waiters m - 1 else k.mm_core_waiters m }).call
        .wait_for_completion mm 0
    else k
  { k2 with mm_count := fun m => if m = mm then k2.mm_count m + 1 else k2.mm_count m }

/-- The function `exit_mm`. -/
def exit_mm (k : Kernel) (tsk : Nat) : Except Stop Kernel :=
  if (k.tasks tsk).mm = 0 then pure (k.call .mm_release tsk 0)
  else do
    let k3 := exit_mm_pin (k.call .mm_release tsk (k.tasks tsk).mm) (k.tasks tsk).mm
    BUG_ON ((k.tasks tsk).mm != (k3.tasks tsk).active_mm) 567 k3
    pure (exit_mm_put k3 tsk (k.tasks tsk).mm)

/-- The function `__exit_files`, with `put_files_struct` inlined. -/
def __exit_files (k : Kernel) (tsk : Nat) : Kernel :=
  let files := (k.tasks tsk).files
  if files ≠ 0 then
    let k1 := k.set_files tsk 0
    let k2 : Kernel :=
      { k1 with
        files_count := fun f => if f = files then k1.files_count f - 1 else k1.files_count f }
    if k2.files_count files = 0 then k2.call .close_files files 0 else k2
  else k

/-- The function `__exit_fs`, with `__put_fs_struct` inlined. -/
def __exit_fs (k : Kernel) (tsk : Nat) : Kernel :=
  let fs := (k.tasks tsk).fs
  if fs ≠ 0 then
    let k1 := k.set_fs tsk 0
    let k2 : Kernel :=
      { k1 with fs_count := fun f => if f = fs then k1.fs_count f - 1 else k1.fs_count f }
    if k2.fs_count fs = 0 then k2.call .free_fs fs 0 else k2
  else k

/-- The function `exit_thread` of `process.c`, on the running task. -/
def exit_thread (A : Arch) (k : Kernel) : Kernel :=
  let tsk := k.current
  if (k.tasks tsk).io_bitmap_ptr ≠ 0 then
    let k1 := k.call .kfree_io_bitmap (k.tasks tsk).io_bitmap_ptr 0
    let k2 := (k1.set_io_bitmap_ptr tsk 0).set_io_bitmap_max tsk 0
    { k2 with
      tss :=
        { k2.tss with
          io_bitmap :=
            List.replicate (min k2.tss.io_bitmap_max k2.tss.io_bitmap.length) 0xff
              ++ k2.tss.io_bitmap.drop k2.tss.io_bitmap_max
          io_bitmap_owner := 0
          io_bitmap_max := 0
          io_bitmap_base := A.INVALID_IO_BITMAP_OFFSET } }
  else k

/-- The three guards at the head of `do_exit`. -/
def do_exit_guards (k : Kernel) : Except Stop Unit :=
  if k.in_interrupt then throw (.halt (.panic 905) k)
  else if (k.tasks k.current).pid = 0 then throw (.halt (.panic 907) k)
  else if (k.tasks k.current).pid = 1 then throw (.halt (.panic 909) k)
  else pure ()

/-- The part of `do_exit` between the guards and `exit_mm`: the tracer is
told, the exiting flag is set, and the live count of the group is dropped.
The result is the state and the value of `group_dead`. -/
def do_exit_begin (k : Kernel) (code : Int) : Kernel × Bool :=
  let tsk := k.current
  let k1 := if (k.tasks tsk).io_context ≠ 0 then k.call .exit_io_context tsk 0 else k
  let k2 :=
    if hasFlag (k1.tasks tsk).ptrace PT_TRACE_EXIT then
      (k1.set_ptrace_message tsk code).call .ptrace_notify tsk 0
    else k1
  let k3 := k2.set_flags tsk ((k2.tasks tsk).flags ||| PF_EXITING)
  let k4 := ((k3.call .del_timer_sync tsk 0).call .acct_update_integrals 0 0).call
    .update_mem_hiwater 0 0
  -- group_dead = atomic_dec_and_test(&tsk->signal->live)
  let k5 := k4.setSignal (k4.tasks tsk).signal { k4.sig tsk with live := (k4.sig tsk).live - 1 }
  let group_dead := decide ((k5.sig tsk).live = 0)
  (if group_dead then k5.call .acct_process code 0 else k5, group_dead)

/-- The part of `do_exit` between `exit_mm` and `exit_notify`: the other
resources are released and the exit code is stored. -/
def do_exit_release (A : Arch) (k : Kernel) (group_dead : Bool) (code : Int) : Kernel :=
  let tsk := k.current
  let k8 := k.call .exit_sem tsk 0
  let k9 := __exit_files k8 tsk
  let k10 := __exit_fs k9 tsk
  let k11 := k10.call .exit_namespace tsk 0
  let k12 := exit_thread A k11
  let k13 := k12.call .exit_keys tsk 0
  let k14 :=
    if group_dead ∧ (k13.sig tsk).leader ≠ 0 then k13.call .disassociate_ctty 1 0 else k13
  let k15 := k14.call .module_put tsk 0
  let k16 :=
    if (k15.tasks tsk).binfmt ≠ 0 then k15.call .module_put (k15.tasks tsk).binfmt 0 else k15
  k16.set_exit_code tsk code

/-- The function `do_exit`.  It does not return: the result is the state in
which the terminated task calls `schedule()` for the last time, or the state
in which the kernel stopped. -/
def do_exit (A : Arch) (fuel : Nat) (k : Kernel) (code : Int) : Except Stop Kernel := do
  do_exit_guards (k.call .profile_task_exit k.current 0)
  let b := do_exit_begin (k.call .profile_task_exit k.current 0) code
  let k7 ← exit_mm b.1 b.1.current
  let k17 := do_exit_release A k7 b.2 code
  let k18 ← exit_notify fuel k17 k17.current
  BUG_ON (!hasFlag (k18.tasks k18.current).flags PF_DEAD) 994 k18
  pure (k18.call .schedule 0 0)

/-- The function `sys_exit`. -/
def sys_exit (A : Arch) (fuel : Nat) (k : Kernel) (error_code : Int) : Except Stop Kernel :=
  do_exit A fuel k (band error_code 0xff * 256)

/-- Modelled from the spec: the offsets of the fields of `struct siginfo`
that `exit.c` writes, from `asm-generic/siginfo.h`, which is not among the
sources: `si_signo`. -/
def si_signo : Nat := 0
/-- Modelled from the spec: the offset of `si_errno` in `struct siginfo`. -/
def si_errno : Nat := 4
/-- Modelled from the spec: the offset of `si_code` in `struct siginfo`. -/
def si_code : Nat := 8
/-- Modelled from the spec: the offset of `si_pid` in `struct siginfo`. -/
def si_pid : Nat := 12
/-- Modelled from the spec: the offset of `si_uid` in `struct siginfo`. -/
def si_uid : Nat := 16
/-- Modelled from the spec: the offset of `si_status` in `struct siginfo`. -/
def si_status : Nat := 20

/-- Modelled from the spec: `put_user(x, addr)` of `asm/uaccess.h`, which is
not among the sources: the value is stored in user memory and 0 returned, or
the cell faults and `-EFAULT` is returned. -/
def put_user (k : Kernel) (x : Int) (addr : Nat) : Int × Kernel :=
  if (k.umem addr).isSome then
    (0, { k with umem := fun a => if a = addr then some x else k.umem a })
  else (-EFAULT, k)

/-- The idiom `if (!retval) retval = put_user(x, addr)`. -/
def put_user_if (r : Int × Kernel) (x : Int) (addr : Nat) : Int × Kernel :=
  if r.1 = 0 then put_user r.2 x addr else r

/-- The idiom `if (!retval && ptr) retval = put_user(x, addr)`. -/
def put_user_ifp (r : Int × Kernel) (ptr : Nat) (x : Int) (addr : Nat) : Int × Kernel :=
  if r.1 = 0 ∧ ptr ≠ 0 then put_user r.2 x addr else r

/-- Modelled from the spec: `getrusage(p, RUSAGE_BOTH, ru)` of
`kernel/sys.c`, which is not among the sources: the usage record is copied
to the caller and 0 returned, or the copy faults and `-EFAULT` is returned. -/
def getrusage (k : Kernel) (p : Nat) (ru : Nat) : Int × Kernel :=
  if (k.umem ru).isSome then (0, k.call .getrusage p ru) else (-EFAULT, k.call .getrusage p ru)

/-- The idiom `retval = ru ? getrusage(p, RUSAGE_BOTH, ru) : 0`. -/
def getrusage_opt (k : Kernel) (p : Nat) (ru : Nat) : Int × Kernel :=
  if ru ≠ 0 then getrusage k p ru else (0, k)

/-- The function `eligible_child(pid, options, p)`. -/
def eligible_child (k : Kernel) (pid : Int) (options : Nat) (p : Nat) : Int :=
  if pid > 0 ∧ (k.tasks p).pid ≠ pid then 0
  else if ¬ pid > 0 ∧ pid = 0 ∧ process_group k p ≠ process_group k k.current then 0
  else if ¬ pid > 0 ∧ pid ≠ 0 ∧ pid ≠ -1 ∧ process_group k p ≠ -pid then 0
  -- Do not consider detached threads that are not ptraced
  else if (k.tasks p).exit_signal = -1 ∧ (k.tasks p).ptrace = 0 then 0
  else if (decide ((k.tasks p).exit_signal ≠ SIGCHLD) != hasFlag options __WCLONE)
      ∧ ¬ hasFlag options __WALL then 0
  -- Do not consider thread group leaders that are in a non-empty thread group
  else if (k.tasks k.current).tgid ≠ (k.tasks p).tgid ∧ delay_group_leader k p then 2
  else if k.security_task_wait p ≠ 0 then 0
  else 1

/-- The function `wait_noreap_copyout`. -/
def wait_noreap_copyout (k : Kernel) (p : Nat) (pid uid why status : Int)
    (infop rusagep : Nat) : Int × Kernel :=
  let r0 := getrusage_opt k p rusagep
  let r1 : Int × Kernel := (r0.1, put_task_struct r0.2 p)
  let r2 := put_user_if r1 SIGCHLD (infop + si_signo)
  let r3 := put_user_if r2 0 (infop + si_errno)
  let r4 := put_user_if r3 why (infop + si_code)
  let r5 := put_user_if r4 pid (infop + si_pid)
  let r6 := put_user_if r5 uid (infop + si_uid)
  let r7 := put_user_if r6 status (infop + si_status)
  if r7.1 = 0 then (pid, r7.2) else r7

/-- The reason and status that `wait_task_zombie` derives from an exit code. -/
def zombie_why_status (exit_code : Int) : Int × Int :=
  if band exit_code 0x7f = 0 then (CLD_EXITED, exit_code >>> 8)
  else ((if band exit_code 0x80 ≠ 0 then CLD_DUMPED else CLD_KILLED), band exit_code 0x7f)

/-- The peek path of `wait_task_zombie` (`noreap` set): the child is looked
at and reported, and stays as it is. -/
def wait_task_zombie_peek (k : Kernel) (p : Nat) (infop ru : Nat) : Int × Kernel :=
  if (k.tasks p).exit_state ≠ EXIT_ZOMBIE then (0, k)
  else if (k.tasks p).exit_signal = -1 ∧ (k.tasks p).ptrace = 0 then (0, k)
  else
    wait_noreap_copyout (get_task_struct k p) p (k.tasks p).pid (k.tasks p).uid
      (zombie_why_status (k.tasks p).exit_code).1 (zombie_why_status (k.tasks p).exit_code).2
      infop ru

/-- The accounting step of `wait_task_zombie`: the usage counters of the
child are added to the accumulators of the parent's group.  The counters are
of the types `cputime_t` and `unsigned long`, 32 bits wide on i386, and the
sums are taken modulo `2 ^ 32`. -/
def wait_task_zombie_account (k : Kernel) (p : Nat) : Kernel :=
  if (k.tasks p).real_parent = (k.tasks p).parent ∧ (k.tasks p).signal ≠ 0 then
    let c := k.tasks p
    let cs := k.sig p
    let ps := k.sig c.parent
    k.setSignal (k.tasks c.parent).signal
      { ps with
        cutime := (ps.cutime + (c.utime + (cs.utime + cs.cutime))) % 2 ^ 32
        cstime := (ps.cstime + (c.stime + (cs.stime + cs.cstime))) % 2 ^ 32
        cmin_flt := (ps.cmin_flt + (c.min_flt + cs.min_flt + cs.cmin_flt)) % 2 ^ 32
        cmaj_flt := (ps.cmaj_flt + (c.maj_flt + cs.maj_flt + cs.cmaj_flt)) % 2 ^ 32
        cnvcsw := (ps.cnvcsw + (c.nvcsw + cs.nvcsw + cs.cnvcsw)) % 2 ^ 32
        cnivcsw := (ps.cnivcsw + (c.nivcsw + cs.nivcsw + cs.cnivcsw)) % 2 ^ 32 }
  else k

/-- The status word a consuming `wait_task_zombie` reports. -/
def wait_task_zombie_status (k : Kernel) (p : Nat) : Int :=
  if hasFlag (k.sig p).flags SIGNAL_GROUP_EXIT then (k.sig p).group_exit_code
  else (k.tasks p).exit_code

/-- The copy-out step of a consuming `wait_task_zombie`: the value of
`retval` after the last `put_user`, and the state. -/
def wait_task_zombie_copyout (k : Kernel) (p : Nat) (infop stat_addr ru : Nat) : Int × Kernel :=
  let r0 := getrusage_opt k p ru
  let status := wait_task_zombie_status r0.2 p
  let r1 := put_user_ifp r0 stat_addr status stat_addr
  let r2 := put_user_ifp r1 infop SIGCHLD (infop + si_signo)
  let r3 := put_user_ifp r2 infop 0 (infop + si_errno)
  let r4 : Int × Kernel :=
    if r3.1 = 0 ∧ infop ≠ 0 then
      put_user_if (put_user r3.2 (zombie_why_status status).1 (infop + si_code))
        (zombie_why_status status).2 (infop + si_status)
    else r3
  let r5 := put_user_ifp r4 infop (r4.2.tasks p).pid (infop + si_pid)
  put_user_ifp r5 infop (r5.2.tasks p).uid (infop + si_uid)

/-- The step of `wait_task_zombie` for a child observed by a tracer that is
not its real parent: the child goes back to its real parent as a zombie, the
real parent is told, and the result says whether the child is kept for it. -/
def wait_task_zombie_untrace (k : Kernel) (p : Nat) : Except Stop (Kernel × Bool) :=
  if (k.tasks p).real_parent ≠ (k.tasks p).parent then
    (__ptrace_unlink k p).map fun a =>
      if ((a.set_exit_state p EXIT_ZOMBIE).tasks p).exit_signal ≠ -1 then
        (do_notify_parent (a.set_exit_state p EXIT_ZOMBIE) p
            ((a.set_exit_state p EXIT_ZOMBIE).tasks p).exit_signal,
          decide (((do_notify_parent (a.set_exit_state p EXIT_ZOMBIE) p
            ((a.set_exit_state p EXIT_ZOMBIE).tasks p).exit_signal).tasks p).exit_signal ≠ -1))
      else (a.set_exit_state p EXIT_ZOMBIE, false)
  else pure (k, false)

/-- The last step of a consuming `wait_task_zombie`: the child is released
unless it is kept for its real parent. -/
def wait_task_zombie_release (fuel : Nat) (k : Kernel) (p : Nat) : Except Stop Kernel :=
  wait_task_zombie_untrace k p >>= fun r =>
    if r.2 then pure r.1 else release_task fuel r.1 p

/-- The consuming path of `wait_task_zombie`, once the state of the child
has been exchanged for `EXIT_DEAD` and was `EXIT_ZOMBIE`. -/
def wait_task_zombie_reap (fuel : Nat) (k : Kernel) (p : Nat) (infop stat_addr ru : Nat) :
    Except Stop (Int × Kernel) :=
  if (k.tasks p).exit_signal = -1 ∧ (k.tasks p).ptrace = 0 then pure (0, k)
  else if (wait_task_zombie_copyout (wait_task_zombie_account k p) p infop stat_addr ru).1 ≠ 0 then
    pure ((wait_task_zombie_copyout (wait_task_zombie_account k p) p infop stat_addr ru).1,
      (wait_task_zombie_copyout (wait_task_zombie_account k p) p infop stat_addr ru).2.set_exit_state
        p EXIT_ZOMBIE)
  else do
    let k3 := (wait_task_zombie_copyout (wait_task_zombie_account k p) p infop stat_addr ru).2
    let k4 ← wait_task_zombie_release fuel k3 p
    BUG_ON ((k3.tasks p).pid == 0) 1315 k4
    pure ((k3.tasks p).pid, k4)

/-- The function `wait_task_zombie`; `fuel` bounds the `release_task` loop. -/
def wait_task_zombie (fuel : Nat) (k : Kernel) (p : Nat) (noreap : Bool)
    (infop stat_addr ru : Nat) : Except Stop (Int × Kernel) :=
  if noreap then pure (wait_task_zombie_peek k p infop ru)
  -- state = xchg(&p->exit_state, EXIT_DEAD)
  else if (k.tasks p).exit_state ≠ EXIT_ZOMBIE then do
    BUG_ON ((k.tasks p).exit_state != EXIT_DEAD) 1205 (k.set_exit_state p EXIT_DEAD)
    pure (0, k.set_exit_state p EXIT_DEAD)
  else wait_task_zombie_reap fuel (k.set_exit_state p EXIT_DEAD) p infop stat_addr ru

/-- The peek path of `wait_task_stopped` (`noreap` set), after the reference
to the child is taken. -/
def wait_task_stopped_peek (k : Kernel) (p : Nat) (infop ru : Nat) : Int × Kernel :=
  if (k.tasks p).exit_code = 0 ∨ (k.tasks p).state > TASK_STOPPED then
    -- bail_ref
    (-EAGAIN, put_task_struct k p)
  else
    wait_noreap_copyout k p (k.tasks p).pid (k.tasks p).uid
      (if hasFlag (k.tasks p).ptrace PT_PTRACED then CLD_TRAPPED else CLD_STOPPED)
      ((k.tasks p).exit_code * 256 + 0x7f) infop ru

/-- The copy-out step of a consuming `wait_task_stopped`. -/
def wait_task_stopped_copyout (k : Kernel) (p : Nat) (exit_code : Int)
    (infop stat_addr ru : Nat) : Int × Kernel :=
  let r0 := getrusage_opt k p ru
  let r1 := put_user_ifp r0 stat_addr (exit_code * 256 + 0x7f) stat_addr
  let r2 := put_user_ifp r1 infop SIGCHLD (infop + si_signo)
  let r3 := put_user_ifp r2 infop 0 (infop + si_errno)
  let r4 := put_user_ifp r3 infop
    (if hasFlag (r3.2.tasks p).ptrace PT_PTRACED then CLD_TRAPPED else CLD_STOPPED)
    (infop + si_code)
  let r5 := put_user_ifp r4 infop exit_code (infop + si_status)
  let r6 := put_user_ifp r5 infop (r5.2.tasks p).pid (infop + si_pid)
  let r7 := put_user_ifp r6 infop (r6.2.tasks p).uid (infop + si_uid)
  (if r7.1 = 0 then (r7.2.tasks p).pid else r7.1, put_task_struct r7.2 p)

/-- The consuming path of `wait_task_stopped`, after the reference to the
child is taken. -/
def wait_task_stopped_take (k : Kernel) (p : Nat) (infop stat_addr ru : Nat) :
    Except Stop (Int × Kernel) :=
  -- exit_code = xchg(&p->exit_code, 0), put back when the task has died
  if (k.tasks p).exit_state ≠ 0 then pure (-EAGAIN, put_task_struct k p)
  else if (k.tasks p).exit_code = 0 then
    pure (-EAGAIN, put_task_struct (k.set_exit_code p 0) p)
  else do
    -- move to end of parent's list to avoid starvation
    let k4 := add_parent (remove_parent (k.set_exit_code p 0) p) p (k.tasks p).parent
    let r := wait_task_stopped_copyout k4 p (k.tasks p).exit_code infop stat_addr ru
    BUG_ON (r.1 == 0) 1430 r.2
    pure r

/-- The function `wait_task_stopped`. -/
def wait_task_stopped (k : Kernel) (p : Nat) (delayed_group_leader noreap : Bool)
    (infop stat_addr ru : Nat) : Except Stop (Int × Kernel) :=
  if (k.tasks p).exit_code = 0 then pure (0, k)
  else if delayed_group_leader ∧ ¬ hasFlag (k.tasks p).ptrace PT_PTRACED
      ∧ (k.tasks p).signal ≠ 0 ∧ (k.sig p).group_stop_count > 0 then
    pure (0, k)
  else if noreap then pure (wait_task_stopped_peek (get_task_struct k p) p infop ru)
  else wait_task_stopped_take (get_task_struct k p) p infop stat_addr ru

/-- The report of `wait_task_continued`, once the continuation flag has been
seen and, for a consuming wait, cleared. -/
def wait_task_continued_report (k : Kernel) (p : Nat) (infop stat_addr ru : Nat) :
    Except Stop (Int × Kernel) :=
  if infop = 0 then
    let r0 := getrusage_opt (get_task_struct k p) p ru
    let r1 : Int × Kernel := (r0.1, put_task_struct r0.2 p)
    let r2 := put_user_ifp r1 stat_addr 0xffff stat_addr
    pure (if r2.1 = 0 then (r2.2.tasks p).pid else r2.1, r2.2)
  else do
    let r := wait_noreap_copyout (get_task_struct k p) p (k.tasks p).pid (k.tasks p).uid
      CLD_CONTINUED SIGCONT infop ru
    BUG_ON (r.1 == 0) 1480 r.2
    pure r

/-- The function `wait_task_continued`. -/
def wait_task_continued (k : Kernel) (p : Nat) (noreap : Bool)
    (infop stat_addr ru : Nat) : Except Stop (Int × Kernel) :=
  if (k.tasks p).signal = 0 then pure (0, k)
  else if ¬ hasFlag (k.sig p).flags SIGNAL_STOP_CONTINUED then pure (0, k)
  else if noreap then wait_task_continued_report k p infop stat_addr ru
  else
    wait_task_continued_report
      (k.setSignal (k.tasks p).signal
        { k.sig p with flags := (k.sig p).flags &&& (2 ^ 32 - 1 - SIGNAL_STOP_CONTINUED) })
      p infop stat_addr ru

/-- The function `my_ptrace_child`. -/
def my_ptrace_child (k : Kernel) (p : Nat) : Bool :=
  if !hasFlag (k.tasks p).ptrace PT_PTRACED then false
  else if !hasFlag (k.tasks p).ptrace PT_ATTACHED then true
  else (k.tasks p).parent != (k.tasks p).real_parent

/-- The arguments of `do_wait`. -/
structure WaitArgs where
  pid : Int
  options : Nat
  infop : Nat := 0
  stat_addr : Nat := 0
  ru : Nat := 0
  deriving DecidableEq, Repr

/-- How the body of the child loop of `do_wait` is left: on to the next
child with the value of `flag`, by `goto repeat`, or by `goto end` with the
value of `retval`. -/
inductive Step
  | next (flag : Bool)
  | repeat_scan
  | goto_end (retval : Int)
  deriving DecidableEq, Repr

/-- The step after a call of one of the three `wait_task_` functions
returned `retval`: a non-zero value leaves the scan. -/
def after_wait_task (flag : Bool) (r : Int × Kernel) : Kernel × Step :=
  if r.1 ≠ 0 then (r.2, .goto_end r.1) else (r.2, .next flag)

/-- The two stopped cases of the `switch` in the child loop of `do_wait`;
`ret` is the value of `eligible_child`. -/
def do_wait_stopped (k : Kernel) (w : WaitArgs) (ret : Int) (p : Nat) :
    Except Stop (Kernel × Step) :=
  -- It's stopped now, so it might later continue, exit, or stop again.
  if ¬ hasFlag w.options WUNTRACED ∧ ¬ my_ptrace_child k p then pure (k, .next true)
  else
    (wait_task_stopped k p (ret == 2) (hasFlag w.options WNOWAIT) w.infop w.stat_addr w.ru).map
      fun r => if r.1 = -EAGAIN then (r.2, .repeat_scan) else after_wait_task true r

/-- The code under the label `check_continued` in the child loop of
`do_wait`: the child is running now, so it might later exit, stop, or stop
and then continue. -/
def do_wait_continued (k : Kernel) (w : WaitArgs) (p : Nat) : Except Stop (Kernel × Step) :=
  if ¬ hasFlag w.options WCONTINUED then pure (k, .next true)
  else
    (wait_task_continued k p (hasFlag w.options WNOWAIT) w.infop w.stat_addr w.ru).map
      fun r => after_wait_task true r

/-- The body of the child loop of `do_wait`, for the child `p`. -/
def do_wait_child (fuel : Nat) (k : Kernel) (w : WaitArgs) (flag : Bool) (p : Nat) :
    Except Stop (Kernel × Step) :=
  if eligible_child k w.pid w.options p = 0 then pure (k, .next flag)
  else if (k.tasks p).state = TASK_TRACED ∧ ¬ my_ptrace_child k p then pure (k, .next flag)
  else if (k.tasks p).state = TASK_TRACED ∨ (k.tasks p).state = TASK_STOPPED then
    do_wait_stopped k w (eligible_child k w.pid w.options p) p
  else if (k.tasks p).exit_state = EXIT_DEAD then pure (k, .next flag)
  else if (k.tasks p).exit_state = EXIT_ZOMBIE ∧ eligible_child k w.pid w.options p ≠ 2 then
    if ¬ hasFlag w.options WEXITED then pure (k, .next flag)
    else
      (wait_task_zombie fuel k p (hasFlag w.options WNOWAIT) w.infop w.stat_addr w.ru).map
        fun r => after_wait_task flag r
  else do_wait_continued k w p

/-- The child loop of `do_wait`: `list_for_each` over `tsk->children`. -/
def do_wait_children (fuel : Nat) (w : WaitArgs) :
    List Nat → Kernel → Bool → Except Stop (Kernel × Step)
  | [], k, flag => pure (k, .next flag)
  | p :: rest, k, flag =>
    do_wait_child fuel k w flag p >>= fun r =>
      match r.2 with
      | .next flag1 => do_wait_children fuel w rest r.1 flag1
      | s => pure (r.1, s)

/-- The second loop of `do_wait`, over `tsk->ptrace_children`, entered when
`flag` is clear: an eligible child sets it. -/
def do_wait_ptrace_children (k : Kernel) (w : WaitArgs) : List Nat → Bool
  | [] => false
  | p :: rest =>
    if eligible_child k w.pid w.options p = 0 then do_wait_ptrace_children k w rest else true

/-- The end of one round of the thread loop of `do_wait`, for the thread
`tsk`, when the child loop ran to its end with the value `flag`: the
`ptrace_children` list is looked at when `flag` is clear. -/
def do_wait_thread_flag (k : Kernel) (w : WaitArgs) (tsk : Nat) (flag : Bool) : Bool :=
  if !flag then do_wait_ptrace_children k w (k.tasks tsk).ptrace_children else flag

/-- The thread loop of `do_wait`: `do ... while (tsk != current)` over the
ring of the caller's thread group, which is left after the first thread when
`__WNOTHREAD` is set. -/
def do_wait_threads (fuel : Nat) (w : WaitArgs) :
    List Nat → Kernel → Bool → Except Stop (Kernel × Step)
  | [], k, flag => pure (k, .next flag)
  | tsk :: rest, k, flag =>
    BUG_ON ((k.tasks tsk).signal != (k.tasks k.current).signal) 1607 k >>= fun _ =>
    do_wait_children fuel w (k.tasks tsk).children k flag >>= fun r =>
      match r.2 with
      | .next flag1 =>
        if hasFlag w.options __WNOTHREAD then
          pure (r.1, .next (do_wait_thread_flag r.1 w tsk flag1))
        else do_wait_threads fuel w rest r.1 (do_wait_thread_flag r.1 w tsk flag1)
      | s => pure (r.1, s)

/-- How `do_wait` is left: it returns a value, or the caller goes to sleep
in `schedule()` and scans again when it is woken. -/
inductive WaitRet
  | ret (retval : Int)
  | sleeps
  deriving DecidableEq, Repr

/-- The code of `do_wait` at the label `end:`. -/
def do_wait_end (k : Kernel) (w : WaitArgs) (retval : Int) : Kernel × WaitRet :=
  let k1 := k.set_state k.current TASK_RUNNING
  let k2 := k1.call .remove_wait_queue k1.current 0
  if w.infop ≠ 0 then
    if retval > 0 then (k2, .ret 0)
    else
      let r0 : Int × Kernel := (retval, k2)
      let r1 := put_user_if r0 0 (w.infop + si_signo)
      let r2 := put_user_if r1 0 (w.infop + si_errno)
      let r3 := put_user_if r2 0 (w.infop + si_code)
      let r4 := put_user_if r3 0 (w.infop + si_pid)
      let r5 := put_user_if r4 0 (w.infop + si_uid)
      let r6 := put_user_if r5 0 (w.infop + si_status)
      (r6.2, .ret r6.1)
  else (k2, .ret retval)

/-- The code of `do_wait` after the thread loop ran to its end with the
value `flag`. -/
def do_wait_after_scan (k : Kernel) (w : WaitArgs) (flag : Bool) : Kernel × WaitRet :=
  if flag then
    if hasFlag w.options WNOHANG then do_wait_end k w 0
    else if (k.tasks k.current).sigpending then do_wait_end k w (-ERESTARTSYS)
    else (k.call .schedule 0 0, .sleeps)
  else do_wait_end k w (-ECHILD)

/-- The code of `do_wait` from the label `repeat:` on; `fuel` bounds each
`release_task` loop and the first number bounds the scans. -/
def do_wait_repeat (fuel : Nat) (w : WaitArgs) : Nat → Kernel → Except Stop (Kernel × WaitRet)
  | 0, _ => throw .fuel
  | n + 1, k =>
    do_wait_threads fuel w (thread_ring k k.current)
        (k.set_state k.current TASK_INTERRUPTIBLE) false >>= fun r =>
      match r.2 with
      | .repeat_scan => do_wait_repeat fuel w n r.1
      | .goto_end retval => pure (do_wait_end r.1 w retval)
      | .next flag => pure (do_wait_after_scan r.1 w flag)

/-- The function `do_wait`. -/
def do_wait (fuel : Nat) (k : Kernel) (w : WaitArgs) : Except Stop (Kernel × WaitRet) :=
  do_wait_repeat fuel w fuel (k.call .add_wait_queue k.current 0)

/-- What a task looks like through `v`, for every task of the kernel. -/
def Kernel.view {α : Type} (k : Kernel) (v : task_struct → α) : Nat → α :=
  fun q => v (k.tasks q)

/-- A view of a task that does not depend on the fields `release_task`
writes: the tracing flag, the parent, the two list heads, the exit signal
and the reference count. -/
structure LinkFree {α : Type} (v : task_struct → α) : Prop where
  ptrace : ∀ t x, v { t with ptrace := x } = v t
  parent : ∀ t x, v { t with parent := x } = v t
  children : ∀ t x, v { t with children := x } = v t
  ptrace_children : ∀ t x, v { t with ptrace_children := x } = v t
  exit_signal : ∀ t x, v { t with exit_signal := x } = v t
  usage : ∀ t x, v { t with usage := x } = v t

/-- The tasks of a small system: init at address 1, a shell at address 2
with pid 100, and its two children at addresses 3 and 4; the child at 3 has
exited with status 42 and is a zombie, the child at 4 runs. -/
def demo_tasks : Nat → task_struct
  | 1 => { pid := 1, tgid := 1, signal := 1, group_leader := 1, children := [2] }
  | 2 => { pid := 100, tgid := 100, signal := 2, group_leader := 2, parent := 1,
           real_parent := 1, exit_signal := 17, children := [3, 4] }
  | 3 => { pid := 101, tgid := 101, signal := 3, group_leader := 3, parent := 2,
           real_parent := 2, exit_signal := 17, exit_state := 16, exit_code := 0x2a00 }
  | 4 => { pid := 102, tgid := 102, signal := 4, group_leader := 4, parent := 2,
           real_parent := 2, exit_signal := 17 }
  | _ => {}

/-- The small system of `demo_tasks`, with the shell running and four
writable words of user memory at 0x1000. -/
def demo : Kernel where
  tasks := demo_tasks
  signals := fun s =>
    match s with
    | 1 => { pgrp := 1, session := 1 }
    | 2 => { pgrp := 100, session := 100 }
    | 3 => { pgrp := 100, session := 100 }
    | 4 => { pgrp := 100, session := 100 }
    | _ => {}
  procs := [1, 2, 3, 4]
  pid_hash := fun ty nr =>
    match ty, nr with
    | .PIDTYPE_PID, 1 => [1]
    | .PIDTYPE_PID, 100 => [2]
    | .PIDTYPE_PID, 101 => [3]
    | .PIDTYPE_PID, 102 => [4]
    | .PIDTYPE_TGID, 1 => [1]
    | .PIDTYPE_TGID, 100 => [2]
    | .PIDTYPE_TGID, 101 => [3]
    | .PIDTYPE_TGID, 102 => [4]
    | .PIDTYPE_PGID, 1 => [1]
    | .PIDTYPE_PGID, 100 => [2, 3, 4]
    | .PIDTYPE_SID, 1 => [1]
    | .PIDTYPE_SID, 100 => [2, 3, 4]
    | _, _ => []
  child_reaper := 1
  current := 2
  nr_threads := 4
  task_list := [1, 2, 3, 4]
  umem := fun a => if 0x1000 ≤ a ∧ a < 0x1100 then some 0 else none

/-- A run of the idiom `if (!retval) retval = put_user(x, addr)` over a list
of values and addresses. -/
def put_users (r : Int × Kernel) : List (Int × Nat) → Int × Kernel
  | [] => r
  | xa :: rest => put_users (put_user_if r xa.1 xa.2) rest

/-- What a peek left for the caller in `*infop`: the id, the reason and the
status. -/
def peek_report (k : Kernel) (infop : Nat) : Option Int × Option Int × Option Int :=
  (k.umem (infop + si_pid), k.umem (infop + si_code), k.umem (infop + si_status))

/-- Consecutive peeks at the child `p`: the value each call of
`wait_task_zombie` with `noreap` set returned with what it reported, and the
state after the last call. -/
def peek_calls (fuel p infop stat_addr ru : Nat) :
    Nat → Kernel → Except Stop (List (Int × Option Int × Option Int × Option Int) × Kernel)
  | 0, k => pure ([], k)
  | n + 1, k =>
    wait_task_zombie fuel k p true infop stat_addr ru >>= fun r =>
      (peek_calls fuel p infop stat_addr ru n r.2).map fun rest =>
        ((r.1, peek_report r.2 infop) :: rest.1, rest.2)

/-- The fields of the child that a peek reads. -/
def peek_fields (t : task_struct) : Int × Int × Int × Int × Int × Nat :=
  (t.pid, t.uid, t.exit_code, t.exit_state, t.exit_signal, t.ptrace)

/-- The six writes of `wait_noreap_copyout` into `*infop`. -/
def copyout_writes (pid uid why status : Int) (infop : Nat) : List (Int × Nat) :=
  [(SIGCHLD, infop + si_signo), (0, infop + si_errno), (why, infop + si_code),
    (pid, infop + si_pid), (uid, infop + si_uid), (status, infop + si_status)]

/-- The state in which the first loop of `forget_original_parent` leaves an
untraced child `c` of `father`: `choose_new_parent` then `reparent_thread`. -/
def handed_on (k : Kernel) (father reaper c : Nat) : Kernel :=
  reparent_thread (k.set_real_parent c reaper) c father false

/-- The signals that the log says were sent to the process group `pgrp` by
`__kill_pg_info`, oldest first. -/
def sent_to (log : List Event) (pgrp : Int) : List Int :=
  (log.filter fun e => e.fn == .__kill_pg_info && e.b == pgrp).map fun e => e.a

/-- A member `p` of the process group `pgrp` is a connection of the group to
the outside: its real parent is in another process group of the same
session. -/
def outside_link (k : Kernel) (pgrp : Int) (p : Nat) : Prop :=
  process_group k (k.tasks p).real_parent ≠ pgrp
    ∧ (k.sig (k.tasks p).real_parent).session = (k.sig p).session

instance (k : Kernel) (pgrp : Int) (p : Nat) : Decidable (outside_link k pgrp p) :=
  inferInstanceAs (Decidable (_ ∧ _))

/-- A member `p` of a process group counts as a stopped job: it is in
`TASK_STOPPED`, and if it is traced it was stopped by one of the four stop
signals. -/
def stopped_job (k : Kernel) (p : Nat) : Prop :=
  (k.tasks p).state = TASK_STOPPED
    ∧ ((k.tasks p).ptrace = 0 ∨ (k.tasks p).exit_code = SIGSTOP
      ∨ (k.tasks p).exit_code = SIGTSTP ∨ (k.tasks p).exit_code = SIGTTOU
      ∨ (k.tasks p).exit_code = SIGTTIN)

instance (k : Kernel) (p : Nat) : Decidable (stopped_job k p) :=
  inferInstanceAs (Decidable (_ ∧ _))

/-- The small system with its first child stopped instead of dead, and the
second child running as the current task. -/
def demo_stopped : Kernel :=
  { demo with
    tasks := fun q => if q = 3 then { demo.tasks 3 with exit_state := 0, state := 4 }
      else demo.tasks q
    current := 4 }

/-- What the orphaned-group check depends on and may change: the signal
structures, which signal structure each task points to, and the signals sent
to the process group `G`. -/
def Kernel.quiet (k : Kernel) (G : Int) : (Nat → signal_struct) × (Nat → Nat) × List Int :=
  (k.signals, k.view task_struct.signal, sent_to k.log G)

/-- The small system as a job: the child at 4 leads the process group 102 of
the shell's session and is the current task; the task at 3 is its child, in
the same group, and stopped. -/
def demo_job : Kernel :=
  { demo with
    tasks := fun q =>
      if q = 2 then { demo.tasks 2 with children := [4] }
      else if q = 3 then
        { demo.tasks 3 with exit_state := 0, state := 4, parent := 4, real_parent := 4 }
      else if q = 4 then { demo.tasks 4 with children := [3] }
      else demo.tasks q
    signals := fun s => if s = 3 ∨ s = 4 then { pgrp := 102, session := 100 } else demo.signals s
    pid_hash := fun ty nr =>
      match ty, nr with
      | .PIDTYPE_PGID, 100 => [2]
      | .PIDTYPE_PGID, 102 => [4, 3]
      | _, _ => demo.pid_hash ty nr
    current := 4 }

/-- The job of the small system with its stopped member a child of init that
a debugger stopped on signal 5: the task at 3 is traced, and its exit code
is not one of the four stop signals. -/
def demo_traced : Kernel :=
  { demo_job with
    tasks := fun q =>
      if q = 1 then { demo_job.tasks 1 with children := [2, 3] }
      else if q = 3 then
        { demo_job.tasks 3 with parent := 1, real_parent := 1, ptrace := 1, exit_code := 5 }
      else if q = 4 then { demo_job.tasks 4 with children := [] }
      else demo_job.tasks q }

/-- Consecutive calls of `do_wait` by the current task, one for each entry of
the list of arguments: how each call was left, and the state after the last
one. -/
def wait_calls (fuel : Nat) : List WaitArgs → Kernel → Except Stop (List WaitRet × Kernel)
  | [], k => pure ([], k)
  | w :: ws, k =>
    do_wait fuel k w >>= fun r =>
      wait_calls fuel ws r.1 >>= fun rs => pure (r.2 :: rs.1, rs.2)

/-- The state `k'` has the current task of `k`, every task has the pid, the
signal structure and the thread-group id it has in `k`, and the child lists,
the traced lists and the thread-group chains hold no task they do not hold
in `k`. -/
structure Sub (k k' : Kernel) : Prop where
  current : k'.current = k.current
  pid : ∀ q, (k'.tasks q).pid = (k.tasks q).pid
  signal : ∀ q, (k'.tasks q).signal = (k.tasks q).signal
  tgid : ∀ q, (k'.tasks q).tgid = (k.tasks q).tgid
  children : ∀ t q, q ∈ (k'.tasks t).children → q ∈ (k.tasks t).children
  ptrace_children : ∀ t q, q ∈ (k'.tasks t).ptrace_children → q ∈ (k.tasks t).ptrace_children
  chain : ∀ nr q, q ∈ k'.pid_hash .PIDTYPE_TGID nr → q ∈ k.pid_hash .PIDTYPE_TGID nr

/-- No task of the list `L` has a child or a traced task with the pid `pid`,
and each has the signal structure of the current task. -/
def absent_on (L : List Nat) (k : Kernel) (pid : Int) : Prop :=
  ∀ t ∈ L, (k.tasks t).signal = (k.tasks k.current).signal
    ∧ (∀ q ∈ (k.tasks t).children, (k.tasks q).pid ≠ pid)
    ∧ (∀ q ∈ (k.tasks t).ptrace_children, (k.tasks q).pid ≠ pid)

/-- The small system with its dead child created clone-style: the child at
3 reports its death with signal 10 and not with `SIGCHLD`. -/
def demo_clone : Kernel :=
  { demo with
    tasks := fun q => if q = 3 then { demo.tasks 3 with exit_signal := 10 } else demo.tasks q }

/-- The selector test in the words of the specification: a positive `pid`
selects the child with that id, zero selects the children in the process
group of the caller, a value below -1 selects the children in the process
group `-pid`, and -1 selects every child. -/
def selector_matches (k : Kernel) (pid : Int) (p : Nat) : Prop :=
  (pid > 0 ∧ (k.tasks p).pid = pid)
    ∨ (pid = 0 ∧ process_group k p = process_group k k.current)
    ∨ (pid < -1 ∧ process_group k p = -pid)
    ∨ pid = -1

instance (k : Kernel) (pid : Int) (p : Nat) : Decidable (selector_matches k pid p) :=
  inferInstanceAs (Decidable (_ ∨ _))

/-- The value of `eligible_child` once the selector and the clone-style
filter have let the child through: 2 for the leader of another thread group
that still has threads, 0 when the security hook denies the wait, 1
otherwise. -/
def eligible_child_tail (k : Kernel) (p : Nat) : Int :=
  if (k.tasks k.current).tgid ≠ (k.tasks p).tgid ∧ delay_group_leader k p then 2
  else if k.security_task_wait p ≠ 0 then 0
  else 1

/-- The small system with a security module that denies every wait. -/
def demo_denied : Kernel :=
  { demo with security_task_wait := fun _ => 1 }

/-- The small system with its running child a detached thread that has
changed execution domain: the task at 4 is the current task, its exit signal
is -1 and its `parent_exec_id` no longer matches. -/
def demo_detached : Kernel :=
  { demo with
    tasks := fun q =>
      if q = 4 then { demo.tasks 4 with exit_signal := -1, parent_exec_id := 7 }
      else demo.tasks q
    current := 4 }

/-- The small system with its running child a clone-style child (exit signal
10) that has changed execution domain and is the current task. -/
def demo_exec : Kernel :=
  { demo with
    tasks := fun q =>
      if q = 4 then { demo.tasks 4 with exit_signal := 10, parent_exec_id := 7 }
      else demo.tasks q
    current := 4 }

/-- The small system with its first child stopped by `SIGSTOP`: the task at
3 is alive, in `TASK_STOPPED`, and its pending stop report is 19. -/
def demo_sigstop : Kernel :=
  { demo with
    tasks := fun q =>
      if q = 3 then { demo.tasks 3 with exit_state := 0, state := 4, exit_code := 19 }
      else demo.tasks q }

/-- The stopped child of `demo_sigstop` as the leader of a thread group with
a second thread at 5, while the group stop is still in progress. -/
def demo_group_stop : Kernel :=
  { demo_sigstop with
    tasks := fun q =>
      if q = 5 then { pid := 105, tgid := 101, signal := 3, group_leader := 3, parent := 2,
                      real_parent := 2, exit_signal := -1 }
      else demo_sigstop.tasks q
    signals := fun s =>
      if s = 3 then { demo_sigstop.signals 3 with group_stop_count := 1 }
      else demo_sigstop.signals s
    pid_hash := fun ty nr =>
      match ty, nr with
      | .PIDTYPE_TGID, 101 => [3, 5]
      | .PIDTYPE_PID, 105 => [5]
      | _, _ => demo_sigstop.pid_hash ty nr
    procs := [1, 2, 3, 4, 5] }

/-- What the termination path shares with the rest of the system besides
the tasks: user memory and the reference counts of the address spaces, the
open-file tables and the filesystem contexts. -/
def Kernel.shared (k : Kernel) :
    (Nat → Option Int) × (Nat → Int) × (Nat → Int) × (Nat → Int) × (Nat → Int) :=
  (k.umem, k.mm_users, k.mm_count, k.files_count, k.fs_count)

/-- A view of a task that does not depend on any field `exit_notify` writes:
the fields of `LinkFree`, the real parent, the pending-signal flag, the exit
state, the two interval timers and the flags. -/
structure ExitFree {α : Type} (v : task_struct → α) : Prop where
  link : LinkFree v
  real_parent : ∀ t x, v { t with real_parent := x } = v t
  sigpending : ∀ t x, v { t with sigpending := x } = v t
  exit_state : ∀ t x, v { t with exit_state := x } = v t
  it_virt_value : ∀ t x, v { t with it_virt_value := x } = v t
  it_prof_value : ∀ t x, v { t with it_prof_value := x } = v t
  flags : ∀ t x, v { t with flags := x } = v t

/-- The three shared resource handles of a task: the address space, the
open-file table and the filesystem context. -/
def task_struct.handles (t : task_struct) : Nat × Nat × Nat := (t.mm, t.files, t.fs)

/-- A reference count after one reference to the handle `h` has been
dropped, when the task held one (`h` not null). -/
def dropped (count : Nat → Int) (h : Nat) : Nat → Int :=
  fun m => if m = h ∧ h ≠ 0 then count m - 1 else count m

/-- The small system with its running child the current task, holding the
address space 7 with one other user, the open-file table 8 alone and the
filesystem context 9 with two other users. -/
def demo_exiting : Kernel :=
  { demo with
    tasks := fun q =>
      if q = 4 then { demo.tasks 4 with mm := 7, active_mm := 7, files := 8, fs := 9 }
      else demo.tasks q
    mm_users := fun m => if m = 7 then 2 else 0
    files_count := fun f => if f = 8 then 1 else 0
    fs_count := fun f => if f = 9 then 3 else 0
    current := 4 }

/-- The loop at the head of `forget_original_parent`, step by step:
`reaper = next_thread(reaper)`; when the walk is back at `father` the system
reaper is taken, and the walk goes on while the task reached has a non-zero
`exit_state`.  `fuel` bounds the number of steps. -/
def reaper_walk (k : Kernel) (father : Nat) : Nat → Nat → Option Nat
  | 0, _ => none
  | fuel + 1, reaper =>
    if next_thread k reaper = father then some k.child_reaper
    else if (k.tasks (next_thread k reaper)).exit_state ≠ 0 then
      reaper_walk k father fuel (next_thread k reaper)
    else some (next_thread k reaper)

/-- The small system with a shell of three threads: the shell at 2 leads
the group, the thread at 6 is a zombie and the thread at 5 is alive; the
chain of the group is 2, 6, 5. -/
def demo_threads : Kernel :=
  { demo with
    tasks := fun q =>
      if q = 5 then { pid := 105, tgid := 100, signal := 2, group_leader := 2, parent := 1,
                      real_parent := 1, exit_signal := -1 }
      else if q = 6 then { pid := 106, tgid := 100, signal := 2, group_leader := 2, parent := 1,
                           real_parent := 1, exit_signal := -1, exit_state := 16 }
      else demo.tasks q
    pid_hash := fun ty nr =>
      match ty, nr with
      | .PIDTYPE_TGID, 100 => [2, 6, 5]
      | .PIDTYPE_PID, 105 => [5]
      | .PIDTYPE_PID, 106 => [6]
      | _, _ => demo.pid_hash ty nr
    procs := [1, 2, 3, 4, 5, 6]
    current := 2 }

/-- Modelled from the spec: the clone flag `CLONE_UNTRACED` of
`linux/sched.h`, which is not among the sources. -/
def CLONE_UNTRACED : Nat := 0x00800000

/-- Modelled from the spec: the selector `__USER_DS` of `asm/segment.h`,
which is not among the sources. -/
def __USER_DS : Nat := 0x7b

/-- Modelled from the spec: the selector `__KERNEL_CS` of `asm/segment.h`. -/
def __KERNEL_CS : Nat := 0x60

/-- Modelled from the spec: the flag `X86_EFLAGS_IF` of `asm/processor.h`. -/
def X86_EFLAGS_IF : Nat := 0x200

/-- Modelled from the spec: the flag `X86_EFLAGS_SF` of `asm/processor.h`. -/
def X86_EFLAGS_SF : Nat := 0x80

/-- Modelled from the spec: the flag `X86_EFLAGS_PF` of `asm/processor.h`. -/
def X86_EFLAGS_PF : Nat := 0x4

/-- The function `kernel_thread(fn, arg, flags)`: the arguments it hands to
`do_fork`, which are the clone flags, the start of the stack and the register
frame it has built.  `helper` is the address of `kernel_thread_helper`. -/
def kernel_thread (helper fn arg flags : Nat) : Nat × Nat × pt_regs :=
  (flags ||| CLONE_VM ||| CLONE_UNTRACED, 0,
    { ebx := fn
      edx := arg
      xds := __USER_DS
      xes := __USER_DS
      orig_eax := 2 ^ 32 - 1
      eip := helper
      xcs := __KERNEL_CS
      eflags := X86_EFLAGS_IF ||| X86_EFLAGS_SF ||| X86_EFLAGS_PF ||| 0x2 })

/-- The routine `kernel_thread_helper`, entered with the registers of the
frame `regs`: the function at `%ebx` is called with `%edx` as its argument,
and `do_exit` is called with the value it returned.  `call f a k` is the run
of the function at `f` on the argument `a` in the state `k`: the value it
returns in `%eax` and the state it leaves. -/
def kernel_thread_helper (A : Arch) (fuel : Nat) (call : Nat → Nat → Kernel → Int × Kernel)
    (regs : pt_regs) (k : Kernel) : Except Stop Kernel :=
  -- movl %edx,%eax; pushl %edx; call *%ebx
  let r := call regs.ebx regs.edx k
  -- pushl %eax; call do_exit
  do_exit A fuel r.2 r.1

/-- The small system with its running child a kernel thread: the task at 4
is the current task and has no address space. -/
def demo_kthread : Kernel :=
  { demo with current := 4 }

/-- The small system of `demo_kthread` after a group exit with code 9 was
started for the thread: `SIGNAL_GROUP_EXIT` is set in its signal structure. -/
def demo_group_exit : Kernel :=
  { demo_kthread with
    signals := fun s =>
      if s = 4 then { demo.signals 4 with flags := SIGNAL_GROUP_EXIT, group_exit_code := 9 }
      else demo.signals s }

/-- The frame on the stack of a kernel thread made by
`kernel_thread(0xc0200000, 7, SIGCHLD)` on the 2.6.11 i386 layout, with the
helper at 0xc0101000. -/
def demo_frame : pt_regs :=
  (copy_thread i386 0 (fun _ => none) {} 0 0 {} (kernel_thread 0xc0101000 0xc0200000 7 17).1
    (kernel_thread 0xc0101000 0xc0200000 7 17).2.1 {}
    (kernel_thread 0xc0101000 0xc0200000 7 17).2.2).p.stack_regs

/-- The threads the thread loop of `do_wait` visits: the ring of the caller's
thread group, and the caller alone when `__WNOTHREAD` is set. -/
def scanned_threads (k : Kernel) (options : Nat) : List Nat :=
  if hasFlag options __WNOTHREAD then (thread_ring k k.current).take 1
  else thread_ring k k.current

/-- The number of calls of `schedule()` the log holds. -/
def schedule_calls (k : Kernel) : Nat :=
  (k.log.filter fun e => e.fn == .schedule).length

/-- The state in which `do_wait` scans for the first time: the caller is on
the wait queue and in `TASK_INTERRUPTIBLE`. -/
def do_wait_entry (k : Kernel) : Kernel :=
  (k.call .add_wait_queue k.current 0).set_state k.current TASK_INTERRUPTIBLE

/-- A child the loop of `do_wait` flags without reporting it: it is
eligible, has not exited, and is not at a trace stop for another tracer. -/
def flags_child (k : Kernel) (w : WaitArgs) (p : Nat) : Prop :=
  eligible_child k w.pid w.options p ≠ 0 ∧ (k.tasks p).exit_state = 0
    ∧ ¬ ((k.tasks p).state = TASK_TRACED ∧ ¬ my_ptrace_child k p)

instance (k : Kernel) (w : WaitArgs) (p : Nat) : Decidable (flags_child k w p) :=
  inferInstanceAs (Decidable (_ ∧ _))

/-- The small system with both children of the shell alive and running. -/
def demo_running : Kernel :=
  { demo with
    tasks := fun q => if q = 3 then { demo.tasks 3 with exit_state := 0 } else demo.tasks q }

/-- The small system with the running child at a trace stop while the shell,
its real parent, is attaching to it: `PT_PTRACED` and `PT_ATTACHED` are set
and the parent links are not switched yet. -/
def demo_attaching : Kernel :=
  { demo with
    tasks := fun q =>
      if q = 4 then { demo.tasks 4 with state := 8, ptrace := 0x401 } else demo.tasks q }

/-- Where an observer is in a consuming `wait_task_zombie` on the child:
before the exchange of `exit_state`, after an exchange that returned
`EXIT_ZOMBIE`, or returned with a value. -/
inductive Phase
  | ready
  | won
  | done (retval : Int)
  deriving DecidableEq, Repr

/-- Observers racing in `wait_task_zombie` on one child: the state of the
kernel and the phase of each observer. -/
structure Race where
  k : Kernel
  phase : Nat → Phase

/-- The observer `i` moves to the phase `ph`, leaving the state `k`. -/
def Race.set (s : Race) (k : Kernel) (i : Nat) (ph : Phase) : Race :=
  { k := k, phase := fun j => if j = i then ph else s.phase j }

/-- One step of the observer `i` in a consuming `wait_task_zombie` on the
child `p`.  An observer that has not exchanged yet does
`state = xchg(&p->exit_state, EXIT_DEAD)` and returns 0 unless `state` is
`EXIT_ZOMBIE`; an observer whose exchange returned `EXIT_ZOMBIE` runs the
rest of the function; an observer that has returned does nothing. -/
def race_step (fuel p : Nat) (args : Nat → WaitArgs) (s : Race) (i : Nat) : Except Stop Race :=
  match s.phase i with
  | .ready =>
    if (s.k.tasks p).exit_state ≠ EXIT_ZOMBIE then do
      BUG_ON ((s.k.tasks p).exit_state != EXIT_DEAD) 1205 (s.k.set_exit_state p EXIT_DEAD)
      pure (s.set (s.k.set_exit_state p EXIT_DEAD) i (.done 0))
    else pure (s.set (s.k.set_exit_state p EXIT_DEAD) i .won)
  | .won =>
    (wait_task_zombie_reap fuel s.k p (args i).infop (args i).stat_addr (args i).ru).map
      fun r => s.set r.2 i (.done r.1)
  | .done _ => pure s

/-- A run of the race: the observers step in the order of the list. -/
def race_run (fuel p : Nat) (args : Nat → WaitArgs) : List Nat → Race → Except Stop Race
  | [], s => pure s
  | i :: rest, s => race_step fuel p args s i >>= race_run fuel p args rest

/-- The value an observer has returned, 0 while it has not. -/
def Phase.retval : Phase → Int
  | .done r => r
  | _ => 0

/-- The arguments of the observers of the small system: the observer 0
passes a status cell that cannot be written, the others one that can. -/
def demo_args (i : Nat) : WaitArgs :=
  if i = 0 then { pid := -1, options := WEXITED, stat_addr := 0x2000 }
  else { pid := -1, options := WEXITED, stat_addr := 0x1000 }

/-- The cells a consuming wait writes for its caller can be written: each of
`ru`, `stat_addr` and `infop` is null or points to memory of the caller, for
`infop` the six fields written. -/
def wait_writable (k : Kernel) (infop stat_addr ru : Nat) : Prop :=
  (ru = 0 ∨ (k.umem ru).isSome = true)
    ∧ (stat_addr = 0 ∨ (k.umem stat_addr).isSome = true)
    ∧ (infop = 0 ∨ ∀ off ∈ [si_signo, si_errno, si_code, si_pid, si_uid, si_status],
        (k.umem (infop + off)).isSome = true)

instance (k : Kernel) (infop stat_addr ru : Nat) : Decidable (wait_writable k infop stat_addr ru) :=
  inferInstanceAs (Decidable (_ ∧ _))

/-- The child `p` can be reaped by each observer: it reports its death, has
a pid, is not traced, is a group leader without address space, and each
observer passes cells it can write, in the style of `wait4` or of `waitid`. -/
def reapable (k : Kernel) (p : Nat) (args : Nat → WaitArgs) : Prop :=
  (k.tasks p).exit_signal ≠ -1 ∧ (k.tasks p).pid ≠ 0
    ∧ (k.tasks p).real_parent = (k.tasks p).parent
    ∧ (k.tasks p).ptrace = 0 ∧ ptrace_list_empty k p = true
    ∧ (k.tasks p).ptrace_children = [] ∧ (k.tasks p).group_leader = p
    ∧ (k.tasks p).mm = 0
    ∧ ∀ i, wait_writable k (args i).infop (args i).stat_addr (args i).ru

/-- The race has a winner `j`: it has exchanged `EXIT_ZOMBIE` for
`EXIT_DEAD` and is reaping the child or has returned its pid, and every other
observer has not exchanged yet or has returned 0. -/
def race_won (p : Nat) (pid : Int) (args : Nat → WaitArgs) (j : Nat) (s : Race) : Prop :=
  (s.k.tasks p).exit_state = EXIT_DEAD
    ∧ ((s.phase j = .won ∧ (s.k.tasks p).pid = pid ∧ reapable s.k p args)
      ∨ s.phase j = .done pid)
    ∧ ∀ i, i ≠ j → s.phase i = .ready ∨ s.phase i = .done 0

/-- The idle routines of `process.c` that `pm_idle` can point to. -/
inductive IdleRoutine
  | default_idle
  | poll_idle
  | mwait_idle
  deriving DecidableEq, Repr

/-- The function `select_idle_routine(c)`: the value of `pm_idle` it leaves.
`has_mwait` is `cpu_has(c, X86_FEATURE_MWAIT)`, and a null `pm_idle` is
`none`. -/
def select_idle_routine (has_mwait : Bool) (pm_idle : Option IdleRoutine) :
    Option IdleRoutine :=
  if has_mwait then
    -- Skip, if setup has overridden idle.
    if pm_idle = none then some .mwait_idle else pm_idle
  else pm_idle

/-- The function `idle_setup(str)`, the handler of the boot option `idle=`:
the value of `pm_idle` and of `boot_option_idle_override` it leaves.
`strncmp(str, "poll", 4)` is 0 when the first four characters of `str` are
those of `poll`. -/
def idle_setup (str : List Char) (pm_idle : Option IdleRoutine) : Option IdleRoutine × Nat :=
  if str.take 4 = ['p', 'o', 'l', 'l'] then (some .poll_idle, 1)
  else if str.take 4 = ['h', 'a', 'l', 't'] then (some .default_idle, 1)
  else (pm_idle, 1)

/-- The routine the loop of `cpu_idle` calls: `pm_idle`, and `default_idle`
when `pm_idle` is null. -/
def cpu_idle (pm_idle : Option IdleRoutine) : IdleRoutine :=
  match pm_idle with
  | some idle => idle
  | none => .default_idle

/-- The value of `pm_idle` after the boot: the option `idle=` is handled
when it was given, and `select_idle_routine` runs on the processor. -/
def boot_pm_idle (option : Option (List Char)) (has_mwait : Bool) : Option IdleRoutine :=
  select_idle_routine has_mwait
    (match option with
      | some str => (idle_setup str none).1
      | none => none)

/-- Modelled from the spec: the option `WSTOPPED` of `linux/wait.h`, which is
not among the sources; it is defined there as `WUNTRACED`. -/
def WSTOPPED : Nat := WUNTRACED

/-- Modelled from the spec: the selector kind `P_ALL` of `linux/wait.h`. -/
def P_ALL : Int := 0

/-- Modelled from the spec: the selector kind `P_PID` of `linux/wait.h`. -/
def P_PID : Int := 1

/-- Modelled from the spec: the selector kind `P_PGID` of `linux/wait.h`. -/
def P_PGID : Int := 2

/-- The argument checks and the `switch` of `sys_waitid`: the selector it
hands to `do_wait`, or `none` where it returns `-EINVAL`.  `options` is the
32-bit pattern of the `int`. -/
def sys_waitid_selector (which pid : Int) (options : Nat) : Option Int :=
  if options &&& (2 ^ 32 - 1 - (WNOHANG ||| WNOWAIT ||| WEXITED ||| WSTOPPED ||| WCONTINUED)) ≠ 0
    then none
  else if options &&& (WEXITED ||| WSTOPPED ||| WCONTINUED) = 0 then none
  else if which = P_ALL then some (-1)
  else if which = P_PID then (if pid ≤ 0 then none else some pid)
  else if which = P_PGID then (if pid ≤ 0 then none else some (-pid))
  else none

/-- The function `sys_waitid`. -/
def sys_waitid (fuel : Nat) (k : Kernel) (which pid : Int) (infop options ru : Nat) :
    Except Stop (Kernel × WaitRet) :=
  match sys_waitid_selector which pid options with
  | none => pure (k, .ret (-EINVAL))
  | some sel =>
    do_wait fuel k { pid := sel, options := options, infop := infop, stat_addr := 0, ru := ru }

/-- The arguments `sys_waitid` refuses, in the words of the specification:
an option bit outside the five it knows, none of the three kinds of event
asked for, a selector kind that is not one of the three, or a pid or group
selector with an id that is not positive. -/
def waitid_invalid (which pid : Int) (options : Nat) : Prop :=
  (∃ i, options.testBit i = true
      ∧ (WNOHANG ||| WNOWAIT ||| WEXITED ||| WSTOPPED ||| WCONTINUED).testBit i = false)
    ∨ (hasFlag options WEXITED = false ∧ hasFlag options WSTOPPED = false
        ∧ hasFlag options WCONTINUED = false)
    ∨ (which ≠ P_ALL ∧ which ≠ P_PID ∧ which ≠ P_PGID)
    ∨ ((which = P_PID ∨ which = P_PGID) ∧ pid ≤ 0)

/-- The small system with the shell's group at its end: the leader at 2 is a
zombie, the thread at 5 is dead and is the last other member, and the
parent of the leader ignores the exit signal. -/
def demo_last_thread : Kernel :=
  { demo with
    tasks := fun q =>
      if q = 5 then { pid := 105, tgid := 100, signal := 2, group_leader := 2, parent := 1,
                      real_parent := 1, exit_signal := -1, exit_state := 32 }
      else if q = 2 then { demo.tasks 2 with exit_state := 16, children := [] }
      else if q = 3 then { demo.tasks 3 with parent := 1, real_parent := 1 }
      else if q = 4 then { demo.tasks 4 with parent := 1, real_parent := 1 }
      else if q = 1 then { demo.tasks 1 with children := [2, 3, 4] }
      else demo.tasks q
    pid_hash := fun ty nr =>
      match ty, nr with
      | .PIDTYPE_TGID, 100 => [2, 5]
      | .PIDTYPE_PID, 105 => [5]
      | _, _ => demo.pid_hash ty nr
    procs := [1, 2, 3, 4, 5]
    nr_threads := 5
    notify_self_reaps := fun _ _ => true
    current := 4 }

/-- A word that `get_wchan` reads from the memory of the task, with its
address: the frame pointer saved at the stack pointer, the return address
above a frame pointer, or the frame pointer saved at a frame pointer. -/
inductive StackRead
  | saved (addr : Nat)
  | eip (addr : Nat)
  | ebp (addr : Nat)
  deriving DecidableEq, Repr

/-- The address of a word read. -/
def StackRead.addr : StackRead → Nat
  | .saved a => a
  | .eip a => a
  | .ebp a => a

/-- The read is one of a return address, the first read through a frame
pointer. -/
def StackRead.is_eip : StackRead → Bool
  | .eip _ => true
  | _ => false

/-- The macro `top_esp`: `THREAD_SIZE - sizeof(unsigned long)`, in the
arithmetic of `unsigned long`; `THREAD_SIZE` of `asm/thread_info.h` is not
among the sources and is a parameter. -/
def top_esp (THREAD_SIZE : Nat) : Nat := (THREAD_SIZE + 2 ^ 32 - 4) % 2 ^ 32

/-- The macro `top_ebp`: `THREAD_SIZE - 2*sizeof(unsigned long)`. -/
def top_ebp (THREAD_SIZE : Nat) : Nat := (THREAD_SIZE + 2 ^ 32 - 2 * 4) % 2 ^ 32

/-- The `do … while (count++ < 16)` loop of `get_wchan`, entered at the top
of its body with the frame pointer `ebp`; `left` is `16 - count`, so the
test `count++ < 16` is passed when `left` is not zero.  `mem` is the memory
read a word at a time, `in_sched_functions` the test of `kernel/sched.c`,
which is not among the sources, and `reads` the words read so far. -/
def get_wchan_loop (in_sched_functions : Nat → Bool) (mem : Nat → Nat)
    (THREAD_SIZE stack_page : Nat) (left ebp : Nat) (reads : List StackRead) :
    Nat × List StackRead :=
  if ebp < stack_page ∨ ebp > (top_ebp THREAD_SIZE + stack_page) % 2 ^ 32 then (0, reads)
  else
    let eip := mem ((ebp + 4) % 2 ^ 32) % 2 ^ 32
    if !in_sched_functions eip then (eip, reads ++ [.eip ((ebp + 4) % 2 ^ 32)])
    else
      match left with
      | 0 => (0, reads ++ [.eip ((ebp + 4) % 2 ^ 32), .ebp ebp])
      | left + 1 =>
        get_wchan_loop in_sched_functions mem THREAD_SIZE stack_page left (mem ebp % 2 ^ 32)
          (reads ++ [.eip ((ebp + 4) % 2 ^ 32), .ebp ebp])

/-- The function `get_wchan(p)`: the value returned and the words read, in
order.  A `NULL` task is the address 0; `thread_info` and `esp` give
`p->thread_info` and `p->thread.esp`, which the task record of this model
does not hold. -/
def get_wchan (k : Kernel) (thread_info esp : Nat → Nat) (in_sched_functions : Nat → Bool)
    (mem : Nat → Nat) (THREAD_SIZE : Nat) (p : Nat) : Nat × List StackRead :=
  if p = 0 ∨ p = k.current ∨ (k.tasks p).state = TASK_RUNNING then (0, [])
  else if thread_info p = 0 ∨ esp p < thread_info p
      ∨ esp p > (top_esp THREAD_SIZE + thread_info p) % 2 ^ 32 then (0, [])
  else
    -- include/asm-i386/system.h:switch_to() pushes ebp last.
    get_wchan_loop in_sched_functions mem THREAD_SIZE (thread_info p) 16
      (mem (esp p) % 2 ^ 32) [.saved (esp p)]

/-- A stack of 8192 bytes at 0xc0002000 in which every frame pointer saved
points to the frame at 0xc0003f00 and every return address is 7. -/
def demo_stack (a : Nat) : Nat :=
  if a = 0xc0003f04 then 7 else 0xc0003f00

/-- Why a run stopped the kernel, when it did. -/
def stopped_at {α : Type} : Except Stop α → Option Fatal
  | .error (.halt why _) => some why
  | _ => none

/-- The small system after the threads of its first child are gone: the
leader at 3 had left with `sys_exit(42)`, and another thread of its group
was then killed, which recorded a group exit with code 9 in the structure
`signal_struct` they shared. -/
def demo_leader_exited : Kernel :=
  { demo with
    signals := fun s =>
      if s = 3 then { demo.signals 3 with flags := SIGNAL_GROUP_EXIT, group_exit_code := 9 }
      else demo.signals s }

/-- The small system with five ticks of user time counted for its first
child. -/
def demo_usage : Kernel :=
  { demo with
    tasks := fun q => if q = 3 then { demo.tasks 3 with utime := 5 } else demo.tasks q }

/-- The shell of three threads with its second child traced by the thread at
5: the child at 4 is on the child list of its tracer and on the
`ptrace_children` list of the shell, its real parent. -/
def demo_sibling_tracer : Kernel :=
  { demo_threads with
    tasks := fun q =>
      if q = 2 then { demo_threads.tasks 2 with children := [3], ptrace_children := [4] }
      else if q = 4 then { demo_threads.tasks 4 with ptrace := PT_PTRACED, parent := 5 }
      else if q = 5 then { demo_threads.tasks 5 with children := [4] }
      else demo_threads.tasks q }

/-- The small system of `demo_usage` with the accumulator of user time of
the shell's group one tick below the end of its 32-bit range. -/
def demo_wrapped : Kernel :=
  { demo_usage with
    signals := fun s =>
      if s = 2 then { demo.signals 2 with cutime := 2 ^ 32 - 1 } else demo.signals s }

/-- The calls of `acct_process` and of `disassociate_ctty` that a log
records, oldest first. -/
def group_calls (log : List Event) : List Event :=
  log.filter fun e => e.fn == .acct_process || e.fn == .disassociate_ctty

/-- The calls of `acct_process` and of `disassociate_ctty` made so far. -/
def Kernel.group_calls (k : Kernel) : List Event := Proc.group_calls k.log

/-- The small system of `demo_exiting` with its running child the leader of
a session of its own. -/
def demo_session_leader : Kernel :=
  { demo_exiting with
    signals := fun s =>
      if s = 4 then { demo.signals 4 with leader := 1 } else demo.signals s }

/-- The conditions under which the exit signal of the terminating task is
forced: it is neither `SIGCHLD` nor -1, the execution-domain identifiers no
longer match (the task's `parent_exec_id` differs from its real parent's
`self_exec_id`, or its own `self_exec_id` differs from its `parent_exec_id`),
and the caller lacks `CAP_KILL`. -/
def exit_signal_forced (k : Kernel) (tsk : Nat) : Prop :=
  (k.tasks tsk).exit_signal ≠ SIGCHLD ∧ (k.tasks tsk).exit_signal ≠ -1
    ∧ ((k.tasks tsk).parent_exec_id ≠ (k.tasks (k.tasks tsk).real_parent).self_exec_id
      ∨ (k.tasks tsk).self_exec_id ≠ (k.tasks tsk).parent_exec_id)
    ∧ (k.tasks k.current).cap_kill = false

instance (k : Kernel) (tsk : Nat) : Decidable (exit_signal_forced k tsk) :=
  inferInstanceAs (Decidable (_ ∧ _))

/-- The notifications the parent-notification step of `exit_notify` sends for
a task whose exit signal is `es` after the check: one with the exit signal,
or with `SIGCHLD` when another task than the real parent traces the task,
when the exit signal is not -1 and the thread group is empty; one with
`SIGCHLD` when the task is traced otherwise; and none in every other case. -/
def exit_notify_sent (k : Kernel) (tsk : Nat) (es : Int) : List Event :=
  if es ≠ -1 ∧ thread_group_empty k tsk = true then
    [{ fn := .do_notify_parent, a := tsk,
       b := if (k.tasks tsk).parent = (k.tasks tsk).real_parent then es else SIGCHLD }]
  else if (k.tasks tsk).ptrace ≠ 0 then [{ fn := .do_notify_parent, a := tsk, b := SIGCHLD }]
  else []

end Proc

namespace Proc

/-! ## Theorems -/

/-- A sequenced computation succeeds when both parts do. -/
lemma bind_eq_ok {ε α β : Type} (x : Except ε α) (f : α → Except ε β) (b : β) :
    (x >>= f) = .ok b ↔ ∃ a, x = .ok a ∧ f a = .ok b := by
  cases x <;> simp [bind, Except.bind]

/-- A `BUG_ON` check is passed exactly when its condition is false. -/
lemma BUG_ON_eq_ok (c : Bool) (l : Nat) (k : Kernel) (u : Unit) :
    BUG_ON c l k = .ok u ↔ c = false := by
  unfold BUG_ON
  cases c <;> simp

/-- A returned value is the result. -/
lemma pure_eq_ok {ε α : Type} (a b : α) : (pure a : Except ε α) = .ok b ↔ a = b := by
  simp [pure, Except.pure]

/-- A stopped run has no result. -/
lemma throw_ne_ok {α : Type} (e : Stop) (b : α) : (throw e : Except Stop α) ≠ .ok b := by
  simp [throw, throwThe, MonadExceptOf.throw]

/-- Replacing a task by one that looks the same through `v` keeps the view. -/
lemma view_setTask {α : Type} (v : task_struct → α) (k : Kernel) (p : Nat) (t : task_struct)
    (h : v t = v (k.tasks p)) : (k.setTask p t).view v = k.view v := by
  funext q
  unfold Kernel.view Kernel.setTask
  by_cases hq : q = p
  · simp [hq, h]
  · simp [hq]

/-- A call out of `exit.c` changes no task. -/
lemma view_call {α : Type} (v : task_struct → α) (k : Kernel) (f : Callee) (a b : Int) :
    (k.call f a b).view v = k.view v := rfl

/-- The assignment to `children` keeps every view that does not depend on it. -/
lemma view_set_children {α : Type} {v : task_struct → α}
    (hv : ∀ t x, v { t with children := x } = v t) (k : Kernel) (p : Nat) (x) :
    (k.set_children p x).view v = k.view v :=
  view_setTask v k p _ (hv _ _)

/-- The assignment to `ptrace_children` keeps every view that does not depend on it. -/
lemma view_set_ptrace_children {α : Type} {v : task_struct → α}
    (hv : ∀ t x, v { t with ptrace_children := x } = v t) (k : Kernel) (p : Nat) (x) :
    (k.set_ptrace_children p x).view v = k.view v :=
  view_setTask v k p _ (hv _ _)

/-- The assignment to `exit_signal` keeps every view that does not depend on it. -/
lemma view_set_exit_signal {α : Type} {v : task_struct → α}
    (hv : ∀ t x, v { t with exit_signal := x } = v t) (k : Kernel) (p : Nat) (x) :
    (k.set_exit_signal p x).view v = k.view v :=
  view_setTask v k p _ (hv _ _)

/-- The assignment to `exit_state` keeps every view that does not depend on it. -/
lemma view_set_exit_state {α : Type} {v : task_struct → α}
    (hv : ∀ t x, v { t with exit_state := x } = v t) (k : Kernel) (p : Nat) (x) :
    (k.set_exit_state p x).view v = k.view v :=
  view_setTask v k p _ (hv _ _)

/-- The assignment to `exit_code` keeps every view that does not depend on it. -/
lemma view_set_exit_code {α : Type} {v : task_struct → α}
    (hv : ∀ t x, v { t with exit_code := x } = v t) (k : Kernel) (p : Nat) (x) :
    (k.set_exit_code p x).view v = k.view v :=
  view_setTask v k p _ (hv _ _)

/-- The assignment to `state` keeps every view that does not depend on it. -/
lemma view_set_state {α : Type} {v : task_struct → α}
    (hv : ∀ t x, v { t with state := x } = v t) (k : Kernel) (p : Nat) (x) :
    (k.set_state p x).view v = k.view v :=
  view_setTask v k p _ (hv _ _)

/-- The assignment to `flags` keeps every view that does not depend on it. -/
lemma view_set_flags {α : Type} {v : task_struct → α}
    (hv : ∀ t x, v { t with flags := x } = v t) (k : Kernel) (p : Nat) (x) :
    (k.set_flags p x).view v = k.view v :=
  view_setTask v k p _ (hv _ _)

/-- The assignment to `ptrace` keeps every view that does not depend on it. -/
lemma view_set_ptrace {α : Type} {v : task_struct → α}
    (hv : ∀ t x, v { t with ptrace := x } = v t) (k : Kernel) (p : Nat) (x) :
    (k.set_ptrace p x).view v = k.view v :=
  view_setTask v k p _ (hv _ _)

/-- The assignment to `ptrace_message` keeps every view that does not depend on it. -/
lemma view_set_ptrace_message {α : Type} {v : task_struct → α}
    (hv : ∀ t x, v { t with ptrace_message := x } = v t) (k : Kernel) (p : Nat) (x) :
    (k.set_ptrace_message p x).view v = k.view v :=
  view_setTask v k p _ (hv _ _)

/-- The assignment to `parent` keeps every view that does not depend on it. -/
lemma view_set_parent {α : Type} {v : task_struct → α}
    (hv : ∀ t x, v { t with parent := x } = v t) (k : Kernel) (p : Nat) (x) :
    (k.set_parent p x).view v = k.view v :=
  view_setTask v k p _ (hv _ _)

/-- The assignment to `real_parent` keeps every view that does not depend on it. -/
lemma view_set_real_parent {α : Type} {v : task_struct → α}
    (hv : ∀ t x, v { t with real_parent := x } = v t) (k : Kernel) (p : Nat) (x) :
    (k.set_real_parent p x).view v = k.view v :=
  view_setTask v k p _ (hv _ _)

/-- The assignment to `usage` keeps every view that does not depend on it. -/
lemma view_set_usage {α : Type} {v : task_struct → α}
    (hv : ∀ t x, v { t with usage := x } = v t) (k : Kernel) (p : Nat) (x) :
    (k.set_usage p x).view v = k.view v :=
  view_setTask v k p _ (hv _ _)

/-- The assignment to `sigpending` keeps every view that does not depend on it. -/
lemma view_set_sigpending {α : Type} {v : task_struct → α}
    (hv : ∀ t x, v { t with sigpending := x } = v t) (k : Kernel) (p : Nat) (x) :
    (k.set_sigpending p x).view v = k.view v :=
  view_setTask v k p _ (hv _ _)

/-- The assignment to `mm` keeps every view that does not depend on it. -/
lemma view_set_mm {α : Type} {v : task_struct → α}
    (hv : ∀ t x, v { t with mm := x } = v t) (k : Kernel) (p : Nat) (x) :
    (k.set_mm p x).view v = k.view v :=
  view_setTask v k p _ (hv _ _)

/-- The assignment to `files` keeps every view that does not depend on it. -/
lemma view_set_files {α : Type} {v : task_struct → α}
    (hv : ∀ t x, v { t with files := x } = v t) (k : Kernel) (p : Nat) (x) :
    (k.set_files p x).view v = k.view v :=
  view_setTask v k p _ (hv _ _)

/-- The assignment to `fs` keeps every view that does not depend on it. -/
lemma view_set_fs {α : Type} {v : task_struct → α}
    (hv : ∀ t x, v { t with fs := x } = v t) (k : Kernel) (p : Nat) (x) :
    (k.set_fs p x).view v = k.view v :=
  view_setTask v k p _ (hv _ _)

/-- The assignment to `io_bitmap_ptr` keeps every view that does not depend on it. -/
lemma view_set_io_bitmap_ptr {α : Type} {v : task_struct → α}
    (hv : ∀ t x, v { t with io_bitmap_ptr := x } = v t) (k : Kernel) (p : Nat) (x) :
    (k.set_io_bitmap_ptr p x).view v = k.view v :=
  view_setTask v k p _ (hv _ _)

/-- The assignment to `io_bitmap_max` keeps every view that does not depend on it. -/
lemma view_set_io_bitmap_max {α : Type} {v : task_struct → α}
    (hv : ∀ t x, v { t with io_bitmap_max := x } = v t) (k : Kernel) (p : Nat) (x) :
    (k.set_io_bitmap_max p x).view v = k.view v :=
  view_setTask v k p _ (hv _ _)

/-- The assignment to `it_virt_value` keeps every view that does not depend on it. -/
lemma view_set_it_virt_value {α : Type} {v : task_struct → α}
    (hv : ∀ t x, v { t with it_virt_value := x } = v t) (k : Kernel) (p : Nat) (x) :
    (k.set_it_virt_value p x).view v = k.view v :=
  view_setTask v k p _ (hv _ _)

/-- The assignment to `it_prof_value` keeps every view that does not depend on it. -/
lemma view_set_it_prof_value {α : Type} {v : task_struct → α}
    (hv : ∀ t x, v { t with it_prof_value := x } = v t) (k : Kernel) (p : Nat) (x) :
    (k.set_it_prof_value p x).view v = k.view v :=
  view_setTask v k p _ (hv _ _)

lemma view_remove_parent {α : Type} {v : task_struct → α} (hv : LinkFree v) (k : Kernel) (p : Nat) :
    (remove_parent k p).view v = k.view v := by
  funext q
  exact hv.children _ _

lemma view_ptrace_list_del {α : Type} {v : task_struct → α} (hv : LinkFree v) (k : Kernel) (p : Nat) :
    (ptrace_list_del k p).view v = k.view v := by
  funext q
  exact hv.ptrace_children _ _

lemma view_add_parent {α : Type} {v : task_struct → α} (hv : LinkFree v) (k : Kernel) (p parent : Nat) :
    (add_parent k p parent).view v = k.view v :=
  view_set_children hv.children _ _ _

lemma view_ptrace_list_add {α : Type} {v : task_struct → α} (hv : LinkFree v) (k : Kernel) (p h : Nat) :
    (ptrace_list_add k p h).view v = k.view v :=
  view_set_ptrace_children hv.ptrace_children _ _ _

lemma view_REMOVE_LINKS {α : Type} {v : task_struct → α} (hv : LinkFree v) (k : Kernel) (p : Nat) :
    (REMOVE_LINKS k p).view v = k.view v := by
  unfold REMOVE_LINKS
  dsimp only
  rw [view_remove_parent hv]
  split_ifs <;> rfl

lemma view_SET_LINKS {α : Type} {v : task_struct → α} (hv : LinkFree v) (k : Kernel) (p : Nat) :
    (SET_LINKS k p).view v = k.view v := by
  unfold SET_LINKS
  dsimp only
  rw [view_add_parent hv]
  split_ifs <;> rfl

lemma view_detach_pid {α : Type} {v : task_struct → α} (k : Kernel) (p : Nat) (ty : pid_type) :
    (detach_pid k p ty).view v = k.view v := rfl

lemma view_do_notify_parent {α : Type} {v : task_struct → α} (hv : LinkFree v) (k : Kernel) (p : Nat) (sig : Int) :
    (do_notify_parent k p sig).view v = k.view v := by
  unfold do_notify_parent
  dsimp only
  split_ifs
  · rw [view_set_exit_signal hv.exit_signal, view_call]
  · rw [view_call]

lemma view_put_task_struct {α : Type} {v : task_struct → α} (hv : LinkFree v) (k : Kernel) (p : Nat) :
    (put_task_struct k p).view v = k.view v := by
  unfold put_task_struct
  dsimp only
  split_ifs
  · rw [view_call, view_set_usage hv.usage]
  · rw [view_set_usage hv.usage]

lemma view_get_task_struct {α : Type} {v : task_struct → α} (hv : LinkFree v) (k : Kernel) (p : Nat) :
    (get_task_struct k p).view v = k.view v :=
  view_set_usage hv.usage _ _ _

lemma view_ptrace_unlinked {α : Type} {v : task_struct → α} (hv : LinkFree v) (k : Kernel) (p : Nat) :
    (ptrace_unlinked k p).view v = k.view v := by
  unfold ptrace_unlinked
  dsimp only
  split_ifs <;>
    simp only [view_call, view_SET_LINKS hv, view_set_parent hv.parent, view_REMOVE_LINKS hv,
      view_ptrace_list_del hv, view_set_ptrace hv.ptrace]

lemma view___ptrace_unlink {α : Type} {v : task_struct → α} (hv : LinkFree v) {k k' : Kernel} {p : Nat}
    (h : __ptrace_unlink k p = .ok k') : k'.view v = k.view v := by
  unfold __ptrace_unlink at h
  simp only [bind_eq_ok, BUG_ON_eq_ok, pure_eq_ok] at h
  obtain ⟨_, _, h⟩ := h
  subst h
  exact view_ptrace_unlinked hv k p

lemma view___unhash_process {α : Type} {v : task_struct → α} (hv : LinkFree v) (k : Kernel) (p : Nat) :
    (__unhash_process k p).view v = k.view v := by
  unfold __unhash_process
  dsimp only
  rw [view_REMOVE_LINKS hv]
  split_ifs <;> rfl

lemma view_release_thread {α : Type} {v : task_struct → α} {k k' : Kernel} {p : Nat}
    (h : release_thread k p = .ok k') : k'.view v = k.view v := by
  unfold release_thread at h
  simp only [bind_eq_ok, BUG_ON_eq_ok, pure_eq_ok] at h
  obtain ⟨_, _, h⟩ := h
  subst h
  rfl

lemma view_release_task_leader {α : Type} {v : task_struct → α} (hv : LinkFree v) {k : Kernel} {p : Nat} {r : Kernel × Bool}
    (h : release_task_leader k p = .ok r) : r.1.view v = k.view v := by
  unfold release_task_leader at h
  split_ifs at h
  · simp only [bind_eq_ok, BUG_ON_eq_ok, pure_eq_ok] at h
    obtain ⟨_, _, h⟩ := h
    subst h
    exact view_do_notify_parent hv _ _ _
  · simp only [pure_eq_ok] at h
    subst h
    rfl

lemma view_release_task_pass {α : Type} {v : task_struct → α} (hv : LinkFree v) {k : Kernel} {p : Nat} {r : Kernel × Nat × Bool}
    (h : release_task_pass k p = .ok r) : r.1.view v = k.view v := by
  unfold release_task_pass at h
  simp only [bind_eq_ok, BUG_ON_eq_ok, pure_eq_ok] at h
  obtain ⟨k2, hk2, _, _, r1, hr1, k7, hk7, h⟩ := h
  subst h
  have e2 : k2.view v = k.view v := by
    split_ifs at hk2
    · rw [view___ptrace_unlink hv hk2]; rfl
    · simp only [pure_eq_ok] at hk2
      subst hk2
      rfl
  simp only [view_put_task_struct hv, view_release_thread hk7, view_call,
    view_release_task_leader hv hr1, view___unhash_process hv, e2]

lemma view_release_task {α : Type} {v : task_struct → α} (hv : LinkFree v) (fuel : Nat) :
    ∀ {k k' : Kernel} {p : Nat}, release_task fuel k p = .ok k' → k'.view v = k.view v := by
  induction fuel with
  | zero =>
    intro k k' p h
    exact absurd h (throw_ne_ok _ _)
  | succ n ih =>
    intro k k' p h
    unfold release_task at h
    simp only [bind_eq_ok] at h
    obtain ⟨r, hr, h⟩ := h
    split_ifs at h
    · rw [ih h, view_release_task_pass hv hr]
    · simp only [pure_eq_ok] at h
      subst h
      exact view_release_task_pass hv hr

lemma view_release_ptrace_dead {α : Type} {v : task_struct → α} (hv : LinkFree v) (fuel : Nat) :
    ∀ (l : List Nat) {k k' : Kernel}, release_ptrace_dead fuel l k = .ok k' →
      k'.view v = k.view v := by
  intro l
  induction l with
  | nil =>
    intro k k' h
    unfold release_ptrace_dead at h
    simp only [pure_eq_ok] at h
    subst h
    rfl
  | cons t rest ih =>
    intro k k' h
    unfold release_ptrace_dead at h
    simp only [bind_eq_ok] at h
    obtain ⟨a, ha, h⟩ := h
    rw [ih h, view_release_task hv fuel ha]

/-- The result of a run that is known to have one. -/
lemma ok_of_isSome {α : Type} (r : Except Stop α) (h : r.toOption.isSome = true) :
    ∃ a, r = .ok a := by
  cases r with
  | error e => simp [Except.toOption] at h
  | ok a => exact ⟨a, rfl⟩

/-- What is known of the result of a run is true of the result. -/
lemma toOption_map_of_ok {α β : Type} {r : Except Stop α} {a : α} (h : r = .ok a)
    (f : α → β) : r.toOption.map f = some (f a) := by
  subst h
  rfl

lemma linkFree_exit_state : LinkFree task_struct.exit_state :=
  ⟨fun _ _ => rfl, fun _ _ => rfl, fun _ _ => rfl, fun _ _ => rfl, fun _ _ => rfl,
    fun _ _ => rfl⟩

lemma tasks_set_exit_state_self (k : Kernel) (p : Nat) (x : Int) :
    ((k.set_exit_state p x).tasks p).exit_state = x := by
  simp [Kernel.set_exit_state, Kernel.setTask]

lemma exit_notify_choose_cases (k : Kernel) (tsk : Nat) :
    exit_notify_choose k tsk = EXIT_DEAD ∨ exit_notify_choose k tsk = EXIT_ZOMBIE := by
  unfold exit_notify_choose
  split_ifs
  · exact Or.inl rfl
  · exact Or.inr rfl

/-- When the bitmap duplication does not fail, the value `copy_thread`
returns is the value of `err` at the end of the `CLONE_SETTLS` block. -/
lemma copy_thread_err_of_alloc (A : Arch) (kmalloc : Nat)
    (copy_from_user : Nat → Option user_desc) (cur : task) (fs gs : Nat) (heap : Heap)
    (clone_flags esp : Nat) (p : task) (regs : pt_regs)
    (hmem : cur.thread.io_bitmap_ptr = 0 ∨ kmalloc ≠ 0) :
    (copy_thread A kmalloc copy_from_user cur fs gs heap clone_flags esp p regs).err
      = (copy_thread_settls_block A copy_from_user clone_flags regs.esi p.thread.tls_array).1 := by
  have hno : ¬ (cur.thread.io_bitmap_ptr ≠ 0 ∧ kmalloc = 0) := by
    rintro ⟨h1, h2⟩
    rcases hmem with h | h
    · exact h1 h
    · exact h h2
  unfold copy_thread
  simp only [hno, if_false]
  split_ifs <;> rfl

/-- When the bitmap duplication does not fail, the TLS array `copy_thread`
leaves in the child is the array at the end of the `CLONE_SETTLS` block. -/
lemma copy_thread_tls_of_alloc (A : Arch) (kmalloc : Nat)
    (copy_from_user : Nat → Option user_desc) (cur : task) (fs gs : Nat) (heap : Heap)
    (clone_flags esp : Nat) (p : task) (regs : pt_regs)
    (hmem : cur.thread.io_bitmap_ptr = 0 ∨ kmalloc ≠ 0) :
    (copy_thread A kmalloc copy_from_user cur fs gs heap clone_flags esp p regs).p.thread.tls_array
      = (copy_thread_settls_block A copy_from_user clone_flags regs.esi p.thread.tls_array).2 := by
  have hno : ¬ (cur.thread.io_bitmap_ptr ≠ 0 ∧ kmalloc = 0) := by
    rintro ⟨h1, h2⟩
    rcases hmem with h | h
    · exact h1 h
    · exact h h2
  unfold copy_thread
  simp only [hno, if_false]
  split_ifs <;> rfl

/-- C2 as stated fails: `sys_clone` with a new stack pointer in `ecx` makes
`copy_thread` store that pointer in the child's frame, so the frame differs
from the parent's in `esp` as well as in `eax`. -/
theorem copy_thread_childregs_esp_differs :
    (copy_thread i386 0 (fun _ => none) {} 0 0 {}
        (sys_clone { ebx := 17, ecx := 0x1000, esp := 0x2000 }).1
        (sys_clone { ebx := 17, ecx := 0x1000, esp := 0x2000 }).2 {}
        { ebx := 17, ecx := 0x1000, esp := 0x2000 }).p.stack_regs
      ≠ { ({ ebx := 17, ecx := 0x1000, esp := 0x2000 } : pt_regs) with eax := 0 } := by
  decide

/-- C2, amended: whatever the flags, the stack pointer and the outcome,
`copy_thread` leaves in the child's frame the parent's registers with `eax`
set to 0 and `esp` set to the stack-pointer argument; for `sys_fork` and
`sys_vfork`, which pass the caller's `esp`, only `eax` differs, and for
`sys_clone` the frame's `esp` is `ecx` unless `ecx` is 0. -/
theorem copy_thread_childregs (A : Arch) (kmalloc : Nat)
    (copy_from_user : Nat → Option user_desc) (cur : task) (fs gs : Nat) (heap : Heap)
    (clone_flags esp : Nat) (p : task) (regs : pt_regs) :
    (copy_thread A kmalloc copy_from_user cur fs gs heap clone_flags esp p regs).p.stack_regs
        = { regs with eax := 0, esp := esp } ∧
    (copy_thread A kmalloc copy_from_user cur fs gs heap (sys_fork regs).1 (sys_fork regs).2
        p regs).p.stack_regs = { regs with eax := 0 } ∧
    (copy_thread A kmalloc copy_from_user cur fs gs heap (sys_vfork regs).1 (sys_vfork regs).2
        p regs).p.stack_regs = { regs with eax := 0 } ∧
    (copy_thread A kmalloc copy_from_user cur fs gs heap (sys_clone regs).1 (sys_clone regs).2
        p regs).p.stack_regs
        = { regs with eax := 0, esp := if regs.ecx = 0 then regs.esp else regs.ecx } := by
  have key : ∀ (cf e : Nat),
      (copy_thread A kmalloc copy_from_user cur fs gs heap cf e p regs).p.stack_regs
        = { regs with eax := 0, esp := e } := by
    intro cf e
    unfold copy_thread
    simp only []
    split_ifs <;> rfl
  refine ⟨key _ _, ?_, ?_, ?_⟩
  · rw [key]; rfl
  · rw [key]; rfl
  · rw [key]; rfl

/-- C3 as stated fails: when the live `%fs` no longer holds the value saved
in A (here A saved 0 and the register holds 0x33), the first switch stores
the live value in A, and A's `thread.fs` after the round trip differs from
its value before. -/
theorem switch_round_trip_fs_differs :
    (switch_round_trip i386 { fs := 0x33 } { addr := 1 } { addr := 2 }).next.thread.fs
      ≠ ({ addr := 1 } : task).thread.fs := by
  decide

/-- C3, amended: after `__switch_to(A, B)` and `__switch_to(B, A)`, A's saved
`esp0`, debug registers, TLS descriptors and I/O-bitmap pointer are what they
were before the first switch, and A's saved `fs` and `gs` are the values the
live `%fs` and `%gs` held when the first switch began. -/
theorem switch_round_trip_restores (A : Arch) (cpu : Cpu) (a b : task) :
    (switch_round_trip A cpu a b).next.thread.esp0 = a.thread.esp0 ∧
    (switch_round_trip A cpu a b).next.thread.debugreg = a.thread.debugreg ∧
    (switch_round_trip A cpu a b).next.thread.tls_array = a.thread.tls_array ∧
    (switch_round_trip A cpu a b).next.thread.io_bitmap_ptr = a.thread.io_bitmap_ptr ∧
    (switch_round_trip A cpu a b).next.thread.fs = cpu.fs ∧
    (switch_round_trip A cpu a b).next.thread.gs = cpu.gs := by
  unfold switch_round_trip __switch_to __unlazy_fpu
  by_cases h : a.used_fpu <;> simp [h]

/-- C8 as stated fails: when the caller owns an I/O bitmap and its
duplication fails, a creation with a readable, well-formed descriptor for
slot 6 returns `-ENOMEM` instead of 0 and installs no descriptor. -/
theorem copy_thread_settls_enomem :
    hasFlag CLONE_SETTLS CLONE_SETTLS = true ∧
    i386.LDT_empty { entry_number := 6, base_addr := 0x1000, limit := 0xfff } = false ∧
    (copy_thread i386 0 (fun _ => some { entry_number := 6, base_addr := 0x1000, limit := 0xfff })
        { thread := { io_bitmap_ptr := 0x5000 } } 0 0 {} CLONE_SETTLS 0 {} {}).err = -ENOMEM ∧
    (copy_thread i386 0 (fun _ => some { entry_number := 6, base_addr := 0x1000, limit := 0xfff })
        { thread := { io_bitmap_ptr := 0x5000 } } 0 0 {} CLONE_SETTLS 0 {} {}).p.thread.tls_array 0
      = {} := by
  decide

/-- C8, amended: for a creation with `CLONE_SETTLS` whose descriptor is
readable and whose I/O-bitmap duplication does not fail (the caller owns no
bitmap, or the allocation succeeds), `copy_thread` returns `-EINVAL` if and
only if the descriptor is `LDT_empty` or its slot lies outside
`[GDT_ENTRY_TLS_MIN, GDT_ENTRY_TLS_MAX]`; then the TLS array is left as it
was, and otherwise the call returns 0 and the array differs from the old one
exactly at index `slot - GDT_ENTRY_TLS_MIN`, which holds the descriptor. -/
theorem copy_thread_settls (A : Arch) (kmalloc : Nat)
    (copy_from_user : Nat → Option user_desc) (cur : task) (fs gs : Nat) (heap : Heap)
    (clone_flags esp : Nat) (p : task) (regs : pt_regs) (info : user_desc)
    (hflag : hasFlag clone_flags CLONE_SETTLS = true)
    (hread : copy_from_user regs.esi = some info)
    (hmem : cur.thread.io_bitmap_ptr = 0 ∨ kmalloc ≠ 0) :
    ((copy_thread A kmalloc copy_from_user cur fs gs heap clone_flags esp p regs).err = -EINVAL ↔
      (A.LDT_empty info = true ∨ info.entry_number < A.GDT_ENTRY_TLS_MIN ∨
        info.entry_number > A.GDT_ENTRY_TLS_MAX)) ∧
    ((A.LDT_empty info = true ∨ info.entry_number < A.GDT_ENTRY_TLS_MIN ∨
        info.entry_number > A.GDT_ENTRY_TLS_MAX) →
      (copy_thread A kmalloc copy_from_user cur fs gs heap clone_flags esp p regs).p.thread.tls_array
        = p.thread.tls_array) ∧
    (¬ (A.LDT_empty info = true ∨ info.entry_number < A.GDT_ENTRY_TLS_MIN ∨
        info.entry_number > A.GDT_ENTRY_TLS_MAX) →
      (copy_thread A kmalloc copy_from_user cur fs gs heap clone_flags esp p regs).err = 0 ∧
      (copy_thread A kmalloc copy_from_user cur fs gs heap clone_flags esp p regs).p.thread.tls_array
          (info.entry_number - A.GDT_ENTRY_TLS_MIN).toNat
        = { a := A.LDT_entry_a info, b := A.LDT_entry_b info } ∧
      ∀ i, i ≠ (info.entry_number - A.GDT_ENTRY_TLS_MIN).toNat →
        (copy_thread A kmalloc copy_from_user cur fs gs heap clone_flags esp p regs).p.thread.tls_array i
          = p.thread.tls_array i) := by
  have herr := copy_thread_err_of_alloc A kmalloc copy_from_user cur fs gs heap clone_flags esp
    p regs hmem
  have htls := copy_thread_tls_of_alloc A kmalloc copy_from_user cur fs gs heap clone_flags esp
    p regs hmem
  rw [herr, htls]
  have hE : (-EINVAL : Int) ≠ 0 := by decide
  by_cases hbad : A.LDT_empty info = true ∨ info.entry_number < A.GDT_ENTRY_TLS_MIN ∨
      info.entry_number > A.GDT_ENTRY_TLS_MAX
  · have hval : copy_thread_settls_block A copy_from_user clone_flags regs.esi p.thread.tls_array
        = (-EINVAL, p.thread.tls_array) := by
      unfold copy_thread_settls_block
      simp only [hflag, if_true, hread]
      rcases hbad with h | h
      · simp [h]
      · by_cases hemp : A.LDT_empty info = true
        · simp [hemp]
        · simp [hemp, h]
    rw [hval]
    exact ⟨⟨fun _ => hbad, fun _ => rfl⟩, fun _ => rfl, fun h => absurd hbad h⟩
  · have hemp : ¬ A.LDT_empty info = true := fun h => hbad (Or.inl h)
    have hidx : ¬ (info.entry_number < A.GDT_ENTRY_TLS_MIN ∨
        info.entry_number > A.GDT_ENTRY_TLS_MAX) := fun h => hbad (Or.inr h)
    have hval : copy_thread_settls_block A copy_from_user clone_flags regs.esi p.thread.tls_array
        = (0, fun i =>
            if i = (info.entry_number - A.GDT_ENTRY_TLS_MIN).toNat then
              { a := A.LDT_entry_a info, b := A.LDT_entry_b info }
            else p.thread.tls_array i) := by
      unfold copy_thread_settls_block
      simp only [hflag, if_true, hread, hemp, hidx, if_false, Bool.false_eq_true]
    rw [hval]
    refine ⟨⟨fun h => absurd h.symm hE, fun h => absurd h hbad⟩, fun h => absurd h hbad,
      fun _ => ⟨rfl, ?_, ?_⟩⟩
    · simp
    · intro i hi
      simp [hi]

/-- Witness for C8: a caller without an I/O bitmap installs a well-formed
descriptor in slot 7, and `copy_thread` returns 0 with entry 1 set. -/
theorem copy_thread_settls_witness :
    hasFlag CLONE_SETTLS CLONE_SETTLS = true ∧
    (({} : task).thread.io_bitmap_ptr = 0 ∨ (0 : Nat) ≠ 0) ∧
    (copy_thread i386 0 (fun _ => some tls_request) {} 0 0 {} CLONE_SETTLS 0 {} {}).err = 0 ∧
    (copy_thread i386 0 (fun _ => some tls_request) {} 0 0 {} CLONE_SETTLS 0 {} {}).p.thread.tls_array
        (tls_request.entry_number - i386.GDT_ENTRY_TLS_MIN).toNat
      = { a := i386.LDT_entry_a tls_request, b := i386.LDT_entry_b tls_request } :=
  ⟨by decide, Or.inl rfl,
    ((copy_thread_settls i386 0 (fun _ => some tls_request) {} 0 0 {} CLONE_SETTLS 0 {} {}
      tls_request (by decide) rfl (Or.inl rfl)).2.2 (by decide)).1,
    ((copy_thread_settls i386 0 (fun _ => some tls_request) {} 0 0 {} CLONE_SETTLS 0 {} {}
      tls_request (by decide) rfl (Or.inl rfl)).2.2 (by decide)).2.1⟩

/-- C9: when the caller owns an I/O bitmap and the allocation of the child's
bitmap fails, `copy_thread` returns `-ENOMEM`, the child has a null
`io_bitmap_ptr` and `io_bitmap_max` 0, its TLS array is untouched and nothing
is freed; and when the allocation succeeded and `copy_thread` then fails,
the block allocated is handed to `kfree` and `io_bitmap_max` is 0. -/
theorem copy_thread_bitmap_failure (A : Arch) (kmalloc : Nat)
    (copy_from_user : Nat → Option user_desc) (cur : task) (fs gs : Nat) (heap : Heap)
    (clone_flags esp : Nat) (p : task) (regs : pt_regs)
    (hown : cur.thread.io_bitmap_ptr ≠ 0) :
    (kmalloc = 0 →
      (copy_thread A kmalloc copy_from_user cur fs gs heap clone_flags esp p regs).err = -ENOMEM ∧
      (copy_thread A kmalloc copy_from_user cur fs gs heap clone_flags esp p regs).p.thread.io_bitmap_ptr
        = 0 ∧
      (copy_thread A kmalloc copy_from_user cur fs gs heap clone_flags esp p regs).p.thread.io_bitmap_max
        = 0 ∧
      (copy_thread A kmalloc copy_from_user cur fs gs heap clone_flags esp p regs).p.thread.tls_array
        = p.thread.tls_array ∧
      (copy_thread A kmalloc copy_from_user cur fs gs heap clone_flags esp p regs).heap.freed
        = heap.freed) ∧
    (kmalloc ≠ 0 →
      (copy_thread A kmalloc copy_from_user cur fs gs heap clone_flags esp p regs).err ≠ 0 →
      (copy_thread A kmalloc copy_from_user cur fs gs heap clone_flags esp p regs).heap.freed
        = heap.freed ++ [kmalloc] ∧
      (copy_thread A kmalloc copy_from_user cur fs gs heap clone_flags esp p regs).p.thread.io_bitmap_max
        = 0) := by
  constructor
  · intro hk
    have hc : cur.thread.io_bitmap_ptr ≠ 0 ∧ kmalloc = 0 := ⟨hown, hk⟩
    unfold copy_thread
    simp only [hc, and_self, ne_eq, not_false_eq_true, if_true]
  · intro hk
    have hno : ¬ (cur.thread.io_bitmap_ptr ≠ 0 ∧ kmalloc = 0) := fun h => hk h.2
    have hd : decide (cur.thread.io_bitmap_ptr ≠ 0) = true := by simpa using hown
    unfold copy_thread
    simp only [hno, if_false, hd, if_true]
    intro herr
    split_ifs at herr ⊢ with h1
    · exact ⟨rfl, rfl⟩
    · exfalso
      apply h1
      exact ⟨herr, hk⟩

/-- Witness for C9: a caller owning the bitmap at 0x5000 creates a child;
with the allocator failing the call returns `-ENOMEM`, and with the
allocator returning 0x6000 and an unreadable descriptor the block is freed. -/
theorem copy_thread_bitmap_failure_witness :
    ({ thread := { io_bitmap_ptr := 0x5000 } } : task).thread.io_bitmap_ptr ≠ 0 ∧
    (copy_thread i386 0 (fun _ => none) { thread := { io_bitmap_ptr := 0x5000 } } 0 0 {}
        CLONE_SETTLS 0 {} {}).err = -ENOMEM ∧
    (copy_thread i386 0x6000 (fun _ => none) { thread := { io_bitmap_ptr := 0x5000 } } 0 0 {}
        CLONE_SETTLS 0 {} {}).heap.freed = [0x6000] :=
  ⟨by decide,
    ((copy_thread_bitmap_failure i386 0 (fun _ => none) { thread := { io_bitmap_ptr := 0x5000 } }
      0 0 {} CLONE_SETTLS 0 {} {} (by decide)).1 rfl).1,
    ((copy_thread_bitmap_failure i386 0x6000 (fun _ => none)
      { thread := { io_bitmap_ptr := 0x5000 } } 0 0 {} CLONE_SETTLS 0 {} {} (by decide)).2
      (by decide) (by decide)).1⟩

/-- C10: a `do_exit` called in interrupt context, or by the task with pid 0,
or by the task with pid 1, ends in a panic, and the state the kernel stops
in differs from the state at the call only by the record of the call to
`profile_task_exit`: no task field (flags, exit code, exit state, resource
handles) and no reference count has changed. -/
theorem do_exit_panics (A : Arch) (fuel : Nat) (k : Kernel) (code : Int)
    (h : k.in_interrupt = true ∨ (k.tasks k.current).pid = 0 ∨ (k.tasks k.current).pid = 1) :
    ∃ line k', do_exit A fuel k code = .error (.halt (.panic line) k') ∧
      k'.tasks = k.tasks ∧ k'.signals = k.signals ∧
      k'.mm_users = k.mm_users ∧ k'.mm_count = k.mm_count ∧
      k'.files_count = k.files_count ∧ k'.fs_count = k.fs_count ∧
      k'.log = k.log ++ [{ fn := .profile_task_exit, a := k.current, b := 0 }] := by
  have hg : ∃ line, do_exit_guards (k.call .profile_task_exit k.current 0)
      = .error (.halt (.panic line) (k.call .profile_task_exit k.current 0)) := by
    unfold do_exit_guards
    by_cases h1 : k.in_interrupt = true
    · exact ⟨905, by simp [Kernel.call, h1, throw, throwThe, MonadExceptOf.throw]⟩
    · by_cases h2 : (k.tasks k.current).pid = 0
      · exact ⟨907, by simp [Kernel.call, h1, h2, throw, throwThe, MonadExceptOf.throw]⟩
      · have h3 : (k.tasks k.current).pid = 1 := by
          rcases h with h | h | h
          · exact absurd h h1
          · exact absurd h h2
          · exact h
        exact ⟨909, by simp [Kernel.call, h1, h3, throw, throwThe, MonadExceptOf.throw]⟩
  obtain ⟨line, hline⟩ := hg
  refine ⟨line, k.call .profile_task_exit k.current 0, ?_, rfl, rfl, rfl, rfl, rfl, rfl, rfl⟩
  unfold do_exit
  rw [hline]
  rfl

/-- Witness for C10: the task with pid 1 calls `do_exit`. -/
theorem do_exit_panics_witness :
    (({ tasks := fun _ => { pid := 1 } } : Kernel).in_interrupt = true ∨
      (({ tasks := fun _ => { pid := 1 } } : Kernel).tasks
        ({ tasks := fun _ => { pid := 1 } } : Kernel).current).pid = 0 ∨
      (({ tasks := fun _ => { pid := 1 } } : Kernel).tasks
        ({ tasks := fun _ => { pid := 1 } } : Kernel).current).pid = 1) ∧
    ∃ line k', do_exit i386 1 { tasks := fun _ => { pid := 1 } } 0
        = .error (.halt (.panic line) k') ∧
      k'.tasks = ({ tasks := fun _ => { pid := 1 } } : Kernel).tasks :=
  ⟨Or.inr (Or.inr rfl),
    (do_exit_panics i386 1 { tasks := fun _ => { pid := 1 } } 0 (Or.inr (Or.inr rfl))).imp
      fun _ h => h.imp fun _ h => ⟨h.1, h.2.1⟩⟩

/-- C4: when `exit_notify` runs to its end, the `exit_state` it leaves in the
terminating task is `EXIT_DEAD` exactly when, in the state reached after the
parent-notification step, the exit signal is -1 and the task is either not
traced or its parent's group has `SIGNAL_GROUP_EXIT` set; in every other
case it is `EXIT_ZOMBIE`. -/
theorem exit_notify_terminal_state (fuel : Nat) (k k' : Kernel) (tsk : Nat)
    (h : exit_notify fuel k tsk = .ok k') :
    ∃ k2 dead, exit_notify_notified k tsk = .ok (k2, dead) ∧
      ((k'.tasks tsk).exit_state = EXIT_DEAD ↔
        ((k2.tasks tsk).exit_signal = -1 ∧
          ((k2.tasks tsk).ptrace = 0 ∨
            hasFlag (k2.sig (k2.tasks tsk).parent).flags SIGNAL_GROUP_EXIT = true))) ∧
      ((k'.tasks tsk).exit_state ≠ EXIT_DEAD → (k'.tasks tsk).exit_state = EXIT_ZOMBIE) := by
  unfold exit_notify at h
  simp only [bind_eq_ok, pure_eq_ok] at h
  obtain ⟨r, hr, k3, hk3, k4, hk4, h⟩ := h
  subst h
  have e3 := congrFun (view_release_ptrace_dead linkFree_exit_state fuel r.2 hk3) tsk
  have e4 : k4.view task_struct.exit_state tsk = k3.view task_struct.exit_state tsk := by
    split_ifs at hk4
    · exact congrFun (view_release_task linkFree_exit_state fuel hk4) tsk
    · simp only [pure_eq_ok] at hk4
      subst hk4
      rfl
  have e5 : ((k4.set_flags tsk ((k4.tasks tsk).flags ||| PF_DEAD)).tasks tsk).exit_state
      = exit_notify_choose r.1 tsk := by
    have := congrFun (view_set_flags (v := task_struct.exit_state) (fun _ _ => rfl) k4 tsk
      ((k4.tasks tsk).flags ||| PF_DEAD)) tsk
    unfold Kernel.view at this e3 e4
    rw [this, e4, e3]
    have := congrFun (view_set_it_prof_value (v := task_struct.exit_state) (fun _ _ => rfl)
      ((r.1.set_exit_state tsk (exit_notify_choose r.1 tsk)).set_it_virt_value tsk 0) tsk 0) tsk
    unfold Kernel.view at this
    rw [this]
    have := congrFun (view_set_it_virt_value (v := task_struct.exit_state) (fun _ _ => rfl)
      (r.1.set_exit_state tsk (exit_notify_choose r.1 tsk)) tsk 0) tsk
    unfold Kernel.view at this
    rw [this, tasks_set_exit_state_self]
  refine ⟨r.1, r.2, hr, ?_, ?_⟩
  · rw [e5]
    unfold exit_notify_choose
    split_ifs with hc
    · exact ⟨fun _ => hc, fun _ => rfl⟩
    · exact ⟨fun h => absurd h (by decide), fun h => absurd h hc⟩
  · rw [e5]
    intro hne
    rcases exit_notify_choose_cases r.1 tsk with h | h
    · exact absurd h hne
    · exact h

/-- Witness for C4: the running child of the small system terminates; its
parent wants `SIGCHLD`, so it is left a zombie. -/
theorem exit_notify_terminal_state_witness :
    ∃ k', exit_notify 2 { demo with current := 4 } 4 = .ok k' ∧
      (k'.tasks 4).exit_state = EXIT_ZOMBIE := by
  obtain ⟨k', hk'⟩ := ok_of_isSome (exit_notify 2 { demo with current := 4 } 4) (by decide)
  obtain ⟨k2, dead, h1, h2, h3⟩ := exit_notify_terminal_state 2 _ k' 4 hk'
  have e : (exit_notify_notified { demo with current := 4 } 4).toOption.map
      (fun r => (r.1.tasks 4).exit_signal) = some 17 := by decide
  rw [toOption_map_of_ok h1] at e
  have e' : (k2.tasks 4).exit_signal = 17 := by simpa using e
  refine ⟨k', hk', h3 fun hd => ?_⟩
  have := (h2.1 hd).1
  rw [e'] at this
  exact absurd this (by decide)

lemma put_users_skip (r : Int × Kernel) (h : r.1 ≠ 0) (L : List (Int × Nat)) :
    put_users r L = r := by
  induction L with
  | nil => rfl
  | cons xa rest ih =>
    unfold put_users put_user_if
    simp only [h, if_false]
    exact ih

lemma put_user_tasks (k : Kernel) (x : Int) (a : Nat) : (put_user k x a).2.tasks = k.tasks := by
  unfold put_user
  split_ifs <;> rfl

lemma put_user_log (k : Kernel) (x : Int) (a : Nat) : (put_user k x a).2.log = k.log := by
  unfold put_user
  split_ifs <;> rfl

lemma put_user_umem_other (k : Kernel) (x : Int) (a b : Nat) (h : b ≠ a) :
    (put_user k x a).2.umem b = k.umem b := by
  unfold put_user
  split_ifs
  · simp [h]
  · rfl

lemma put_users_tasks (r : Int × Kernel) (L : List (Int × Nat)) :
    (put_users r L).2.tasks = r.2.tasks := by
  induction L generalizing r with
  | nil => rfl
  | cons xa rest ih =>
    unfold put_users
    rw [ih]
    unfold put_user_if
    split_ifs
    · exact put_user_tasks _ _ _
    · rfl

lemma put_users_umem_other (r : Int × Kernel) (L : List (Int × Nat)) (b : Nat)
    (h : b ∉ L.map Prod.snd) : (put_users r L).2.umem b = r.2.umem b := by
  induction L generalizing r with
  | nil => rfl
  | cons xa rest ih =>
    simp only [List.map_cons, List.mem_cons, not_or] at h
    unfold put_users
    rw [ih _ h.2]
    unfold put_user_if
    split_ifs
    · exact put_user_umem_other _ _ _ _ h.1
    · rfl

lemma put_user_if_fault (r : Int × Kernel) (x : Int) (a : Nat) (hr : r.1 = 0)
    (hu : r.2.umem a = none) : put_user_if r x a = (-EFAULT, r.2) := by
  simp [put_user_if, put_user, hr, hu]

lemma put_user_if_fst (r : Int × Kernel) (x : Int) (a : Nat) (y : Int) (hr : r.1 = 0)
    (hu : r.2.umem a = some y) : (put_user_if r x a).1 = 0 := by
  simp [put_user_if, put_user, hr, hu]

lemma put_user_if_umem (r : Int × Kernel) (x : Int) (a : Nat) (y : Int) (hr : r.1 = 0)
    (hu : r.2.umem a = some y) :
    (put_user_if r x a).2.umem = fun b => if b = a then some x else r.2.umem b := by
  simp [put_user_if, put_user, hr, hu]

lemma EFAULT_ne_zero : (-EFAULT : Int) ≠ 0 := by decide

/-- A second run of the same writes over the memory the first run left
returns the same value and leaves the memory as it is. -/
lemma put_users_again (L : List (Int × Nat)) (hL : (L.map Prod.snd).Nodup) :
    ∀ (r r' : Int × Kernel), r'.1 = r.1 → r'.2.umem = (put_users r L).2.umem →
      (put_users r' L).1 = (put_users r L).1 ∧ (put_users r' L).2.umem = r'.2.umem := by
  induction L with
  | nil =>
    intro r r' h1 _
    exact ⟨h1, rfl⟩
  | cons xa rest ih =>
    intro r r' h1 h2
    simp only [List.map_cons, List.nodup_cons] at hL
    have es : put_users r (xa :: rest) = put_users (put_user_if r xa.1 xa.2) rest := rfl
    have es' : put_users r' (xa :: rest) = put_users (put_user_if r' xa.1 xa.2) rest := rfl
    by_cases hr : r.1 = 0
    · have hr' : r'.1 = 0 := h1.trans hr
      cases hu : r.2.umem xa.2 with
      | none =>
        have e := put_user_if_fault r xa.1 xa.2 hr hu
        have es2 : put_users r (xa :: rest) = (-EFAULT, r.2) := by
          rw [es, e]
          exact put_users_skip _ EFAULT_ne_zero _
        rw [es2] at h2 ⊢
        have hu' : r'.2.umem xa.2 = none := by rw [h2]; exact hu
        rw [es', put_user_if_fault r' xa.1 xa.2 hr' hu', put_users_skip _ EFAULT_ne_zero]
        exact ⟨rfl, rfl⟩
      | some y =>
        have hat : (put_users r (xa :: rest)).2.umem xa.2 = some xa.1 := by
          rw [es, put_users_umem_other _ _ _ hL.1, put_user_if_umem r xa.1 xa.2 y hr hu]
          simp
        have hu' : r'.2.umem xa.2 = some xa.1 := by rw [h2]; exact hat
        have hsame : (put_user_if r' xa.1 xa.2).2.umem = r'.2.umem := by
          rw [put_user_if_umem r' xa.1 xa.2 xa.1 hr' hu']
          funext a
          by_cases ha : a = xa.2
          · simp [ha, hu']
          · simp [ha]
        have := ih hL.2 (put_user_if r xa.1 xa.2) (put_user_if r' xa.1 xa.2)
          (by rw [put_user_if_fst r xa.1 xa.2 y hr hu, put_user_if_fst r' xa.1 xa.2 xa.1 hr' hu'])
          (by rw [hsame, h2, es])
        rw [es, es']
        exact ⟨this.1, this.2.trans hsame⟩
    · have hr' : r'.1 ≠ 0 := fun h => hr (h1 ▸ h)
      rw [put_users_skip r hr] at h2 ⊢
      rw [put_users_skip r' hr']
      exact ⟨h1, rfl⟩

lemma copyout_writes_nodup (pid uid why status : Int) (infop : Nat) :
    ((copyout_writes pid uid why status infop).map Prod.snd).Nodup := by
  simp [copyout_writes, si_signo, si_errno, si_code, si_pid, si_uid, si_status]

lemma wait_noreap_copyout_eq (k : Kernel) (p : Nat) (pid uid why status : Int)
    (infop rusagep : Nat) :
    wait_noreap_copyout k p pid uid why status infop rusagep
      = (if (put_users ((getrusage_opt k p rusagep).1,
              put_task_struct (getrusage_opt k p rusagep).2 p)
            (copyout_writes pid uid why status infop)).1 = 0 then
          (pid, (put_users ((getrusage_opt k p rusagep).1,
              put_task_struct (getrusage_opt k p rusagep).2 p)
            (copyout_writes pid uid why status infop)).2)
        else put_users ((getrusage_opt k p rusagep).1,
              put_task_struct (getrusage_opt k p rusagep).2 p)
            (copyout_writes pid uid why status infop)) := rfl

lemma put_user_isSome (k : Kernel) (x : Int) (a b : Nat) :
    ((put_user k x a).2.umem b).isSome = (k.umem b).isSome := by
  unfold put_user
  split_ifs with h
  · by_cases hb : b = a
    · simp [hb, h]
    · simp [hb]
  · rfl

lemma put_users_isSome (r : Int × Kernel) (L : List (Int × Nat)) (b : Nat) :
    ((put_users r L).2.umem b).isSome = (r.2.umem b).isSome := by
  induction L generalizing r with
  | nil => rfl
  | cons xa rest ih =>
    unfold put_users
    rw [ih]
    unfold put_user_if
    split_ifs
    · exact put_user_isSome _ _ _ _
    · rfl

lemma put_task_struct_umem (k : Kernel) (p : Nat) : (put_task_struct k p).umem = k.umem := by
  unfold put_task_struct
  dsimp only
  split_ifs <;> rfl

lemma getrusage_opt_umem (k : Kernel) (p ru : Nat) : (getrusage_opt k p ru).2.umem = k.umem := by
  unfold getrusage_opt getrusage
  split_ifs <;> rfl

lemma getrusage_opt_fst (k a : Kernel) (p ru : Nat)
    (h : (a.umem ru).isSome = (k.umem ru).isSome) :
    (getrusage_opt a p ru).1 = (getrusage_opt k p ru).1 := by
  unfold getrusage_opt getrusage
  rw [h]
  split_ifs <;> rfl

lemma peekFree : ∀ (t : task_struct) (x : Int), peek_fields { t with usage := x } = peek_fields t :=
  fun _ _ => rfl

lemma view_getrusage_opt {α : Type} (v : task_struct → α) (k : Kernel) (p ru : Nat) :
    (getrusage_opt k p ru).2.view v = k.view v := by
  unfold getrusage_opt getrusage
  split_ifs <;> rfl

lemma view_put_users {α : Type} (v : task_struct → α) (r : Int × Kernel)
    (L : List (Int × Nat)) : (put_users r L).2.view v = r.2.view v := by
  unfold Kernel.view
  rw [put_users_tasks]

lemma view_put_task_struct' {α : Type} {v : task_struct → α}
    (hv : ∀ t x, v { t with usage := x } = v t) (k : Kernel) (p : Nat) :
    (put_task_struct k p).view v = k.view v := by
  unfold put_task_struct
  dsimp only
  split_ifs
  · rw [view_call, view_set_usage hv]
  · rw [view_set_usage hv]

/-- A peek changes no field of any task that a peek reads. -/
lemma view_wait_task_zombie_peek (k : Kernel) (p infop ru : Nat) :
    (wait_task_zombie_peek k p infop ru).2.view peek_fields = k.view peek_fields := by
  unfold wait_task_zombie_peek
  split_ifs
  · rfl
  · rfl
  · rw [wait_noreap_copyout_eq]
    split_ifs <;>
      simp only [view_put_users, view_put_task_struct' peekFree, view_getrusage_opt,
        get_task_struct, view_set_usage peekFree]

/-- A peek over the state an earlier peek left returns the same value and
leaves user memory as it is. -/
lemma wait_task_zombie_peek_again (k a : Kernel) (p infop ru : Nat)
    (hf : peek_fields (a.tasks p) = peek_fields (k.tasks p))
    (hu : a.umem = (wait_task_zombie_peek k p infop ru).2.umem) :
    (wait_task_zombie_peek a p infop ru).1 = (wait_task_zombie_peek k p infop ru).1 ∧
    (wait_task_zombie_peek a p infop ru).2.umem = a.umem := by
  have h1 : (a.tasks p).pid = (k.tasks p).pid := congrArg (fun x => x.1) hf
  have h2 : (a.tasks p).uid = (k.tasks p).uid := congrArg (fun x => x.2.1) hf
  have h3 : (a.tasks p).exit_code = (k.tasks p).exit_code := congrArg (fun x => x.2.2.1) hf
  have h4 : (a.tasks p).exit_state = (k.tasks p).exit_state := congrArg (fun x => x.2.2.2.1) hf
  have h5 : (a.tasks p).exit_signal = (k.tasks p).exit_signal :=
    congrArg (fun x => x.2.2.2.2.1) hf
  have h6 : (a.tasks p).ptrace = (k.tasks p).ptrace := congrArg (fun x => x.2.2.2.2.2) hf
  unfold wait_task_zombie_peek at hu ⊢
  rw [h1, h2, h3, h4, h5, h6]
  by_cases c1 : (k.tasks p).exit_state ≠ EXIT_ZOMBIE
  · simp [if_pos c1]
  · by_cases c2 : (k.tasks p).exit_signal = -1 ∧ (k.tasks p).ptrace = 0
    · simp [if_neg c1, if_pos c2]
    · simp only [if_neg c1, if_neg c2] at hu ⊢
      rw [wait_noreap_copyout_eq] at hu ⊢
      rw [wait_noreap_copyout_eq]
      have hu0 : a.umem = (put_users ((getrusage_opt (get_task_struct k p) p ru).1,
          put_task_struct (getrusage_opt (get_task_struct k p) p ru).2 p)
          (copyout_writes (k.tasks p).pid (k.tasks p).uid
            (zombie_why_status (k.tasks p).exit_code).1
            (zombie_why_status (k.tasks p).exit_code).2 infop)).2.umem := by
        rw [hu]
        split_ifs <;> rfl
      have hret : (getrusage_opt (get_task_struct a p) p ru).1
          = (getrusage_opt (get_task_struct k p) p ru).1 := by
        apply getrusage_opt_fst
        show (a.umem ru).isSome = (k.umem ru).isSome
        rw [hu0, put_users_isSome]
        show ((put_task_struct (getrusage_opt (get_task_struct k p) p ru).2 p).umem ru).isSome = _
        rw [put_task_struct_umem, getrusage_opt_umem]
        rfl
      have key := put_users_again _ (copyout_writes_nodup (k.tasks p).pid (k.tasks p).uid
          (zombie_why_status (k.tasks p).exit_code).1
          (zombie_why_status (k.tasks p).exit_code).2 infop)
        ((getrusage_opt (get_task_struct k p) p ru).1,
          put_task_struct (getrusage_opt (get_task_struct k p) p ru).2 p)
        ((getrusage_opt (get_task_struct a p) p ru).1,
          put_task_struct (getrusage_opt (get_task_struct a p) p ru).2 p)
        hret
        (by
          show (put_task_struct (getrusage_opt (get_task_struct a p) p ru).2 p).umem = _
          rw [put_task_struct_umem, getrusage_opt_umem]
          exact hu0)
      have hau : (put_task_struct (getrusage_opt (get_task_struct a p) p ru).2 p).umem
          = a.umem := by
        rw [put_task_struct_umem, getrusage_opt_umem]
        rfl
      rw [key.1]
      split_ifs
      · exact ⟨rfl, key.2.trans hau⟩
      · exact ⟨key.1, key.2.trans hau⟩

lemma wait_task_zombie_noreap (fuel : Nat) (k : Kernel) (p infop stat_addr ru : Nat) :
    wait_task_zombie fuel k p true infop stat_addr ru
      = .ok (wait_task_zombie_peek k p infop ru) := rfl

lemma peek_report_congr (a b : Kernel) (infop : Nat) (h : a.umem = b.umem) :
    peek_report a infop = peek_report b infop := by
  unfold peek_report
  rw [h]

/-- Peeks that follow a first peek all repeat its result. -/
lemma peek_calls_after (fuel p infop stat_addr ru : Nat) (k : Kernel) :
    ∀ (n : Nat) (a : Kernel), peek_fields (a.tasks p) = peek_fields (k.tasks p) →
      a.umem = (wait_task_zombie_peek k p infop ru).2.umem →
      ∃ k', peek_calls fuel p infop stat_addr ru n a
          = .ok (List.replicate n ((wait_task_zombie_peek k p infop ru).1,
              peek_report (wait_task_zombie_peek k p infop ru).2 infop), k') ∧
        peek_fields (k'.tasks p) = peek_fields (k.tasks p) := by
  intro n
  induction n with
  | zero =>
    intro a hf _
    exact ⟨a, rfl, hf⟩
  | succ n ih =>
    intro a hf hu
    have hagain := wait_task_zombie_peek_again k a p infop ru hf hu
    have hf' : peek_fields ((wait_task_zombie_peek a p infop ru).2.tasks p)
        = peek_fields (k.tasks p) :=
      (congrFun (view_wait_task_zombie_peek a p infop ru) p).trans hf
    obtain ⟨k', hk', hfk'⟩ := ih (wait_task_zombie_peek a p infop ru).2 hf'
      (hagain.2.trans hu)
    refine ⟨k', ?_, hfk'⟩
    unfold peek_calls
    rw [wait_task_zombie_noreap]
    show Except.map _ (peek_calls fuel p infop stat_addr ru n
      (wait_task_zombie_peek a p infop ru).2) = _
    rw [hk', hagain.1, peek_report_congr _ _ infop (hagain.2.trans hu)]
    rfl

/-- C5: for a zombie child and any number of consecutive peeks (calls of
`wait_task_zombie` with `noreap` set), every call returns the value the
first call returns and reports the same id, reason and status; after the
calls the child is still in `EXIT_ZOMBIE` and its exit code is unchanged. -/
theorem peek_calls_same (fuel p infop stat_addr ru : Nat) (k : Kernel) (n : Nat)
    (hz : (k.tasks p).exit_state = EXIT_ZOMBIE) :
    ∃ k', peek_calls fuel p infop stat_addr ru n k
        = .ok (List.replicate n ((wait_task_zombie_peek k p infop ru).1,
            peek_report (wait_task_zombie_peek k p infop ru).2 infop), k') ∧
      (k'.tasks p).exit_state = EXIT_ZOMBIE ∧
      (k'.tasks p).exit_code = (k.tasks p).exit_code := by
  have fields : ∀ k' : Kernel, peek_fields (k'.tasks p) = peek_fields (k.tasks p) →
      (k'.tasks p).exit_state = EXIT_ZOMBIE ∧ (k'.tasks p).exit_code = (k.tasks p).exit_code :=
    fun k' h =>
      ⟨(congrArg (fun x => x.2.2.2.1) h).trans hz, congrArg (fun x => x.2.2.1) h⟩
  cases n with
  | zero => exact ⟨k, rfl, fields k rfl⟩
  | succ n =>
    obtain ⟨k', hk', hfk'⟩ := peek_calls_after fuel p infop stat_addr ru k n
      (wait_task_zombie_peek k p infop ru).2
      (congrFun (view_wait_task_zombie_peek k p infop ru) p) rfl
    refine ⟨k', ?_, fields k' hfk'⟩
    unfold peek_calls
    rw [wait_task_zombie_noreap]
    show Except.map _ (peek_calls fuel p infop stat_addr ru n
      (wait_task_zombie_peek k p infop ru).2) = _
    rw [hk']
    rfl

/-- Witness for C5: three peeks at the zombie of the small system each
return its pid 101 and report reason `CLD_EXITED` and status 42. -/
theorem peek_calls_same_witness :
    (demo.tasks 3).exit_state = EXIT_ZOMBIE ∧
    ((wait_task_zombie_peek demo 3 0x1000 0).1,
      peek_report (wait_task_zombie_peek demo 3 0x1000 0).2 0x1000)
        = (101, some 101, some CLD_EXITED, some 42) ∧
    ∃ k', peek_calls 1 3 0x1000 0 0 3 demo
        = .ok (List.replicate 3 ((wait_task_zombie_peek demo 3 0x1000 0).1,
            peek_report (wait_task_zombie_peek demo 3 0x1000 0).2 0x1000), k') ∧
      (k'.tasks 3).exit_state = EXIT_ZOMBIE ∧
      (k'.tasks 3).exit_code = (demo.tasks 3).exit_code :=
  ⟨by decide, by decide, peek_calls_same 1 3 0x1000 0 0 demo 3 (by decide)⟩

lemma view_setTask_gen {α : Type} (v : task_struct → α) (k : Kernel) (p : Nat) (t : task_struct) :
    (k.setTask p t).view v = fun q => if q = p then v t else k.view v q := by
  funext q
  unfold Kernel.view Kernel.setTask
  by_cases hq : q = p
  · simp [hq]
  · simp [hq]

lemma view_do_notify_parent_of {α : Type} {v : task_struct → α}
    (hv : ∀ t x, v { t with exit_signal := x } = v t) (k : Kernel) (p : Nat) (sig : Int) :
    (do_notify_parent k p sig).view v = k.view v := by
  unfold do_notify_parent
  dsimp only
  split_ifs
  · rw [view_set_exit_signal hv, view_call]
  · rw [view_call]

lemma view___kill_pg_info {α : Type} (v : task_struct → α) (k : Kernel) (sig pgrp : Int) :
    (__kill_pg_info k sig pgrp).view v = k.view v := rfl

lemma children_remove_parent (k : Kernel) (p : Nat) :
    (remove_parent k p).view task_struct.children
      = fun t => (k.view task_struct.children t).filter (fun q => q ≠ p) := rfl

lemma children_add_parent (k : Kernel) (p parent : Nat) :
    (add_parent k p parent).view task_struct.children
      = fun t => if t = parent then k.view task_struct.children t ++ [p]
          else k.view task_struct.children t := by
  unfold add_parent Kernel.set_children
  rw [view_setTask_gen]
  funext t
  by_cases h : t = parent
  · simp [h, Kernel.view]
  · simp [h]

lemma view_remove_parent_of {α : Type} {v : task_struct → α}
    (hv : ∀ t x, v { t with children := x } = v t) (k : Kernel) (p : Nat) :
    (remove_parent k p).view v = k.view v := by
  funext q
  exact hv _ _

lemma view_add_parent_of {α : Type} {v : task_struct → α}
    (hv : ∀ t x, v { t with children := x } = v t) (k : Kernel) (p parent : Nat) :
    (add_parent k p parent).view v = k.view v :=
  view_set_children hv _ _ _

lemma view_reparent_signals {α : Type} {v : task_struct → α}
    (hv : ∀ t x, v { t with exit_signal := x } = v t) (k : Kernel) (p : Nat) :
    (reparent_signals k p).view v = k.view v := by
  unfold reparent_signals
  dsimp only
  split_ifs <;> simp only [view_call, view_set_exit_signal hv]

lemma view_reparent_notify {α : Type} {v : task_struct → α}
    (hv : ∀ t x, v { t with exit_signal := x } = v t) (k : Kernel) (p : Nat) :
    (reparent_notify k p).view v = k.view v := by
  unfold reparent_notify
  split_ifs <;> simp only [view_call, view_do_notify_parent_of hv]

lemma view_reparent_orphan {α : Type} (v : task_struct → α) (k : Kernel) (p father : Nat) :
    (reparent_orphan k p father).view v = k.view v := by
  unfold reparent_orphan
  split_ifs <;> rfl

lemma view_reparent_move {α : Type} {v : task_struct → α}
    (h2 : ∀ t x, v { t with ptrace := x } = v t)
    (h3 : ∀ t x, v { t with parent := x } = v t)
    (h4 : ∀ t x, v { t with children := x } = v t)
    (k : Kernel) (p : Nat) : (reparent_move k p).view v = k.view v := by
  unfold reparent_move
  simp only [view_add_parent_of h4, view_set_parent h3, view_remove_parent_of h4,
    view_set_ptrace h2]

/-- The untraced branch of `reparent_thread` reduces to its stages. -/
lemma reparent_thread_untraced (k : Kernel) (p father : Nat) :
    reparent_thread k p father false
      = reparent_orphan (reparent_notify (reparent_move (reparent_signals k p) p) p) p father := by
  unfold reparent_thread
  simp

/-- The child lists after the move of an untraced child to a new parent. -/
lemma children_reparent_move (k : Kernel) (p : Nat) :
    (reparent_move k p).view task_struct.children
      = fun t =>
          if t = (k.tasks p).real_parent then
            (k.view task_struct.children t).filter (fun q => q ≠ p) ++ [p]
          else (k.view task_struct.children t).filter (fun q => q ≠ p) := by
  unfold reparent_move
  dsimp only
  rw [children_add_parent, view_set_parent (v := task_struct.children) (fun _ _ => rfl),
    children_remove_parent, view_set_ptrace (v := task_struct.children) (fun _ _ => rfl)]
  have e : (((remove_parent (k.set_ptrace p 0) p).set_parent p
      ((remove_parent (k.set_ptrace p 0) p).tasks p).real_parent).tasks p).parent
      = (k.tasks p).real_parent := by
    have h1 := congrFun (view_setTask_gen task_struct.parent (remove_parent (k.set_ptrace p 0) p) p
      { (remove_parent (k.set_ptrace p 0) p).tasks p with
        parent := ((remove_parent (k.set_ptrace p 0) p).tasks p).real_parent }) p
    have h2 := congrFun (view_remove_parent_of (v := task_struct.real_parent) (fun _ _ => rfl)
      (k.set_ptrace p 0) p) p
    have h3 := congrFun (view_set_ptrace (v := task_struct.real_parent) (fun _ _ => rfl) k p 0) p
    unfold Kernel.view at h1 h2 h3
    unfold Kernel.set_parent
    rw [h1]
    simp only [if_true]
    rw [h2, h3]
  rw [e]

/-- The parents after the move of an untraced child to a new parent. -/
lemma parent_reparent_move (k : Kernel) (p : Nat) :
    (reparent_move k p).view task_struct.parent
      = fun q => if q = p then (k.tasks p).real_parent else k.view task_struct.parent q := by
  unfold reparent_move
  dsimp only
  rw [view_add_parent_of (v := task_struct.parent) (fun _ _ => rfl)]
  unfold Kernel.set_parent
  rw [view_setTask_gen, view_remove_parent_of (v := task_struct.parent) (fun _ _ => rfl),
    view_set_ptrace (v := task_struct.parent) (fun _ _ => rfl)]
  have h2 := congrFun (view_remove_parent_of (v := task_struct.real_parent) (fun _ _ => rfl)
    (k.set_ptrace p 0) p) p
  have h3 := congrFun (view_set_ptrace (v := task_struct.real_parent) (fun _ _ => rfl) k p 0) p
  unfold Kernel.view at h2 h3
  funext q
  by_cases hq : q = p
  · simp only [hq, if_true]
    rw [h2, h3]
  · simp only [hq, if_false]

/-- The tracing flags after the move of an untraced child to a new parent. -/
lemma ptrace_reparent_move (k : Kernel) (p : Nat) :
    (reparent_move k p).view task_struct.ptrace
      = fun q => if q = p then 0 else k.view task_struct.ptrace q := by
  unfold reparent_move
  dsimp only
  rw [view_add_parent_of (v := task_struct.ptrace) (fun _ _ => rfl),
    view_set_parent (v := task_struct.ptrace) (fun _ _ => rfl),
    view_remove_parent_of (v := task_struct.ptrace) (fun _ _ => rfl)]
  unfold Kernel.set_ptrace
  rw [view_setTask_gen]

lemma view_handed_on {α : Type} {v : task_struct → α}
    (h0 : ∀ t x, v { t with real_parent := x } = v t)
    (h1 : ∀ t x, v { t with exit_signal := x } = v t)
    (h2 : ∀ t x, v { t with ptrace := x } = v t)
    (h3 : ∀ t x, v { t with parent := x } = v t)
    (h4 : ∀ t x, v { t with children := x } = v t)
    (k : Kernel) (father reaper c : Nat) :
    (handed_on k father reaper c).view v = k.view v := by
  unfold handed_on
  rw [reparent_thread_untraced, view_reparent_orphan, view_reparent_notify h1,
    view_reparent_move h2 h3 h4, view_reparent_signals h1, view_set_real_parent h0]

lemma real_parent_signals (k : Kernel) (reaper c : Nat) :
    ((reparent_signals (k.set_real_parent c reaper) c).tasks c).real_parent = reaper := by
  have h1 := congrFun (view_reparent_signals (v := task_struct.real_parent) (fun _ _ => rfl)
    (k.set_real_parent c reaper) c) c
  have h2 := congrFun (view_setTask_gen task_struct.real_parent k c
    { k.tasks c with real_parent := reaper }) c
  unfold Kernel.view at h1 h2
  rw [h1]
  unfold Kernel.set_real_parent
  rw [h2]
  simp

lemma children_handed_on (k : Kernel) (father reaper c : Nat) :
    (handed_on k father reaper c).view task_struct.children
      = fun t =>
          if t = reaper then (k.view task_struct.children t).filter (fun q => q ≠ c) ++ [c]
          else (k.view task_struct.children t).filter (fun q => q ≠ c) := by
  unfold handed_on
  rw [reparent_thread_untraced, view_reparent_orphan,
    view_reparent_notify (v := task_struct.children) (fun _ _ => rfl),
    children_reparent_move, real_parent_signals,
    view_reparent_signals (v := task_struct.children) (fun _ _ => rfl),
    view_set_real_parent (v := task_struct.children) (fun _ _ => rfl)]

lemma parent_handed_on (k : Kernel) (father reaper c : Nat) :
    (handed_on k father reaper c).view task_struct.parent
      = fun q => if q = c then reaper else k.view task_struct.parent q := by
  unfold handed_on
  rw [reparent_thread_untraced, view_reparent_orphan,
    view_reparent_notify (v := task_struct.parent) (fun _ _ => rfl),
    parent_reparent_move, real_parent_signals,
    view_reparent_signals (v := task_struct.parent) (fun _ _ => rfl),
    view_set_real_parent (v := task_struct.parent) (fun _ _ => rfl)]

lemma ptrace_handed_on (k : Kernel) (father reaper c : Nat) :
    (handed_on k father reaper c).view task_struct.ptrace
      = fun q => if q = c then 0 else k.view task_struct.ptrace q := by
  unfold handed_on
  rw [reparent_thread_untraced, view_reparent_orphan,
    view_reparent_notify (v := task_struct.ptrace) (fun _ _ => rfl),
    ptrace_reparent_move,
    view_reparent_signals (v := task_struct.ptrace) (fun _ _ => rfl),
    view_set_real_parent (v := task_struct.ptrace) (fun _ _ => rfl)]

lemma real_parent_handed_on (k : Kernel) (father reaper c : Nat) :
    (handed_on k father reaper c).view task_struct.real_parent
      = fun q => if q = c then reaper else k.view task_struct.real_parent q := by
  unfold handed_on
  rw [reparent_thread_untraced, view_reparent_orphan,
    view_reparent_notify (v := task_struct.real_parent) (fun _ _ => rfl),
    view_reparent_move (v := task_struct.real_parent) (fun _ _ => rfl) (fun _ _ => rfl)
      (fun _ _ => rfl),
    view_reparent_signals (v := task_struct.real_parent) (fun _ _ => rfl)]
  unfold Kernel.set_real_parent
  rw [view_setTask_gen]

/-- The body of the first loop of `forget_original_parent` on an untraced
child of `father` passes its checks and hands the child on. -/
lemma forget_child_untraced (k : Kernel) (father reaper c : Nat) (tr : List Nat)
    (hrp : (k.tasks c).real_parent = father) (hp : (k.tasks c).parent = father)
    (hpt : (k.tasks c).ptrace = 0) (hne : c ≠ reaper) (hfr : father ≠ reaper)
    (hlive : ¬ (k.tasks reaper).exit_state ≥ EXIT_ZOMBIE) :
    forget_child k father reaper tr c = .ok (handed_on k father reaper c, tr) := by
  have hb1 : BUG_ON (father != (k.tasks c).real_parent && (k.tasks c).ptrace == 0) 697 k
      = .ok () := by
    rw [BUG_ON_eq_ok]
    simp [hrp]
  have hb2 : BUG_ON (c == reaper || decide ((k.tasks reaper).exit_state ≥ EXIT_ZOMBIE)) 594 k
      = .ok () := by
    rw [BUG_ON_eq_ok]
    simp [hne, hlive]
  have hpar : ((k.set_real_parent c reaper).tasks c).parent = father := by
    have := congrFun (view_set_real_parent (v := task_struct.parent) (fun _ _ => rfl) k c reaper) c
    unfold Kernel.view at this
    rw [this, hp]
  have hrpar : ((k.set_real_parent c reaper).tasks c).real_parent = reaper := by
    have := congrFun (view_setTask_gen task_struct.real_parent k c
      { k.tasks c with real_parent := reaper }) c
    unfold Kernel.view at this
    unfold Kernel.set_real_parent
    rw [this]
    simp
  have hb3 : BUG_ON (((k.set_real_parent c reaper).tasks c).parent
      == ((k.set_real_parent c reaper).tasks c).real_parent) 597 (k.set_real_parent c reaper)
      = .ok () := by
    rw [BUG_ON_eq_ok, hpar, hrpar]
    simp [hfr]
  have hc : choose_new_parent k c reaper = .ok (k.set_real_parent c reaper) := by
    unfold choose_new_parent
    rw [hb2, hb3]
    rfl
  have hr : forget_child_reparent k father reaper c = .ok (handed_on k father reaper c) := by
    unfold forget_child_reparent
    rw [if_pos hrp.symm, hc]
    rfl
  unfold forget_child
  rw [hb1, hr]
  simp [hpt, bind, Except.bind, pure, Except.pure]

lemma filter_ne_of_not_mem (l : List Nat) (c : Nat) (h : c ∉ l) :
    l.filter (fun q => q ≠ c) = l := by
  rw [List.filter_eq_self]
  intro a ha
  have : a ≠ c := fun e => h (e ▸ ha)
  simpa using this

/-- The first loop of `forget_original_parent` over untraced children of
`father`: every child is handed on to the reaper, and the list of `father`
is empty at the end. -/
lemma forget_children_untraced (father reaper : Nat) (tr : List Nat) (hfr : father ≠ reaper) :
    ∀ (rem : List Nat) (k : Kernel) (done : List Nat),
      rem.Nodup → reaper ∉ rem → ¬ (k.tasks reaper).exit_state ≥ EXIT_ZOMBIE →
      (k.tasks father).children = rem →
      (∀ c ∈ rem, (k.tasks c).ptrace = 0 ∧ (k.tasks c).real_parent = father
        ∧ (k.tasks c).parent = father) →
      (∀ d ∈ done, d ∉ rem ∧ (k.tasks d).parent = reaper ∧ (k.tasks d).real_parent = reaper
        ∧ d ∈ (k.tasks reaper).children) →
      ∃ k', forget_children father reaper rem k tr = .ok (k', tr) ∧
        (k'.tasks father).children = [] ∧
        (∀ d ∈ done ++ rem, (k'.tasks d).parent = reaper ∧ (k'.tasks d).real_parent = reaper
          ∧ d ∈ (k'.tasks reaper).children) ∧
        k'.view task_struct.ptrace_children = k.view task_struct.ptrace_children := by
  intro rem
  induction rem with
  | nil =>
    intro k done _ _ _ hch _ hdone
    refine ⟨k, rfl, hch, ?_, rfl⟩
    intro d hd
    rw [List.append_nil] at hd
    exact (hdone d hd).2
  | cons c rest ih =>
    intro k done hnd hR hlive hch hrem hdone
    rw [List.nodup_cons] at hnd
    have hc := hrem c (List.mem_cons_self _ _)
    have hcR : c ≠ reaper := fun e => hR (e ▸ List.mem_cons_self _ _)
    have hstep := forget_child_untraced k father reaper c tr hc.2.1 hc.2.2 hc.1 hcR hfr hlive
    have vch := children_handed_on k father reaper c
    have vpa := parent_handed_on k father reaper c
    have vrp := real_parent_handed_on k father reaper c
    have vpt := ptrace_handed_on k father reaper c
    have ves := view_handed_on (v := task_struct.exit_state) (fun _ _ => rfl) (fun _ _ => rfl)
      (fun _ _ => rfl) (fun _ _ => rfl) (fun _ _ => rfl) k father reaper c
    have vpc := view_handed_on (v := task_struct.ptrace_children) (fun _ _ => rfl)
      (fun _ _ => rfl) (fun _ _ => rfl) (fun _ _ => rfl) (fun _ _ => rfl) k father reaper c
    have chf : ((handed_on k father reaper c).tasks father).children = rest := by
      have := congrFun vch father
      unfold Kernel.view at this
      rw [this, if_neg hfr, hch]
      simp only [List.filter_cons, ne_eq, not_true_eq_false, decide_False, Bool.false_eq_true,
        if_false]
      exact filter_ne_of_not_mem rest c hnd.1
    have chR : ∀ d, d ≠ c → d ∈ (k.tasks reaper).children →
        d ∈ ((handed_on k father reaper c).tasks reaper).children := by
      intro d hdc hd
      have := congrFun vch reaper
      unfold Kernel.view at this
      rw [this, if_pos rfl]
      apply List.mem_append_left
      rw [List.mem_filter]
      exact ⟨hd, by simpa using hdc⟩
    have chc : c ∈ ((handed_on k father reaper c).tasks reaper).children := by
      have := congrFun vch reaper
      unfold Kernel.view at this
      rw [this, if_pos rfl]
      exact List.mem_append_right _ (List.mem_singleton_self c)
    have other : ∀ q, q ≠ c →
        ((handed_on k father reaper c).tasks q).parent = (k.tasks q).parent ∧
        ((handed_on k father reaper c).tasks q).real_parent = (k.tasks q).real_parent ∧
        ((handed_on k father reaper c).tasks q).ptrace = (k.tasks q).ptrace := by
      intro q hq
      have a := congrFun vpa q
      have b := congrFun vrp q
      have d := congrFun vpt q
      unfold Kernel.view at a b d
      rw [a, b, d, if_neg hq, if_neg hq, if_neg hq]
      exact ⟨rfl, rfl, rfl⟩
    have self : ((handed_on k father reaper c).tasks c).parent = reaper ∧
        ((handed_on k father reaper c).tasks c).real_parent = reaper := by
      have a := congrFun vpa c
      have b := congrFun vrp c
      unfold Kernel.view at a b
      rw [a, b, if_pos rfl, if_pos rfl]
      exact ⟨rfl, rfl⟩
    obtain ⟨k', hk', h1, h2, h3⟩ := ih (handed_on k father reaper c) (done ++ [c]) hnd.2
      (fun h => hR (List.mem_cons_of_mem _ h))
      (by
        have := congrFun ves reaper
        unfold Kernel.view at this
        rw [this]
        exact hlive)
      chf
      (by
        intro c' hc'
        have hne : c' ≠ c := fun e => hnd.1 (e ▸ hc')
        have o := other c' hne
        have r := hrem c' (List.mem_cons_of_mem _ hc')
        rw [o.1, o.2.1, o.2.2]
        exact ⟨r.1, r.2.1, r.2.2⟩)
      (by
        intro d hd
        rw [List.mem_append, List.mem_singleton] at hd
        rcases hd with hd | hd
        · have r := hdone d hd
          have hne : d ≠ c := fun e => r.1 (e ▸ List.mem_cons_self _ _)
          have o := other d hne
          rw [o.1, o.2.1]
          exact ⟨fun h => r.1 (List.mem_cons_of_mem _ h), r.2.1, r.2.2.1, chR d hne r.2.2.2⟩
        · subst hd
          exact ⟨hnd.1, self.1, self.2, chc⟩)
    refine ⟨k', ?_, h1, ?_, h3.trans vpc⟩
    · unfold forget_children
      rw [hstep]
      exact hk'
    · intro d hd
      apply h2
      simpa [List.append_assoc] using hd

/-- C7: for a single-threaded parent whose children are all untraced (with
the system reaper alive, distinct from the parent and not among its
children, and the child list free of repetitions), `forget_original_parent`
returns, every former child has `parent` and `real_parent` equal to
`child_reaper` and is on the reaper's `children` list, the `children` and
`ptrace_children` lists of the parent are empty, and `exit_notify` passes
the two `BUG_ON` checks that follow. -/
theorem forget_original_parent_untraced (k : Kernel) (father : Nat)
    (hsingle : thread_ring k father = [father])
    (hfr : father ≠ k.child_reaper)
    (hlive : ¬ (k.tasks k.child_reaper).exit_state ≥ EXIT_ZOMBIE)
    (hnd : (k.tasks father).children.Nodup)
    (hR : k.child_reaper ∉ (k.tasks father).children)
    (hun : ∀ c ∈ (k.tasks father).children, (k.tasks c).ptrace = 0
      ∧ (k.tasks c).real_parent = father ∧ (k.tasks c).parent = father)
    (hpc : (k.tasks father).ptrace_children = []) :
    ∃ k', forget_original_parent k father = .ok (k', []) ∧
      (∀ c ∈ (k.tasks father).children,
        (k'.tasks c).parent = k.child_reaper ∧ (k'.tasks c).real_parent = k.child_reaper
          ∧ c ∈ (k'.tasks k.child_reaper).children) ∧
      (k'.tasks father).children = [] ∧
      (k'.tasks father).ptrace_children = [] ∧
      ∃ r, exit_notify_notified k father = .ok r := by
  have hreaper : find_reaper k father = k.child_reaper := by
    unfold find_reaper
    rw [hsingle]
    rfl
  obtain ⟨k', hk', h1, h2, h3⟩ := forget_children_untraced father k.child_reaper [] hfr
    (k.tasks father).children k [] hnd hR hlive rfl hun (fun d hd => absurd hd (List.not_mem_nil d))
  have hpc' : (k'.tasks father).ptrace_children = [] := by
    have := congrFun h3 father
    unfold Kernel.view at this
    rw [this, hpc]
  have hfop : forget_original_parent k father = .ok (k', []) := by
    unfold forget_original_parent
    simp only [hreaper]
    rw [hk']
    show (forget_ptrace_children father k.child_reaper (k'.tasks father).ptrace_children k'
      >>= fun k2 => pure (k2, [])) = _
    rw [hpc']
    rfl
  refine ⟨k', hfop, ?_, h1, hpc', ?_⟩
  · intro c hc
    exact h2 c (by simpa using hc)
  · have hempty : thread_group_empty k father = true := by
      unfold thread_group_empty next_thread
      rw [hsingle]
      simp
    refine ⟨(exit_notify_signal (exit_notify_orphan k' father) father, []), ?_⟩
    have hw : exit_notify_woken k father = k := by
      unfold exit_notify_woken
      simp only [hempty, not_true_eq_false, and_false, if_false]
    unfold exit_notify_notified
    rw [hw, hfop]
    have b1 : BUG_ON (!(k'.tasks father).children.isEmpty) 782 k' = .ok () := by
      rw [BUG_ON_eq_ok, h1]
      rfl
    have b2 : BUG_ON (!(k'.tasks father).ptrace_children.isEmpty) 783 k' = .ok () := by
      rw [BUG_ON_eq_ok, hpc']
      rfl
    show (BUG_ON (!(k'.tasks father).children.isEmpty) 782 k' >>= fun _ =>
      BUG_ON (!(k'.tasks father).ptrace_children.isEmpty) 783 k' >>= fun _ =>
        pure (exit_notify_signal (exit_notify_orphan k' father) father, [])) = _
    rw [b1, b2]
    rfl

/-- Witness for C7: the shell of the small system hands its two children
on to init. -/
theorem forget_original_parent_untraced_witness :
    thread_ring demo 2 = [2] ∧ 2 ≠ demo.child_reaper ∧
    (demo.tasks 2).children = [3, 4] ∧
    ∃ k', forget_original_parent demo 2 = .ok (k', []) ∧
      (∀ c ∈ (demo.tasks 2).children,
        (k'.tasks c).parent = demo.child_reaper ∧ (k'.tasks c).real_parent = demo.child_reaper
          ∧ c ∈ (k'.tasks demo.child_reaper).children) ∧
      (k'.tasks 2).children = [] ∧
      (k'.tasks 2).ptrace_children = [] ∧
      ∃ r, exit_notify_notified demo 2 = .ok r :=
  ⟨by decide, by decide, by decide,
    forget_original_parent_untraced demo 2 (by decide) (by decide) (by decide) (by decide)
      (by decide) (by decide) (by decide)⟩

lemma quiet_setTask (k : Kernel) (G : Int) (p : Nat) (t : task_struct)
    (h : t.signal = (k.tasks p).signal) : (k.setTask p t).quiet G = k.quiet G := by
  unfold Kernel.quiet
  rw [view_setTask task_struct.signal k p t h]
  rfl

lemma sent_to_append (l1 l2 : List Event) (G : Int) :
    sent_to (l1 ++ l2) G = sent_to l1 G ++ sent_to l2 G := by
  simp [sent_to]

lemma quiet_call (k : Kernel) (G : Int) (f : Callee) (a b : Int) (h : f ≠ .__kill_pg_info) :
    (k.call f a b).quiet G = k.quiet G := by
  unfold Kernel.quiet Kernel.call
  simp only [sent_to_append]
  have : sent_to [{ fn := f, a := a, b := b }] G = [] := by
    simp [sent_to, h]
  rw [this, List.append_nil]
  rfl

lemma quiet_kill_ne (k : Kernel) (G : Int) (sig pgrp : Int) (h : pgrp ≠ G) :
    (__kill_pg_info k sig pgrp).quiet G = k.quiet G := by
  unfold Kernel.quiet __kill_pg_info Kernel.call
  simp only [sent_to_append]
  have : sent_to [{ fn := .__kill_pg_info, a := sig, b := pgrp }] G = [] := by
    simp [sent_to, h]
  rw [this, List.append_nil]
  rfl

lemma process_group_of_quiet {k k' : Kernel} {G : Int} (h : k'.quiet G = k.quiet G) (q : Nat) :
    process_group k' q = process_group k q := by
  have h1 : k'.signals = k.signals := congrArg (fun x => x.1) h
  have h2 : k'.view task_struct.signal = k.view task_struct.signal :=
    congrArg (fun x => x.2.1) h
  have h3 := congrFun h2 q
  unfold Kernel.view at h3
  unfold process_group Kernel.sig
  rw [h1, h3]

lemma quiet_set_children (k : Kernel) (G : Int) (p : Nat) (x) :
    (k.set_children p x).quiet G = k.quiet G :=
  quiet_setTask k G p _ rfl

lemma quiet_set_ptrace_children (k : Kernel) (G : Int) (p : Nat) (x) :
    (k.set_ptrace_children p x).quiet G = k.quiet G :=
  quiet_setTask k G p _ rfl

lemma quiet_set_exit_signal (k : Kernel) (G : Int) (p : Nat) (x) :
    (k.set_exit_signal p x).quiet G = k.quiet G :=
  quiet_setTask k G p _ rfl

lemma quiet_set_exit_state (k : Kernel) (G : Int) (p : Nat) (x) :
    (k.set_exit_state p x).quiet G = k.quiet G :=
  quiet_setTask k G p _ rfl

lemma quiet_set_flags (k : Kernel) (G : Int) (p : Nat) (x) :
    (k.set_flags p x).quiet G = k.quiet G :=
  quiet_setTask k G p _ rfl

lemma quiet_set_ptrace (k : Kernel) (G : Int) (p : Nat) (x) :
    (k.set_ptrace p x).quiet G = k.quiet G :=
  quiet_setTask k G p _ rfl

lemma quiet_set_parent (k : Kernel) (G : Int) (p : Nat) (x) :
    (k.set_parent p x).quiet G = k.quiet G :=
  quiet_setTask k G p _ rfl

lemma quiet_set_real_parent (k : Kernel) (G : Int) (p : Nat) (x) :
    (k.set_real_parent p x).quiet G = k.quiet G :=
  quiet_setTask k G p _ rfl

lemma quiet_set_usage (k : Kernel) (G : Int) (p : Nat) (x) :
    (k.set_usage p x).quiet G = k.quiet G :=
  quiet_setTask k G p _ rfl

lemma quiet_set_sigpending (k : Kernel) (G : Int) (p : Nat) (x) :
    (k.set_sigpending p x).quiet G = k.quiet G :=
  quiet_setTask k G p _ rfl

lemma quiet_set_it_virt_value (k : Kernel) (G : Int) (p : Nat) (x) :
    (k.set_it_virt_value p x).quiet G = k.quiet G :=
  quiet_setTask k G p _ rfl

lemma quiet_set_it_prof_value (k : Kernel) (G : Int) (p : Nat) (x) :
    (k.set_it_prof_value p x).quiet G = k.quiet G :=
  quiet_setTask k G p _ rfl

lemma quiet_remove_parent (k : Kernel) (G : Int) (p : Nat) :
    (remove_parent k p).quiet G = k.quiet G := rfl

lemma quiet_ptrace_list_del (k : Kernel) (G : Int) (p : Nat) :
    (ptrace_list_del k p).quiet G = k.quiet G := rfl

lemma quiet_add_parent (k : Kernel) (G : Int) (p parent : Nat) :
    (add_parent k p parent).quiet G = k.quiet G :=
  quiet_set_children _ _ _ _

lemma quiet_ptrace_list_add (k : Kernel) (G : Int) (p h : Nat) :
    (ptrace_list_add k p h).quiet G = k.quiet G :=
  quiet_set_ptrace_children _ _ _ _

lemma quiet_REMOVE_LINKS (k : Kernel) (G : Int) (p : Nat) :
    (REMOVE_LINKS k p).quiet G = k.quiet G := by
  unfold REMOVE_LINKS
  dsimp only
  rw [quiet_remove_parent]
  split_ifs <;> rfl

lemma quiet_SET_LINKS (k : Kernel) (G : Int) (p : Nat) :
    (SET_LINKS k p).quiet G = k.quiet G := by
  unfold SET_LINKS
  dsimp only
  rw [quiet_add_parent]
  split_ifs <;> rfl

lemma quiet_detach_pid (k : Kernel) (G : Int) (p : Nat) (ty : pid_type) :
    (detach_pid k p ty).quiet G = k.quiet G := rfl

lemma quiet_do_notify_parent (k : Kernel) (G : Int) (p : Nat) (sig : Int) :
    (do_notify_parent k p sig).quiet G = k.quiet G := by
  unfold do_notify_parent
  dsimp only
  split_ifs
  · rw [quiet_set_exit_signal, quiet_call _ _ _ _ _ (by decide)]
  · rw [quiet_call _ _ _ _ _ (by decide)]

lemma quiet_put_task_struct (k : Kernel) (G : Int) (p : Nat) :
    (put_task_struct k p).quiet G = k.quiet G := by
  unfold put_task_struct
  dsimp only
  split_ifs
  · rw [quiet_call _ _ _ _ _ (by decide), quiet_set_usage]
  · rw [quiet_set_usage]

lemma quiet_ptrace_unlinked (k : Kernel) (G : Int) (p : Nat) :
    (ptrace_unlinked k p).quiet G = k.quiet G := by
  unfold ptrace_unlinked
  dsimp only
  split_ifs <;>
    simp only [quiet_call _ _ _ _ _ (show Callee.ptrace_untrace ≠ .__kill_pg_info by decide),
      quiet_SET_LINKS, quiet_set_parent, quiet_REMOVE_LINKS, quiet_ptrace_list_del,
      quiet_set_ptrace]

lemma quiet___ptrace_unlink {k k' : Kernel} {p : Nat} (G : Int)
    (h : __ptrace_unlink k p = .ok k') : k'.quiet G = k.quiet G := by
  unfold __ptrace_unlink at h
  simp only [bind_eq_ok, BUG_ON_eq_ok, pure_eq_ok] at h
  obtain ⟨_, _, h⟩ := h
  subst h
  exact quiet_ptrace_unlinked k G p

lemma quiet___unhash_process (k : Kernel) (G : Int) (p : Nat) :
    (__unhash_process k p).quiet G = k.quiet G := by
  unfold __unhash_process
  dsimp only
  rw [quiet_REMOVE_LINKS]
  split_ifs <;> rfl

lemma quiet_release_thread {k k' : Kernel} {p : Nat} (G : Int)
    (h : release_thread k p = .ok k') : k'.quiet G = k.quiet G := by
  unfold release_thread at h
  simp only [bind_eq_ok, BUG_ON_eq_ok, pure_eq_ok] at h
  obtain ⟨_, _, h⟩ := h
  subst h
  exact quiet_call _ _ _ _ _ (by decide)

lemma quiet_release_task_leader {k : Kernel} {p : Nat} {r : Kernel × Bool} (G : Int)
    (h : release_task_leader k p = .ok r) : r.1.quiet G = k.quiet G := by
  unfold release_task_leader at h
  split_ifs at h
  · simp only [bind_eq_ok, BUG_ON_eq_ok, pure_eq_ok] at h
    obtain ⟨_, _, h⟩ := h
    subst h
    exact quiet_do_notify_parent _ _ _ _
  · simp only [pure_eq_ok] at h
    subst h
    rfl

lemma quiet_release_task_pass {k : Kernel} {p : Nat} {r : Kernel × Nat × Bool} (G : Int)
    (h : release_task_pass k p = .ok r) : r.1.quiet G = k.quiet G := by
  unfold release_task_pass at h
  simp only [bind_eq_ok, BUG_ON_eq_ok, pure_eq_ok] at h
  obtain ⟨k2, hk2, _, _, r1, hr1, k7, hk7, h⟩ := h
  subst h
  have e2 : k2.quiet G = k.quiet G := by
    split_ifs at hk2
    · rw [quiet___ptrace_unlink G hk2]; rfl
    · simp only [pure_eq_ok] at hk2
      subst hk2
      rfl
  simp only [quiet_put_task_struct, quiet_release_thread G hk7,
    quiet_call _ _ _ _ _ (show Callee.sched_exit ≠ .__kill_pg_info by decide),
    quiet_call _ _ _ _ _ (show Callee.proc_pid_flush ≠ .__kill_pg_info by decide),
    quiet_call _ _ _ _ _ (show Callee.__exit_signal ≠ .__kill_pg_info by decide),
    quiet_call _ _ _ _ _ (show Callee.__exit_sighand ≠ .__kill_pg_info by decide),
    quiet_release_task_leader G hr1, quiet___unhash_process, e2]

lemma quiet_release_task (G : Int) (fuel : Nat) :
    ∀ {k k' : Kernel} {p : Nat}, release_task fuel k p = .ok k' → k'.quiet G = k.quiet G := by
  induction fuel with
  | zero =>
    intro k k' p h
    exact absurd h (throw_ne_ok _ _)
  | succ n ih =>
    intro k k' p h
    unfold release_task at h
    simp only [bind_eq_ok] at h
    obtain ⟨r, hr, h⟩ := h
    split_ifs at h
    · rw [ih h, quiet_release_task_pass G hr]
    · simp only [pure_eq_ok] at h
      subst h
      exact quiet_release_task_pass G hr

lemma quiet_release_ptrace_dead (G : Int) (fuel : Nat) :
    ∀ (l : List Nat) {k k' : Kernel}, release_ptrace_dead fuel l k = .ok k' →
      k'.quiet G = k.quiet G := by
  intro l
  induction l with
  | nil =>
    intro k k' h
    unfold release_ptrace_dead at h
    simp only [pure_eq_ok] at h
    subst h
    rfl
  | cons t rest ih =>
    intro k k' h
    unfold release_ptrace_dead at h
    simp only [bind_eq_ok] at h
    obtain ⟨a, ha, h⟩ := h
    rw [ih h, quiet_release_task G fuel ha]

lemma quiet_reparent_signals (k : Kernel) (G : Int) (p : Nat) :
    (reparent_signals k p).quiet G = k.quiet G := by
  unfold reparent_signals
  dsimp only
  split_ifs <;>
    simp only [quiet_call _ _ _ _ _ (show Callee.group_send_sig_info ≠ .__kill_pg_info by decide),
      quiet_set_exit_signal]

lemma quiet_reparent_traced (k : Kernel) (G : Int) (p : Nat) :
    (reparent_traced k p).quiet G = k.quiet G := by
  unfold reparent_traced
  split_ifs <;> simp only [quiet_ptrace_list_add, quiet_ptrace_list_del]

lemma quiet_reparent_move (k : Kernel) (G : Int) (p : Nat) :
    (reparent_move k p).quiet G = k.quiet G := by
  unfold reparent_move
  dsimp only
  rw [quiet_add_parent, quiet_set_parent, quiet_remove_parent, quiet_set_ptrace]

lemma quiet_reparent_notify (k : Kernel) (G : Int) (p : Nat) :
    (reparent_notify k p).quiet G = k.quiet G := by
  unfold reparent_notify
  split_ifs
  · exact quiet_do_notify_parent _ _ _ _
  · exact quiet_call _ _ _ _ _ (by decide)
  · rfl

lemma quiet_reparent_orphan (k : Kernel) (G : Int) (p father : Nat)
    (h : process_group k father = G) : (reparent_orphan k p father).quiet G = k.quiet G := by
  unfold reparent_orphan
  split_ifs with c1 c2
  · rw [quiet_kill_ne _ _ _ _ (h ▸ c1.1), quiet_kill_ne _ _ _ _ (h ▸ c1.1)]
  · rfl
  · rfl

lemma quiet_reparent_thread (k : Kernel) (G : Int) (p father : Nat) (traced : Bool)
    (h : process_group k father = G) :
    (reparent_thread k p father traced).quiet G = k.quiet G := by
  unfold reparent_thread
  have e : (if traced then reparent_traced (reparent_signals k p) p
      else reparent_notify (reparent_move (reparent_signals k p) p) p).quiet G = k.quiet G := by
    split_ifs
    · rw [quiet_reparent_traced, quiet_reparent_signals]
    · rw [quiet_reparent_notify, quiet_reparent_move, quiet_reparent_signals]
  rw [quiet_reparent_orphan _ _ _ _ ((process_group_of_quiet e father).trans h), e]

lemma quiet_choose_new_parent {k k' : Kernel} {p reaper : Nat} (G : Int)
    (h : choose_new_parent k p reaper = .ok k') : k'.quiet G = k.quiet G := by
  unfold choose_new_parent at h
  simp only [bind_eq_ok, BUG_ON_eq_ok, pure_eq_ok] at h
  obtain ⟨_, _, _, _, h⟩ := h
  subst h
  exact quiet_set_real_parent _ _ _ _

lemma quiet_renotify (k : Kernel) (G : Int) (p : Nat) :
    (renotify k p).quiet G = k.quiet G := by
  unfold renotify
  split_ifs
  · exact quiet_do_notify_parent _ _ _ _
  · rfl

lemma map_eq_ok {ε α β : Type} (x : Except ε α) (f : α → β) (b : β) :
    x.map f = .ok b ↔ ∃ a, x = .ok a ∧ f a = b := by
  cases x <;> simp [Except.map]

lemma quiet_forget_child_reparent {k k' : Kernel} {father reaper p : Nat} (G : Int)
    (hG : process_group k father = G)
    (h : forget_child_reparent k father reaper p = .ok k') : k'.quiet G = k.quiet G := by
  unfold forget_child_reparent at h
  split_ifs at h
  · rw [map_eq_ok] at h
    obtain ⟨a, ha, h⟩ := h
    subst h
    have e := quiet_choose_new_parent G ha
    rw [quiet_reparent_thread _ _ _ _ _ ((process_group_of_quiet e father).trans hG), e]
  · rw [map_eq_ok] at h
    obtain ⟨a, ha, h⟩ := h
    subst h
    rw [quiet_renotify, quiet___ptrace_unlink G ha]

lemma quiet_forget_child {k : Kernel} {father reaper p : Nat} {l : List Nat}
    {r : Kernel × List Nat} (G : Int) (hG : process_group k father = G)
    (h : forget_child k father reaper l p = .ok r) : r.1.quiet G = k.quiet G := by
  unfold forget_child at h
  simp only [bind_eq_ok, BUG_ON_eq_ok, pure_eq_ok] at h
  obtain ⟨_, _, k1, hk1, h⟩ := h
  subst h
  exact quiet_forget_child_reparent G hG hk1

lemma quiet_forget_children (father reaper : Nat) (G : Int) :
    ∀ (l : List Nat) {k : Kernel} {dead : List Nat} {r : Kernel × List Nat},
      process_group k father = G → forget_children father reaper l k dead = .ok r →
      r.1.quiet G = k.quiet G := by
  intro l
  induction l with
  | nil =>
    intro k dead r _ h
    unfold forget_children at h
    simp only [pure_eq_ok] at h
    subst h
    rfl
  | cons p rest ih =>
    intro k dead r hG h
    unfold forget_children at h
    simp only [bind_eq_ok] at h
    obtain ⟨a, ha, h⟩ := h
    have e := quiet_forget_child G hG ha
    rw [ih ((process_group_of_quiet e father).trans hG) h, e]

lemma quiet_forget_ptrace_children (father reaper : Nat) (G : Int) :
    ∀ (l : List Nat) {k k' : Kernel},
      process_group k father = G → forget_ptrace_children father reaper l k = .ok k' →
      k'.quiet G = k.quiet G := by
  intro l
  induction l with
  | nil =>
    intro k k' _ h
    unfold forget_ptrace_children at h
    simp only [pure_eq_ok] at h
    subst h
    rfl
  | cons p rest ih =>
    intro k k' hG h
    unfold forget_ptrace_children at h
    simp only [bind_eq_ok] at h
    obtain ⟨a, ha, h⟩ := h
    have e := quiet_choose_new_parent G ha
    have e2 := quiet_reparent_thread a G p father true ((process_group_of_quiet e father).trans hG)
    rw [ih ((process_group_of_quiet (e2.trans e) father).trans hG) h, e2, e]

lemma quiet_forget_original_parent {k : Kernel} {father : Nat} {r : Kernel × List Nat}
    (G : Int) (hG : process_group k father = G)
    (h : forget_original_parent k father = .ok r) : r.1.quiet G = k.quiet G := by
  unfold forget_original_parent at h
  simp only [bind_eq_ok, pure_eq_ok] at h
  obtain ⟨a, ha, k2, hk2, h⟩ := h
  subst h
  have e := quiet_forget_children father _ G _ hG ha
  rw [quiet_forget_ptrace_children father _ G _ ((process_group_of_quiet e father).trans hG) hk2,
    e]

lemma quiet_exit_notify_wake (G : Int) :
    ∀ (l : List Nat) (k : Kernel), (exit_notify_wake k l).quiet G = k.quiet G := by
  intro l
  induction l with
  | nil => intro k; rfl
  | cons t rest ih =>
    intro k
    unfold exit_notify_wake
    dsimp only
    split_ifs <;>
      simp only [ih, quiet_call _ _ _ _ _ (show Callee.signal_wake_up ≠ .__kill_pg_info by decide),
        quiet_call _ _ _ _ _
          (show Callee.recalc_sigpending_tsk ≠ .__kill_pg_info by decide),
        quiet_set_sigpending]

lemma quiet_exit_notify_woken (k : Kernel) (G : Int) (tsk : Nat) :
    (exit_notify_woken k tsk).quiet G = k.quiet G := by
  unfold exit_notify_woken
  split_ifs
  · exact quiet_exit_notify_wake _ _ _
  · rfl

lemma quiet_exit_notify_exit_signal (k : Kernel) (G : Int) (tsk : Nat) :
    (exit_notify_exit_signal k tsk).quiet G = k.quiet G := by
  unfold exit_notify_exit_signal
  dsimp only
  split_ifs
  · exact quiet_set_exit_signal _ _ _ _
  · rfl

lemma quiet_exit_notify_signal (k : Kernel) (G : Int) (tsk : Nat) :
    (exit_notify_signal k tsk).quiet G = k.quiet G := by
  unfold exit_notify_signal
  dsimp only
  split_ifs <;> simp only [quiet_do_notify_parent, quiet_exit_notify_exit_signal]

lemma will_become_orphaned_pgrp_loop_ne_zero (k : Kernel) (pgrp : Int) (ign : Nat) :
    ∀ l : List Nat, will_become_orphaned_pgrp_loop k pgrp ign l ≠ 0 ↔
      ∀ p ∈ l, p ≠ ign → (k.tasks p).exit_state = 0 →
        (k.tasks (k.tasks p).real_parent).pid ≠ 1 → ¬ outside_link k pgrp p := by
  intro l
  induction l with
  | nil => simp [will_become_orphaned_pgrp_loop]
  | cons p rest ih =>
    unfold will_become_orphaned_pgrp_loop
    split_ifs with c1 c2
    · rw [ih]
      constructor
      · intro h q hq
        rcases List.mem_cons.mp hq with e | e
        · subst e
          intro h1 h2 h3
          rcases c1 with c | c | c
          · exact absurd c h1
          · exact absurd h2 c
          · exact absurd c h3
        · exact h q e
      · intro h q hq
        exact h q (List.mem_cons_of_mem _ hq)
    · constructor
      · intro h
        exact absurd rfl h
      · intro h
        have c1' := not_or.mp c1
        have c1'' := not_or.mp c1'.2
        exact absurd c2 (h p (List.mem_cons_self _ _) c1'.1 (not_not.mp c1''.1) c1''.2)
    · rw [ih]
      constructor
      · intro h q hq
        rcases List.mem_cons.mp hq with e | e
        · subst e
          intro _ _ _
          exact c2
        · exact h q e
      · intro h q hq
        exact h q (List.mem_cons_of_mem _ hq)

lemma has_stopped_jobs_loop_ne_zero (k : Kernel) :
    ∀ l : List Nat, has_stopped_jobs_loop k l ≠ 0 ↔ ∃ p ∈ l, stopped_job k p := by
  intro l
  induction l with
  | nil => simp [has_stopped_jobs_loop]
  | cons p rest ih =>
    unfold has_stopped_jobs_loop
    split_ifs with c1 c2
    · rw [ih]
      constructor
      · rintro ⟨q, hq, h⟩
        exact ⟨q, List.mem_cons_of_mem _ hq, h⟩
      · rintro ⟨q, hq, h⟩
        rcases List.mem_cons.mp hq with e | e
        · subst e
          exact absurd h.1 c1
        · exact ⟨q, e, h⟩
    · rw [ih]
      constructor
      · rintro ⟨q, hq, h⟩
        exact ⟨q, List.mem_cons_of_mem _ hq, h⟩
      · rintro ⟨q, hq, h⟩
        rcases List.mem_cons.mp hq with e | e
        · subst e
          obtain ⟨_, h2⟩ := h
          rcases h2 with h2 | h2 | h2 | h2 | h2
          · exact absurd h2 c2.1
          · exact absurd h2 c2.2.1
          · exact absurd h2 c2.2.2.1
          · exact absurd h2 c2.2.2.2.1
          · exact absurd h2 c2.2.2.2.2
        · exact ⟨q, e, h⟩
    · constructor
      · intro _
        refine ⟨p, List.mem_cons_self _ _, not_not.mp c1, ?_⟩
        by_contra hn
        simp only [not_or] at hn
        exact c2 ⟨hn.1, hn.2.1, hn.2.2.1, hn.2.2.2.1, hn.2.2.2.2⟩
      · intro _
        decide

lemma sent_to_kill (k : Kernel) (sig G : Int) :
    sent_to (__kill_pg_info k sig G).log G = sent_to k.log G ++ [sig] := by
  unfold __kill_pg_info Kernel.call
  simp [sent_to]

/-- The orphaned-group check of `exit_notify` sends the two signals to the
group of `tsk` exactly under its four conditions. -/
lemma sent_exit_notify_orphan (k : Kernel) (tsk : Nat) :
    (outside_link k (process_group k tsk) tsk
      ∧ (∀ p ∈ tasks_of_pid k .PIDTYPE_PGID (process_group k tsk), p ≠ tsk →
          (k.tasks p).exit_state = 0 → (k.tasks (k.tasks p).real_parent).pid ≠ 1 →
          ¬ outside_link k (process_group k tsk) p)
      ∧ (∃ p ∈ tasks_of_pid k .PIDTYPE_PGID (process_group k tsk), stopped_job k p) →
        sent_to (exit_notify_orphan k tsk).log (process_group k tsk)
          = sent_to k.log (process_group k tsk) ++ [SIGHUP, SIGCONT])
    ∧ (¬ (outside_link k (process_group k tsk) tsk
      ∧ (∀ p ∈ tasks_of_pid k .PIDTYPE_PGID (process_group k tsk), p ≠ tsk →
          (k.tasks p).exit_state = 0 → (k.tasks (k.tasks p).real_parent).pid ≠ 1 →
          ¬ outside_link k (process_group k tsk) p)
      ∧ (∃ p ∈ tasks_of_pid k .PIDTYPE_PGID (process_group k tsk), stopped_job k p)) →
        exit_notify_orphan k tsk = k) := by
  have hw := will_become_orphaned_pgrp_loop_ne_zero k (process_group k tsk) tsk
    (tasks_of_pid k .PIDTYPE_PGID (process_group k tsk))
  have hs := has_stopped_jobs_loop_ne_zero k (tasks_of_pid k .PIDTYPE_PGID (process_group k tsk))
  constructor
  · rintro ⟨h1, h2, h3⟩
    unfold exit_notify_orphan
    dsimp only
    rw [if_pos ⟨h1.1, h1.2, hw.mpr h2, hs.mpr h3⟩, sent_to_kill, sent_to_kill,
      List.append_assoc]
    rfl
  · intro hn
    unfold exit_notify_orphan
    dsimp only
    rw [if_neg]
    rintro ⟨c1, c2, c3, c4⟩
    exact hn ⟨⟨c1, c2⟩, hw.mp c3, hs.mp c4⟩

lemma sent_to_of_quiet {k k' : Kernel} {G : Int} (h : k'.quiet G = k.quiet G) :
    sent_to k'.log G = sent_to k.log G :=
  congrArg (fun x => x.2.2) h

/-- Nothing that `exit_notify` does after the orphaned-group check sends a
signal to a process group. -/
lemma quiet_exit_notify_tail {fuel : Nat} {k k' : Kernel} {tsk : Nat} {r : Kernel × List Nat}
    (G : Int) (hr : exit_notify_notified k tsk = .ok r)
    (h : exit_notify fuel k tsk = .ok k') : k'.quiet G = r.1.quiet G := by
  unfold exit_notify at h
  simp only [bind_eq_ok, pure_eq_ok] at h
  obtain ⟨r', hr', k3, hk3, k4, hk4, h⟩ := h
  rw [hr] at hr'
  cases hr'
  subst h
  have e4 : k4.quiet G = k3.quiet G := by
    split_ifs at hk4
    · exact quiet_release_task G fuel hk4
    · simp only [pure_eq_ok] at hk4
      subst hk4
      rfl
  rw [quiet_set_flags, e4, quiet_release_ptrace_dead G fuel _ hk3, quiet_set_it_prof_value,
    quiet_set_it_virt_value, quiet_set_exit_state]

lemma ok_bind {ε α β : Type} (a : α) (f : α → Except ε β) :
    ((Except.ok a : Except ε α) >>= f) = f a := rfl

lemma bind_of_ok {ε α β : Type} {x : Except ε α} {a : α} (h : x = .ok a)
    (f : α → Except ε β) : (x >>= f) = f a := by
  rw [h]
  rfl

lemma Sub.refl (k : Kernel) : Sub k k :=
  ⟨rfl, fun _ => rfl, fun _ => rfl, fun _ => rfl, fun _ _ h => h, fun _ _ h => h,
    fun _ _ h => h⟩

lemma Sub.trans {a b c : Kernel} (h1 : Sub a b) (h2 : Sub b c) : Sub a c :=
  ⟨h2.current.trans h1.current, fun q => (h2.pid q).trans (h1.pid q),
    fun q => (h2.signal q).trans (h1.signal q), fun q => (h2.tgid q).trans (h1.tgid q),
    fun t q h => h1.children t q (h2.children t q h),
    fun t q h => h1.ptrace_children t q (h2.ptrace_children t q h),
    fun nr q h => h1.chain nr q (h2.chain nr q h)⟩

lemma sub_setTask (k : Kernel) (p : Nat) (t : task_struct)
    (h1 : t.pid = (k.tasks p).pid) (h2 : t.signal = (k.tasks p).signal)
    (h3 : t.tgid = (k.tasks p).tgid) (h4 : t.children = (k.tasks p).children)
    (h5 : t.ptrace_children = (k.tasks p).ptrace_children) : Sub k (k.setTask p t) := by
  refine ⟨rfl, fun q => ?_, fun q => ?_, fun q => ?_, fun u q h => ?_, fun u q h => ?_,
    fun _ _ h => h⟩
  · unfold Kernel.setTask
    dsimp only
    split_ifs with e
    · rw [h1, e]
    · rfl
  · unfold Kernel.setTask
    dsimp only
    split_ifs with e
    · rw [h2, e]
    · rfl
  · unfold Kernel.setTask
    dsimp only
    split_ifs with e
    · rw [h3, e]
    · rfl
  · unfold Kernel.setTask at h
    dsimp only at h
    split_ifs at h with e
    · rw [h4, ← e] at h
      exact h
    · exact h
  · unfold Kernel.setTask at h
    dsimp only at h
    split_ifs at h with e
    · rw [h5, ← e] at h
      exact h
    · exact h

lemma sub_set_state (k : Kernel) (p : Nat) (x : Int) : Sub k (k.set_state p x) :=
  sub_setTask k p _ rfl rfl rfl rfl rfl

lemma sub_set_exit_state (k : Kernel) (p : Nat) (x : Int) : Sub k (k.set_exit_state p x) :=
  sub_setTask k p _ rfl rfl rfl rfl rfl

lemma sub_set_usage (k : Kernel) (p : Nat) (x : Int) : Sub k (k.set_usage p x) :=
  sub_setTask k p _ rfl rfl rfl rfl rfl

lemma sub_of_fields {k k' : Kernel} (h1 : k'.tasks = k.tasks) (h2 : k'.current = k.current)
    (h3 : k'.pid_hash = k.pid_hash) : Sub k k' := by
  refine ⟨h2, fun _ => ?_, fun _ => ?_, fun _ => ?_, fun _ _ h => ?_, fun _ _ h => ?_,
    fun _ _ h => ?_⟩
  · rw [h1]
  · rw [h1]
  · rw [h1]
  · rw [h1] at h
    exact h
  · rw [h1] at h
    exact h
  · rw [h3] at h
    exact h

lemma sub_call (k : Kernel) (f : Callee) (a b : Int) : Sub k (k.call f a b) :=
  sub_of_fields rfl rfl rfl

lemma sub_setSignal (k : Kernel) (s : Nat) (v : signal_struct) : Sub k (k.setSignal s v) :=
  sub_of_fields rfl rfl rfl

lemma sub_put_user (k : Kernel) (x : Int) (a : Nat) : Sub k (put_user k x a).2 := by
  unfold put_user
  split_ifs
  · exact sub_of_fields rfl rfl rfl
  · exact Sub.refl k

lemma sub_put_user_if (r : Int × Kernel) (x : Int) (a : Nat) : Sub r.2 (put_user_if r x a).2 := by
  unfold put_user_if
  split_ifs
  · exact sub_put_user _ _ _
  · exact Sub.refl _

lemma sub_put_user_ifp (r : Int × Kernel) (ptr : Nat) (x : Int) (a : Nat) :
    Sub r.2 (put_user_ifp r ptr x a).2 := by
  unfold put_user_ifp
  split_ifs
  · exact sub_put_user _ _ _
  · exact Sub.refl _

lemma sub_getrusage_opt (k : Kernel) (p ru : Nat) : Sub k (getrusage_opt k p ru).2 := by
  unfold getrusage_opt getrusage
  split_ifs
  · exact sub_call _ _ _ _
  · exact sub_call _ _ _ _
  · exact Sub.refl _

lemma sub_put_task_struct (k : Kernel) (p : Nat) : Sub k (put_task_struct k p) := by
  unfold put_task_struct
  dsimp only
  split_ifs
  · exact (sub_set_usage _ _ _).trans (sub_call _ _ _ _)
  · exact sub_set_usage _ _ _

lemma sub_detach_pid (k : Kernel) (p : Nat) (ty : pid_type) : Sub k (detach_pid k p ty) := by
  refine ⟨rfl, fun _ => rfl, fun _ => rfl, fun _ => rfl, fun _ _ h => h, fun _ _ h => h,
    fun nr q h => ?_⟩
  unfold detach_pid at h
  dsimp only at h
  split_ifs at h with e
  · exact (List.mem_filter.mp h).1
  · exact h

lemma sub_remove_parent (k : Kernel) (p : Nat) : Sub k (remove_parent k p) :=
  ⟨rfl, fun _ => rfl, fun _ => rfl, fun _ => rfl, fun _ _ h => (List.mem_filter.mp h).1,
    fun _ _ h => h, fun _ _ h => h⟩

lemma sub_task_list (k : Kernel) (l : List Nat) : Sub k { k with task_list := l } :=
  sub_of_fields rfl rfl rfl

lemma sub_nr_threads (k : Kernel) (n : Int) : Sub k { k with nr_threads := n } :=
  sub_of_fields rfl rfl rfl

lemma sub_process_counts (k : Kernel) (n : Int) : Sub k { k with process_counts := n } :=
  sub_of_fields rfl rfl rfl

lemma sub_REMOVE_LINKS (k : Kernel) (p : Nat) : Sub k (REMOVE_LINKS k p) := by
  unfold REMOVE_LINKS
  dsimp only
  split_ifs
  · exact (sub_task_list k _).trans (sub_remove_parent _ p)
  · exact sub_remove_parent _ p

lemma sub___unhash_process (k : Kernel) (p : Nat) : Sub k (__unhash_process k p) := by
  unfold __unhash_process
  dsimp only
  refine Sub.trans ?_ (sub_REMOVE_LINKS _ p)
  have e3 := ((sub_nr_threads k (k.nr_threads - 1)).trans
    (sub_detach_pid _ p .PIDTYPE_PID)).trans (sub_detach_pid _ p .PIDTYPE_TGID)
  have e5 := (e3.trans (sub_detach_pid _ p .PIDTYPE_PGID)).trans (sub_detach_pid _ p .PIDTYPE_SID)
  split_ifs
  · exact e5.trans (sub_process_counts _ _)
  · exact e5
  · exact e3

lemma gone_remove_parent (k : Kernel) (p t : Nat) : p ∉ ((remove_parent k p).tasks t).children := by
  intro h
  have := (List.mem_filter.mp h).2
  simp at this

lemma gone_REMOVE_LINKS (k : Kernel) (p t : Nat) : p ∉ ((REMOVE_LINKS k p).tasks t).children := by
  unfold REMOVE_LINKS
  exact gone_remove_parent _ p t

lemma gone___unhash_process (k : Kernel) (p t : Nat) :
    p ∉ ((__unhash_process k p).tasks t).children := by
  unfold __unhash_process
  exact gone_REMOVE_LINKS _ p t

lemma mem_thread_ring (k : Kernel) (p t : Nat) :
    t ∈ thread_ring k p ↔
      if p ∈ k.pid_hash .PIDTYPE_TGID (k.tasks p).tgid then
        t ∈ k.pid_hash .PIDTYPE_TGID (k.tasks p).tgid
      else t = p := by
  unfold thread_ring
  dsimp only
  split_ifs with h
  · rw [List.mem_append, or_comm, ← List.mem_append, List.takeWhile_append_dropWhile]
  · exact List.mem_singleton

lemma self_mem_thread_ring (k : Kernel) (p : Nat) : p ∈ thread_ring k p := by
  rw [mem_thread_ring]
  split_ifs with h
  · exact h
  · rfl

lemma dropWhile_ne_head (p : Nat) :
    ∀ l : List Nat, p ∈ l → ∃ rest, l.dropWhile (fun q => decide (q ≠ p)) = p :: rest := by
  intro l
  induction l with
  | nil => intro h; exact absurd h (List.not_mem_nil _)
  | cons a l ih =>
    intro h
    by_cases e : a = p
    · subst e
      exact ⟨l, by simp [List.dropWhile]⟩
    · rcases List.mem_cons.mp h with h | h
      · exact absurd h.symm e
      · obtain ⟨rest, hr⟩ := ih h
        refine ⟨rest, ?_⟩
        rw [List.dropWhile_cons_of_pos (by simpa using e)]
        exact hr

lemma thread_ring_head (k : Kernel) (p : Nat) : ∃ rest, thread_ring k p = p :: rest := by
  unfold thread_ring
  dsimp only
  split_ifs with h
  · obtain ⟨rest, hr⟩ := dropWhile_ne_head p _ h
    exact ⟨rest ++ _, by rw [hr]; rfl⟩
  · exact ⟨[], rfl⟩

lemma sub_thread_ring {k k' : Kernel} (h : Sub k k') (t : Nat)
    (ht : t ∈ thread_ring k' k'.current) : t ∈ thread_ring k k.current := by
  rw [mem_thread_ring] at ht
  rw [h.current, h.tgid] at ht
  split_ifs at ht with c
  · rw [mem_thread_ring, if_pos (h.chain _ _ c)]
    exact h.chain _ _ ht
  · rw [ht]
    exact self_mem_thread_ring k _

lemma absent_on_sub {k k' : Kernel} (h : Sub k k') (L : List Nat) (pid : Int)
    (ha : absent_on L k pid) : absent_on L k' pid := by
  intro t ht
  obtain ⟨a1, a2, a3⟩ := ha t ht
  refine ⟨?_, fun q hq => ?_, fun q hq => ?_⟩
  · rw [h.signal, h.signal, h.current]
    exact a1
  · rw [h.pid]
    exact a2 q (h.children t q hq)
  · rw [h.pid]
    exact a3 q (h.ptrace_children t q hq)

lemma eligible_child_other (k : Kernel) (pid : Int) (o : Nat) (q : Nat) (hpid : 0 < pid)
    (h : (k.tasks q).pid ≠ pid) : eligible_child k pid o q = 0 := by
  unfold eligible_child
  rw [if_pos ⟨hpid, h⟩]

lemma do_wait_child_other (fuel : Nat) (k : Kernel) (w : WaitArgs) (flag : Bool) (q : Nat)
    (hpid : 0 < w.pid) (h : (k.tasks q).pid ≠ w.pid) :
    do_wait_child fuel k w flag q = .ok (k, .next flag) := by
  unfold do_wait_child
  rw [if_pos (eligible_child_other k w.pid w.options q hpid h)]
  rfl

lemma do_wait_children_skip (fuel : Nat) (w : WaitArgs) (k : Kernel) (hpid : 0 < w.pid) :
    ∀ (l : List Nat) (flag : Bool), (∀ q ∈ l, (k.tasks q).pid ≠ w.pid) →
      do_wait_children fuel w l k flag = .ok (k, .next flag) := by
  intro l
  induction l with
  | nil => intro flag _; rfl
  | cons q rest ih =>
    intro flag h
    unfold do_wait_children
    rw [bind_of_ok (do_wait_child_other fuel k w flag q hpid (h q (List.mem_cons_self _ _)))]
    exact ih flag fun q' hq' => h q' (List.mem_cons_of_mem _ hq')

lemma do_wait_ptrace_children_skip (w : WaitArgs) (k : Kernel) (hpid : 0 < w.pid) :
    ∀ l : List Nat, (∀ q ∈ l, (k.tasks q).pid ≠ w.pid) →
      do_wait_ptrace_children k w l = false := by
  intro l
  induction l with
  | nil => intro _; rfl
  | cons q rest ih =>
    intro h
    unfold do_wait_ptrace_children
    rw [if_pos (eligible_child_other k w.pid w.options q hpid (h q (List.mem_cons_self _ _)))]
    exact ih fun q' hq' => h q' (List.mem_cons_of_mem _ hq')

lemma BUG_ON_false (line : Nat) (k : Kernel) : BUG_ON false line k = .ok () := rfl

lemma do_wait_threads_skip (fuel : Nat) (w : WaitArgs) (k : Kernel) (hpid : 0 < w.pid) :
    ∀ ring : List Nat, absent_on ring k w.pid →
      do_wait_threads fuel w ring k false = .ok (k, .next false) := by
  intro ring
  induction ring with
  | nil => intro _; rfl
  | cons t rest ih =>
    intro h
    obtain ⟨a1, a2, a3⟩ := h t (List.mem_cons_self _ _)
    unfold do_wait_threads
    have hb : BUG_ON ((k.tasks t).signal != (k.tasks k.current).signal) 1607 k = .ok () := by
      rw [a1]
      simp [BUG_ON]
    rw [bind_of_ok hb, bind_of_ok (do_wait_children_skip fuel w k hpid _ false a2)]
    have hf : do_wait_thread_flag k w t false = false := by
      unfold do_wait_thread_flag
      simp [do_wait_ptrace_children_skip w k hpid _ a3]
    dsimp only
    rw [hf]
    split_ifs
    · rfl
    · exact ih fun t' ht' => h t' (List.mem_cons_of_mem _ ht')

lemma do_wait_end_sub (k : Kernel) (w : WaitArgs) (retval : Int) :
    Sub k (do_wait_end k w retval).1 := by
  have e2 : Sub k ((k.set_state k.current TASK_RUNNING).call .remove_wait_queue
      (k.set_state k.current TASK_RUNNING).current 0) :=
    (sub_set_state _ _ _).trans (sub_call _ _ _ _)
  unfold do_wait_end
  dsimp only
  split_ifs
  · exact e2
  · refine e2.trans ?_
    refine Sub.trans ?_ (sub_put_user_if _ _ _)
    refine Sub.trans ?_ (sub_put_user_if _ _ _)
    refine Sub.trans ?_ (sub_put_user_if _ _ _)
    refine Sub.trans ?_ (sub_put_user_if _ _ _)
    refine Sub.trans ?_ (sub_put_user_if _ _ _)
    exact sub_put_user_if (retval, _) _ _
  · exact e2

lemma do_wait_end_neg (k : Kernel) (w : WaitArgs) (retval : Int) (h : retval < 0) :
    (do_wait_end k w retval).2 = .ret retval := by
  unfold do_wait_end
  dsimp only
  split_ifs with c1 c2
  · exact absurd c2 (by omega)
  · have hne : retval ≠ 0 := by omega
    simp only [put_user_if, hne, if_false]
  · rfl

lemma do_wait_end_wait4 (k : Kernel) (w : WaitArgs) (retval : Int) (h : w.infop = 0) :
    (do_wait_end k w retval).2 = .ret retval := by
  unfold do_wait_end
  dsimp only
  rw [if_neg (by simp [h])]

lemma ECHILD_neg : -ECHILD < 0 := by decide

/-- A call of `do_wait` for a pid that no child of the caller's thread group
has returns `-ECHILD`. -/
lemma do_wait_absent (fuel : Nat) (k : Kernel) (w : WaitArgs) (hfuel : 0 < fuel)
    (hpid : 0 < w.pid) (h : absent_on (thread_ring k k.current) k w.pid) :
    ∃ k', do_wait fuel k w = .ok (k', .ret (-ECHILD)) ∧ Sub k k' := by
  obtain ⟨n, rfl⟩ := Nat.exists_eq_succ_of_ne_zero (Nat.pos_iff_ne_zero.mp hfuel)
  have s1 : Sub k (k.call .add_wait_queue k.current 0) := sub_call _ _ _ _
  have s2 : Sub k ((k.call .add_wait_queue k.current 0).set_state
      (k.call .add_wait_queue k.current 0).current TASK_INTERRUPTIBLE) :=
    s1.trans (sub_set_state _ _ _)
  have hs := do_wait_threads_skip (n + 1) w _ hpid
    (thread_ring (k.call .add_wait_queue k.current 0) (k.call .add_wait_queue k.current 0).current)
    (absent_on_sub s2 _ _ h)
  refine ⟨(do_wait_end ((k.call .add_wait_queue k.current 0).set_state
      (k.call .add_wait_queue k.current 0).current TASK_INTERRUPTIBLE) w (-ECHILD)).1, ?_,
    s2.trans (do_wait_end_sub _ _ _)⟩
  unfold do_wait do_wait_repeat
  rw [bind_of_ok hs]
  dsimp only
  unfold do_wait_after_scan
  simp only [Bool.false_eq_true, if_false]
  rw [← do_wait_end_neg _ w _ ECHILD_neg]
  rfl

lemma absent_after {k k' : Kernel} (h : Sub k k') (pid : Int)
    (ha : absent_on (thread_ring k k.current) k pid) :
    absent_on (thread_ring k' k'.current) k' pid := by
  intro t ht
  exact absent_on_sub h _ pid ha t (sub_thread_ring h t ht)

lemma wait_calls_absent (fuel : Nat) (pid : Int) (hfuel : 0 < fuel) (hpid : 0 < pid) :
    ∀ (ws : List WaitArgs) (k : Kernel), (∀ w ∈ ws, w.pid = pid) →
      absent_on (thread_ring k k.current) k pid →
      ∃ kf, wait_calls fuel ws k = .ok (ws.map fun _ => .ret (-ECHILD), kf) := by
  intro ws
  induction ws with
  | nil => intro k _ _; exact ⟨k, rfl⟩
  | cons w ws ih =>
    intro k hw ha
    have e := hw w (List.mem_cons_self _ _)
    obtain ⟨k', h1, h2⟩ := do_wait_absent fuel k w hfuel (e ▸ hpid) (e ▸ ha)
    obtain ⟨kf, h3⟩ := ih k' (fun w' hw' => hw w' (List.mem_cons_of_mem _ hw'))
      (absent_after h2 pid ha)
    refine ⟨kf, ?_⟩
    unfold wait_calls
    rw [bind_of_ok h1, bind_of_ok h3]
    rfl

lemma ptrace_list_empty_congr (k k' : Kernel) (p : Nat) (h1 : k'.procs = k.procs)
    (h2 : k'.view task_struct.ptrace_children = k.view task_struct.ptrace_children) :
    ptrace_list_empty k' p = ptrace_list_empty k p := by
  unfold ptrace_list_empty
  rw [h1]
  have : ∀ t, (k'.tasks t).ptrace_children = (k.tasks t).ptrace_children := fun t => congrFun h2 t
  simp only [this]

lemma linkFree_group_leader : LinkFree task_struct.group_leader :=
  ⟨fun _ _ => rfl, fun _ _ => rfl, fun _ _ => rfl, fun _ _ => rfl, fun _ _ => rfl,
    fun _ _ => rfl⟩

lemma linkFree_mm : LinkFree task_struct.mm :=
  ⟨fun _ _ => rfl, fun _ _ => rfl, fun _ _ => rfl, fun _ _ => rfl, fun _ _ => rfl,
    fun _ _ => rfl⟩

lemma release_task_leader_self (k : Kernel) (p : Nat) (h : (k.tasks p).group_leader = p) :
    release_task_leader k p = .ok (k, false) := by
  unfold release_task_leader
  rw [if_neg (fun c => c.1 h)]
  rfl

lemma release_thread_plain (k : Kernel) (p : Nat) (h : (k.tasks p).mm = 0) :
    release_thread k p = .ok (k.call .release_thread p 0) := by
  unfold release_thread
  rw [h]
  rfl

/-- One pass of `release_task` over a task that is not traced, traces no
one, leads its own thread group and has let go of its address space: the
pass ends the loop, and the task is on no child list afterwards. -/
lemma release_task_pass_plain (k : Kernel) (p : Nat) (hnt : (k.tasks p).ptrace = 0)
    (hpl : ptrace_list_empty k p = true) (hpc : (k.tasks p).ptrace_children = [])
    (hgl : (k.tasks p).group_leader = p) (hmm : (k.tasks p).mm = 0) :
    ∃ k', release_task_pass k p = .ok (k', p, false) ∧ Sub k k'
      ∧ ∀ t, p ∉ (k'.tasks t).children := by
  suffices h : ∀ r, release_task_pass k p = r → ∃ k', r = .ok (k', p, false) ∧ Sub k k'
      ∧ ∀ t, p ∉ (k'.tasks t).children by
    exact h _ rfl
  intro r h
  unfold release_task_pass at h
  dsimp only at h
  generalize hK : ({ k with user_processes := fun u =>
    if u = (k.tasks p).user then k.user_processes u - 1 else k.user_processes u } : Kernel)
      = k1 at h
  have e1 : k1.tasks = k.tasks := by rw [← hK]
  have e2 : k1.procs = k.procs := by rw [← hK]
  have s1 : Sub k k1 := sub_of_fields e1 (by rw [← hK]) (by rw [← hK])
  rw [if_neg (not_not.mpr hnt)] at h
  simp only [pure_bind] at h
  have hb : BUG_ON (!ptrace_list_empty k1 p || !(k1.tasks p).ptrace_children.isEmpty) 79 k1
        = .ok () := by
    rw [ptrace_list_empty_congr k k1 p e2 (by unfold Kernel.view; rw [e1]), hpl, e1, hpc]
    rfl
  rw [bind_of_ok hb] at h
  have g4 : ∀ v : task_struct → Nat, LinkFree v →
      v ((__unhash_process ((k1.call .__exit_signal p 0).call .__exit_sighand p 0) p).tasks p)
        = v (k.tasks p) := by
    intro v hv
    have := congrFun (view___unhash_process hv
      ((k1.call .__exit_signal p 0).call .__exit_sighand p 0) p) p
    unfold Kernel.view at this
    rw [this]
    show v (k1.tasks p) = _
    rw [e1]
  rw [bind_of_ok (release_task_leader_self _ p ((g4 _ linkFree_group_leader).trans hgl))] at h
  dsimp only at h
  rw [bind_of_ok (release_thread_plain ((((__unhash_process
    ((k1.call .__exit_signal p 0).call .__exit_sighand p 0) p).call .sched_exit p 0).call
    .proc_pid_flush p 0)) p ((g4 _ linkFree_mm).trans hmm)),
    g4 _ linkFree_group_leader, hgl] at h
  subst h
  refine ⟨_, rfl, ?_, fun t => ?_⟩
  · exact ((((((s1.trans (sub_call _ _ _ _)).trans (sub_call _ _ _ _)).trans
      (sub___unhash_process _ p)).trans (sub_call _ _ _ _)).trans (sub_call _ _ _ _)).trans
      (sub_call _ _ _ _)).trans (sub_put_task_struct _ p)
  · intro hm
    have s := ((sub_call (__unhash_process
      ((k1.call .__exit_signal p 0).call .__exit_sighand p 0) p) .sched_exit p 0).trans
      (sub_call _ .proc_pid_flush p 0)).trans ((sub_call _ .release_thread p 0).trans
      (sub_put_task_struct _ p))
    exact gone___unhash_process _ p t (s.children t p hm)

lemma release_task_plain (fuel : Nat) (k : Kernel) (p : Nat) (hfuel : 0 < fuel)
    (hnt : (k.tasks p).ptrace = 0) (hpl : ptrace_list_empty k p = true)
    (hpc : (k.tasks p).ptrace_children = []) (hgl : (k.tasks p).group_leader = p)
    (hmm : (k.tasks p).mm = 0) :
    ∃ k', release_task fuel k p = .ok k' ∧ Sub k k' ∧ ∀ t, p ∉ (k'.tasks t).children := by
  obtain ⟨n, rfl⟩ := Nat.exists_eq_succ_of_ne_zero (Nat.pos_iff_ne_zero.mp hfuel)
  obtain ⟨k', h1, h2, h3⟩ := release_task_pass_plain k p hnt hpl hpc hgl hmm
  refine ⟨k', ?_, h2, h3⟩
  unfold release_task
  rw [bind_of_ok h1]
  rfl

lemma wait_task_zombie_release_plain (fuel : Nat) (k : Kernel) (p : Nat) (hfuel : 0 < fuel)
    (hpar : (k.tasks p).real_parent = (k.tasks p).parent)
    (hnt : (k.tasks p).ptrace = 0) (hpl : ptrace_list_empty k p = true)
    (hpc : (k.tasks p).ptrace_children = []) (hgl : (k.tasks p).group_leader = p)
    (hmm : (k.tasks p).mm = 0) :
    ∃ k', wait_task_zombie_release fuel k p = .ok k' ∧ Sub k k'
      ∧ ∀ t, p ∉ (k'.tasks t).children := by
  obtain ⟨k', h1, h2, h3⟩ := release_task_plain fuel k p hfuel hnt hpl hpc hgl hmm
  refine ⟨k', ?_, h2, h3⟩
  have hu : wait_task_zombie_untrace k p = .ok (k, false) := by
    unfold wait_task_zombie_untrace
    rw [if_neg (not_not.mpr hpar)]
    rfl
  unfold wait_task_zombie_release
  rw [bind_of_ok hu]
  exact h1

lemma put_user_ifp_null (r : Int × Kernel) (x : Int) (a : Nat) : put_user_ifp r 0 x a = r := by
  unfold put_user_ifp
  simp

lemma wait_task_zombie_copyout_wait4 (k : Kernel) (p stat ru : Nat) :
    wait_task_zombie_copyout k p 0 stat ru
      = put_user_ifp (getrusage_opt k p ru) stat
          (wait_task_zombie_status (getrusage_opt k p ru).2 p) stat := by
  unfold wait_task_zombie_copyout
  simp [put_user_ifp_null]

lemma wait_task_zombie_copyout_tasks (k : Kernel) (p stat ru : Nat) :
    (wait_task_zombie_copyout k p 0 stat ru).2.tasks = k.tasks
      ∧ (wait_task_zombie_copyout k p 0 stat ru).2.procs = k.procs := by
  rw [wait_task_zombie_copyout_wait4]
  unfold put_user_ifp put_user getrusage_opt getrusage
  split_ifs <;> exact ⟨rfl, rfl⟩

lemma wait_task_zombie_copyout_fst (k : Kernel) (p stat ru : Nat)
    (hru : ru = 0 ∨ (k.umem ru).isSome = true)
    (hstat : stat = 0 ∨ (k.umem stat).isSome = true) :
    (wait_task_zombie_copyout k p 0 stat ru).1 = 0 := by
  rw [wait_task_zombie_copyout_wait4]
  have h0 : (getrusage_opt k p ru).1 = 0 := by
    unfold getrusage_opt getrusage
    rcases hru with h | h
    · simp [h]
    · rw [if_pos h]
      split_ifs <;> rfl
  unfold put_user_ifp
  split_ifs with c
  · unfold put_user
    rw [getrusage_opt_umem]
    rcases hstat with h | h
    · exact absurd h c.2
    · rw [if_pos h]
  · exact h0

lemma wait_task_zombie_copyout_sub (k : Kernel) (p stat ru : Nat) :
    Sub k (wait_task_zombie_copyout k p 0 stat ru).2 := by
  rw [wait_task_zombie_copyout_wait4]
  exact (sub_getrusage_opt k p ru).trans (sub_put_user_ifp _ _ _ _)

lemma wait_task_zombie_account_fields (k : Kernel) (p : Nat) :
    (wait_task_zombie_account k p).tasks = k.tasks
      ∧ (wait_task_zombie_account k p).procs = k.procs
      ∧ (wait_task_zombie_account k p).umem = k.umem
      ∧ (wait_task_zombie_account k p).current = k.current
      ∧ (wait_task_zombie_account k p).pid_hash = k.pid_hash := by
  unfold wait_task_zombie_account
  dsimp only
  split_ifs <;> exact ⟨rfl, rfl, rfl, rfl, rfl⟩

/-- The consuming path of `wait_task_zombie` for a child that is not traced:
the status is copied out, the child is released, and its pid is returned. -/
lemma wait_task_zombie_reap_plain (fuel : Nat) (k : Kernel) (p stat ru : Nat) (hfuel : 0 < fuel)
    (hes : (k.tasks p).exit_signal ≠ -1) (hpid : (k.tasks p).pid ≠ 0)
    (hpar : (k.tasks p).real_parent = (k.tasks p).parent)
    (hnt : (k.tasks p).ptrace = 0) (hpl : ptrace_list_empty k p = true)
    (hpc : (k.tasks p).ptrace_children = []) (hgl : (k.tasks p).group_leader = p)
    (hmm : (k.tasks p).mm = 0)
    (hru : ru = 0 ∨ (k.umem ru).isSome = true)
    (hstat : stat = 0 ∨ (k.umem stat).isSome = true) :
    ∃ k', wait_task_zombie_reap fuel k p 0 stat ru = .ok ((k.tasks p).pid, k') ∧ Sub k k'
      ∧ ∀ t, p ∉ (k'.tasks t).children := by
  obtain ⟨a1, a2, a3, a4, a5⟩ := wait_task_zombie_account_fields k p
  obtain ⟨c1, c2⟩ := wait_task_zombie_copyout_tasks (wait_task_zombie_account k p) p stat ru
  have hc := wait_task_zombie_copyout_fst (wait_task_zombie_account k p) p stat ru
    (by rw [a3]; exact hru) (by rw [a3]; exact hstat)
  have t3 : (wait_task_zombie_copyout (wait_task_zombie_account k p) p 0 stat ru).2.tasks
      = k.tasks := c1.trans a1
  obtain ⟨k', h1, h2, h3⟩ := wait_task_zombie_release_plain fuel
    (wait_task_zombie_copyout (wait_task_zombie_account k p) p 0 stat ru).2 p hfuel
    (by rw [t3]; exact hpar) (by rw [t3]; exact hnt)
    (by rw [ptrace_list_empty_congr k _ p (c2.trans a2) (by unfold Kernel.view; rw [t3])]; exact hpl)
    (by rw [t3]; exact hpc) (by rw [t3]; exact hgl) (by rw [t3]; exact hmm)
  refine ⟨k', ?_, ((sub_of_fields a1 a4 a5).trans (wait_task_zombie_copyout_sub _ p stat ru)).trans
    h2, h3⟩
  unfold wait_task_zombie_reap
  rw [if_neg (fun c => hes c.1), if_neg (not_not.mpr hc)]
  dsimp only
  rw [bind_of_ok h1, t3]
  have hb : BUG_ON ((k.tasks p).pid == 0) 1315 k' = .ok () := by
    simp [BUG_ON, hpid]
  rw [bind_of_ok hb]
  rfl

lemma wait_task_zombie_plain (fuel : Nat) (k : Kernel) (p stat ru : Nat) (hfuel : 0 < fuel)
    (hz : (k.tasks p).exit_state = EXIT_ZOMBIE)
    (hes : (k.tasks p).exit_signal ≠ -1) (hpid : (k.tasks p).pid ≠ 0)
    (hpar : (k.tasks p).real_parent = (k.tasks p).parent)
    (hnt : (k.tasks p).ptrace = 0) (hpl : ptrace_list_empty k p = true)
    (hpc : (k.tasks p).ptrace_children = []) (hgl : (k.tasks p).group_leader = p)
    (hmm : (k.tasks p).mm = 0)
    (hru : ru = 0 ∨ (k.umem ru).isSome = true)
    (hstat : stat = 0 ∨ (k.umem stat).isSome = true) :
    ∃ k', wait_task_zombie fuel k p false 0 stat ru = .ok ((k.tasks p).pid, k') ∧ Sub k k'
      ∧ ∀ t, p ∉ (k'.tasks t).children := by
  have hv : ∀ {α : Type} (v : task_struct → α), (∀ t x, v { t with exit_state := x } = v t) →
      v ((k.set_exit_state p EXIT_DEAD).tasks p) = v (k.tasks p) := by
    intro α v hv
    exact congrFun (view_set_exit_state hv k p EXIT_DEAD) p
  obtain ⟨k', h1, h2, h3⟩ := wait_task_zombie_reap_plain fuel (k.set_exit_state p EXIT_DEAD)
    p stat ru hfuel
    (by rw [hv task_struct.exit_signal fun _ _ => rfl]; exact hes)
    (by rw [hv task_struct.pid fun _ _ => rfl]; exact hpid)
    (by rw [hv task_struct.real_parent fun _ _ => rfl, hv task_struct.parent fun _ _ => rfl]
        exact hpar)
    (by rw [hv task_struct.ptrace fun _ _ => rfl]; exact hnt)
    (by rw [ptrace_list_empty_congr k (k.set_exit_state p EXIT_DEAD) p rfl
          (view_set_exit_state (v := task_struct.ptrace_children) (fun _ _ => rfl) k p _)]
        exact hpl)
    (by rw [hv task_struct.ptrace_children fun _ _ => rfl]; exact hpc)
    (by rw [hv task_struct.group_leader fun _ _ => rfl]; exact hgl)
    (by rw [hv task_struct.mm fun _ _ => rfl]; exact hmm)
    hru hstat
  rw [hv task_struct.pid fun _ _ => rfl] at h1
  refine ⟨k', ?_, (sub_set_exit_state k p _).trans h2, h3⟩
  unfold wait_task_zombie
  rw [if_neg Bool.false_ne_true, if_neg (not_not.mpr hz)]
  exact h1

lemma eligible_child_congr {k k' : Kernel} (pid : Int) (o : Nat) (p : Nat)
    (h1 : ∀ q, (k'.tasks q).pid = (k.tasks q).pid)
    (h2 : ∀ q, (k'.tasks q).tgid = (k.tasks q).tgid)
    (h3 : ∀ q, (k'.tasks q).signal = (k.tasks q).signal)
    (h4 : ∀ q, (k'.tasks q).exit_signal = (k.tasks q).exit_signal)
    (h5 : ∀ q, (k'.tasks q).ptrace = (k.tasks q).ptrace)
    (h6 : k'.signals = k.signals) (h7 : k'.current = k.current)
    (h8 : k'.pid_hash = k.pid_hash) (h9 : k'.security_task_wait = k.security_task_wait) :
    eligible_child k' pid o p = eligible_child k pid o p := by
  simp only [eligible_child, process_group, Kernel.sig, delay_group_leader, thread_group_leader,
    thread_group_empty, next_thread, thread_ring, h1, h2, h3, h4, h5, h6, h7, h8, h9]

lemma eligible_child_one (k : Kernel) (pid : Int) (o : Nat) (p : Nat)
    (h : eligible_child k pid o p = 1) (hnt : (k.tasks p).ptrace = 0) :
    (k.tasks p).exit_signal ≠ -1 := by
  intro c
  unfold eligible_child at h
  split_ifs at h
  all_goals first | exact absurd h (by decide) | tauto

/-- The body of the child loop of `do_wait` for a zombie child that the
caller may reap: the scan is left with the pid of the child. -/
lemma do_wait_child_zombie (fuel : Nat) (k : Kernel) (w : WaitArgs) (p : Nat) (hfuel : 0 < fuel)
    (hpid : (k.tasks p).pid ≠ 0)
    (hinfop : w.infop = 0) (hex : hasFlag w.options WEXITED = true)
    (hnw : hasFlag w.options WNOWAIT = false)
    (helig : eligible_child k w.pid w.options p = 1)
    (hst : (k.tasks p).state ≠ TASK_TRACED ∧ (k.tasks p).state ≠ TASK_STOPPED)
    (hz : (k.tasks p).exit_state = EXIT_ZOMBIE)
    (hpar : (k.tasks p).real_parent = (k.tasks p).parent)
    (hnt : (k.tasks p).ptrace = 0) (hpl : ptrace_list_empty k p = true)
    (hpc : (k.tasks p).ptrace_children = []) (hgl : (k.tasks p).group_leader = p)
    (hmm : (k.tasks p).mm = 0)
    (hru : w.ru = 0 ∨ (k.umem w.ru).isSome = true)
    (hstat : w.stat_addr = 0 ∨ (k.umem w.stat_addr).isSome = true) :
    ∃ k', (∀ flag, do_wait_child fuel k w flag p = .ok (k', .goto_end (k.tasks p).pid))
      ∧ Sub k k' ∧ ∀ t, p ∉ (k'.tasks t).children := by
  obtain ⟨k', h1, h2, h3⟩ := wait_task_zombie_plain fuel k p w.stat_addr w.ru hfuel hz
    (eligible_child_one k w.pid w.options p helig hnt) hpid hpar hnt hpl hpc hgl hmm hru hstat
  refine ⟨k', fun flag => ?_, h2, h3⟩
  unfold do_wait_child
  rw [helig, if_neg (by decide), if_neg (fun c => hst.1 c.1), if_neg (not_or.mpr hst),
    if_neg (by rw [hz]; decide), if_pos ⟨hz, by decide⟩, if_neg (not_not.mpr hex), hnw, hinfop,
    h1]
  simp [Except.map, after_wait_task, hpid]

lemma do_wait_children_hit (fuel : Nat) (w : WaitArgs) (k k' : Kernel) (p : Nat) (v : Int)
    (hpid : 0 < w.pid)
    (hit : ∀ flag, do_wait_child fuel k w flag p = .ok (k', .goto_end v)) :
    ∀ (l : List Nat) (flag : Bool), p ∈ l → (∀ q ∈ l, q ≠ p → (k.tasks q).pid ≠ w.pid) →
      do_wait_children fuel w l k flag = .ok (k', .goto_end v) := by
  intro l
  induction l with
  | nil => intro flag h; exact absurd h (List.not_mem_nil _)
  | cons q rest ih =>
    intro flag hm ho
    unfold do_wait_children
    by_cases e : q = p
    · rw [e, bind_of_ok (hit flag)]
      rfl
    · rw [bind_of_ok (do_wait_child_other fuel k w flag q hpid (ho q (List.mem_cons_self _ _) e))]
      rcases List.mem_cons.mp hm with h | h
      · exact absurd h.symm e
      · exact ih flag h fun q' hq' => ho q' (List.mem_cons_of_mem _ hq')

/-- The first consuming wait4-style call of `do_wait` for a zombie child that
the caller may reap returns the pid of the child, and leaves a state in which
no child of the caller's thread group has that pid. -/
lemma do_wait_reaps (fuel : Nat) (k : Kernel) (p : Nat) (w : WaitArgs)
    (hfuel : 0 < fuel) (hpid : 0 < w.pid) (hp : (k.tasks p).pid = w.pid)
    (hinfop : w.infop = 0) (hex : hasFlag w.options WEXITED = true)
    (hnw : hasFlag w.options WNOWAIT = false)
    (hchild : p ∈ (k.tasks k.current).children)
    (hring : ∀ t ∈ thread_ring k k.current, (k.tasks t).signal = (k.tasks k.current).signal)
    (huniq : ∀ t ∈ thread_ring k k.current,
      (∀ q ∈ (k.tasks t).children, q ≠ p → (k.tasks q).pid ≠ w.pid)
        ∧ (∀ q ∈ (k.tasks t).ptrace_children, (k.tasks q).pid ≠ w.pid))
    (hz : (k.tasks p).exit_state = EXIT_ZOMBIE)
    (hst : (k.tasks p).state ≠ TASK_TRACED ∧ (k.tasks p).state ≠ TASK_STOPPED)
    (helig : eligible_child k w.pid w.options p = 1)
    (hnt : (k.tasks p).ptrace = 0) (hpar : (k.tasks p).real_parent = (k.tasks p).parent)
    (hpl : ptrace_list_empty k p = true) (hpc : (k.tasks p).ptrace_children = [])
    (hgl : (k.tasks p).group_leader = p) (hmm : (k.tasks p).mm = 0)
    (hru : w.ru = 0 ∨ (k.umem w.ru).isSome = true)
    (hstat : w.stat_addr = 0 ∨ (k.umem w.stat_addr).isSome = true) :
    ∃ k', do_wait fuel k w = .ok (k', .ret w.pid)
      ∧ absent_on (thread_ring k' k'.current) k' w.pid := by
  obtain ⟨n, rfl⟩ := Nat.exists_eq_succ_of_ne_zero (Nat.pos_iff_ne_zero.mp hfuel)
  have hv : ∀ {α : Type} (v : task_struct → α), (∀ t x, v { t with state := x } = v t) →
      ∀ q, v (((k.call .add_wait_queue k.current 0).set_state k.current
        TASK_INTERRUPTIBLE).tasks q) = v (k.tasks q) := by
    intro α v hv q
    exact congrFun (view_set_state hv (k.call .add_wait_queue k.current 0) k.current
      TASK_INTERRUPTIBLE) q
  have s0 : Sub k ((k.call .add_wait_queue k.current 0).set_state k.current
      TASK_INTERRUPTIBLE) := (sub_call _ _ _ _).trans (sub_set_state _ _ _)
  have hst' : (((k.call .add_wait_queue k.current 0).set_state k.current
      TASK_INTERRUPTIBLE).tasks p).state ≠ TASK_TRACED
      ∧ (((k.call .add_wait_queue k.current 0).set_state k.current
        TASK_INTERRUPTIBLE).tasks p).state ≠ TASK_STOPPED := by
    have e : (((k.call .add_wait_queue k.current 0).set_state k.current
        TASK_INTERRUPTIBLE).tasks p).state
        = if p = k.current then TASK_INTERRUPTIBLE else (k.tasks p).state := by
      unfold Kernel.set_state Kernel.setTask
      dsimp only
      split_ifs <;> rfl
    rw [e]
    split_ifs
    · exact ⟨by decide, by decide⟩
    · exact hst
  obtain ⟨k1, h1, h2, h3⟩ := do_wait_child_zombie (n + 1)
    ((k.call .add_wait_queue k.current 0).set_state k.current TASK_INTERRUPTIBLE) w p hfuel
    (by rw [hv task_struct.pid fun _ _ => rfl, hp]; exact ne_of_gt hpid) hinfop hex hnw
    (by
      rw [eligible_child_congr w.pid w.options p (hv task_struct.pid fun _ _ => rfl)
        (hv task_struct.tgid fun _ _ => rfl) (hv task_struct.signal fun _ _ => rfl)
        (hv task_struct.exit_signal fun _ _ => rfl) (hv task_struct.ptrace fun _ _ => rfl)
        rfl rfl rfl rfl]
      exact helig)
    hst'
    (by rw [hv task_struct.exit_state fun _ _ => rfl]; exact hz)
    (by rw [hv task_struct.real_parent fun _ _ => rfl, hv task_struct.parent fun _ _ => rfl]
        exact hpar)
    (by rw [hv task_struct.ptrace fun _ _ => rfl]; exact hnt)
    (by rw [ptrace_list_empty_congr k ((k.call .add_wait_queue k.current 0).set_state k.current
          TASK_INTERRUPTIBLE) p rfl (by
          funext q
          exact hv task_struct.ptrace_children (fun _ _ => rfl) q)]
        exact hpl)
    (by rw [hv task_struct.ptrace_children fun _ _ => rfl]; exact hpc)
    (by rw [hv task_struct.group_leader fun _ _ => rfl]; exact hgl)
    (by rw [hv task_struct.mm fun _ _ => rfl]; exact hmm)
    hru hstat
  rw [hv task_struct.pid (fun _ _ => rfl) p, hp] at h1
  have hc := do_wait_children_hit (n + 1) w _ k1 p w.pid hpid h1
    (((k.call .add_wait_queue k.current 0).set_state k.current TASK_INTERRUPTIBLE).tasks
      k.current).children false
    (by rw [hv task_struct.children fun _ _ => rfl]; exact hchild)
    (by
      intro q hq hne
      rw [hv task_struct.children fun _ _ => rfl] at hq
      rw [hv task_struct.pid fun _ _ => rfl]
      exact (huniq k.current (self_mem_thread_ring k k.current)).1 q hq hne)
  have sF : Sub k (do_wait_end k1 w w.pid).1 := (s0.trans h2).trans (do_wait_end_sub _ _ _)
  refine ⟨(do_wait_end k1 w w.pid).1, ?_, ?_⟩
  · obtain ⟨rest, hr⟩ := thread_ring_head (k.call .add_wait_queue k.current 0) k.current
    unfold do_wait do_wait_repeat
    show (do_wait_threads (n + 1) w (thread_ring (k.call .add_wait_queue k.current 0) k.current)
      ((k.call .add_wait_queue k.current 0).set_state k.current TASK_INTERRUPTIBLE) false
        >>= _) = _
    rw [hr]
    unfold do_wait_threads
    have hb : BUG_ON ((((k.call .add_wait_queue k.current 0).set_state k.current
        TASK_INTERRUPTIBLE).tasks k.current).signal
        != (((k.call .add_wait_queue k.current 0).set_state k.current
          TASK_INTERRUPTIBLE).tasks ((k.call .add_wait_queue k.current 0).set_state k.current
            TASK_INTERRUPTIBLE).current).signal) 1607
        ((k.call .add_wait_queue k.current 0).set_state k.current TASK_INTERRUPTIBLE)
          = .ok () := by
      show BUG_ON (_ != (((k.call .add_wait_queue k.current 0).set_state k.current
          TASK_INTERRUPTIBLE).tasks k.current).signal) 1607 _ = _
      simp [BUG_ON]
    rw [bind_of_ok hb, bind_of_ok hc]
    dsimp only
    rw [← do_wait_end_wait4 k1 w w.pid hinfop]
    rfl
  · intro t ht
    have ht' := sub_thread_ring sF t ht
    refine ⟨?_, fun q hq => ?_, fun q hq => ?_⟩
    · rw [sF.signal, sF.signal, sF.current]
      exact hring t ht'
    · rw [sF.pid]
      refine (huniq t ht').1 q (sF.children t q hq) fun e => ?_
      rw [e] at hq
      exact h3 t ((do_wait_end_sub k1 w w.pid).children t p hq)
    · rw [sF.pid]
      exact (huniq t ht').2 q (sF.ptrace_children t q hq)

lemma handle_io_bitmap_fields (A : Arch) (next : thread_struct) (a : Nat) (tss : tss_struct) :
    (handle_io_bitmap A next a tss).io_bitmap_owner = tss.io_bitmap_owner
    ∧ (handle_io_bitmap A next a tss).io_bitmap = tss.io_bitmap
    ∧ (handle_io_bitmap A next a tss).io_bitmap_max = tss.io_bitmap_max
    ∧ (handle_io_bitmap A next a tss).io_bitmap_base =
      if next.io_bitmap_ptr = 0 then A.INVALID_IO_BITMAP_OFFSET
      else if a = tss.io_bitmap_owner then A.IO_BITMAP_OFFSET
      else A.INVALID_IO_BITMAP_OFFSET_LAZY := by
  unfold handle_io_bitmap
  split_ifs <;> exact ⟨rfl, rfl, rfl, rfl⟩

/-- The TSS that `__switch_to` leaves: `load_esp0` and, when one of the two
tasks owns an I/O bitmap, `handle_io_bitmap`. -/
lemma switch_to_tss (A : Arch) (cpu : Cpu) (prev_p next_p : task) :
    (__switch_to A cpu prev_p next_p).cpu.tss =
      if prev_p.thread.io_bitmap_ptr ≠ 0 ∨ next_p.thread.io_bitmap_ptr ≠ 0 then
        handle_io_bitmap A next_p.thread next_p.addr (load_esp0 cpu.tss next_p.thread)
      else load_esp0 cpu.tss next_p.thread := by
  unfold __switch_to __unlazy_fpu
  dsimp only
  split_ifs <;> rfl

/-- C20: `__switch_to` leaves the cached bitmap owner, the cached bitmap and
its length in the TSS as they were, and the bitmap base is unchanged when
neither task owns an I/O bitmap; otherwise it is `INVALID_IO_BITMAP_OFFSET`
when `next` owns none, `IO_BITMAP_OFFSET` when `next` is the cached owner,
and `INVALID_IO_BITMAP_OFFSET_LAZY` in the remaining case. -/
theorem switch_to_io_bitmap_base (A : Arch) (cpu : Cpu) (prev_p next_p : task) :
    (__switch_to A cpu prev_p next_p).cpu.tss.io_bitmap_owner = cpu.tss.io_bitmap_owner
    ∧ (__switch_to A cpu prev_p next_p).cpu.tss.io_bitmap = cpu.tss.io_bitmap
    ∧ (__switch_to A cpu prev_p next_p).cpu.tss.io_bitmap_max = cpu.tss.io_bitmap_max
    ∧ (__switch_to A cpu prev_p next_p).cpu.tss.io_bitmap_base =
      if prev_p.thread.io_bitmap_ptr = 0 ∧ next_p.thread.io_bitmap_ptr = 0 then
        cpu.tss.io_bitmap_base
      else if next_p.thread.io_bitmap_ptr = 0 then A.INVALID_IO_BITMAP_OFFSET
      else if next_p.addr = cpu.tss.io_bitmap_owner then A.IO_BITMAP_OFFSET
      else A.INVALID_IO_BITMAP_OFFSET_LAZY := by
  rw [switch_to_tss]
  by_cases c : prev_p.thread.io_bitmap_ptr = 0 ∧ next_p.thread.io_bitmap_ptr = 0
  · rw [if_neg (by rw [not_or, not_not, not_not]; exact c), if_pos c]
    exact ⟨rfl, rfl, rfl, rfl⟩
  · rw [if_pos (by rw [not_and_or] at c; exact c), if_neg c]
    exact handle_io_bitmap_fields A next_p.thread next_p.addr (load_esp0 cpu.tss next_p.thread)

/-- C13: `eligible_child` returns 0 for a child that the selector does not
match, and for a child that it matches it returns what it returns for the
same child and options with the selector -1. -/
theorem eligible_child_selector (k : Kernel) (pid : Int) (options : Nat) (p : Nat) :
    eligible_child k pid options p =
      if selector_matches k pid p then eligible_child k (-1) options p else 0 := by
  unfold eligible_child selector_matches
  by_cases h1 : pid > 0
  · by_cases h2 : (k.tasks p).pid = pid
    · have e1 : ¬ ((-1 : Int) > 0) := by decide
      simp [h1, h2, e1]
    · have h3 : pid ≠ 0 := by omega
      have h4 : ¬ pid < -1 := by omega
      have h5 : pid ≠ -1 := by omega
      simp [h1, h2, h3, h4, h5]
  · by_cases h0 : pid = 0
    · subst h0
      by_cases h2 : process_group k p = process_group k k.current
      · simp [h2]
      · simp [h2]
    · by_cases hm : pid = -1
      · subst hm
        simp
      · have h4 : pid < -1 := by omega
        by_cases h2 : process_group k p = -pid
        · simp [h1, h0, hm, h4, h2]
        · simp [h1, h0, hm, h4, h2]

lemma eligible_child_after_selector (k : Kernel) (pid : Int) (options : Nat) (p : Nat)
    (hm : selector_matches k pid p)
    (hnd : ¬ ((k.tasks p).exit_signal = -1 ∧ (k.tasks p).ptrace = 0)) :
    eligible_child k pid options p =
      if hasFlag options __WALL = false
          ∧ decide ((k.tasks p).exit_signal ≠ SIGCHLD) ≠ hasFlag options __WCLONE then 0
      else eligible_child_tail k p := by
  have e : eligible_child k (-1) options p =
      if hasFlag options __WALL = false
          ∧ decide ((k.tasks p).exit_signal ≠ SIGCHLD) ≠ hasFlag options __WCLONE then 0
      else eligible_child_tail k p := by
    unfold eligible_child eligible_child_tail
    have e1 : ¬ ((-1 : Int) > 0) := by decide
    rw [if_neg (fun c => e1 c.1), if_neg (fun c => absurd c.2.1 (by decide)),
      if_neg (fun c => c.2.2.1 rfl), if_neg hnd]
    by_cases c : hasFlag options __WALL = false
        ∧ decide ((k.tasks p).exit_signal ≠ SIGCHLD) ≠ hasFlag options __WCLONE
    · rw [if_pos c, if_pos]
      refine ⟨?_, by simp [c.1]⟩
      simpa using c.2
    · rw [if_neg c, if_neg]
      rintro ⟨c1, c2⟩
      refine c ⟨by simpa using c2, ?_⟩
      simpa using c1
  rw [eligible_child_selector, if_pos hm, e]

/-- C14, counterexample: the dead child of the small system reports with
`SIGCHLD`, the options hold neither `__WCLONE` nor `__WALL`, the selector -1
matches it and it is not a detached thread, so the clone-style test lets it
through; yet `eligible_child` returns 0, because the security hook denies
the wait. -/
theorem eligible_child_denied :
    selector_matches demo_denied (-1) 3
    ∧ ¬ ((demo_denied.tasks 3).exit_signal = -1 ∧ (demo_denied.tasks 3).ptrace = 0)
    ∧ hasFlag WEXITED __WALL = false
    ∧ decide ((demo_denied.tasks 3).exit_signal ≠ SIGCHLD) = hasFlag WEXITED __WCLONE
    ∧ eligible_child demo_denied (-1) WEXITED 3 = 0 := by
  decide

/-- C14, amended: for a child that the selector matches and that is not a
detached untraced thread, `eligible_child` returns 0 when `__WALL` is clear
and "the exit signal differs from `SIGCHLD`" is not equal to "`__WCLONE` is
set", and otherwise returns the value of the checks that follow (2 for a
delayed group leader, 0 when the security hook denies, 1 otherwise). So
with `__WALL` set the clone-style test rejects nothing, and when the checks
that follow do not give 0 the result is 0 exactly for the children the
clone-style test rejects. -/
theorem eligible_child_clone_filter (k : Kernel) (pid : Int) (options : Nat) (p : Nat)
    (hm : selector_matches k pid p)
    (hnd : ¬ ((k.tasks p).exit_signal = -1 ∧ (k.tasks p).ptrace = 0)) :
    (eligible_child k pid options p =
      if hasFlag options __WALL = false
          ∧ decide ((k.tasks p).exit_signal ≠ SIGCHLD) ≠ hasFlag options __WCLONE then 0
      else eligible_child_tail k p)
    ∧ (hasFlag options __WALL = true →
        eligible_child k pid options p = eligible_child_tail k p)
    ∧ (eligible_child_tail k p ≠ 0 →
        (eligible_child k pid options p = 0 ↔
          hasFlag options __WALL = false
            ∧ decide ((k.tasks p).exit_signal ≠ SIGCHLD) ≠ hasFlag options __WCLONE)) := by
  have e := eligible_child_after_selector k pid options p hm hnd
  refine ⟨e, fun hw => ?_, fun ht => ?_⟩
  · rw [e, if_neg]
    intro c
    rw [hw] at c
    exact absurd c.1 (by decide)
  · rw [e]
    split_ifs with c
    · exact ⟨fun _ => c, fun _ => rfl⟩
    · exact ⟨fun h => absurd h ht, fun h => absurd h c⟩

/-- Witness for C14: the clone-style child of the small system (exit signal
10) is rejected by a wait without `__WCLONE`, and accepted with it. -/
theorem eligible_child_clone_filter_witness :
    eligible_child demo_clone (-1) WEXITED 3 = 0
    ∧ eligible_child demo_clone (-1) (WEXITED ||| __WCLONE) 3 = 1 := by
  have h := eligible_child_clone_filter demo_clone (-1) WEXITED 3 (by decide) (by decide)
  have h' := eligible_child_clone_filter demo_clone (-1) (WEXITED ||| __WCLONE) 3 (by decide)
    (by decide)
  refine ⟨?_, ?_⟩
  · rw [h.1]
    decide
  · rw [h'.1]
    decide

lemma thread_group_empty_congr {k k' : Kernel} (p : Nat)
    (h2 : ∀ q, (k'.tasks q).tgid = (k.tasks q).tgid) (h8 : k'.pid_hash = k.pid_hash) :
    thread_group_empty k' p = thread_group_empty k p := by
  simp only [thread_group_empty, next_thread, thread_ring, h2, h8]

lemma exit_notify_exit_signal_fields (k : Kernel) (tsk : Nat) :
    (∀ q, (exit_notify_exit_signal k tsk).tasks q
        = { k.tasks q with
            exit_signal := ((exit_notify_exit_signal k tsk).tasks q).exit_signal })
    ∧ (∀ q, q ≠ tsk → ((exit_notify_exit_signal k tsk).tasks q).exit_signal
        = (k.tasks q).exit_signal)
    ∧ (exit_notify_exit_signal k tsk).pid_hash = k.pid_hash
    ∧ (exit_notify_exit_signal k tsk).log = k.log := by
  unfold exit_notify_exit_signal
  dsimp only
  split_ifs
  · refine ⟨fun q => ?_, fun q hq => ?_, rfl, rfl⟩
    · unfold Kernel.set_exit_signal Kernel.setTask
      dsimp only
      split_ifs with e
      · rw [e]
      · rfl
    · unfold Kernel.set_exit_signal Kernel.setTask
      dsimp only
      rw [if_neg hq]
  · exact ⟨fun q => rfl, fun q _ => rfl, rfl, rfl⟩

/-- C19, counterexample: a terminating task whose exit signal is -1 (not
`SIGCHLD`), whose `parent_exec_id` differs from its parent's `self_exec_id`
and whose caller lacks `CAP_KILL`: the exit-signal check leaves the exit
signal at -1, and so does the whole of `exit_notify`. -/
theorem exit_notify_keeps_detached :
    (demo_detached.tasks 4).exit_signal ≠ SIGCHLD
    ∧ (demo_detached.tasks 4).parent_exec_id
        ≠ (demo_detached.tasks (demo_detached.tasks 4).real_parent).self_exec_id
    ∧ (demo_detached.tasks demo_detached.current).cap_kill = false
    ∧ ((exit_notify_exit_signal demo_detached 4).tasks 4).exit_signal = -1
    ∧ (exit_notify 2 demo_detached 4).toOption.map (fun k' => (k'.tasks 4).exit_signal)
        = some (-1) := by
  decide

lemma getrusage_opt_ok (k : Kernel) (p ru : Nat) (hru : ru = 0 ∨ (k.umem ru).isSome = true) :
    (getrusage_opt k p ru).1 = 0 := by
  unfold getrusage_opt getrusage
  rcases hru with h | h
  · simp [h]
  · rw [if_pos h]
    split_ifs <;> rfl

lemma getrusage_opt_tasks (k : Kernel) (p ru : Nat) :
    (getrusage_opt k p ru).2.tasks = k.tasks := by
  unfold getrusage_opt getrusage
  split_ifs <;> rfl

lemma put_user_ifp_status (r : Int × Kernel) (v : Int) (stat : Nat) (h0 : r.1 = 0)
    (hs : stat ≠ 0) (hm : (r.2.umem stat).isSome = true) :
    (put_user_ifp r stat v stat).1 = 0
      ∧ (put_user_ifp r stat v stat).2.tasks = r.2.tasks
      ∧ (put_user_ifp r stat v stat).2.umem stat = some v := by
  unfold put_user_ifp put_user
  rw [if_pos ⟨h0, hs⟩, if_pos hm]
  exact ⟨rfl, rfl, by simp⟩

lemma wait_task_stopped_copyout_wait4 (k : Kernel) (p : Nat) (e : Int) (stat ru : Nat) :
    wait_task_stopped_copyout k p e 0 stat ru
      = (if (put_user_ifp (getrusage_opt k p ru) stat (e * 256 + 0x7f) stat).1 = 0 then
          ((put_user_ifp (getrusage_opt k p ru) stat (e * 256 + 0x7f) stat).2.tasks p).pid
        else (put_user_ifp (getrusage_opt k p ru) stat (e * 256 + 0x7f) stat).1,
        put_task_struct (put_user_ifp (getrusage_opt k p ru) stat (e * 256 + 0x7f) stat).2 p) := by
  unfold wait_task_stopped_copyout
  simp only [put_user_ifp_null]

lemma put_task_struct_tasks_of {α : Type} (v : task_struct → α)
    (hv : ∀ t x, v { t with usage := x } = v t) (k : Kernel) (p q : Nat) :
    v ((put_task_struct k p).tasks q) = v (k.tasks q) :=
  congrFun (view_put_task_struct' hv k p) q

lemma status_word (e : Nat) : ((e * 256 + 0x7f : Nat) : Int) = (((e <<< 8) ||| 0x7f : Nat) : Int) := by
  have h := Nat.mul_add_lt_is_or (i := 8) (b := 0x7f) (by decide) e
  rw [Nat.shiftLeft_eq, Nat.mul_comm e (2 ^ 8), ← h]
  norm_num
  ring

lemma linkFree_pid : LinkFree task_struct.pid :=
  ⟨fun _ _ => rfl, fun _ _ => rfl, fun _ _ => rfl, fun _ _ => rfl, fun _ _ => rfl,
    fun _ _ => rfl⟩

lemma linkFree_exit_code : LinkFree task_struct.exit_code :=
  ⟨fun _ _ => rfl, fun _ _ => rfl, fun _ _ => rfl, fun _ _ => rfl, fun _ _ => rfl,
    fun _ _ => rfl⟩

/-- The consuming path of `wait_task_stopped` once the reference is taken,
for a live child with a pending stop report and a `wait4`-style caller
whose status cell is writable. -/
lemma wait_task_stopped_take_reports (k : Kernel) (p stat ru : Nat)
    (he : (k.tasks p).exit_code ≠ 0) (hlive : (k.tasks p).exit_state = 0)
    (hpid : (k.tasks p).pid ≠ 0) (hs : stat ≠ 0) (hm : (k.umem stat).isSome = true)
    (hru : ru = 0 ∨ (k.umem ru).isSome = true) :
    ∃ k', wait_task_stopped_take k p 0 stat ru = .ok ((k.tasks p).pid, k')
      ∧ k'.umem stat = some ((k.tasks p).exit_code * 256 + 0x7f)
      ∧ (k'.tasks p).exit_code = 0 := by
  have hk4 : ∀ {α : Type} (v : task_struct → α), LinkFree v →
      (∀ t x, v { t with exit_code := x } = v t) →
      v ((add_parent (remove_parent (k.set_exit_code p 0) p) p (k.tasks p).parent).tasks p)
        = v (k.tasks p) := by
    intro α v hv hv'
    have h1 := congrFun (view_add_parent hv (remove_parent (k.set_exit_code p 0) p) p
      (k.tasks p).parent) p
    have h2 := congrFun (view_remove_parent hv (k.set_exit_code p 0) p) p
    have h3 := congrFun (view_set_exit_code hv' k p 0) p
    unfold Kernel.view at h1 h2 h3
    rw [h1, h2, h3]
  have hce : ((add_parent (remove_parent (k.set_exit_code p 0) p) p (k.tasks p).parent).tasks
      p).exit_code = 0 := by
    have h1 := congrFun (view_add_parent linkFree_exit_code
      (remove_parent (k.set_exit_code p 0) p) p (k.tasks p).parent) p
    have h2 := congrFun (view_remove_parent linkFree_exit_code (k.set_exit_code p 0) p) p
    unfold Kernel.view at h1 h2
    rw [h1, h2]
    simp [Kernel.set_exit_code, Kernel.setTask]
  have hum : (add_parent (remove_parent (k.set_exit_code p 0) p) p (k.tasks p).parent).umem
      = k.umem := rfl
  obtain ⟨g1, g2, g3⟩ := put_user_ifp_status
    (getrusage_opt (add_parent (remove_parent (k.set_exit_code p 0) p) p (k.tasks p).parent)
      p ru) ((k.tasks p).exit_code * 256 + 0x7f) stat
    (getrusage_opt_ok _ p ru (by rw [hum]; exact hru)) hs
    (by rw [getrusage_opt_umem, hum]; exact hm)
  have hc := wait_task_stopped_copyout_wait4
    (add_parent (remove_parent (k.set_exit_code p 0) p) p (k.tasks p).parent) p
    (k.tasks p).exit_code stat ru
  rw [if_pos g1, g2, getrusage_opt_tasks, hk4 task_struct.pid linkFree_pid (fun _ _ => rfl)]
    at hc
  refine ⟨put_task_struct (put_user_ifp (getrusage_opt
    (add_parent (remove_parent (k.set_exit_code p 0) p) p (k.tasks p).parent) p ru) stat
    ((k.tasks p).exit_code * 256 + 0x7f) stat).2 p, ?_, ?_, ?_⟩
  · unfold wait_task_stopped_take
    rw [if_neg (not_not.mpr hlive), if_neg he]
    dsimp only
    rw [hc]
    have hb : BUG_ON ((k.tasks p).pid == 0) 1430
        (put_task_struct (put_user_ifp (getrusage_opt
          (add_parent (remove_parent (k.set_exit_code p 0) p) p (k.tasks p).parent) p ru) stat
          ((k.tasks p).exit_code * 256 + 0x7f) stat).2 p) = .ok () := by
      simp [BUG_ON, hpid]
    rw [bind_of_ok hb]
    rfl
  · rw [put_task_struct_umem, g3]
  · rw [put_task_struct_tasks_of task_struct.exit_code (fun _ _ => rfl), g2,
      getrusage_opt_tasks, hce]

/-- C15, counterexample: two consuming calls of `wait_task_stopped` on a live
child in `TASK_STOPPED` whose pending stop report is 19. For the leader of a
thread group whose group stop is still in progress the call returns 0 and
reports nothing; and when the status cell of the caller cannot be written
the call returns `-EFAULT`, the report is cleared all the same, and the
repeated call returns 0. -/
theorem wait_task_stopped_unreported :
    ((demo_group_stop.tasks 3).state = TASK_STOPPED
      ∧ (demo_group_stop.tasks 3).exit_code = 19 ∧ (demo_group_stop.tasks 3).exit_state = 0
      ∧ delay_group_leader demo_group_stop 3 = true
      ∧ (wait_task_stopped demo_group_stop 3 true false 0 0x1000 0).toOption.map
          (fun r => (r.1, r.2.umem 0x1000)) = some (0, some 0))
    ∧ ((demo_sigstop.tasks 3).state = TASK_STOPPED
      ∧ (demo_sigstop.tasks 3).exit_code = 19 ∧ (demo_sigstop.tasks 3).exit_state = 0
      ∧ (wait_task_stopped demo_sigstop 3 false false 0 0x2000 0).toOption.map
          (fun r => (r.1, (r.2.tasks 3).exit_code)) = some (-EFAULT, 0)) := by
  decide

/-- C15, amended: for a live child with a pending stop report `e` (its
`exit_code`, not 0) that is not the leader of a thread group whose group stop
is still in progress, a consuming `wait4`-style `wait_task_stopped` whose
status cell is writable returns the pid of the child, stores `e * 256 + 0x7f`
(which is `(e << 8) | 0x7f`) in the status cell and leaves `exit_code` 0;
any call of `wait_task_stopped` on the child in the state reached returns 0
and changes nothing. -/
theorem wait_task_stopped_reports_once (k : Kernel) (p : Nat) (dgl : Bool) (stat ru : Nat)
    (he : (k.tasks p).exit_code ≠ 0) (hlive : (k.tasks p).exit_state = 0)
    (hpid : (k.tasks p).pid ≠ 0)
    (hdl : ¬ (dgl = true ∧ hasFlag (k.tasks p).ptrace PT_PTRACED = false
      ∧ (k.tasks p).signal ≠ 0 ∧ (k.sig p).group_stop_count > 0))
    (hs : stat ≠ 0) (hm : (k.umem stat).isSome = true)
    (hru : ru = 0 ∨ (k.umem ru).isSome = true) :
    ∃ k', wait_task_stopped k p dgl false 0 stat ru = .ok ((k.tasks p).pid, k')
      ∧ k'.umem stat = some ((k.tasks p).exit_code * 256 + 0x7f)
      ∧ (0 ≤ (k.tasks p).exit_code → (k.tasks p).exit_code * 256 + 0x7f
          = ((((k.tasks p).exit_code.toNat <<< 8) ||| 0x7f : Nat) : Int))
      ∧ (k'.tasks p).exit_code = 0
      ∧ ∀ dgl' noreap infop stat' ru',
          wait_task_stopped k' p dgl' noreap infop stat' ru' = .ok (0, k') := by
  have hg : ∀ {α : Type} (v : task_struct → α), (∀ t x, v { t with usage := x } = v t) →
      v ((get_task_struct k p).tasks p) = v (k.tasks p) := by
    intro α v hv
    exact congrFun (view_set_usage hv k p _) p
  obtain ⟨k', h1, h2, h3⟩ := wait_task_stopped_take_reports (get_task_struct k p) p stat ru
    (by rw [hg task_struct.exit_code fun _ _ => rfl]; exact he)
    (by rw [hg task_struct.exit_state fun _ _ => rfl]; exact hlive)
    (by rw [hg task_struct.pid fun _ _ => rfl]; exact hpid) hs hm hru
  rw [hg task_struct.pid fun _ _ => rfl] at h1
  rw [hg task_struct.exit_code fun _ _ => rfl] at h2
  refine ⟨k', ?_, h2, fun h0 => ?_, h3, fun dgl' noreap infop stat' ru' => ?_⟩
  · unfold wait_task_stopped
    rw [if_neg he, if_neg, if_neg Bool.false_ne_true]
    · exact h1
    · rintro ⟨c1, c2, c3, c4⟩
      exact hdl ⟨c1, by simpa using c2, c3, c4⟩
  · have := status_word (k.tasks p).exit_code.toNat
    rw [← this]
    push_cast
    rw [Int.toNat_of_nonneg h0]
  · unfold wait_task_stopped
    rw [if_pos h3]
    rfl

/-- Witness for C15: the stopped child of the small system is waited for;
the call returns its pid 101 and stores 19 * 256 + 127 in the status cell. -/
theorem wait_task_stopped_reports_once_witness :
    ∃ k', wait_task_stopped demo_sigstop 3 false false 0 0x1000 0 = .ok (101, k')
      ∧ k'.umem 0x1000 = some 4991 ∧ (k'.tasks 3).exit_code = 0 := by
  obtain ⟨k', h1, h2, _, h3, _⟩ := wait_task_stopped_reports_once demo_sigstop 3 false 0x1000 0
    (by decide) (by decide) (by decide) (by decide) (by decide) (by decide) (by decide)
  exact ⟨k', h1, h2, h3⟩

lemma shared_set_children (k : Kernel) (p : Nat) (x) : (k.set_children p x).shared = k.shared := rfl

lemma shared_set_ptrace_children (k : Kernel) (p : Nat) (x) : (k.set_ptrace_children p x).shared = k.shared := rfl

lemma shared_set_exit_signal (k : Kernel) (p : Nat) (x) : (k.set_exit_signal p x).shared = k.shared := rfl

lemma shared_set_exit_state (k : Kernel) (p : Nat) (x) : (k.set_exit_state p x).shared = k.shared := rfl

lemma shared_set_exit_code (k : Kernel) (p : Nat) (x) : (k.set_exit_code p x).shared = k.shared := rfl

lemma shared_set_state (k : Kernel) (p : Nat) (x) : (k.set_state p x).shared = k.shared := rfl

lemma shared_set_flags (k : Kernel) (p : Nat) (x) : (k.set_flags p x).shared = k.shared := rfl

lemma shared_set_ptrace (k : Kernel) (p : Nat) (x) : (k.set_ptrace p x).shared = k.shared := rfl

lemma shared_set_ptrace_message (k : Kernel) (p : Nat) (x) : (k.set_ptrace_message p x).shared = k.shared := rfl

lemma shared_set_parent (k : Kernel) (p : Nat) (x) : (k.set_parent p x).shared = k.shared := rfl

lemma shared_set_real_parent (k : Kernel) (p : Nat) (x) : (k.set_real_parent p x).shared = k.shared := rfl

lemma shared_set_usage (k : Kernel) (p : Nat) (x) : (k.set_usage p x).shared = k.shared := rfl

lemma shared_set_sigpending (k : Kernel) (p : Nat) (x) : (k.set_sigpending p x).shared = k.shared := rfl

lemma shared_set_it_virt_value (k : Kernel) (p : Nat) (x) : (k.set_it_virt_value p x).shared = k.shared := rfl

lemma shared_set_it_prof_value (k : Kernel) (p : Nat) (x) : (k.set_it_prof_value p x).shared = k.shared := rfl

lemma shared_remove_parent (k : Kernel) (p : Nat) : (remove_parent k p).shared = k.shared := rfl

lemma shared_ptrace_list_del (k : Kernel) (p : Nat) :
    (ptrace_list_del k p).shared = k.shared := rfl

lemma shared_add_parent (k : Kernel) (p q : Nat) : (add_parent k p q).shared = k.shared := rfl

lemma shared_ptrace_list_add (k : Kernel) (p q : Nat) :
    (ptrace_list_add k p q).shared = k.shared := rfl

lemma shared_call (k : Kernel) (f : Callee) (a b : Int) : (k.call f a b).shared = k.shared := rfl

lemma shared_do_notify_parent (k : Kernel) (p : Nat) (sig : Int) :
    (do_notify_parent k p sig).shared = k.shared := by
  unfold do_notify_parent
  dsimp only
  split_ifs <;> rfl

lemma shared_put_task_struct (k : Kernel) (p : Nat) : (put_task_struct k p).shared = k.shared := by
  unfold put_task_struct
  dsimp only
  split_ifs <;> rfl

lemma shared_REMOVE_LINKS (k : Kernel) (p : Nat) : (REMOVE_LINKS k p).shared = k.shared := by
  unfold REMOVE_LINKS
  dsimp only
  split_ifs <;> rfl

lemma shared_SET_LINKS (k : Kernel) (p : Nat) : (SET_LINKS k p).shared = k.shared := by
  unfold SET_LINKS
  dsimp only
  split_ifs <;> rfl

lemma shared_ptrace_unlinked (k : Kernel) (p : Nat) : (ptrace_unlinked k p).shared = k.shared := by
  unfold ptrace_unlinked
  dsimp only
  split_ifs <;>
    simp only [shared_call, shared_SET_LINKS, shared_set_parent, shared_REMOVE_LINKS,
      shared_ptrace_list_del, shared_set_ptrace]

lemma shared___ptrace_unlink {k k' : Kernel} {p : Nat} (h : __ptrace_unlink k p = .ok k') :
    k'.shared = k.shared := by
  unfold __ptrace_unlink at h
  simp only [bind_eq_ok, BUG_ON_eq_ok, pure_eq_ok] at h
  obtain ⟨_, _, h⟩ := h
  subst h
  exact shared_ptrace_unlinked k p

lemma shared___unhash_process (k : Kernel) (p : Nat) : (__unhash_process k p).shared = k.shared := by
  unfold __unhash_process
  dsimp only
  rw [shared_REMOVE_LINKS]
  split_ifs <;> rfl

lemma shared_release_thread {k k' : Kernel} {p : Nat} (h : release_thread k p = .ok k') :
    k'.shared = k.shared := by
  unfold release_thread at h
  simp only [bind_eq_ok, BUG_ON_eq_ok, pure_eq_ok] at h
  obtain ⟨_, _, h⟩ := h
  subst h
  rfl

lemma shared_release_task_leader {k : Kernel} {p : Nat} {r : Kernel × Bool}
    (h : release_task_leader k p = .ok r) : r.1.shared = k.shared := by
  unfold release_task_leader at h
  split_ifs at h
  · simp only [bind_eq_ok, BUG_ON_eq_ok, pure_eq_ok] at h
    obtain ⟨_, _, h⟩ := h
    subst h
    exact shared_do_notify_parent _ _ _
  · simp only [pure_eq_ok] at h
    subst h
    rfl

lemma shared_release_task_pass {k : Kernel} {p : Nat} {r : Kernel × Nat × Bool}
    (h : release_task_pass k p = .ok r) : r.1.shared = k.shared := by
  unfold release_task_pass at h
  simp only [bind_eq_ok, BUG_ON_eq_ok, pure_eq_ok] at h
  obtain ⟨k2, hk2, _, _, r1, hr1, k7, hk7, h⟩ := h
  subst h
  have e2 : k2.shared = k.shared := by
    split_ifs at hk2
    · rw [shared___ptrace_unlink hk2]
      rfl
    · simp only [pure_eq_ok] at hk2
      subst hk2
      rfl
  rw [shared_put_task_struct, shared_release_thread hk7, shared_call, shared_call,
    shared_release_task_leader hr1, shared___unhash_process, shared_call, shared_call, e2]

lemma shared_release_task (fuel : Nat) :
    ∀ {k k' : Kernel} {p : Nat}, release_task fuel k p = .ok k' → k'.shared = k.shared := by
  induction fuel with
  | zero =>
    intro k k' p h
    exact absurd h (throw_ne_ok _ _)
  | succ n ih =>
    intro k k' p h
    unfold release_task at h
    simp only [bind_eq_ok] at h
    obtain ⟨r, hr, h⟩ := h
    split_ifs at h
    · rw [ih h, shared_release_task_pass hr]
    · simp only [pure_eq_ok] at h
      subst h
      exact shared_release_task_pass hr

lemma shared_release_ptrace_dead (fuel : Nat) :
    ∀ (l : List Nat) {k k' : Kernel}, release_ptrace_dead fuel l k = .ok k' →
      k'.shared = k.shared := by
  intro l
  induction l with
  | nil =>
    intro k k' h
    unfold release_ptrace_dead at h
    simp only [pure_eq_ok] at h
    subst h
    rfl
  | cons t rest ih =>
    intro k k' h
    unfold release_ptrace_dead at h
    simp only [bind_eq_ok] at h
    obtain ⟨a, ha, h⟩ := h
    rw [ih h, shared_release_task fuel ha]

lemma shared_reparent_signals (k : Kernel) (p : Nat) :
    (reparent_signals k p).shared = k.shared := by
  unfold reparent_signals
  dsimp only
  split_ifs <;> rfl

lemma shared_reparent_traced (k : Kernel) (p : Nat) :
    (reparent_traced k p).shared = k.shared := by
  unfold reparent_traced
  split_ifs <;> rfl

lemma shared_reparent_move (k : Kernel) (p : Nat) : (reparent_move k p).shared = k.shared := rfl

lemma shared_reparent_notify (k : Kernel) (p : Nat) :
    (reparent_notify k p).shared = k.shared := by
  unfold reparent_notify
  split_ifs
  · exact shared_do_notify_parent _ _ _
  · rfl
  · rfl

lemma shared_reparent_orphan (k : Kernel) (p father : Nat) :
    (reparent_orphan k p father).shared = k.shared := by
  unfold reparent_orphan
  split_ifs <;> rfl

lemma shared_reparent_thread (k : Kernel) (p father : Nat) (traced : Bool) :
    (reparent_thread k p father traced).shared = k.shared := by
  unfold reparent_thread
  rw [shared_reparent_orphan]
  split_ifs
  · rw [shared_reparent_traced, shared_reparent_signals]
  · rw [shared_reparent_notify, shared_reparent_move, shared_reparent_signals]

lemma shared_choose_new_parent {k k' : Kernel} {p reaper : Nat}
    (h : choose_new_parent k p reaper = .ok k') : k'.shared = k.shared := by
  unfold choose_new_parent at h
  simp only [bind_eq_ok, BUG_ON_eq_ok, pure_eq_ok] at h
  obtain ⟨_, _, _, _, h⟩ := h
  subst h
  rfl

lemma shared_renotify (k : Kernel) (p : Nat) : (renotify k p).shared = k.shared := by
  unfold renotify
  split_ifs
  · exact shared_do_notify_parent _ _ _
  · rfl

lemma shared_forget_child_reparent {k k' : Kernel} {father reaper p : Nat}
    (h : forget_child_reparent k father reaper p = .ok k') : k'.shared = k.shared := by
  unfold forget_child_reparent at h
  split_ifs at h
  · rw [map_eq_ok] at h
    obtain ⟨a, ha, h⟩ := h
    subst h
    rw [shared_reparent_thread, shared_choose_new_parent ha]
  · rw [map_eq_ok] at h
    obtain ⟨a, ha, h⟩ := h
    subst h
    rw [shared_renotify, shared___ptrace_unlink ha]

lemma shared_forget_child {k : Kernel} {father reaper p : Nat} {l : List Nat}
    {r : Kernel × List Nat} (h : forget_child k father reaper l p = .ok r) :
    r.1.shared = k.shared := by
  unfold forget_child at h
  simp only [bind_eq_ok, BUG_ON_eq_ok, pure_eq_ok] at h
  obtain ⟨_, _, k1, hk1, h⟩ := h
  subst h
  exact shared_forget_child_reparent hk1

lemma shared_forget_children (father reaper : Nat) :
    ∀ (l : List Nat) {k : Kernel} {dead : List Nat} {r : Kernel × List Nat},
      forget_children father reaper l k dead = .ok r → r.1.shared = k.shared := by
  intro l
  induction l with
  | nil =>
    intro k dead r h
    unfold forget_children at h
    simp only [pure_eq_ok] at h
    subst h
    rfl
  | cons p rest ih =>
    intro k dead r h
    unfold forget_children at h
    simp only [bind_eq_ok] at h
    obtain ⟨a, ha, h⟩ := h
    rw [ih h, shared_forget_child ha]

lemma shared_forget_ptrace_children (father reaper : Nat) :
    ∀ (l : List Nat) {k k' : Kernel},
      forget_ptrace_children father reaper l k = .ok k' → k'.shared = k.shared := by
  intro l
  induction l with
  | nil =>
    intro k k' h
    unfold forget_ptrace_children at h
    simp only [pure_eq_ok] at h
    subst h
    rfl
  | cons p rest ih =>
    intro k k' h
    unfold forget_ptrace_children at h
    simp only [bind_eq_ok] at h
    obtain ⟨a, ha, h⟩ := h
    rw [ih h, shared_reparent_thread, shared_choose_new_parent ha]

lemma shared_forget_original_parent {k : Kernel} {father : Nat} {r : Kernel × List Nat}
    (h : forget_original_parent k father = .ok r) : r.1.shared = k.shared := by
  unfold forget_original_parent at h
  simp only [bind_eq_ok, pure_eq_ok] at h
  obtain ⟨a, ha, k2, hk2, h⟩ := h
  subst h
  rw [shared_forget_ptrace_children father _ _ hk2, shared_forget_children father _ _ ha]

lemma shared_exit_notify_wake :
    ∀ (l : List Nat) (k : Kernel), (exit_notify_wake k l).shared = k.shared := by
  intro l
  induction l with
  | nil => intro k; rfl
  | cons t rest ih =>
    intro k
    unfold exit_notify_wake
    dsimp only
    split_ifs <;> rw [ih] <;> rfl

lemma shared_exit_notify_woken (k : Kernel) (tsk : Nat) :
    (exit_notify_woken k tsk).shared = k.shared := by
  unfold exit_notify_woken
  split_ifs
  · exact shared_exit_notify_wake _ _
  · rfl

lemma shared_exit_notify_orphan (k : Kernel) (tsk : Nat) :
    (exit_notify_orphan k tsk).shared = k.shared := by
  unfold exit_notify_orphan
  dsimp only
  split_ifs <;> rfl

lemma shared_exit_notify_exit_signal (k : Kernel) (tsk : Nat) :
    (exit_notify_exit_signal k tsk).shared = k.shared := by
  unfold exit_notify_exit_signal
  dsimp only
  split_ifs <;> rfl

lemma shared_exit_notify_signal (k : Kernel) (tsk : Nat) :
    (exit_notify_signal k tsk).shared = k.shared := by
  unfold exit_notify_signal
  dsimp only
  split_ifs <;> simp only [shared_do_notify_parent, shared_exit_notify_exit_signal]

lemma shared_exit_notify_notified {k : Kernel} {tsk : Nat} {r : Kernel × List Nat}
    (h : exit_notify_notified k tsk = .ok r) : r.1.shared = k.shared := by
  unfold exit_notify_notified at h
  simp only [bind_eq_ok, BUG_ON_eq_ok, pure_eq_ok] at h
  obtain ⟨a, ha, _, _, _, _, h⟩ := h
  subst h
  rw [shared_exit_notify_signal, shared_exit_notify_orphan, shared_forget_original_parent ha,
    shared_exit_notify_woken]

lemma shared_exit_notify {fuel : Nat} {k k' : Kernel} {tsk : Nat}
    (h : exit_notify fuel k tsk = .ok k') : k'.shared = k.shared := by
  unfold exit_notify at h
  simp only [bind_eq_ok, pure_eq_ok] at h
  obtain ⟨r, hr, k3, hk3, k4, hk4, h⟩ := h
  subst h
  have e4 : k4.shared = k3.shared := by
    split_ifs at hk4
    · exact shared_release_task fuel hk4
    · simp only [pure_eq_ok] at hk4
      subst hk4
      rfl
  rw [shared_set_flags, e4, shared_release_ptrace_dead fuel _ hk3, shared_set_it_prof_value,
    shared_set_it_virt_value, shared_set_exit_state, shared_exit_notify_notified hr]

lemma view_reparent_traced {α : Type} {v : task_struct → α} (hv : LinkFree v) (k : Kernel)
    (p : Nat) : (reparent_traced k p).view v = k.view v := by
  unfold reparent_traced
  split_ifs <;> simp only [view_ptrace_list_add hv, view_ptrace_list_del hv]

lemma view_reparent_thread {α : Type} {v : task_struct → α} (hv : LinkFree v) (k : Kernel)
    (p father : Nat) (traced : Bool) : (reparent_thread k p father traced).view v = k.view v := by
  unfold reparent_thread
  rw [view_reparent_orphan]
  split_ifs
  · rw [view_reparent_traced hv, view_reparent_signals hv.exit_signal]
  · rw [view_reparent_notify hv.exit_signal,
      view_reparent_move hv.ptrace hv.parent hv.children, view_reparent_signals hv.exit_signal]

lemma view_renotify {α : Type} {v : task_struct → α} (hv : LinkFree v) (k : Kernel) (p : Nat) :
    (renotify k p).view v = k.view v := by
  unfold renotify
  split_ifs
  · exact view_do_notify_parent hv _ _ _
  · rfl

lemma view_choose_new_parent {α : Type} {v : task_struct → α}
    (h0 : ∀ t x, v { t with real_parent := x } = v t) {k k' : Kernel} {p reaper : Nat}
    (h : choose_new_parent k p reaper = .ok k') : k'.view v = k.view v := by
  unfold choose_new_parent at h
  simp only [bind_eq_ok, BUG_ON_eq_ok, pure_eq_ok] at h
  obtain ⟨_, _, _, _, h⟩ := h
  subst h
  exact view_set_real_parent h0 _ _ _

lemma view_forget_child_reparent {α : Type} {v : task_struct → α} (hv : LinkFree v)
    (h0 : ∀ t x, v { t with real_parent := x } = v t) {k k' : Kernel} {father reaper p : Nat}
    (h : forget_child_reparent k father reaper p = .ok k') : k'.view v = k.view v := by
  unfold forget_child_reparent at h
  split_ifs at h
  · rw [map_eq_ok] at h
    obtain ⟨a, ha, h⟩ := h
    subst h
    rw [view_reparent_thread hv, view_choose_new_parent h0 ha]
  · rw [map_eq_ok] at h
    obtain ⟨a, ha, h⟩ := h
    subst h
    rw [view_renotify hv, view___ptrace_unlink hv ha]

lemma view_forget_child {α : Type} {v : task_struct → α} (hv : LinkFree v)
    (h0 : ∀ t x, v { t with real_parent := x } = v t) {k : Kernel} {father reaper p : Nat}
    {l : List Nat} {r : Kernel × List Nat} (h : forget_child k father reaper l p = .ok r) :
    r.1.view v = k.view v := by
  unfold forget_child at h
  simp only [bind_eq_ok, BUG_ON_eq_ok, pure_eq_ok] at h
  obtain ⟨_, _, k1, hk1, h⟩ := h
  subst h
  exact view_forget_child_reparent hv h0 hk1

lemma view_forget_children {α : Type} {v : task_struct → α} (hv : LinkFree v)
    (h0 : ∀ t x, v { t with real_parent := x } = v t) (father reaper : Nat) :
    ∀ (l : List Nat) {k : Kernel} {dead : List Nat} {r : Kernel × List Nat},
      forget_children father reaper l k dead = .ok r → r.1.view v = k.view v := by
  intro l
  induction l with
  | nil =>
    intro k dead r h
    unfold forget_children at h
    simp only [pure_eq_ok] at h
    subst h
    rfl
  | cons p rest ih =>
    intro k dead r h
    unfold forget_children at h
    simp only [bind_eq_ok] at h
    obtain ⟨a, ha, h⟩ := h
    rw [ih h, view_forget_child hv h0 ha]

lemma view_forget_ptrace_children {α : Type} {v : task_struct → α} (hv : LinkFree v)
    (h0 : ∀ t x, v { t with real_parent := x } = v t) (father reaper : Nat) :
    ∀ (l : List Nat) {k k' : Kernel},
      forget_ptrace_children father reaper l k = .ok k' → k'.view v = k.view v := by
  intro l
  induction l with
  | nil =>
    intro k k' h
    unfold forget_ptrace_children at h
    simp only [pure_eq_ok] at h
    subst h
    rfl
  | cons p rest ih =>
    intro k k' h
    unfold forget_ptrace_children at h
    simp only [bind_eq_ok] at h
    obtain ⟨a, ha, h⟩ := h
    rw [ih h, view_reparent_thread hv, view_choose_new_parent h0 ha]

lemma view_forget_original_parent {α : Type} {v : task_struct → α} (hv : LinkFree v)
    (h0 : ∀ t x, v { t with real_parent := x } = v t) {k : Kernel} {father : Nat}
    {r : Kernel × List Nat} (h : forget_original_parent k father = .ok r) :
    r.1.view v = k.view v := by
  unfold forget_original_parent at h
  simp only [bind_eq_ok, pure_eq_ok] at h
  obtain ⟨a, ha, k2, hk2, h⟩ := h
  subst h
  rw [view_forget_ptrace_children hv h0 father _ _ hk2, view_forget_children hv h0 father _ _ ha]

lemma view_exit_notify_wake {α : Type} {v : task_struct → α}
    (hs : ∀ t x, v { t with sigpending := x } = v t) :
    ∀ (l : List Nat) (k : Kernel), (exit_notify_wake k l).view v = k.view v := by
  intro l
  induction l with
  | nil => intro k; rfl
  | cons t rest ih =>
    intro k
    unfold exit_notify_wake
    dsimp only
    split_ifs <;> simp only [ih, view_call, view_set_sigpending hs]

lemma view_exit_notify_woken {α : Type} {v : task_struct → α}
    (hs : ∀ t x, v { t with sigpending := x } = v t) (k : Kernel) (tsk : Nat) :
    (exit_notify_woken k tsk).view v = k.view v := by
  unfold exit_notify_woken
  split_ifs
  · exact view_exit_notify_wake hs _ _
  · rfl

lemma view_exit_notify_orphan {α : Type} (v : task_struct → α) (k : Kernel) (tsk : Nat) :
    (exit_notify_orphan k tsk).view v = k.view v := by
  unfold exit_notify_orphan
  dsimp only
  split_ifs <;> rfl

lemma view_exit_notify_exit_signal {α : Type} {v : task_struct → α} (hv : LinkFree v)
    (k : Kernel) (tsk : Nat) : (exit_notify_exit_signal k tsk).view v = k.view v := by
  unfold exit_notify_exit_signal
  dsimp only
  split_ifs
  · exact view_set_exit_signal hv.exit_signal _ _ _
  · rfl

lemma view_exit_notify_signal {α : Type} {v : task_struct → α} (hv : LinkFree v)
    (k : Kernel) (tsk : Nat) : (exit_notify_signal k tsk).view v = k.view v := by
  unfold exit_notify_signal
  dsimp only
  split_ifs <;> simp only [view_do_notify_parent hv, view_exit_notify_exit_signal hv]

lemma view_exit_notify_notified {α : Type} {v : task_struct → α} (hv : ExitFree v)
    {k : Kernel} {tsk : Nat} {r : Kernel × List Nat}
    (h : exit_notify_notified k tsk = .ok r) : r.1.view v = k.view v := by
  unfold exit_notify_notified at h
  simp only [bind_eq_ok, BUG_ON_eq_ok, pure_eq_ok] at h
  obtain ⟨a, ha, _, _, _, _, h⟩ := h
  subst h
  rw [view_exit_notify_signal hv.link, view_exit_notify_orphan,
    view_forget_original_parent hv.link hv.real_parent ha, view_exit_notify_woken hv.sigpending]

lemma view_exit_notify {α : Type} {v : task_struct → α} (hv : ExitFree v)
    {fuel : Nat} {k k' : Kernel} {tsk : Nat}
    (h : exit_notify fuel k tsk = .ok k') : k'.view v = k.view v := by
  unfold exit_notify at h
  simp only [bind_eq_ok, pure_eq_ok] at h
  obtain ⟨r, hr, k3, hk3, k4, hk4, h⟩ := h
  subst h
  have e4 : k4.view v = k3.view v := by
    split_ifs at hk4
    · exact view_release_task hv.link fuel hk4
    · simp only [pure_eq_ok] at hk4
      subst hk4
      rfl
  rw [view_set_flags hv.flags, e4, view_release_ptrace_dead hv.link fuel _ hk3,
    view_set_it_prof_value hv.it_prof_value, view_set_it_virt_value hv.it_virt_value,
    view_set_exit_state hv.exit_state, view_exit_notify_notified hv hr]

/-- The terminal state that `exit_notify` leaves in the task is the one it
chose after the parent-notification step. -/
lemma exit_notify_exit_state {fuel : Nat} {k k' : Kernel} {tsk : Nat}
    (h : exit_notify fuel k tsk = .ok k') :
    ∃ r, exit_notify_notified k tsk = .ok r
      ∧ (k'.tasks tsk).exit_state = exit_notify_choose r.1 tsk := by
  unfold exit_notify at h
  simp only [bind_eq_ok, pure_eq_ok] at h
  obtain ⟨r, hr, k3, hk3, k4, hk4, h⟩ := h
  subst h
  refine ⟨r, hr, ?_⟩
  have e3 := congrFun (view_release_ptrace_dead linkFree_exit_state fuel r.2 hk3) tsk
  have e4 : k4.view task_struct.exit_state tsk = k3.view task_struct.exit_state tsk := by
    split_ifs at hk4
    · exact congrFun (view_release_task linkFree_exit_state fuel hk4) tsk
    · simp only [pure_eq_ok] at hk4
      subst hk4
      rfl
  have e5 := congrFun (view_set_flags (v := task_struct.exit_state) (fun _ _ => rfl) k4 tsk
    ((k4.tasks tsk).flags ||| PF_DEAD)) tsk
  have e6 := congrFun (view_set_it_prof_value (v := task_struct.exit_state) (fun _ _ => rfl)
    ((r.1.set_exit_state tsk (exit_notify_choose r.1 tsk)).set_it_virt_value tsk 0) tsk 0) tsk
  have e7 := congrFun (view_set_it_virt_value (v := task_struct.exit_state) (fun _ _ => rfl)
    (r.1.set_exit_state tsk (exit_notify_choose r.1 tsk)) tsk 0) tsk
  unfold Kernel.view at e3 e4 e5 e6 e7
  rw [e5, e4, e3, e6, e7, tasks_set_exit_state_self]

lemma exitFree_handles : ExitFree task_struct.handles :=
  ⟨⟨fun _ _ => rfl, fun _ _ => rfl, fun _ _ => rfl, fun _ _ => rfl, fun _ _ => rfl,
    fun _ _ => rfl⟩, fun _ _ => rfl, fun _ _ => rfl, fun _ _ => rfl, fun _ _ => rfl,
    fun _ _ => rfl, fun _ _ => rfl⟩

lemma exitFree_exit_code : ExitFree task_struct.exit_code :=
  ⟨⟨fun _ _ => rfl, fun _ _ => rfl, fun _ _ => rfl, fun _ _ => rfl, fun _ _ => rfl,
    fun _ _ => rfl⟩, fun _ _ => rfl, fun _ _ => rfl, fun _ _ => rfl, fun _ _ => rfl,
    fun _ _ => rfl, fun _ _ => rfl⟩

lemma view_setSignal {α : Type} (v : task_struct → α) (k : Kernel) (s : Nat)
    (x : signal_struct) : (k.setSignal s x).view v = k.view v := rfl

lemma do_exit_begin_fields {α : Type} (v : task_struct → α)
    (h1 : ∀ t x, v { t with ptrace_message := x } = v t)
    (h2 : ∀ t x, v { t with flags := x } = v t) (k : Kernel) (code : Int) :
    (do_exit_begin k code).1.view v = k.view v
      ∧ (do_exit_begin k code).1.shared = k.shared
      ∧ (do_exit_begin k code).1.current = k.current := by
  unfold do_exit_begin
  dsimp only
  refine ⟨?_, ?_, ?_⟩
  · split_ifs <;>
      simp only [view_call, view_setSignal, view_set_flags h2, view_set_ptrace_message h1]
  · split_ifs <;> rfl
  · split_ifs <;> rfl

lemma dropped_null (count : Nat → Int) : dropped count 0 = count := by
  funext m
  simp [dropped]

lemma dropped_of_ne (count : Nat → Int) (h : Nat) (hne : h ≠ 0) :
    dropped count h = fun m => if m = h then count m - 1 else count m := by
  funext m
  simp [dropped, hne]

lemma exit_mm_pin_fields (a : Kernel) (m : Nat) :
    (exit_mm_pin a m).tasks = a.tasks
      ∧ (exit_mm_pin a m).mm_users = a.mm_users
      ∧ (exit_mm_pin a m).files_count = a.files_count
      ∧ (exit_mm_pin a m).fs_count = a.fs_count
      ∧ (exit_mm_pin a m).current = a.current := by
  unfold exit_mm_pin
  dsimp only
  split_ifs <;> exact ⟨rfl, rfl, rfl, rfl, rfl⟩

lemma exit_mm_put_fields (a : Kernel) (tsk m : Nat) :
    ((exit_mm_put a tsk m).tasks tsk).mm = 0
      ∧ (exit_mm_put a tsk m).view (fun t => (t.files, t.fs)) = a.view (fun t => (t.files, t.fs))
      ∧ (exit_mm_put a tsk m).mm_users = (fun x => if x = m then a.mm_users x - 1 else a.mm_users x)
      ∧ (exit_mm_put a tsk m).files_count = a.files_count
      ∧ (exit_mm_put a tsk m).fs_count = a.fs_count
      ∧ (exit_mm_put a tsk m).current = a.current := by
  have hv : ∀ K : Kernel, K.tasks = (a.set_mm tsk 0).tasks →
      K.view (fun t => (t.files, t.fs)) = a.view (fun t => (t.files, t.fs)) := by
    intro K hK
    rw [← view_set_mm (v := fun t => (t.files, t.fs)) (fun _ _ => rfl) a tsk 0]
    unfold Kernel.view
    rw [hK]
  have hm : ∀ K : Kernel, K.tasks = (a.set_mm tsk 0).tasks → (K.tasks tsk).mm = 0 := by
    intro K hK
    rw [hK]
    simp [Kernel.set_mm, Kernel.setTask]
  unfold exit_mm_put
  dsimp only
  split_ifs
  all_goals exact ⟨hm _ rfl, hv _ rfl, rfl, rfl, rfl, rfl⟩

/-- What `exit_mm` does to the handles and their counts: the address space
of the task is let go and loses one user; nothing else. -/
lemma exit_mm_fields {k k7 : Kernel} {tsk : Nat} (h : exit_mm k tsk = .ok k7) :
    (k7.tasks tsk).mm = 0
      ∧ k7.view (fun t => (t.files, t.fs)) = k.view (fun t => (t.files, t.fs))
      ∧ k7.mm_users = dropped k.mm_users (k.tasks tsk).mm
      ∧ k7.files_count = k.files_count ∧ k7.fs_count = k.fs_count
      ∧ k7.current = k.current := by
  unfold exit_mm at h
  split_ifs at h with c
  · simp only [pure_eq_ok] at h
    subst h
    refine ⟨c, rfl, ?_, rfl, rfl, rfl⟩
    rw [c, dropped_null]
    rfl
  · simp only [bind_eq_ok, BUG_ON_eq_ok, pure_eq_ok] at h
    obtain ⟨_, _, h⟩ := h
    subst h
    obtain ⟨p1, p2, p3, p4, p5⟩ :=
      exit_mm_pin_fields (k.call .mm_release tsk (k.tasks tsk).mm) (k.tasks tsk).mm
    obtain ⟨q1, q2, q3, q4, q5, q6⟩ := exit_mm_put_fields
      (exit_mm_pin (k.call .mm_release tsk (k.tasks tsk).mm) (k.tasks tsk).mm) tsk
      (k.tasks tsk).mm
    refine ⟨q1, ?_, ?_, q4.trans p3, q5.trans p4, q6.trans p5⟩
    · rw [q2]
      unfold Kernel.view
      rw [p1]
      rfl
    · rw [q3, p2, dropped_of_ne _ _ c]
      rfl

lemma exit_files_fields (k : Kernel) (tsk : Nat) :
    ((__exit_files k tsk).tasks tsk).files = 0
      ∧ (__exit_files k tsk).view (fun t => (t.mm, t.fs)) = k.view (fun t => (t.mm, t.fs))
      ∧ (__exit_files k tsk).files_count = dropped k.files_count (k.tasks tsk).files
      ∧ (__exit_files k tsk).mm_users = k.mm_users
      ∧ (__exit_files k tsk).fs_count = k.fs_count
      ∧ (__exit_files k tsk).current = k.current := by
  by_cases c : (k.tasks tsk).files = 0
  · unfold __exit_files
    dsimp only
    rw [if_neg (not_not.mpr c), c, dropped_null]
    exact ⟨rfl, rfl, rfl, rfl, rfl, rfl⟩
  · have hv : ∀ K : Kernel, K.tasks = (k.set_files tsk 0).tasks →
        K.view (fun t => (t.mm, t.fs)) = k.view (fun t => (t.mm, t.fs)) := by
      intro K hK
      rw [← view_set_files (v := fun t => (t.mm, t.fs)) (fun _ _ => rfl) k tsk 0]
      unfold Kernel.view
      rw [hK]
    have hm : ∀ K : Kernel, K.tasks = (k.set_files tsk 0).tasks → (K.tasks tsk).files = 0 := by
      intro K hK
      rw [hK]
      simp [Kernel.set_files, Kernel.setTask]
    unfold __exit_files
    dsimp only
    rw [if_pos c, dropped_of_ne _ _ c]
    split_ifs
    all_goals exact ⟨hm _ rfl, hv _ rfl, rfl, rfl, rfl, rfl⟩

lemma exit_fs_fields (k : Kernel) (tsk : Nat) :
    ((__exit_fs k tsk).tasks tsk).fs = 0
      ∧ (__exit_fs k tsk).view (fun t => (t.mm, t.files)) = k.view (fun t => (t.mm, t.files))
      ∧ (__exit_fs k tsk).fs_count = dropped k.fs_count (k.tasks tsk).fs
      ∧ (__exit_fs k tsk).mm_users = k.mm_users
      ∧ (__exit_fs k tsk).files_count = k.files_count
      ∧ (__exit_fs k tsk).current = k.current := by
  by_cases c : (k.tasks tsk).fs = 0
  · unfold __exit_fs
    dsimp only
    rw [if_neg (not_not.mpr c), c, dropped_null]
    exact ⟨rfl, rfl, rfl, rfl, rfl, rfl⟩
  · have hv : ∀ K : Kernel, K.tasks = (k.set_fs tsk 0).tasks →
        K.view (fun t => (t.mm, t.files)) = k.view (fun t => (t.mm, t.files)) := by
      intro K hK
      rw [← view_set_fs (v := fun t => (t.mm, t.files)) (fun _ _ => rfl) k tsk 0]
      unfold Kernel.view
      rw [hK]
    have hm : ∀ K : Kernel, K.tasks = (k.set_fs tsk 0).tasks → (K.tasks tsk).fs = 0 := by
      intro K hK
      rw [hK]
      simp [Kernel.set_fs, Kernel.setTask]
    unfold __exit_fs
    dsimp only
    rw [if_pos c, dropped_of_ne _ _ c]
    split_ifs
    all_goals exact ⟨hm _ rfl, hv _ rfl, rfl, rfl, rfl, rfl⟩

lemma exit_thread_fields (A : Arch) (k : Kernel) :
    (exit_thread A k).view task_struct.handles = k.view task_struct.handles
      ∧ (exit_thread A k).mm_users = k.mm_users
      ∧ (exit_thread A k).files_count = k.files_count
      ∧ (exit_thread A k).fs_count = k.fs_count
      ∧ (exit_thread A k).current = k.current := by
  unfold exit_thread
  dsimp only
  split_ifs
  · refine ⟨?_, rfl, rfl, rfl, rfl⟩
    show (((k.call .kfree_io_bitmap (k.tasks k.current).io_bitmap_ptr 0).set_io_bitmap_ptr
      k.current 0).set_io_bitmap_max k.current 0).view task_struct.handles = _
    rw [view_set_io_bitmap_max (v := task_struct.handles) (fun _ _ => rfl),
      view_set_io_bitmap_ptr (v := task_struct.handles) (fun _ _ => rfl), view_call]
  · exact ⟨rfl, rfl, rfl, rfl, rfl⟩

lemma call_tasks (k : Kernel) (f : Callee) (a b : Int) : (k.call f a b).tasks = k.tasks := rfl

lemma call_mm_users (k : Kernel) (f : Callee) (a b : Int) :
    (k.call f a b).mm_users = k.mm_users := rfl

lemma call_files_count (k : Kernel) (f : Callee) (a b : Int) :
    (k.call f a b).files_count = k.files_count := rfl

lemma call_fs_count (k : Kernel) (f : Callee) (a b : Int) :
    (k.call f a b).fs_count = k.fs_count := rfl

lemma call_current (k : Kernel) (f : Callee) (a b : Int) :
    (k.call f a b).current = k.current := rfl

/-- The part of `do_exit` between `exit_mm` and `exit_notify` is the
assignment of the exit code to a state that has the tasks and the counts
`exit_thread` left. -/
lemma do_exit_release_eq (A : Arch) (k : Kernel) (gd : Bool) (code : Int) :
    ∃ K : Kernel, do_exit_release A k gd code = K.set_exit_code k.current code
      ∧ K.tasks = (exit_thread A
          ((__exit_fs (__exit_files (k.call .exit_sem k.current 0) k.current) k.current).call
            .exit_namespace k.current 0)).tasks
      ∧ K.mm_users = (exit_thread A
          ((__exit_fs (__exit_files (k.call .exit_sem k.current 0) k.current) k.current).call
            .exit_namespace k.current 0)).mm_users
      ∧ K.files_count = (exit_thread A
          ((__exit_fs (__exit_files (k.call .exit_sem k.current 0) k.current) k.current).call
            .exit_namespace k.current 0)).files_count
      ∧ K.fs_count = (exit_thread A
          ((__exit_fs (__exit_files (k.call .exit_sem k.current 0) k.current) k.current).call
            .exit_namespace k.current 0)).fs_count
      ∧ K.current = (exit_thread A
          ((__exit_fs (__exit_files (k.call .exit_sem k.current 0) k.current) k.current).call
            .exit_namespace k.current 0)).current := by
  unfold do_exit_release
  dsimp only
  split_ifs
  all_goals refine ⟨_, rfl, ?_, ?_, ?_, ?_, ?_⟩
  all_goals simp only [call_tasks, call_mm_users, call_files_count, call_fs_count, call_current]

/-- What the part of `do_exit` between `exit_mm` and `exit_notify` does to
the handles and their counts: the open-file table and the filesystem context
of the running task are let go and lose one reference each; the address
space and its count are not touched. -/
lemma do_exit_release_fields (A : Arch) (k : Kernel) (gd : Bool) (code : Int) :
    ((do_exit_release A k gd code).tasks k.current).handles = ((k.tasks k.current).mm, 0, 0)
      ∧ (do_exit_release A k gd code).mm_users = k.mm_users
      ∧ (do_exit_release A k gd code).files_count
          = dropped k.files_count (k.tasks k.current).files
      ∧ (do_exit_release A k gd code).fs_count = dropped k.fs_count (k.tasks k.current).fs
      ∧ (do_exit_release A k gd code).current = k.current := by
  obtain ⟨K, hK, c1, c2, c3, c4, c5⟩ := do_exit_release_eq A k gd code
  rw [hK]
  clear hK
  obtain ⟨f1, f2, f3, f4, f5, f6⟩ := exit_files_fields (k.call .exit_sem k.current 0) k.current
  obtain ⟨g1, g2, g3, g4, g5, g6⟩ :=
    exit_fs_fields (__exit_files (k.call .exit_sem k.current 0) k.current) k.current
  obtain ⟨t1, t2, t3, t4, t5⟩ := exit_thread_fields A
    ((__exit_fs (__exit_files (k.call .exit_sem k.current 0) k.current) k.current).call
      .exit_namespace k.current 0)
  have e1 := congrFun f2 k.current
  have e2 := congrFun g2 k.current
  have e3 := congrFun t1 k.current
  simp only [Kernel.view, Prod.mk.injEq] at e1 e2
  simp only [Kernel.view, view_call] at e3
  generalize exit_thread A
    ((__exit_fs (__exit_files (k.call .exit_sem k.current 0) k.current) k.current).call
      .exit_namespace k.current 0) = X at *
  have u1 : ((__exit_fs (__exit_files (k.call .exit_sem k.current 0) k.current) k.current).call
      .exit_namespace k.current 0).tasks
      = (__exit_fs (__exit_files (k.call .exit_sem k.current 0) k.current) k.current).tasks :=
    rfl
  have u2 : ((__exit_fs (__exit_files (k.call .exit_sem k.current 0) k.current) k.current).call
      .exit_namespace k.current 0).mm_users
      = (__exit_fs (__exit_files (k.call .exit_sem k.current 0) k.current) k.current).mm_users :=
    rfl
  have u3 : ((__exit_fs (__exit_files (k.call .exit_sem k.current 0) k.current) k.current).call
      .exit_namespace k.current 0).files_count
      = (__exit_fs (__exit_files (k.call .exit_sem k.current 0)
          k.current) k.current).files_count :=
    rfl
  have u4 : ((__exit_fs (__exit_files (k.call .exit_sem k.current 0) k.current) k.current).call
      .exit_namespace k.current 0).fs_count
      = (__exit_fs (__exit_files (k.call .exit_sem k.current 0) k.current) k.current).fs_count :=
    rfl
  have u5 : ((__exit_fs (__exit_files (k.call .exit_sem k.current 0) k.current) k.current).call
      .exit_namespace k.current 0).current
      = (__exit_fs (__exit_files (k.call .exit_sem k.current 0) k.current) k.current).current :=
    rfl
  rw [u1] at e3
  rw [u2] at t2
  rw [u3] at t3
  rw [u4] at t4
  rw [u5] at t5
  clear u1 u2 u3 u4 u5
  generalize __exit_fs (__exit_files (k.call .exit_sem k.current 0) k.current) k.current = G at *
  generalize __exit_files (k.call .exit_sem k.current 0) k.current = F at *
  have v1 : (k.call .exit_sem k.current 0).tasks = k.tasks := rfl
  have v2 : (k.call .exit_sem k.current 0).mm_users = k.mm_users := rfl
  have v3 : (k.call .exit_sem k.current 0).files_count = k.files_count := rfl
  have v4 : (k.call .exit_sem k.current 0).fs_count = k.fs_count := rfl
  have v5 : (k.call .exit_sem k.current 0).current = k.current := rfl
  rw [v1] at e1 f3
  rw [v2] at f4
  rw [v3] at f3
  rw [v4] at f5
  rw [v5] at f6
  rw [e1.2] at g3
  have hX : (X.tasks k.current).handles = ((k.tasks k.current).mm, 0, 0) :=
    e3.trans (congrArg₂ Prod.mk (e2.1.trans e1.1) (congrArg₂ Prod.mk (e2.2.trans f1) g1))
  refine ⟨?_, ?_, ?_, ?_, ?_⟩
  · refine (congrFun (view_set_exit_code (v := task_struct.handles) (fun _ _ => rfl) K
      k.current code) k.current).trans ?_
    show (K.tasks k.current).handles = _
    rw [c1]
    exact hX
  · exact c2.trans (t2.trans (g4.trans f4))
  · exact c3.trans (t3.trans (g5.trans f3))
  · exact c4.trans (t4.trans (g3.trans (by rw [f5])))
  · exact c5.trans (t5.trans (g6.trans f6))

/-- C16: whenever `do_exit` runs to its end, the state `r.1` in which
`exit_notify` assigns `exit_state` is reached after `exit_mm` and the release
steps; in that state, and in the final state, the three handles `mm`, `files`
and `fs` of the terminating task are null and the count of each handle it
held on entry is one less than on entry, the other counts being as on entry;
the state assigned is `EXIT_ZOMBIE` or `EXIT_DEAD`. -/
theorem do_exit_handles_released (A : Arch) (fuel : Nat) (k k' : Kernel) (code : Int)
    (h : do_exit A fuel k code = .ok k') :
    ∃ k7 r,
      exit_mm (do_exit_begin (k.call .profile_task_exit k.current 0) code).1 k.current = .ok k7
      ∧ exit_notify_notified
          (do_exit_release A k7
            (do_exit_begin (k.call .profile_task_exit k.current 0) code).2 code)
          k.current = .ok r
      ∧ (r.1.tasks k.current).handles = (0, 0, 0)
      ∧ r.1.mm_users = dropped k.mm_users (k.tasks k.current).mm
      ∧ r.1.files_count = dropped k.files_count (k.tasks k.current).files
      ∧ r.1.fs_count = dropped k.fs_count (k.tasks k.current).fs
      ∧ (k'.tasks k.current).exit_state = exit_notify_choose r.1 k.current
      ∧ ((k'.tasks k.current).exit_state = EXIT_ZOMBIE
          ∨ (k'.tasks k.current).exit_state = EXIT_DEAD)
      ∧ (k'.tasks k.current).handles = (0, 0, 0)
      ∧ k'.mm_users = dropped k.mm_users (k.tasks k.current).mm
      ∧ k'.files_count = dropped k.files_count (k.tasks k.current).files
      ∧ k'.fs_count = dropped k.fs_count (k.tasks k.current).fs := by
  unfold do_exit at h
  simp only [bind_eq_ok, BUG_ON_eq_ok, pure_eq_ok] at h
  obtain ⟨_, _, k7, h7, k18, h18, _, _, h⟩ := h
  subst h
  obtain ⟨b1, b2, b3⟩ := do_exit_begin_fields task_struct.handles (fun _ _ => rfl)
    (fun _ _ => rfl) (k.call .profile_task_exit k.current 0) code
  have hb := congrFun b1 k.current
  simp only [Kernel.view, call_tasks, task_struct.handles, Prod.mk.injEq] at hb
  simp only [Kernel.shared, call_mm_users, call_files_count, call_fs_count,
    Prod.mk.injEq] at b2
  simp only [call_current] at b3
  generalize do_exit_begin (k.call .profile_task_exit k.current 0) code = b at *
  rw [b3] at h7
  obtain ⟨m1, m2, m3, m4, m5, m6⟩ := exit_mm_fields h7
  have hm := congrFun m2 k.current
  simp only [Kernel.view, Prod.mk.injEq] at hm
  have hc7 : k7.current = k.current := m6.trans b3
  obtain ⟨d1, d2, d3, d4, d5⟩ := do_exit_release_fields A k7 b.2 code
  rw [d5, hc7] at h18
  rw [hc7] at d1 d3 d4
  rw [m1] at d1
  rw [m4, hm.1, b2.2.2.2.1, hb.2.1] at d3
  rw [m5, hm.2, b2.2.2.2.2, hb.2.2] at d4
  rw [m3, b2.2.1, hb.1] at d2
  obtain ⟨r, hr, hs⟩ := exit_notify_exit_state h18
  have n1 := congrFun (view_exit_notify_notified exitFree_handles hr) k.current
  have n2 := shared_exit_notify_notified hr
  have x1 := congrFun (view_exit_notify exitFree_handles h18) k.current
  have x2 := shared_exit_notify h18
  simp only [Kernel.shared, Prod.mk.injEq] at n2 x2
  simp only [Kernel.view] at n1 x1
  refine ⟨k7, r, h7, hr, n1.trans d1, n2.2.1.trans d2, n2.2.2.2.1.trans d3,
    n2.2.2.2.2.trans d4, hs, ?_, x1.trans d1, x2.2.1.trans d2, x2.2.2.2.1.trans d3,
    x2.2.2.2.2.trans d4⟩
  show (k18.tasks k.current).exit_state = _ ∨ (k18.tasks k.current).exit_state = _
  rw [hs]
  exact (exit_notify_choose_cases r.1 k.current).symm

/-- The witness of C16 on the small system: the running child holds three
handles and terminates. -/
theorem do_exit_handles_released_witness :
    ∃ k', do_exit i386 2 demo_exiting 0x2a00 = .ok k'
      ∧ (k'.tasks 4).exit_state = EXIT_ZOMBIE
      ∧ (k'.tasks 4).handles = (0, 0, 0)
      ∧ k'.mm_users 7 = 1 ∧ k'.files_count 8 = 0 ∧ k'.fs_count 9 = 2 := by
  obtain ⟨k', hk'⟩ := ok_of_isSome (do_exit i386 2 demo_exiting 0x2a00) (by decide)
  obtain ⟨k7, r, _, hr, _, _, _, _, hs, _, h1, h2, h3, h4⟩ :=
    do_exit_handles_released i386 2 demo_exiting k' 0x2a00 hk'
  have e : (do_exit i386 2 demo_exiting 0x2a00).toOption.map
      (fun k' => (k'.tasks 4).exit_state) = some EXIT_ZOMBIE := by decide
  rw [toOption_map_of_ok hk'] at e
  refine ⟨k', hk', by simpa using e, h1, ?_, ?_, ?_⟩
  · rw [h2]; decide
  · rw [h3]; decide
  · rw [h4]; decide

lemma dropWhile_ne_split (q : Nat) (A B : List Nat) (hq : q ∉ A) :
    (A ++ q :: B).dropWhile (fun x => decide (x ≠ q)) = q :: B := by
  induction A with
  | nil => simp
  | cons a A ih =>
    have ha : a ≠ q := fun e => hq (by simp [e])
    have hA : q ∉ A := fun e => hq (by simp [e])
    rw [List.cons_append, List.dropWhile_cons_of_pos (by simpa using ha)]
    exact ih hA

lemma takeWhile_ne_split (q : Nat) (A B : List Nat) (hq : q ∉ A) :
    (A ++ q :: B).takeWhile (fun x => decide (x ≠ q)) = A := by
  induction A with
  | nil => simp
  | cons a A ih =>
    have ha : a ≠ q := fun e => hq (by simp [e])
    have hA : q ∉ A := fun e => hq (by simp [e])
    rw [List.cons_append, List.takeWhile_cons_of_pos (by simpa using ha), ih hA]

/-- The ring seen from a member of a chain: the part of the chain from the
member on, followed by the part before it. -/
lemma thread_ring_of_split (k : Kernel) (q : Nat) (A B : List Nat)
    (hC : k.pid_hash .PIDTYPE_TGID (k.tasks q).tgid = A ++ q :: B) (hq : q ∉ A) :
    thread_ring k q = q :: (B ++ A) := by
  unfold thread_ring
  dsimp only
  rw [hC, if_pos (by simp), dropWhile_ne_split q A B hq, takeWhile_ne_split q A B hq]
  rfl

lemma next_thread_of_split (k : Kernel) (q : Nat) (A B : List Nat)
    (hC : k.pid_hash .PIDTYPE_TGID (k.tasks q).tgid = A ++ q :: B) (hq : q ∉ A) :
    next_thread k q = (B ++ A).headD q := by
  unfold next_thread
  rw [thread_ring_of_split k q A B hC hq]
  cases B ++ A <;> rfl

/-- In a chain that holds each task once and whose members all have the
`tgid` of `father`, the task after a member of the ring of `father` is the
next entry of the ring, and `father` after the last one. -/
lemma next_thread_in_ring (k : Kernel) (father : Nat) (A0 B0 : List Nat)
    (hC : k.pid_hash .PIDTYPE_TGID (k.tasks father).tgid = A0 ++ father :: B0)
    (hnd : (A0 ++ father :: B0).Nodup)
    (htg : ∀ q ∈ A0 ++ father :: B0, (k.tasks q).tgid = (k.tasks father).tgid)
    (T1 : List Nat) (q : Nat) (T2 : List Nat) (hT : B0 ++ A0 = T1 ++ q :: T2) :
    next_thread k q = T2.headD father := by
  have first : ∀ a', A0 = a' ++ q :: T2 → next_thread k q = T2.headD father := by
    intro a' e
    subst e
    have hq : (k.tasks q).tgid = (k.tasks father).tgid := htg q (by simp)
    have hCq : k.pid_hash .PIDTYPE_TGID (k.tasks q).tgid
        = a' ++ q :: (T2 ++ father :: B0) := by
      rw [hq, hC]
      simp
    have hn : q ∉ a' := by
      intro hm
      have := (List.nodup_append.mp (List.nodup_append.mp hnd).1).2.2 hm
      exact this (by simp)
    rw [next_thread_of_split k q a' _ hCq hn]
    cases T2 <;> simp
  rcases List.append_eq_append_iff.mp hT with ⟨a', _, e⟩ | ⟨c', e1, e2⟩
  · exact first a' e
  · cases c' with
    | nil => exact first [] (by simpa using e2.symm)
    | cons c c'' =>
      rw [List.cons_append, List.cons.injEq] at e2
      obtain ⟨e3, e4⟩ := e2
      subst e3 e4 e1
      have hq : (k.tasks q).tgid = (k.tasks father).tgid := htg q (by simp)
      have hCq : k.pid_hash .PIDTYPE_TGID (k.tasks q).tgid
          = (A0 ++ father :: T1) ++ q :: c'' := by
        rw [hq, hC]
        simp
      have hn : q ∉ A0 ++ father :: T1 := by
        intro hm
        have hnd' : ((A0 ++ father :: T1) ++ q :: c'').Nodup := by simpa using hnd
        exact (List.nodup_append.mp hnd').2.2 hm (by simp)
      rw [next_thread_of_split k q _ _ hCq hn]
      cases c'' <;> cases A0 <;> simp

/-- The walk from a task whose successors on the ring are the list `T2`
followed by `father`: it ends at the first task of `T2` with `exit_state` 0,
and at the system reaper when there is none. -/
lemma reaper_walk_suffix (k : Kernel) (father : Nat) :
    ∀ (T2 : List Nat) (q : Nat),
      (∀ S1 x S2, T2 = S1 ++ x :: S2 → next_thread k x = S2.headD father) →
      next_thread k q = T2.headD father → father ∉ T2 →
      reaper_walk k father (T2.length + 1) q
        = some ((T2.find? (fun r => (k.tasks r).exit_state == 0)).getD k.child_reaper) := by
  intro T2
  induction T2 with
  | nil =>
    intro q _ hq _
    unfold reaper_walk
    rw [if_pos (by simpa using hq)]
    rfl
  | cons x T2 ih =>
    intro q hall hq hf
    have hx : next_thread k q = x := by simpa using hq
    have hxf : x ≠ father := fun e => hf (by simp [e])
    unfold reaper_walk
    rw [hx, if_neg hxf]
    by_cases hl : (k.tasks x).exit_state = 0
    · rw [if_neg (not_not.mpr hl), List.find?_cons_of_pos _ (by simpa using hl)]
      rfl
    · rw [if_pos hl, List.find?_cons_of_neg _ (by simpa using hl)]
      exact ih x (fun S1 y S2 e => hall (x :: S1) y S2 (by rw [e]; rfl))
        (hall [] x T2 rfl) (fun e => hf (by simp [e]))

lemma find_reaper_eq (k : Kernel) (father : Nat) :
    find_reaper k father
      = ((thread_ring k father).tail.find? (fun r => (k.tasks r).exit_state == 0)).getD
          k.child_reaper := by
  unfold find_reaper
  cases (thread_ring k father).tail.find? (fun r => (k.tasks r).exit_state == 0) <;> rfl

/-- The loop at the head of `forget_original_parent` ends, within as many
steps as the ring has members, at the task `find_reaper` names; and `father`
is not among the tasks after it on its ring. -/
lemma reaper_walk_find (k : Kernel) (father : Nat)
    (hnd : (k.pid_hash .PIDTYPE_TGID (k.tasks father).tgid).Nodup)
    (htg : ∀ q ∈ k.pid_hash .PIDTYPE_TGID (k.tasks father).tgid,
      (k.tasks q).tgid = (k.tasks father).tgid) :
    reaper_walk k father (thread_ring k father).length father = some (find_reaper k father)
      ∧ father ∉ (thread_ring k father).tail := by
  rw [find_reaper_eq]
  by_cases hm : father ∈ k.pid_hash .PIDTYPE_TGID (k.tasks father).tgid
  · obtain ⟨A0, B0, e⟩ := List.append_of_mem hm
    rw [e] at hnd htg
    have hA : father ∉ A0 := fun hx => (List.nodup_append.mp hnd).2.2 hx (by simp)
    have hB : father ∉ B0 := (List.nodup_cons.mp (List.nodup_append.mp hnd).2.1).1
    have hT : father ∉ B0 ++ A0 := by
      simp only [List.mem_append, not_or]
      exact ⟨hB, hA⟩
    rw [thread_ring_of_split k father A0 B0 e hA]
    exact ⟨reaper_walk_suffix k father (B0 ++ A0) father
      (fun S1 x S2 h => next_thread_in_ring k father A0 B0 e hnd htg S1 x S2 h)
      (next_thread_of_split k father A0 B0 e hA) hT, hT⟩
  · have hr : thread_ring k father = [father] := by
      unfold thread_ring
      dsimp only
      rw [if_neg hm]
    rw [hr]
    refine ⟨reaper_walk_suffix k father [] father (fun S1 x S2 h => ?_) ?_ (by simp), by simp⟩
    · exact absurd h (by simp)
    · unfold next_thread
      rw [hr]
      rfl

lemma linkFree_real_parent : LinkFree task_struct.real_parent :=
  ⟨fun _ _ => rfl, fun _ _ => rfl, fun _ _ => rfl, fun _ _ => rfl, fun _ _ => rfl,
    fun _ _ => rfl⟩

lemma choose_new_parent_eq {k a : Kernel} {p reaper : Nat}
    (h : choose_new_parent k p reaper = .ok a) : a = k.set_real_parent p reaper := by
  unfold choose_new_parent at h
  simp only [bind_eq_ok, BUG_ON_eq_ok, pure_eq_ok] at h
  obtain ⟨_, _, _, _, h⟩ := h
  exact h.symm

lemma real_parent_set_real_parent (k : Kernel) (p reaper x : Nat) :
    ((k.set_real_parent p reaper).tasks x).real_parent
      = if x = p then reaper else (k.tasks x).real_parent := by
  unfold Kernel.set_real_parent Kernel.setTask
  dsimp only
  split_ifs <;> rfl

/-- One turn of the first loop of `forget_original_parent` gives the reaper
to the child when `father` is its real parent, and changes no other real
parent. -/
lemma forget_child_real_parent {k : Kernel} {father reaper p : Nat} {l : List Nat}
    {r : Kernel × List Nat} (h : forget_child k father reaper l p = .ok r) (x : Nat) :
    (r.1.tasks x).real_parent
      = if x = p ∧ father = (k.tasks p).real_parent then reaper
        else (k.tasks x).real_parent := by
  unfold forget_child at h
  simp only [bind_eq_ok, BUG_ON_eq_ok, pure_eq_ok] at h
  obtain ⟨_, _, k1, h1, h⟩ := h
  have hr : r.1 = k1 := by rw [← h]
  rw [hr]
  clear hr h
  unfold forget_child_reparent at h1
  split_ifs at h1 with c
  · rw [map_eq_ok] at h1
    obtain ⟨a, ha, h1⟩ := h1
    subst h1
    have ea := choose_new_parent_eq ha
    subst ea
    refine (congrFun (view_reparent_thread linkFree_real_parent
      (k.set_real_parent p reaper) p father false) x).trans ?_
    show ((k.set_real_parent p reaper).tasks x).real_parent = _
    rw [real_parent_set_real_parent]
    by_cases hx : x = p
    · rw [if_pos hx, if_pos ⟨hx, c⟩]
    · rw [if_neg hx, if_neg (fun hh => hx hh.1)]
  · rw [map_eq_ok] at h1
    obtain ⟨a, ha, h1⟩ := h1
    subst h1
    have e1 := congrFun (view_renotify linkFree_real_parent a p) x
    have e2 := congrFun (view___ptrace_unlink linkFree_real_parent ha) x
    rw [if_neg (fun hh => c hh.2)]
    exact e1.trans e2

/-- The untraced branch of `reparent_thread` leaves the traced lists alone. -/
lemma ptrace_children_reparent_thread (k : Kernel) (p father : Nat) :
    (reparent_thread k p father false).view task_struct.ptrace_children
      = k.view task_struct.ptrace_children := by
  unfold reparent_thread
  rw [view_reparent_orphan]
  simp only [Bool.false_eq_true, if_false]
  rw [view_reparent_notify (v := task_struct.ptrace_children) (fun _ _ => rfl),
    view_reparent_move (v := task_struct.ptrace_children) (fun _ _ => rfl) (fun _ _ => rfl)
      (fun _ _ => rfl),
    view_reparent_signals (v := task_struct.ptrace_children) (fun _ _ => rfl)]

lemma view_REMOVE_LINKS_of {α : Type} {v : task_struct → α}
    (hv : ∀ t x, v { t with children := x } = v t) (k : Kernel) (p : Nat) :
    (REMOVE_LINKS k p).view v = k.view v := by
  unfold REMOVE_LINKS
  dsimp only
  rw [view_remove_parent_of hv]
  split_ifs <;> rfl

lemma view_SET_LINKS_of {α : Type} {v : task_struct → α}
    (hv : ∀ t x, v { t with children := x } = v t) (k : Kernel) (p : Nat) :
    (SET_LINKS k p).view v = k.view v := by
  unfold SET_LINKS
  dsimp only
  rw [view_add_parent_of hv]
  split_ifs <;> rfl

/-- Dropping the observer linkage of `p` takes no task other than `p` off a
traced list. -/
lemma ptrace_children_ptrace_unlinked (k : Kernel) (p t x : Nat)
    (hx : x ∈ (k.tasks t).ptrace_children) (hne : x ≠ p) :
    x ∈ ((ptrace_unlinked k p).tasks t).ptrace_children := by
  have hd : x ∈ ((ptrace_list_del (k.set_ptrace p 0) p).tasks t).ptrace_children := by
    have e := congrFun (view_set_ptrace (v := task_struct.ptrace_children) (fun _ _ => rfl)
      k p 0) t
    show x ∈ (((k.set_ptrace p 0).tasks t).ptrace_children.filter (fun q => q ≠ p))
    rw [show ((k.set_ptrace p 0).tasks t).ptrace_children = (k.tasks t).ptrace_children from e]
    simp [hx, hne]
  have hs : x ∈ ((k.set_ptrace p 0).tasks t).ptrace_children := by
    have e := congrFun (view_set_ptrace (v := task_struct.ptrace_children) (fun _ _ => rfl)
      k p 0) t
    rw [show ((k.set_ptrace p 0).tasks t).ptrace_children = (k.tasks t).ptrace_children from e]
    exact hx
  have links : ∀ a : Kernel,
      (SET_LINKS ((REMOVE_LINKS a p).set_parent p ((REMOVE_LINKS a p).tasks p).real_parent)
        p).view task_struct.ptrace_children = a.view task_struct.ptrace_children := by
    intro a
    rw [view_SET_LINKS_of (v := task_struct.ptrace_children) (fun _ _ => rfl),
      view_set_parent (v := task_struct.ptrace_children) (fun _ _ => rfl),
      view_REMOVE_LINKS_of (v := task_struct.ptrace_children) (fun _ _ => rfl)]
  have hl := congrFun (links (ptrace_list_del (k.set_ptrace p 0) p)) t
  unfold ptrace_unlinked
  dsimp only
  split_ifs
  · show x ∈ ((SET_LINKS _ p).tasks t).ptrace_children
    rw [show ((SET_LINKS _ p).tasks t).ptrace_children = _ from hl]
    exact hd
  · rw [show ((SET_LINKS _ p).tasks t).ptrace_children = _ from hl]
    exact hd
  · exact hs
  · exact hs

/-- One turn of the first loop of `forget_original_parent` takes a task off
a traced list only when it is the child of the turn and `father` is not its
real parent. -/
lemma forget_child_ptrace_children {k : Kernel} {father reaper p : Nat} {l : List Nat}
    {r : Kernel × List Nat} (h : forget_child k father reaper l p = .ok r) (t x : Nat)
    (hx : x ∈ (k.tasks t).ptrace_children)
    (hne : x ≠ p ∨ father = (k.tasks p).real_parent) :
    x ∈ (r.1.tasks t).ptrace_children := by
  unfold forget_child at h
  simp only [bind_eq_ok, BUG_ON_eq_ok, pure_eq_ok] at h
  obtain ⟨_, _, k1, h1, h⟩ := h
  have hr : r.1 = k1 := by rw [← h]
  rw [hr]
  clear hr h
  unfold forget_child_reparent at h1
  split_ifs at h1 with c
  · rw [map_eq_ok] at h1
    obtain ⟨a, ha, h1⟩ := h1
    subst h1
    have e1 := congrFun (ptrace_children_reparent_thread a p father) t
    have e2 := congrFun
      (view_choose_new_parent (v := task_struct.ptrace_children) (fun _ _ => rfl) ha) t
    rw [show ((reparent_thread a p father false).tasks t).ptrace_children
      = (k.tasks t).ptrace_children from e1.trans e2]
    exact hx
  · rw [map_eq_ok] at h1
    obtain ⟨a, ha, h1⟩ := h1
    subst h1
    unfold __ptrace_unlink at ha
    simp only [bind_eq_ok, BUG_ON_eq_ok, pure_eq_ok] at ha
    obtain ⟨_, _, ha⟩ := ha
    subst ha
    have e1 : (renotify (ptrace_unlinked k p) p).view task_struct.ptrace_children
        = (ptrace_unlinked k p).view task_struct.ptrace_children := by
      unfold renotify
      split_ifs
      · exact view_do_notify_parent_of (v := task_struct.ptrace_children) (fun _ _ => rfl) _ _ _
      · rfl
    rw [show ((renotify (ptrace_unlinked k p) p).tasks t).ptrace_children
      = ((ptrace_unlinked k p).tasks t).ptrace_children from congrFun e1 t]
    exact ptrace_children_ptrace_unlinked k p t x hx (hne.resolve_right c)

/-- The first loop of `forget_original_parent`: a real parent is kept or
becomes the reaper; it becomes the reaper for every task of the list whose
real parent is `father`; and a task with that real parent stays on the
traced lists unless its real parent has become the reaper. -/
lemma forget_children_real_parent (father reaper : Nat) :
    ∀ (L : List Nat) {k : Kernel} {l : List Nat} {r : Kernel × List Nat},
      forget_children father reaper L k l = .ok r → ∀ x,
        ((r.1.tasks x).real_parent = (k.tasks x).real_parent
          ∨ (r.1.tasks x).real_parent = reaper)
        ∧ (x ∈ L → (k.tasks x).real_parent = father → (r.1.tasks x).real_parent = reaper)
        ∧ (∀ t, x ∈ (k.tasks t).ptrace_children → (k.tasks x).real_parent = father →
            x ∈ (r.1.tasks t).ptrace_children ∨ (r.1.tasks x).real_parent = reaper) := by
  intro L
  induction L with
  | nil =>
    intro k l r h x
    unfold forget_children at h
    simp only [pure_eq_ok] at h
    subst h
    exact ⟨Or.inl rfl, fun hx => absurd hx (by simp), fun t ht _ => Or.inl ht⟩
  | cons p rest ih =>
    intro k l r h x
    unfold forget_children at h
    simp only [bind_eq_ok] at h
    obtain ⟨r1, h1, h2⟩ := h
    have s1 := forget_child_real_parent h1 x
    obtain ⟨i1, i2, i3⟩ := ih h2 x
    by_cases c : x = p ∧ father = (k.tasks p).real_parent
    · rw [if_pos c] at s1
      have hre : (r.1.tasks x).real_parent = reaper := by
        rcases i1 with e | e
        · exact e.trans s1
        · exact e
      exact ⟨Or.inr hre, fun _ _ => hre, fun _ _ _ => Or.inr hre⟩
    · rw [if_neg c] at s1
      refine ⟨?_, ?_, ?_⟩
      · rcases i1 with e | e
        · exact Or.inl (e.trans s1)
        · exact Or.inr e
      · intro hx hf
        have hxp : x ≠ p := by
          intro e
          subst e
          exact c ⟨rfl, hf.symm⟩
        have hxr : x ∈ rest := by
          rcases List.mem_cons.mp hx with e | e
          · exact absurd e hxp
          · exact e
        exact i2 hxr (s1.trans hf)
      · intro t ht hf
        have hxp : x ≠ p := by
          intro e
          subst e
          exact c ⟨rfl, hf.symm⟩
        exact i3 t (forget_child_ptrace_children h1 t x ht (Or.inl hxp)) (s1.trans hf)

/-- The second loop of `forget_original_parent`: a real parent is kept or
becomes the reaper, and it becomes the reaper for every task of the list. -/
lemma forget_ptrace_children_real_parent (father reaper : Nat) :
    ∀ (L : List Nat) {k k' : Kernel},
      forget_ptrace_children father reaper L k = .ok k' → ∀ x,
        ((k'.tasks x).real_parent = (k.tasks x).real_parent
          ∨ (k'.tasks x).real_parent = reaper)
        ∧ (x ∈ L → (k'.tasks x).real_parent = reaper) := by
  intro L
  induction L with
  | nil =>
    intro k k' h x
    unfold forget_ptrace_children at h
    simp only [pure_eq_ok] at h
    subst h
    exact ⟨Or.inl rfl, fun hx => absurd hx (by simp)⟩
  | cons p rest ih =>
    intro k k' h x
    unfold forget_ptrace_children at h
    simp only [bind_eq_ok] at h
    obtain ⟨a, ha, h2⟩ := h
    have ea := choose_new_parent_eq ha
    subst ea
    have s1 : ((reparent_thread (k.set_real_parent p reaper) p father true).tasks x).real_parent
        = if x = p then reaper else (k.tasks x).real_parent :=
      (congrFun (view_reparent_thread linkFree_real_parent
        (k.set_real_parent p reaper) p father true) x).trans
        (real_parent_set_real_parent k p reaper x)
    obtain ⟨i1, i2⟩ := ih h2 x
    by_cases c : x = p
    · rw [if_pos c] at s1
      have hre : (k'.tasks x).real_parent = reaper := by
        rcases i1 with e | e
        · exact e.trans s1
        · exact e
      exact ⟨Or.inr hre, fun _ => hre⟩
    · rw [if_neg c] at s1
      refine ⟨?_, ?_⟩
      · rcases i1 with e | e
        · exact Or.inl (e.trans s1)
        · exact Or.inr e
      · intro hx
        rcases List.mem_cons.mp hx with e | e
        · exact absurd e c
        · exact i2 e

/-- After `forget_original_parent`, every task that was on the child list or
the traced list of `father` with `father` as its real parent has the task
`find_reaper` names as its real parent. -/
lemma forget_original_parent_real_parent {k : Kernel} {father : Nat} {r : Kernel × List Nat}
    (h : forget_original_parent k father = .ok r) (q : Nat)
    (hq : (k.tasks q).real_parent = father)
    (hm : q ∈ (k.tasks father).children ∨ q ∈ (k.tasks father).ptrace_children) :
    (r.1.tasks q).real_parent = find_reaper k father := by
  unfold forget_original_parent at h
  simp only [bind_eq_ok, pure_eq_ok] at h
  obtain ⟨r1, h1, k2, h2, h⟩ := h
  subst h
  obtain ⟨a1, a2, a3⟩ := forget_children_real_parent father (find_reaper k father) _ h1 q
  obtain ⟨b1, b2⟩ := forget_ptrace_children_real_parent father (find_reaper k father) _ h2 q
  show (k2.tasks q).real_parent = _
  have step : (r1.1.tasks q).real_parent = find_reaper k father →
      (k2.tasks q).real_parent = find_reaper k father := by
    intro e
    rcases b1 with e' | e'
    · exact e'.trans e
    · exact e'
  rcases hm with hm | hm
  · exact step (a2 hm hq)
  · rcases a3 father hm hq with e | e
    · exact b2 e
    · exact step e

/-- C18: when the chain of the thread group of `father` holds each task once
and only tasks of that group, and `father` is not the system reaper: the
loop at the head of `forget_original_parent` ends at the task `find_reaper`
names; that task is the first one after `father` on the ring with
`exit_state` 0, or the system reaper when the ring has none; it is not
`father`; and after `forget_original_parent` every task that was on the
child list or the traced list of `father` with `father` as its real parent
has it as its real parent. -/
theorem forget_original_parent_reaper (k : Kernel) (father : Nat)
    (hne : father ≠ k.child_reaper)
    (hnd : (k.pid_hash .PIDTYPE_TGID (k.tasks father).tgid).Nodup)
    (htg : ∀ q ∈ k.pid_hash .PIDTYPE_TGID (k.tasks father).tgid,
      (k.tasks q).tgid = (k.tasks father).tgid) :
    reaper_walk k father (thread_ring k father).length father = some (find_reaper k father)
      ∧ ((∃ l1 l2, (thread_ring k father).tail = l1 ++ find_reaper k father :: l2
            ∧ (∀ x ∈ l1, (k.tasks x).exit_state ≠ 0)
            ∧ (k.tasks (find_reaper k father)).exit_state = 0)
          ∨ ((∀ x ∈ (thread_ring k father).tail, (k.tasks x).exit_state ≠ 0)
            ∧ find_reaper k father = k.child_reaper))
      ∧ find_reaper k father ≠ father
      ∧ ∀ r, forget_original_parent k father = .ok r →
          ∀ q, (k.tasks q).real_parent = father →
            q ∈ (k.tasks father).children ∨ q ∈ (k.tasks father).ptrace_children →
            (r.1.tasks q).real_parent = find_reaper k father := by
  obtain ⟨w1, w2⟩ := reaper_walk_find k father hnd htg
  have char : (∃ l1 l2, (thread_ring k father).tail = l1 ++ find_reaper k father :: l2
        ∧ (∀ x ∈ l1, (k.tasks x).exit_state ≠ 0)
        ∧ (k.tasks (find_reaper k father)).exit_state = 0)
      ∨ ((∀ x ∈ (thread_ring k father).tail, (k.tasks x).exit_state ≠ 0)
        ∧ find_reaper k father = k.child_reaper) := by
    rw [find_reaper_eq]
    cases hf : (thread_ring k father).tail.find? (fun r => (k.tasks r).exit_state == 0) with
    | none =>
      refine Or.inr ⟨fun x hx => ?_, rfl⟩
      simpa using List.find?_eq_none.mp hf x hx
    | some b =>
      obtain ⟨hb, l1, l2, e, hl⟩ := List.find?_eq_some.mp hf
      refine Or.inl ⟨l1, l2, e, fun x hx => ?_, ?_⟩
      · simpa using hl x hx
      · simpa using hb
  refine ⟨w1, char, ?_, fun r h q hq hm => forget_original_parent_real_parent h q hq hm⟩
  rcases char with ⟨l1, l2, e, _, _⟩ | ⟨_, e⟩
  · intro hc
    apply w2
    rw [e, hc]
    simp
  · rw [e]
    exact fun hc => hne hc.symm

/-- The witness of C18 on the shell of three threads: the walk passes the
zombie thread and ends at the live one, which gets both children. -/
theorem forget_original_parent_reaper_witness :
    reaper_walk demo_threads 2 3 2 = some 5
      ∧ ∃ r, forget_original_parent demo_threads 2 = .ok r
        ∧ (r.1.tasks 3).real_parent = 5 ∧ (r.1.tasks 4).real_parent = 5 := by
  obtain ⟨w1, _, _, w4⟩ := forget_original_parent_reaper demo_threads 2 (by decide)
    (by decide) (by decide)
  have e : find_reaper demo_threads 2 = 5 := by decide
  obtain ⟨r, hr⟩ := ok_of_isSome (forget_original_parent demo_threads 2) (by decide)
  refine ⟨?_, r, hr, ?_, ?_⟩
  · rw [← e]
    exact w1
  · rw [← e]
    exact w4 r hr 3 (by decide) (Or.inl (by decide))
  · rw [← e]
    exact w4 r hr 4 (by decide) (Or.inl (by decide))

/-- The frame `copy_thread` leaves on the child's stack: the registers
handed in, with `eax` zero and the stack pointer given. -/
lemma copy_thread_frame (A : Arch) (kmalloc : Nat)
    (copy_from_user : Nat → Option user_desc) (cur : task) (fs gs : Nat) (heap : Heap)
    (clone_flags esp : Nat) (p : task) (regs : pt_regs) :
    (copy_thread A kmalloc copy_from_user cur fs gs heap clone_flags esp p regs).p.stack_regs
      = { regs with eax := 0, esp := esp } := by
  unfold copy_thread
  dsimp only
  split_ifs <;> rfl

lemma do_exit_release_exit_code (A : Arch) (k : Kernel) (gd : Bool) (code : Int) :
    ((do_exit_release A k gd code).tasks k.current).exit_code = code := by
  obtain ⟨K, hK, _⟩ := do_exit_release_eq A k gd code
  rw [hK]
  simp [Kernel.set_exit_code, Kernel.setTask]

/-- What `do_exit` leaves in the terminated task: the exit code it was given
and no address space. -/
lemma do_exit_task_fields {A : Arch} {fuel : Nat} {k k' : Kernel} {code : Int}
    (h : do_exit A fuel k code = .ok k') :
    (k'.tasks k.current).exit_code = code ∧ (k'.tasks k.current).mm = 0 := by
  unfold do_exit at h
  simp only [bind_eq_ok, BUG_ON_eq_ok, pure_eq_ok] at h
  obtain ⟨_, _, k7, h7, k18, h18, _, _, h⟩ := h
  subst h
  obtain ⟨_, _, b3⟩ := do_exit_begin_fields task_struct.handles (fun _ _ => rfl)
    (fun _ _ => rfl) (k.call .profile_task_exit k.current 0) code
  simp only [call_current] at b3
  generalize do_exit_begin (k.call .profile_task_exit k.current 0) code = b at *
  rw [b3] at h7
  obtain ⟨m1, _, _, _, _, m6⟩ := exit_mm_fields h7
  have hc7 : k7.current = k.current := m6.trans b3
  obtain ⟨d1, _, _, _, d5⟩ := do_exit_release_fields A k7 b.2 code
  have dc := do_exit_release_exit_code A k7 b.2 code
  rw [d5, hc7] at h18
  rw [hc7] at d1 dc
  rw [m1] at d1
  have x1 := congrFun (view_exit_notify exitFree_handles h18) k.current
  have x2 := congrFun (view_exit_notify exitFree_exit_code h18) k.current
  simp only [Kernel.view] at x1 x2
  refine ⟨x2.trans dc, ?_⟩
  have e := x1.trans d1
  simp only [task_struct.handles, Prod.mk.injEq] at e
  exact e.1

/-- The accounting step does not change the status a consuming wait reports. -/
lemma wait_task_zombie_account_status (k : Kernel) (p : Nat) :
    wait_task_zombie_status (wait_task_zombie_account k p) p = wait_task_zombie_status k p := by
  have e : (wait_task_zombie_account k p).tasks = k.tasks :=
    (wait_task_zombie_account_fields k p).1
  have hs : ((wait_task_zombie_account k p).sig p).flags = (k.sig p).flags
      ∧ ((wait_task_zombie_account k p).sig p).group_exit_code = (k.sig p).group_exit_code := by
    unfold Kernel.sig
    rw [e]
    unfold wait_task_zombie_account
    dsimp only
    split_ifs with c
    · unfold Kernel.setSignal Kernel.sig
      dsimp only
      split_ifs with c2
      · rw [c2]
        exact ⟨rfl, rfl⟩
      · exact ⟨rfl, rfl⟩
    · exact ⟨rfl, rfl⟩
  unfold wait_task_zombie_status
  rw [hs.1, hs.2, e]

lemma shared_wait_task_zombie_release {fuel : Nat} {k k' : Kernel} {p : Nat}
    (h : wait_task_zombie_release fuel k p = .ok k') : k'.shared = k.shared := by
  unfold wait_task_zombie_release at h
  simp only [bind_eq_ok] at h
  obtain ⟨r, hr, h⟩ := h
  have e1 : r.1.shared = k.shared := by
    unfold wait_task_zombie_untrace at hr
    split_ifs at hr
    · rw [map_eq_ok] at hr
      obtain ⟨a, ha, hr⟩ := hr
      subst hr
      have ea := shared___ptrace_unlink ha
      split_ifs
      · exact (shared_do_notify_parent _ _ _).trans ea
      · exact ea
    · simp only [pure_eq_ok] at hr
      subst hr
      rfl
  split_ifs at h
  · simp only [pure_eq_ok] at h
    subst h
    exact e1
  · exact (shared_release_task fuel h).trans e1

/-- The consuming path of `wait_task_zombie` for a child that is not traced
and a caller that asks for the status only: the pid of the child is returned
and the status word is in the caller's cell. -/
lemma wait_task_zombie_reap_status (fuel : Nat) (k : Kernel) (p stat : Nat) (hfuel : 0 < fuel)
    (hes : (k.tasks p).exit_signal ≠ -1) (hpid : (k.tasks p).pid ≠ 0)
    (hpar : (k.tasks p).real_parent = (k.tasks p).parent)
    (hnt : (k.tasks p).ptrace = 0) (hpl : ptrace_list_empty k p = true)
    (hpc : (k.tasks p).ptrace_children = []) (hgl : (k.tasks p).group_leader = p)
    (hmm : (k.tasks p).mm = 0)
    (hs : stat ≠ 0) (hw : (k.umem stat).isSome = true) :
    ∃ k', wait_task_zombie_reap fuel k p 0 stat 0 = .ok ((k.tasks p).pid, k')
      ∧ k'.umem stat = some (wait_task_zombie_status k p) := by
  obtain ⟨k', h1, _, _⟩ := wait_task_zombie_reap_plain fuel k p stat 0 hfuel hes hpid hpar hnt
    hpl hpc hgl hmm (Or.inl rfl) (Or.inr hw)
  refine ⟨k', h1, ?_⟩
  obtain ⟨_, _, a3, _, _⟩ := wait_task_zombie_account_fields k p
  have hc : wait_task_zombie_copyout (wait_task_zombie_account k p) p 0 stat 0
      = put_user_ifp (0, wait_task_zombie_account k p) stat (wait_task_zombie_status k p)
          stat := by
    rw [wait_task_zombie_copyout_wait4]
    have eg : getrusage_opt (wait_task_zombie_account k p) p 0
        = (0, wait_task_zombie_account k p) := by
      unfold getrusage_opt
      simp
    rw [eg, wait_task_zombie_account_status]
  obtain ⟨u1, _, u3⟩ := put_user_ifp_status (0, wait_task_zombie_account k p)
    (wait_task_zombie_status k p) stat rfl hs (by rw [a3]; exact hw)
  unfold wait_task_zombie_reap at h1
  rw [if_neg (fun c => hes c.1), hc, if_neg (not_not.mpr u1)] at h1
  simp only [bind_eq_ok, BUG_ON_eq_ok, pure_eq_ok, Prod.mk.injEq] at h1
  obtain ⟨k4, h4, _, _, _, e⟩ := h1
  subst e
  have sh := shared_wait_task_zombie_release h4
  have := congrArg (fun s => s.1 stat) sh
  exact this.trans u3

/-- A consuming `wait_task_zombie` with `wait4`-style arguments on a zombie
that is not traced returns its pid and stores the status word. -/
lemma wait_task_zombie_status_plain (fuel : Nat) (k : Kernel) (p stat : Nat) (hfuel : 0 < fuel)
    (hz : (k.tasks p).exit_state = EXIT_ZOMBIE)
    (hes : (k.tasks p).exit_signal ≠ -1) (hpid : (k.tasks p).pid ≠ 0)
    (hpar : (k.tasks p).real_parent = (k.tasks p).parent)
    (hnt : (k.tasks p).ptrace = 0) (hpl : ptrace_list_empty k p = true)
    (hpc : (k.tasks p).ptrace_children = []) (hgl : (k.tasks p).group_leader = p)
    (hmm : (k.tasks p).mm = 0)
    (hs : stat ≠ 0) (hw : (k.umem stat).isSome = true) :
    ∃ k', wait_task_zombie fuel k p false 0 stat 0 = .ok ((k.tasks p).pid, k')
      ∧ k'.umem stat = some (wait_task_zombie_status k p) := by
  have hv : ∀ {α : Type} (v : task_struct → α), (∀ t x, v { t with exit_state := x } = v t) →
      v ((k.set_exit_state p EXIT_DEAD).tasks p) = v (k.tasks p) := by
    intro α v hv
    exact congrFun (view_set_exit_state hv k p EXIT_DEAD) p
  obtain ⟨k', h1, h2⟩ := wait_task_zombie_reap_status fuel (k.set_exit_state p EXIT_DEAD)
    p stat hfuel
    (by rw [hv task_struct.exit_signal fun _ _ => rfl]; exact hes)
    (by rw [hv task_struct.pid fun _ _ => rfl]; exact hpid)
    (by rw [hv task_struct.real_parent fun _ _ => rfl, hv task_struct.parent fun _ _ => rfl]
        exact hpar)
    (by rw [hv task_struct.ptrace fun _ _ => rfl]; exact hnt)
    (by rw [ptrace_list_empty_congr k (k.set_exit_state p EXIT_DEAD) p rfl
          (view_set_exit_state (v := task_struct.ptrace_children) (fun _ _ => rfl) k p _)]
        exact hpl)
    (by rw [hv task_struct.ptrace_children fun _ _ => rfl]; exact hpc)
    (by rw [hv task_struct.group_leader fun _ _ => rfl]; exact hgl)
    (by rw [hv task_struct.mm fun _ _ => rfl]; exact hmm)
    hs hw
  have hst : wait_task_zombie_status (k.set_exit_state p EXIT_DEAD) p
      = wait_task_zombie_status k p := by
    unfold wait_task_zombie_status Kernel.sig
    rw [hv task_struct.signal fun _ _ => rfl, hv task_struct.exit_code fun _ _ => rfl]
    rfl
  rw [hv task_struct.pid fun _ _ => rfl] at h1
  rw [hst] at h2
  refine ⟨k', ?_, h2⟩
  unfold wait_task_zombie
  rw [if_neg Bool.false_ne_true, if_neg (not_not.mpr hz)]
  exact h1

/-- C11, counterexample: a kernel thread whose function returns 42 while
`SIGNAL_GROUP_EXIT` is set in its signal structure with group exit code 9.
`do_exit` stores 42 and leaves a zombie; the parent's consuming wait returns
the pid 102 of the thread and the status word 9. -/
theorem kernel_thread_status_group_exit :
    (kernel_thread_helper i386 2 (fun _ _ k => (42, k)) demo_frame demo_group_exit >>=
        fun k2 =>
          (wait_task_zombie 2 { k2 with current := 2 } 4 false 0 0x1000 0).map fun r =>
            ((k2.tasks 4).exit_code, (k2.tasks 4).exit_state, r.1, r.2.umem 0x1000)).toOption
      = some (42, EXIT_ZOMBIE, 102, some 9) := by
  decide

/-- C11, amended: the frame `copy_thread` leaves for a thread made by
`kernel_thread(fn, arg, flags)` has `fn` in `ebx`, `arg` in `edx` and the
helper in `eip`; the helper entered with that frame calls `fn` with `arg`
and then `do_exit` with the value `v` returned, which stores `v` as the exit
code; and when that leaves an untraced zombie that leads its group, reports
its death and has no group exit under way, a consuming `wait4`-style
`wait_task_zombie` by the parent returns the pid of the thread and stores
`v` in the status cell. -/
theorem kernel_thread_exit_status (A : Arch) (fuel : Nat)
    (call : Nat → Nat → Kernel → Int × Kernel) (helper fn arg flags : Nat) (kmalloc : Nat)
    (copy_from_user : Nat → Option user_desc) (cur : task) (fs gs : Nat) (heap : Heap)
    (child : task) (k k2 : Kernel) (stat : Nat)
    (hrun : kernel_thread_helper A fuel call
      (copy_thread A kmalloc copy_from_user cur fs gs heap (kernel_thread helper fn arg flags).1
        (kernel_thread helper fn arg flags).2.1 child
        (kernel_thread helper fn arg flags).2.2).p.stack_regs k = .ok k2)
    (hcur : (call fn arg k).2.current = k.current)
    (hfuel : 0 < fuel)
    (hz : (k2.tasks k.current).exit_state = EXIT_ZOMBIE)
    (hes : (k2.tasks k.current).exit_signal ≠ -1) (hpid : (k2.tasks k.current).pid ≠ 0)
    (hpar : (k2.tasks k.current).real_parent = (k2.tasks k.current).parent)
    (hnt : (k2.tasks k.current).ptrace = 0) (hpl : ptrace_list_empty k2 k.current = true)
    (hpc : (k2.tasks k.current).ptrace_children = [])
    (hgl : (k2.tasks k.current).group_leader = k.current)
    (hge : hasFlag (k2.sig k.current).flags SIGNAL_GROUP_EXIT = false)
    (hs : stat ≠ 0) (hw : (k2.umem stat).isSome = true) :
    ((copy_thread A kmalloc copy_from_user cur fs gs heap (kernel_thread helper fn arg flags).1
        (kernel_thread helper fn arg flags).2.1 child
        (kernel_thread helper fn arg flags).2.2).p.stack_regs.ebx = fn
      ∧ (copy_thread A kmalloc copy_from_user cur fs gs heap
          (kernel_thread helper fn arg flags).1 (kernel_thread helper fn arg flags).2.1 child
          (kernel_thread helper fn arg flags).2.2).p.stack_regs.edx = arg
      ∧ (copy_thread A kmalloc copy_from_user cur fs gs heap
          (kernel_thread helper fn arg flags).1 (kernel_thread helper fn arg flags).2.1 child
          (kernel_thread helper fn arg flags).2.2).p.stack_regs.eip = helper)
      ∧ do_exit A fuel (call fn arg k).2 (call fn arg k).1 = .ok k2
      ∧ (k2.tasks k.current).exit_code = (call fn arg k).1
      ∧ ∃ k', wait_task_zombie fuel { k2 with current := (k2.tasks k.current).parent }
            k.current false 0 stat 0 = .ok ((k2.tasks k.current).pid, k')
          ∧ k'.umem stat = some (call fn arg k).1 := by
  rw [copy_thread_frame] at hrun ⊢
  have hd : do_exit A fuel (call fn arg k).2 (call fn arg k).1 = .ok k2 := hrun
  obtain ⟨f1, f2⟩ := do_exit_task_fields hd
  rw [hcur] at f1 f2
  refine ⟨⟨rfl, rfl, rfl⟩, hd, f1, ?_⟩
  obtain ⟨k', w1, w2⟩ := wait_task_zombie_status_plain fuel
    { k2 with current := (k2.tasks k.current).parent } k.current stat hfuel hz hes hpid hpar hnt
    hpl hpc hgl f2 hs hw
  refine ⟨k', w1, ?_⟩
  rw [w2]
  unfold wait_task_zombie_status
  rw [if_neg (by rw [show ({ k2 with current := (k2.tasks k.current).parent } : Kernel).sig
    k.current = k2.sig k.current from rfl, hge]; exact Bool.false_ne_true)]
  exact congrArg some f1

/-- The witness of C11: the kernel thread of the small system runs a
function that returns 42; its parent reaps it and reads the status 42. -/
theorem kernel_thread_exit_status_witness :
    ∃ k2 k', kernel_thread_helper i386 2 (fun _ _ k => (42, k)) demo_frame demo_kthread = .ok k2
      ∧ (k2.tasks 4).exit_code = 42
      ∧ wait_task_zombie 2 { k2 with current := 2 } 4 false 0 0x1000 0 = .ok (102, k')
      ∧ k'.umem 0x1000 = some 42 := by
  obtain ⟨k2, hk2⟩ := ok_of_isSome
    (kernel_thread_helper i386 2 (fun _ _ k => (42, k)) demo_frame demo_kthread) (by decide)
  have e : (kernel_thread_helper i386 2 (fun _ _ k => (42, k)) demo_frame
      demo_kthread).toOption.map (fun k2 => decide
        ((k2.tasks 4).exit_state = EXIT_ZOMBIE ∧ (k2.tasks 4).exit_signal ≠ -1
          ∧ (k2.tasks 4).pid = 102 ∧ (k2.tasks 4).real_parent = (k2.tasks 4).parent
          ∧ (k2.tasks 4).parent = 2
          ∧ (k2.tasks 4).ptrace = 0 ∧ ptrace_list_empty k2 4 = true
          ∧ (k2.tasks 4).ptrace_children = [] ∧ (k2.tasks 4).group_leader = 4
          ∧ hasFlag (k2.sig 4).flags SIGNAL_GROUP_EXIT = false
          ∧ (k2.umem 0x1000).isSome = true)) = some true := by
    decide
  rw [toOption_map_of_ok hk2] at e
  obtain ⟨p1, p2, p3, p4, p5, p6, p7, p8, p9, p10, p11⟩ := of_decide_eq_true (Option.some.inj e)
  obtain ⟨_, _, h3, k', h4, h5⟩ := kernel_thread_exit_status i386 2 (fun _ _ k => (42, k))
    0xc0101000 0xc0200000 7 17 0 (fun _ => none) {} 0 0 {} {} demo_kthread k2 0x1000 hk2 rfl
    (by decide) p1 p2
    (by rw [show (k2.tasks demo_kthread.current).pid = 102 from p3]; decide) p4 p6 p7 p8 p9 p10 (by decide) p11
  refine ⟨k2, k', hk2, h3, ?_, h5⟩
  have hp : ((k2.tasks demo_kthread.current).parent) = 2 := p5
  have hq : ((k2.tasks demo_kthread.current).pid) = 102 := p3
  rw [hp, hq] at h4
  exact h4

lemma do_wait_children_inelig (fuel : Nat) (w : WaitArgs) (k : Kernel) :
    ∀ (l : List Nat) (flag : Bool), (∀ q ∈ l, eligible_child k w.pid w.options q = 0) →
      do_wait_children fuel w l k flag = .ok (k, .next flag) := by
  intro l
  induction l with
  | nil => intro flag _; rfl
  | cons q rest ih =>
    intro flag h
    have hq : do_wait_child fuel k w flag q = .ok (k, .next flag) := by
      unfold do_wait_child
      rw [if_pos (h q (List.mem_cons_self _ _))]
      rfl
    unfold do_wait_children
    rw [bind_of_ok hq]
    exact ih flag fun q' hq' => h q' (List.mem_cons_of_mem _ hq')

lemma do_wait_ptrace_children_iff (w : WaitArgs) (k : Kernel) :
    ∀ l : List Nat, do_wait_ptrace_children k w l = true
      ↔ ∃ q ∈ l, eligible_child k w.pid w.options q ≠ 0 := by
  intro l
  induction l with
  | nil => simp [do_wait_ptrace_children]
  | cons q rest ih =>
    unfold do_wait_ptrace_children
    split_ifs with c
    · rw [ih]
      constructor
      · rintro ⟨x, hx, hn⟩
        exact ⟨x, List.mem_cons_of_mem _ hx, hn⟩
      · rintro ⟨x, hx, hn⟩
        rcases List.mem_cons.mp hx with e | e
        · subst e
          exact absurd c hn
        · exact ⟨x, e, hn⟩
    · simp only [true_iff]
      exact ⟨q, List.mem_cons_self _ _, c⟩

lemma do_wait_ptrace_children_inelig (w : WaitArgs) (k : Kernel) (l : List Nat)
    (h : ∀ q ∈ l, eligible_child k w.pid w.options q = 0) :
    do_wait_ptrace_children k w l = false := by
  cases e : do_wait_ptrace_children k w l with
  | false => rfl
  | true =>
    obtain ⟨q, hq, hn⟩ := (do_wait_ptrace_children_iff w k l).mp e
    exact absurd (h q hq) hn

/-- The thread loop over threads whose children and traced tasks are all
ineligible runs to its end with the flag clear and changes nothing. -/
lemma do_wait_threads_inelig (fuel : Nat) (w : WaitArgs) (k : Kernel) :
    ∀ ring : List Nat,
      (∀ t ∈ (if hasFlag w.options __WNOTHREAD then ring.take 1 else ring),
        (k.tasks t).signal = (k.tasks k.current).signal
          ∧ (∀ q ∈ (k.tasks t).children, eligible_child k w.pid w.options q = 0)
          ∧ (∀ q ∈ (k.tasks t).ptrace_children, eligible_child k w.pid w.options q = 0)) →
      do_wait_threads fuel w ring k false = .ok (k, .next false) := by
  intro ring
  induction ring with
  | nil => intro _; rfl
  | cons t rest ih =>
    intro h
    have ht : t ∈ (if hasFlag w.options __WNOTHREAD then (t :: rest).take 1 else t :: rest) := by
      split_ifs <;> simp
    obtain ⟨a1, a2, a3⟩ := h t ht
    unfold do_wait_threads
    have hb : BUG_ON ((k.tasks t).signal != (k.tasks k.current).signal) 1607 k = .ok () := by
      rw [a1]
      simp [BUG_ON]
    rw [bind_of_ok hb, bind_of_ok (do_wait_children_inelig fuel w k _ false a2)]
    have hf : do_wait_thread_flag k w t false = false := by
      unfold do_wait_thread_flag
      simp [do_wait_ptrace_children_inelig w k _ a3]
    dsimp only
    rw [hf]
    split_ifs with c
    · rfl
    · refine ih fun t' ht' => h t' ?_
      rw [if_neg c] at ht' ⊢
      exact List.mem_cons_of_mem _ ht'

lemma put_user_if_log (r : Int × Kernel) (x : Int) (a : Nat) :
    (put_user_if r x a).2.log = r.2.log := by
  unfold put_user_if
  split_ifs
  · exact put_user_log _ _ _
  · rfl

lemma schedule_calls_of_log {k k' : Kernel} (f : Callee) (a b : Int) (hf : f ≠ .schedule)
    (h : k'.log = k.log ++ [{ fn := f, a := a, b := b }]) :
    schedule_calls k' = schedule_calls k := by
  unfold schedule_calls
  rw [h, List.filter_append]
  have : (List.filter (fun e : Event => e.fn == Callee.schedule)
      [{ fn := f, a := a, b := b }]) = [] := by
    have hb : (f == Callee.schedule) = false := by simpa using hf
    simp [List.filter, hb]
  rw [this, List.append_nil]

/-- The code at the label `end:` calls `remove_wait_queue` and nothing else. -/
lemma do_wait_end_schedule (k : Kernel) (w : WaitArgs) (retval : Int) :
    schedule_calls (do_wait_end k w retval).1 = schedule_calls k := by
  refine schedule_calls_of_log .remove_wait_queue k.current 0 (by decide) ?_
  unfold do_wait_end
  dsimp only
  split_ifs
  · rfl
  · simp only [put_user_if_log]
    rfl
  · rfl

lemma do_wait_entry_schedule (k : Kernel) : schedule_calls (do_wait_entry k) = schedule_calls k :=
  schedule_calls_of_log .add_wait_queue k.current 0 (by decide) rfl

lemma eligible_child_entry (k : Kernel) (pid : Int) (o : Nat) (p : Nat) :
    eligible_child (do_wait_entry k) pid o p = eligible_child k pid o p := by
  have hv : ∀ {α : Type} (v : task_struct → α), (∀ t x, v { t with state := x } = v t) →
      ∀ q, v ((do_wait_entry k).tasks q) = v (k.tasks q) := by
    intro α v hv q
    exact congrFun (view_set_state hv (k.call .add_wait_queue k.current 0) k.current
      TASK_INTERRUPTIBLE) q
  exact eligible_child_congr pid o p (hv task_struct.pid fun _ _ => rfl)
    (hv task_struct.tgid fun _ _ => rfl) (hv task_struct.signal fun _ _ => rfl)
    (hv task_struct.exit_signal fun _ _ => rfl) (hv task_struct.ptrace fun _ _ => rfl)
    rfl rfl rfl rfl

lemma do_wait_entry_fields (k : Kernel) :
    (do_wait_entry k).current = k.current
      ∧ thread_ring (do_wait_entry k) k.current = thread_ring k k.current
      ∧ (∀ q, ((do_wait_entry k).tasks q).signal = (k.tasks q).signal)
      ∧ (∀ q, ((do_wait_entry k).tasks q).children = (k.tasks q).children)
      ∧ (∀ q, ((do_wait_entry k).tasks q).ptrace_children = (k.tasks q).ptrace_children)
      ∧ (∀ q, ((do_wait_entry k).tasks q).pid = (k.tasks q).pid)
      ∧ (∀ q, ((do_wait_entry k).tasks q).exit_state = (k.tasks q).exit_state) := by
  have hv : ∀ {α : Type} (v : task_struct → α), (∀ t x, v { t with state := x } = v t) →
      ∀ q, v ((do_wait_entry k).tasks q) = v (k.tasks q) := by
    intro α v hv q
    exact congrFun (view_set_state hv (k.call .add_wait_queue k.current 0) k.current
      TASK_INTERRUPTIBLE) q
  refine ⟨rfl, ?_, hv task_struct.signal fun _ _ => rfl, hv task_struct.children fun _ _ => rfl,
    hv task_struct.ptrace_children fun _ _ => rfl, hv task_struct.pid fun _ _ => rfl,
    hv task_struct.exit_state fun _ _ => rfl⟩
  unfold thread_ring
  rw [hv task_struct.tgid fun _ _ => rfl]
  rfl

/-- When no child and no traced task of a scanned thread is eligible,
`do_wait` returns `-ECHILD` and does not call `schedule()`. -/
lemma do_wait_echild (fuel : Nat) (k : Kernel) (w : WaitArgs) (hfuel : 0 < fuel)
    (h : ∀ t ∈ scanned_threads k w.options,
      (k.tasks t).signal = (k.tasks k.current).signal
        ∧ (∀ q ∈ (k.tasks t).children, eligible_child k w.pid w.options q = 0)
        ∧ (∀ q ∈ (k.tasks t).ptrace_children, eligible_child k w.pid w.options q = 0)) :
    ∃ k', do_wait fuel k w = .ok (k', .ret (-ECHILD)) ∧ schedule_calls k' = schedule_calls k := by
  obtain ⟨n, rfl⟩ := Nat.exists_eq_succ_of_ne_zero (Nat.pos_iff_ne_zero.mp hfuel)
  obtain ⟨e1, e2, e3, e4, e5, _, _⟩ := do_wait_entry_fields k
  have hs := do_wait_threads_inelig (n + 1) w (do_wait_entry k) (thread_ring k k.current)
    (by
      intro t ht
      obtain ⟨a1, a2, a3⟩ := h t ht
      refine ⟨?_, ?_, ?_⟩
      · rw [e3, e1, e3]
        exact a1
      · intro q hq
        rw [eligible_child_entry]
        exact a2 q (by rw [← e4]; exact hq)
      · intro q hq
        rw [eligible_child_entry]
        exact a3 q (by rw [← e5]; exact hq))
  refine ⟨(do_wait_end (do_wait_entry k) w (-ECHILD)).1, ?_,
    (do_wait_end_schedule _ _ _).trans (do_wait_entry_schedule k)⟩
  have hs' : do_wait_threads (n + 1) w
      (thread_ring (k.call .add_wait_queue k.current 0) (k.call .add_wait_queue k.current 0).current)
      ((k.call .add_wait_queue k.current 0).set_state
        (k.call .add_wait_queue k.current 0).current TASK_INTERRUPTIBLE) false
      = .ok (do_wait_entry k, .next false) := hs
  unfold do_wait do_wait_repeat
  rw [bind_of_ok hs']
  dsimp only
  unfold do_wait_after_scan
  simp only [Bool.false_eq_true, if_false]
  rw [← do_wait_end_neg _ w _ ECHILD_neg]
  rfl

lemma wait_noreap_copyout_fst_ne (k : Kernel) (p : Nat) (pid uid why status : Int)
    (infop rusagep : Nat) (hpid : pid ≠ 0) :
    (wait_noreap_copyout k p pid uid why status infop rusagep).1 ≠ 0 := by
  unfold wait_noreap_copyout
  dsimp only
  split_ifs with c
  · exact hpid
  · exact c

/-- A call of `wait_task_stopped` that returns 0 for a child with a pid has
changed nothing. -/
lemma wait_task_stopped_zero {k k' : Kernel} {p : Nat} {d noreap : Bool} {infop stat ru : Nat}
    (h : wait_task_stopped k p d noreap infop stat ru = .ok (0, k'))
    (hpid : (k.tasks p).pid ≠ 0) : k' = k := by
  unfold wait_task_stopped at h
  split_ifs at h with c1 c2 c3
  · simp only [pure_eq_ok, Prod.mk.injEq] at h
    exact h.2.symm
  · simp only [pure_eq_ok, Prod.mk.injEq] at h
    exact h.2.symm
  · simp only [pure_eq_ok] at h
    have hf := congrArg Prod.fst h
    have hp : ((get_task_struct k p).tasks p).pid ≠ 0 := by
      rw [show ((get_task_struct k p).tasks p).pid = (k.tasks p).pid from
        congrFun (view_get_task_struct linkFree_pid k p) p]
      exact hpid
    have hn : (wait_task_stopped_peek (get_task_struct k p) p infop ru).1 ≠ 0 := by
      unfold wait_task_stopped_peek
      split_ifs
      all_goals first
        | exact (show (-EAGAIN : Int) ≠ 0 by decide)
        | exact wait_noreap_copyout_fst_ne _ _ _ _ _ _ _ _ hp
    exact absurd hf hn
  · unfold wait_task_stopped_take at h
    split_ifs at h
    · simp only [pure_eq_ok, Prod.mk.injEq] at h
      exact absurd h.1 (show (-EAGAIN : Int) ≠ 0 by decide)
    · simp only [pure_eq_ok, Prod.mk.injEq] at h
      exact absurd h.1 (show (-EAGAIN : Int) ≠ 0 by decide)
    · simp only [bind_eq_ok, BUG_ON_eq_ok, pure_eq_ok] at h
      obtain ⟨_, hb, h⟩ := h
      rw [h] at hb
      simp at hb

/-- A call of `wait_task_continued` that returns 0 for a child with a pid
has changed nothing. -/
lemma wait_task_continued_zero {k k' : Kernel} {p : Nat} {noreap : Bool} {infop stat ru : Nat}
    (h : wait_task_continued k p noreap infop stat ru = .ok (0, k'))
    (hpid : (k.tasks p).pid ≠ 0) : k' = k := by
  have report : ∀ a : Kernel, (a.tasks p).pid = (k.tasks p).pid →
      wait_task_continued_report a p infop stat ru ≠ .ok (0, k') := by
    intro a ha hr
    unfold wait_task_continued_report at hr
    split_ifs at hr
    · simp only [pure_eq_ok] at hr
      have hf := congrArg Prod.fst hr
      dsimp only at hf
      split_ifs at hf with c
      · have e : ((put_user_ifp ((getrusage_opt (get_task_struct a p) p ru).1,
            put_task_struct (getrusage_opt (get_task_struct a p) p ru).2 p) stat 0xffff
            stat).2.tasks p).pid = (a.tasks p).pid := by
          have t1 : (put_user_ifp ((getrusage_opt (get_task_struct a p) p ru).1,
              put_task_struct (getrusage_opt (get_task_struct a p) p ru).2 p) stat 0xffff
              stat).2.tasks = (put_task_struct (getrusage_opt (get_task_struct a p) p ru).2
                p).tasks := by
            unfold put_user_ifp
            split_ifs
            · exact put_user_tasks _ _ _
            · rfl
          rw [t1, put_task_struct_tasks_of task_struct.pid (fun _ _ => rfl),
            getrusage_opt_tasks]
          exact congrFun (view_get_task_struct linkFree_pid a p) p
        rw [e, ha] at hf
        exact hpid hf
      · exact c hf
    · simp only [bind_eq_ok, BUG_ON_eq_ok, pure_eq_ok] at hr
      obtain ⟨_, hb, hr⟩ := hr
      rw [hr] at hb
      simp at hb
  unfold wait_task_continued at h
  split_ifs at h
  all_goals first
    | exact absurd h (report _ rfl)
    | (simp only [pure_eq_ok, Prod.mk.injEq] at h; exact h.2.symm)

/-- A call of `wait_task_zombie` for a zombie with a pid that is not a
detached untraced thread does not return 0. -/
lemma wait_task_zombie_ne_zero {fuel : Nat} {k : Kernel} {p : Nat} {noreap : Bool}
    {infop stat ru : Nat} {r : Int × Kernel}
    (h : wait_task_zombie fuel k p noreap infop stat ru = .ok r)
    (hz : (k.tasks p).exit_state = EXIT_ZOMBIE)
    (hne : ¬ ((k.tasks p).exit_signal = -1 ∧ (k.tasks p).ptrace = 0))
    (hpid : (k.tasks p).pid ≠ 0) : r.1 ≠ 0 := by
  unfold wait_task_zombie at h
  split_ifs at h with c1 c2
  · simp only [pure_eq_ok] at h
    rw [← h]
    unfold wait_task_zombie_peek
    rw [if_neg (not_not.mpr hz), if_neg hne]
    exact wait_noreap_copyout_fst_ne _ _ _ _ _ _ _ _ hpid
  · exact absurd hz c2
  · unfold wait_task_zombie_reap at h
    have hv : ∀ {α : Type} (v : task_struct → α), (∀ t x, v { t with exit_state := x } = v t) →
        v ((k.set_exit_state p EXIT_DEAD).tasks p) = v (k.tasks p) := by
      intro α v hv
      exact congrFun (view_set_exit_state hv k p EXIT_DEAD) p
    rw [hv task_struct.exit_signal fun _ _ => rfl, hv task_struct.ptrace fun _ _ => rfl,
      if_neg hne] at h
    split_ifs at h with c3
    · simp only [pure_eq_ok] at h
      rw [← h]
      exact c3
    · simp only [bind_eq_ok, BUG_ON_eq_ok, pure_eq_ok] at h
      obtain ⟨_, _, _, hb, h⟩ := h
      rw [← h]
      simpa using hb

lemma after_wait_task_next {fl f' : Bool} {r : Int × Kernel} {k' : Kernel}
    (h : after_wait_task fl r = (k', .next f')) : r = (0, k') ∧ f' = fl := by
  unfold after_wait_task at h
  split_ifs at h with c
  · simp only [Prod.mk.injEq] at h
    exact absurd h.2 (by simp)
  · simp only [Prod.mk.injEq, Step.next.injEq] at h
    exact ⟨Prod.ext (not_not.mp c) h.1, h.2.symm⟩

lemma eligible_child_not_detached {k : Kernel} {pid : Int} {o : Nat} {p : Nat}
    (h : eligible_child k pid o p ≠ 0) :
    ¬ ((k.tasks p).exit_signal = -1 ∧ (k.tasks p).ptrace = 0) := by
  intro hd
  apply h
  unfold eligible_child
  split_ifs <;> rfl

/-- One turn of the child loop of `do_wait` that goes on to the next child,
for a child with a pid: nothing has changed, a flag that was set stays set,
and a child that is eligible, alive and not at a trace stop for another
tracer sets it. -/
lemma do_wait_child_next {fuel : Nat} {k k' : Kernel} {w : WaitArgs} {flag f' : Bool} {p : Nat}
    (h : do_wait_child fuel k w flag p = .ok (k', .next f'))
    (hpid : (k.tasks p).pid ≠ 0) :
    k' = k ∧ (flag = true → f' = true) ∧ (flags_child k w p → f' = true) := by
  have plain : ∀ {a : Kernel} {g : Bool},
      (pure (a, Step.next g) : Except Stop (Kernel × Step)) = .ok (k', .next f') →
      k' = a ∧ f' = g := by
    intro a g hp
    simp only [pure_eq_ok, Prod.mk.injEq, Step.next.injEq] at hp
    exact ⟨hp.1.symm, hp.2.symm⟩
  unfold do_wait_child at h
  split_ifs at h with c1 c2 c3 c4 c5 c6
  · obtain ⟨e1, e2⟩ := plain h
    exact ⟨e1, fun hf => e2.trans hf, fun hf => absurd c1 hf.1⟩
  · obtain ⟨e1, e2⟩ := plain h
    exact ⟨e1, fun hf => e2.trans hf, fun hf => absurd c2 hf.2.2⟩
  · unfold do_wait_stopped at h
    split_ifs at h
    · obtain ⟨e1, e2⟩ := plain h
      exact ⟨e1, fun _ => e2, fun _ => e2⟩
    · rw [map_eq_ok] at h
      obtain ⟨r, hr, h⟩ := h
      split_ifs at h
      · simp only [Prod.mk.injEq] at h
        exact absurd h.2 (by simp)
      · obtain ⟨e1, e2⟩ := after_wait_task_next h
        rw [e1] at hr
        exact ⟨wait_task_stopped_zero hr hpid, fun _ => e2, fun _ => e2⟩
  · obtain ⟨e1, e2⟩ := plain h
    refine ⟨e1, fun hf => e2.trans hf, fun hf => ?_⟩
    rw [hf.2.1] at c4
    exact absurd c4 (by decide)
  · rw [map_eq_ok] at h
    obtain ⟨r, hr, h⟩ := h
    obtain ⟨e1, _⟩ := after_wait_task_next h
    have := wait_task_zombie_ne_zero hr c5.1 (eligible_child_not_detached c1) hpid
    rw [e1] at this
    exact absurd rfl this
  · obtain ⟨e1, e2⟩ := plain h
    refine ⟨e1, fun hf => e2.trans hf, fun hf => ?_⟩
    rw [hf.2.1] at c5
    exact absurd c5.1 (by decide)
  · unfold do_wait_continued at h
    split_ifs at h
    · rw [map_eq_ok] at h
      obtain ⟨r, hr, h⟩ := h
      obtain ⟨e1, e2⟩ := after_wait_task_next h
      rw [e1] at hr
      exact ⟨wait_task_continued_zero hr hpid, fun _ => e2, fun _ => e2⟩
    · obtain ⟨e1, e2⟩ := plain h
      exact ⟨e1, fun _ => e2, fun _ => e2⟩

/-- The child loop of `do_wait`, when it runs to its end over children with
a pid: nothing has changed, a flag that was set stays set, and a child that
is eligible, alive and not at a trace stop for another tracer sets it. -/
lemma do_wait_children_next (fuel : Nat) (w : WaitArgs) :
    ∀ (l : List Nat) {k k' : Kernel} {flag f' : Bool},
      do_wait_children fuel w l k flag = .ok (k', .next f') →
      (∀ q ∈ l, (k.tasks q).pid ≠ 0) →
      k' = k ∧ (flag = true → f' = true) ∧ (∀ p ∈ l, flags_child k w p → f' = true) := by
  intro l
  induction l with
  | nil =>
    intro k k' flag f' h _
    unfold do_wait_children at h
    simp only [pure_eq_ok, Prod.mk.injEq, Step.next.injEq] at h
    exact ⟨h.1.symm, fun hf => h.2.symm.trans hf, fun p hp => absurd hp (by simp)⟩
  | cons q rest ih =>
    intro k k' flag f' h hpid
    unfold do_wait_children at h
    simp only [bind_eq_ok] at h
    obtain ⟨⟨k1, s⟩, hr, h⟩ := h
    cases s with
    | next flag1 =>
      dsimp only at h
      obtain ⟨a1, a2, a3⟩ := do_wait_child_next hr (hpid q (List.mem_cons_self _ _))
      subst a1
      obtain ⟨b1, b2, b3⟩ := ih h fun q' hq' => hpid q' (List.mem_cons_of_mem _ hq')
      refine ⟨b1, fun hf => b2 (a2 hf), fun p hp hf => ?_⟩
      rcases List.mem_cons.mp hp with e | e
      · subst e
        exact b2 (a3 hf)
      · exact b3 p e hf
    | repeat_scan =>
      simp only [pure_eq_ok, Prod.mk.injEq] at h
      exact absurd h.2 (by simp)
    | goto_end retval =>
      simp only [pure_eq_ok, Prod.mk.injEq] at h
      exact absurd h.2 (by simp)

lemma do_wait_thread_flag_true (k : Kernel) (w : WaitArgs) (t : Nat) (flag : Bool) :
    do_wait_thread_flag k w t flag = true
      ↔ flag = true ∨ ∃ q ∈ (k.tasks t).ptrace_children, eligible_child k w.pid w.options q ≠ 0 := by
  unfold do_wait_thread_flag
  cases flag
  · simp only [Bool.not_false, if_true, Bool.false_eq_true, false_or]
    exact do_wait_ptrace_children_iff w k _
  · simp

/-- The thread loop of `do_wait`, when it runs to its end over children with
a pid: nothing has changed, and the flag is set when a scanned thread has a
child that is eligible, alive and not at a trace stop for another tracer, or
an eligible task on its traced list. -/
lemma do_wait_threads_next (fuel : Nat) (w : WaitArgs) :
    ∀ (ring : List Nat) {k k' : Kernel} {flag f' : Bool},
      do_wait_threads fuel w ring k flag = .ok (k', .next f') →
      (∀ t ∈ (if hasFlag w.options __WNOTHREAD then ring.take 1 else ring),
        ∀ q ∈ (k.tasks t).children, (k.tasks q).pid ≠ 0) →
      k' = k ∧ (flag = true → f' = true)
        ∧ (∀ t ∈ (if hasFlag w.options __WNOTHREAD then ring.take 1 else ring),
            ((∃ p ∈ (k.tasks t).children, flags_child k w p)
              ∨ (∃ p ∈ (k.tasks t).ptrace_children, eligible_child k w.pid w.options p ≠ 0)) →
            f' = true) := by
  intro ring
  induction ring with
  | nil =>
    intro k k' flag f' h _
    unfold do_wait_threads at h
    simp only [pure_eq_ok, Prod.mk.injEq, Step.next.injEq] at h
    refine ⟨h.1.symm, fun hf => h.2.symm.trans hf, fun t ht => ?_⟩
    split_ifs at ht <;> simp at ht
  | cons t rest ih =>
    intro k k' flag f' h hpid
    have ht : t ∈ (if hasFlag w.options __WNOTHREAD then (t :: rest).take 1 else t :: rest) := by
      split_ifs <;> simp
    unfold do_wait_threads at h
    simp only [bind_eq_ok] at h
    obtain ⟨_, _, ⟨k1, s⟩, hr, h⟩ := h
    cases s with
    | next flag1 =>
      dsimp only at h
      obtain ⟨a1, a2, a3⟩ := do_wait_children_next fuel w _ hr (hpid t ht)
      subst a1
      have hF : ∀ g : Bool, (g = true ↔ flag1 = true
          ∨ ∃ q ∈ (k1.tasks t).ptrace_children, eligible_child k1 w.pid w.options q ≠ 0) →
          (flag = true → g = true)
            ∧ (((∃ p ∈ (k1.tasks t).children, flags_child k1 w p)
              ∨ (∃ p ∈ (k1.tasks t).ptrace_children,
                  eligible_child k1 w.pid w.options p ≠ 0)) → g = true) := by
        intro g hg
        refine ⟨fun hf => hg.mpr (Or.inl (a2 hf)), fun hc => ?_⟩
        rcases hc with ⟨p, hp, hf⟩ | hc
        · exact hg.mpr (Or.inl (a3 p hp hf))
        · exact hg.mpr (Or.inr hc)
      obtain ⟨f1, f2⟩ := hF _ (do_wait_thread_flag_true k1 w t flag1)
      split_ifs at h with c
      · simp only [pure_eq_ok, Prod.mk.injEq, Step.next.injEq] at h
        obtain ⟨h1, h2⟩ := h
        subst h1 h2
        refine ⟨rfl, f1, fun t' ht' hc => ?_⟩
        rw [if_pos c] at ht'
        have : t' = t := by simpa using ht'
        subst this
        exact f2 hc
      · obtain ⟨b1, b2, b3⟩ := ih h (fun t' ht' => hpid t' (by
          rw [if_neg c] at ht' ⊢
          exact List.mem_cons_of_mem _ ht'))
        refine ⟨b1, fun hf => b2 (f1 hf), fun t' ht' hc => ?_⟩
        rw [if_neg c] at ht'
        rcases List.mem_cons.mp ht' with e | e
        · subst e
          exact b2 (f2 hc)
        · exact b3 t' (by rw [if_neg c]; exact e) hc
    | repeat_scan =>
      simp only [pure_eq_ok, Prod.mk.injEq] at h
      exact absurd h.2 (by simp)
    | goto_end retval =>
      simp only [pure_eq_ok, Prod.mk.injEq] at h
      exact absurd h.2 (by simp)

lemma put_user_if_ok (r : Int × Kernel) (x : Int) (a : Nat) (h0 : r.1 = 0)
    (ha : (r.2.umem a).isSome = true) :
    (put_user_if r x a).1 = 0
      ∧ ∀ b, ((put_user_if r x a).2.umem b).isSome = (r.2.umem b).isSome := by
  unfold put_user_if
  rw [if_pos h0]
  refine ⟨?_, fun b => put_user_isSome _ _ _ _⟩
  unfold put_user
  rw [if_pos ha]

/-- The code at the label `end:` returns 0 for the value 0 when the caller
passed no `infop`, or one whose six fields can be written. -/
lemma do_wait_end_zero (k : Kernel) (w : WaitArgs)
    (h : w.infop = 0 ∨ ∀ off ∈ [si_signo, si_errno, si_code, si_pid, si_uid, si_status],
      (k.umem (w.infop + off)).isSome = true) :
    (do_wait_end k w 0).2 = .ret 0 := by
  rcases h with h | h
  · exact do_wait_end_wait4 k w 0 h
  · unfold do_wait_end
    dsimp only
    split_ifs with c1 c2
    · exact absurd c2 (by decide)
    · obtain ⟨a1, b1⟩ := put_user_if_ok
        (0, (k.set_state k.current TASK_RUNNING).call .remove_wait_queue
          (k.set_state k.current TASK_RUNNING).current 0) 0 (w.infop + si_signo) rfl
        (h si_signo (by simp))
      obtain ⟨a2, b2⟩ := put_user_if_ok _ 0 (w.infop + si_errno) a1
        (by rw [b1]; exact h si_errno (by simp))
      obtain ⟨a3, b3⟩ := put_user_if_ok _ 0 (w.infop + si_code) a2
        (by rw [b2, b1]; exact h si_code (by simp))
      obtain ⟨a4, b4⟩ := put_user_if_ok _ 0 (w.infop + si_pid) a3
        (by rw [b3, b2, b1]; exact h si_pid (by simp))
      obtain ⟨a5, b5⟩ := put_user_if_ok _ 0 (w.infop + si_uid) a4
        (by rw [b4, b3, b2, b1]; exact h si_uid (by simp))
      obtain ⟨a6, _⟩ := put_user_if_ok _ 0 (w.infop + si_status) a5
        (by rw [b5, b4, b3, b2, b1]; exact h si_status (by simp))
      rw [a6]
    · rfl

lemma flags_child_entry {k : Kernel} {w : WaitArgs} {p : Nat} (h : flags_child k w p) :
    flags_child (do_wait_entry k) w p := by
  have hv : ∀ {α : Type} (v : task_struct → α), (∀ t x, v { t with state := x } = v t) →
      ∀ q, v ((do_wait_entry k).tasks q) = v (k.tasks q) := by
    intro α v hv q
    exact congrFun (view_set_state hv (k.call .add_wait_queue k.current 0) k.current
      TASK_INTERRUPTIBLE) q
  obtain ⟨h1, h2, h3⟩ := h
  refine ⟨by rw [eligible_child_entry]; exact h1,
    (hv task_struct.exit_state (fun _ _ => rfl) p).trans h2, ?_⟩
  rintro ⟨s1, s2⟩
  have hm : my_ptrace_child (do_wait_entry k) p = my_ptrace_child k p := by
    unfold my_ptrace_child
    rw [hv task_struct.ptrace fun _ _ => rfl, hv task_struct.parent fun _ _ => rfl,
      hv task_struct.real_parent fun _ _ => rfl]
  rw [hm] at s2
  by_cases hp : p = k.current
  · have : ((do_wait_entry k).tasks p).state = TASK_INTERRUPTIBLE := by
      subst hp
      simp [do_wait_entry, Kernel.set_state, Kernel.setTask, Kernel.call]
    rw [this] at s1
    exact absurd s1 (by decide)
  · have : ((do_wait_entry k).tasks p).state = (k.tasks p).state := by
      simp [do_wait_entry, Kernel.set_state, Kernel.setTask, Kernel.call, hp]
    rw [this] at s1
    exact h3 ⟨s1, s2⟩

/-- A scan of `do_wait` that runs to its end with an alive eligible child
flagged, under `WNOHANG`: `do_wait` returns 0 and does not call `schedule()`. -/
lemma do_wait_wnohang (fuel : Nat) (k k1 : Kernel) (w : WaitArgs) (flag : Bool)
    (hfuel : 0 < fuel) (hno : hasFlag w.options WNOHANG = true)
    (hscan : do_wait_threads fuel w (thread_ring k k.current) (do_wait_entry k) false
      = .ok (k1, .next flag))
    (hpid : ∀ t ∈ scanned_threads k w.options, ∀ q ∈ (k.tasks t).children, (k.tasks q).pid ≠ 0)
    (hlive : ∃ t ∈ scanned_threads k w.options,
      (∃ p ∈ (k.tasks t).children, flags_child k w p)
        ∨ (∃ p ∈ (k.tasks t).ptrace_children, eligible_child k w.pid w.options p ≠ 0))
    (hinfo : w.infop = 0 ∨ ∀ off ∈ [si_signo, si_errno, si_code, si_pid, si_uid, si_status],
      (k.umem (w.infop + off)).isSome = true) :
    ∃ k', do_wait fuel k w = .ok (k', .ret 0) ∧ schedule_calls k' = schedule_calls k := by
  obtain ⟨n, rfl⟩ := Nat.exists_eq_succ_of_ne_zero (Nat.pos_iff_ne_zero.mp hfuel)
  obtain ⟨e1, e2, e3, e4, e5, e6, e7⟩ := do_wait_entry_fields k
  obtain ⟨a1, _, a3⟩ := do_wait_threads_next (n + 1) w (thread_ring k k.current) hscan
    (fun t ht q hq => by
      rw [e6]
      exact hpid t ht q (by rw [← e4]; exact hq))
  subst a1
  have hflag : flag = true := by
    obtain ⟨t, ht, hc⟩ := hlive
    refine a3 t ht ?_
    rcases hc with ⟨p, hp, hf⟩ | ⟨p, hp, hf⟩
    · exact Or.inl ⟨p, by rw [e4]; exact hp, flags_child_entry hf⟩
    · exact Or.inr ⟨p, by rw [e5]; exact hp, by rw [eligible_child_entry]; exact hf⟩
  subst hflag
  refine ⟨(do_wait_end (do_wait_entry k) w 0).1, ?_,
    (do_wait_end_schedule _ _ _).trans (do_wait_entry_schedule k)⟩
  have hs' : do_wait_threads (n + 1) w
      (thread_ring (k.call .add_wait_queue k.current 0) (k.call .add_wait_queue k.current 0).current)
      ((k.call .add_wait_queue k.current 0).set_state
        (k.call .add_wait_queue k.current 0).current TASK_INTERRUPTIBLE) false
      = .ok (do_wait_entry k, .next true) := hscan
  unfold do_wait do_wait_repeat
  rw [bind_of_ok hs']
  dsimp only
  unfold do_wait_after_scan
  rw [if_pos rfl, if_pos hno, ← do_wait_end_zero (do_wait_entry k) w hinfo]
  rfl

/-- C12, counterexample: two non-blocking waits with an eligible child alive
that do not return 0.  The child 102 is at a trace stop while its real parent
is attaching to it; it is eligible and alive, but the loop passes it without
setting the flag, and `do_wait` returns `-ECHILD`.  And with both children
running and an `infop` that cannot be written, `do_wait` returns `-EFAULT`. -/
theorem do_wait_wnohang_not_zero :
    (eligible_child demo_attaching 102 (WNOHANG ||| WEXITED) 4 = 1
      ∧ (demo_attaching.tasks 4).exit_state = 0
      ∧ (demo_attaching.tasks 4).state = TASK_TRACED
      ∧ 4 ∈ (demo_attaching.tasks demo_attaching.current).children
      ∧ hasFlag (WNOHANG ||| WEXITED) WNOHANG = true
      ∧ (do_wait 2 demo_attaching { pid := 102, options := WNOHANG ||| WEXITED }).toOption.map
          (fun r => r.2) = some (.ret (-ECHILD)))
    ∧ (flags_child demo_running { pid := -1, options := WNOHANG ||| WEXITED, infop := 0x2000 } 4
      ∧ 4 ∈ (demo_running.tasks demo_running.current).children
      ∧ (do_wait 2 demo_running
          { pid := -1, options := WNOHANG ||| WEXITED, infop := 0x2000 }).toOption.map
          (fun r => r.2) = some (.ret (-EFAULT))) := by
  decide

/-- C12, amended: when the threads `do_wait` scans share the signal structure
of the caller, (1) if no task on their child lists and traced lists is
eligible, `do_wait` returns `-ECHILD`; (2) if `WNOHANG` is set, the first scan
runs to its end over children with a pid, a scanned thread has a child that
is eligible, alive and not at a trace stop for another tracer, or an eligible
task on its traced list, and `infop` is null or can be written, `do_wait`
returns 0.  In both cases `schedule()` is not called. -/
theorem do_wait_no_report (fuel : Nat) (k : Kernel) (w : WaitArgs) (hfuel : 0 < fuel)
    (hring : ∀ t ∈ scanned_threads k w.options,
      (k.tasks t).signal = (k.tasks k.current).signal) :
    ((∀ t ∈ scanned_threads k w.options,
        (∀ q ∈ (k.tasks t).children, eligible_child k w.pid w.options q = 0)
          ∧ (∀ q ∈ (k.tasks t).ptrace_children, eligible_child k w.pid w.options q = 0)) →
      ∃ k', do_wait fuel k w = .ok (k', .ret (-ECHILD))
        ∧ schedule_calls k' = schedule_calls k)
    ∧ (∀ k1 flag, hasFlag w.options WNOHANG = true →
        do_wait_threads fuel w (thread_ring k k.current) (do_wait_entry k) false
          = .ok (k1, .next flag) →
        (∀ t ∈ scanned_threads k w.options, ∀ q ∈ (k.tasks t).children, (k.tasks q).pid ≠ 0) →
        (∃ t ∈ scanned_threads k w.options,
          (∃ p ∈ (k.tasks t).children, flags_child k w p)
            ∨ (∃ p ∈ (k.tasks t).ptrace_children,
                eligible_child k w.pid w.options p ≠ 0)) →
        (w.infop = 0 ∨ ∀ off ∈ [si_signo, si_errno, si_code, si_pid, si_uid, si_status],
          (k.umem (w.infop + off)).isSome = true) →
        ∃ k', do_wait fuel k w = .ok (k', .ret 0) ∧ schedule_calls k' = schedule_calls k) :=
  ⟨fun h => do_wait_echild fuel k w hfuel fun t ht => ⟨hring t ht, (h t ht).1, (h t ht).2⟩,
    fun k1 flag hno hscan hpid hlive hinfo =>
      do_wait_wnohang fuel k k1 w flag hfuel hno hscan hpid hlive hinfo⟩

/-- The witness of C12 on the small system: a wait for a pid no child has
returns `-ECHILD`, and a non-blocking wait with both children running
returns 0. -/
theorem do_wait_no_report_witness :
    (∃ k', do_wait 2 demo_running { pid := 999, options := WNOHANG ||| WEXITED }
        = .ok (k', .ret (-ECHILD)) ∧ schedule_calls k' = schedule_calls demo_running)
    ∧ (∃ k', do_wait 2 demo_running { pid := -1, options := WNOHANG ||| WEXITED }
        = .ok (k', .ret 0) ∧ schedule_calls k' = schedule_calls demo_running) := by
  refine ⟨(do_wait_no_report 2 demo_running { pid := 999, options := WNOHANG ||| WEXITED }
      (by decide) (by decide)).1 (by decide), ?_⟩
  obtain ⟨r, hr⟩ := ok_of_isSome (do_wait_threads 2 { pid := -1, options := WNOHANG ||| WEXITED }
    (thread_ring demo_running demo_running.current) (do_wait_entry demo_running) false)
    (by decide)
  have e : (do_wait_threads 2 { pid := -1, options := WNOHANG ||| WEXITED }
      (thread_ring demo_running demo_running.current) (do_wait_entry demo_running)
      false).toOption.map (fun r => r.2) = some (.next true) := by decide
  rw [toOption_map_of_ok hr] at e
  have hr' : do_wait_threads 2 { pid := -1, options := WNOHANG ||| WEXITED }
      (thread_ring demo_running demo_running.current) (do_wait_entry demo_running) false
      = .ok (r.1, .next true) := by
    rw [hr, ← Option.some.inj e]
  exact (do_wait_no_report 2 demo_running { pid := -1, options := WNOHANG ||| WEXITED }
    (by decide) (by decide)).2 r.1 true (by decide) hr' (by decide)
    ⟨2, by decide, Or.inl ⟨4, by decide, by decide⟩⟩ (Or.inl rfl)

lemma band_byte (c : Int) : ∃ n : Nat, n < 256 ∧ band c 0xff = (n : Int) := by
  refine ⟨(c % 2 ^ 32).toNat &&& 0xff, ?_, rfl⟩
  exact lt_of_le_of_lt Nat.and_le_right (by decide)

lemma zombie_why_status_byte (n : Nat) (hn : n < 256) :
    zombie_why_status ((n : Int) * 256) = (CLD_EXITED, (n : Int)) := by
  have h1 : ((n : Int) * 256) % 2 ^ 32 = ((n * 256 : Nat) : Int) := by
    have : ((n : Int) * 256) = ((n * 256 : Nat) : Int) := by push_cast; ring
    rw [this]
    exact Int.emod_eq_of_lt (by positivity) (by norm_cast; omega)
  have h2 : band ((n : Int) * 256) 0x7f = 0 := by
    unfold band
    rw [h1, Int.toNat_ofNat]
    have : (n * 256) &&& 0x7f = (n * 256) % 2 ^ 7 :=
      Nat.and_pow_two_sub_one_eq_mod (n * 256) 7
    rw [this]
    norm_cast
    omega
  unfold zombie_why_status
  rw [if_pos h2]
  congr 1
  have e : ((n : Int) * 256) = ((n * 256 : Nat) : Int) := by push_cast; ring
  rw [e]
  show ((((n * 256) >>> 8 : Nat)) : Int) = (n : Int)
  rw [Nat.shiftRight_eq_div_pow]
  norm_num

lemma and_compl_ne_zero (o m : Nat) (ho : o < 2 ^ 32) (hm : m < 2 ^ 32) :
    o &&& (2 ^ 32 - 1 - m) ≠ 0 ↔ ∃ i, o.testBit i = true ∧ m.testBit i = false := by
  have hc : ∀ i, (2 ^ 32 - 1 - m).testBit i = (decide (i < 32) && !m.testBit i) := by
    intro i
    rw [show 2 ^ 32 - 1 - m = 2 ^ 32 - (m + 1) by omega]
    exact Nat.testBit_two_pow_sub_succ hm i
  constructor
  · intro h
    obtain ⟨i, hi⟩ := Nat.ne_zero_implies_bit_true h
    rw [Nat.testBit_and, hc] at hi
    simp only [Bool.and_eq_true, Bool.not_eq_true', decide_eq_true_eq] at hi
    exact ⟨i, hi.1, hi.2.2⟩
  · rintro ⟨i, h1, h2⟩ h0
    have hi : i < 32 := by
      by_contra hge
      have : o < 2 ^ i := lt_of_lt_of_le ho (Nat.pow_le_pow_right (by decide) (by omega))
      rw [Nat.testBit_lt_two_pow this] at h1
      exact absurd h1 (by simp)
    have : (o &&& (2 ^ 32 - 1 - m)).testBit i = true := by
      rw [Nat.testBit_and, hc, h1, h2]
      simp [hi]
    rw [h0, Nat.zero_testBit] at this
    exact absurd this (by simp)

lemma lor_eq_zero (x y : Nat) : x ||| y = 0 ↔ x = 0 ∧ y = 0 := by
  constructor
  · intro h
    have hb : ∀ i, x.testBit i = false ∧ y.testBit i = false := by
      intro i
      have := congrArg (fun n => n.testBit i) h
      simpa [Nat.testBit_or] using this
    exact ⟨Nat.eq_of_testBit_eq fun i => by rw [(hb i).1, Nat.zero_testBit],
      Nat.eq_of_testBit_eq fun i => by rw [(hb i).2, Nat.zero_testBit]⟩
  · rintro ⟨rfl, rfl⟩
    rfl

lemma and_or3_eq_zero (o a b c : Nat) :
    o &&& (a ||| b ||| c) = 0
      ↔ hasFlag o a = false ∧ hasFlag o b = false ∧ hasFlag o c = false := by
  unfold hasFlag
  rw [Nat.and_or_distrib_left, Nat.and_or_distrib_left]
  simp only [bne_eq_false_iff_eq, lor_eq_zero, and_assoc]

/-- C30: for option words of 32 bits, the checks of `sys_waitid` refuse the
arguments, so that `-EINVAL` is returned and `do_wait` is not called, exactly
when the options hold a bit outside `WNOHANG|WNOWAIT|WEXITED|WSTOPPED|
WCONTINUED`, or none of `WEXITED|WSTOPPED|WCONTINUED`, or the kind is not one
of `P_ALL`, `P_PID`, `P_PGID`, or it is `P_PID` or `P_PGID` with an id that is
not positive; otherwise `sys_waitid` is `do_wait` with the selector -1 for
`P_ALL`, the id for `P_PID` and minus the id for `P_PGID`, and the options
as given. -/
theorem sys_waitid_einval (which pid : Int) (options : Nat) (h32 : options < 2 ^ 32) :
    (sys_waitid_selector which pid options = none ↔ waitid_invalid which pid options)
      ∧ (waitid_invalid which pid options →
          ∀ fuel k infop ru,
            sys_waitid fuel k which pid infop options ru = .ok (k, .ret (-EINVAL)))
      ∧ (¬ waitid_invalid which pid options →
          ∀ fuel k infop ru,
            sys_waitid fuel k which pid infop options ru
              = do_wait fuel k
                  { pid := if which = P_ALL then -1 else if which = P_PID then pid else -pid
                    options := options, infop := infop, stat_addr := 0, ru := ru }) := by
  have hbits := and_compl_ne_zero options
    (WNOHANG ||| WNOWAIT ||| WEXITED ||| WSTOPPED ||| WCONTINUED) h32 (by decide)
  have hnone := and_or3_eq_zero options WEXITED WSTOPPED WCONTINUED
  have key : (waitid_invalid which pid options ∧ sys_waitid_selector which pid options = none)
      ∨ (¬ waitid_invalid which pid options ∧ sys_waitid_selector which pid options
          = some (if which = P_ALL then -1 else if which = P_PID then pid else -pid)) := by
    unfold sys_waitid_selector
    by_cases c1 : options &&& (2 ^ 32 - 1
        - (WNOHANG ||| WNOWAIT ||| WEXITED ||| WSTOPPED ||| WCONTINUED)) ≠ 0
    · rw [if_pos c1]
      exact Or.inl ⟨Or.inl (hbits.mp c1), rfl⟩
    · rw [if_neg c1]
      have n1 := mt hbits.mpr c1
      by_cases c2 : options &&& (WEXITED ||| WSTOPPED ||| WCONTINUED) = 0
      · rw [if_pos c2]
        exact Or.inl ⟨Or.inr (Or.inl (hnone.mp c2)), rfl⟩
      · rw [if_neg c2]
        have n2 := mt hnone.mpr c2
        have rest : waitid_invalid which pid options
            ↔ ((which ≠ P_ALL ∧ which ≠ P_PID ∧ which ≠ P_PGID)
              ∨ ((which = P_PID ∨ which = P_PGID) ∧ pid ≤ 0)) :=
          ⟨fun h => (h.resolve_left n1).resolve_left n2, fun h => Or.inr (Or.inr h)⟩
        rw [rest]
        clear rest n1 n2 c1 c2 hbits hnone
        by_cases w0 : which = P_ALL
        · have d1 : which ≠ P_PID := by rw [w0]; decide
          have d2 : which ≠ P_PGID := by rw [w0]; decide
          rw [if_pos w0, if_pos w0]
          exact Or.inr ⟨by tauto, rfl⟩
        · rw [if_neg w0, if_neg w0]
          by_cases w1 : which = P_PID
          · have d2 : which ≠ P_PGID := by rw [w1]; decide
            rw [if_pos w1, if_pos w1]
            by_cases hp : pid ≤ 0
            · rw [if_pos hp]
              exact Or.inl ⟨by tauto, rfl⟩
            · rw [if_neg hp]
              exact Or.inr ⟨by tauto, rfl⟩
          · rw [if_neg w1, if_neg w1]
            by_cases w2 : which = P_PGID
            · rw [if_pos w2]
              by_cases hp : pid ≤ 0
              · rw [if_pos hp]
                exact Or.inl ⟨by tauto, rfl⟩
              · rw [if_neg hp]
                exact Or.inr ⟨by tauto, rfl⟩
            · rw [if_neg w2]
              exact Or.inl ⟨by tauto, rfl⟩
  refine ⟨?_, fun hi fuel k infop ru => ?_, fun hv fuel k infop ru => ?_⟩
  · rcases key with ⟨h1, h2⟩ | ⟨h1, h2⟩
    · exact ⟨fun _ => h1, fun _ => h2⟩
    · rw [h2]
      exact ⟨fun h => absurd h (by simp), fun h => absurd h h1⟩
  · rcases key with ⟨_, h2⟩ | ⟨h1, _⟩
    · unfold sys_waitid
      rw [h2]
      rfl
    · exact absurd hi h1
  · rcases key with ⟨h1, _⟩ | ⟨_, h2⟩
    · exact absurd h1 hv
    · unfold sys_waitid
      rw [h2]

/-- Witness for C30: `WEXITED` alone is an option word of 32 bits; with the
kind `P_PGID` and the id 100 the arguments are accepted and `sys_waitid` is
`do_wait` for the selector -100. -/
theorem sys_waitid_einval_witness :
    sys_waitid_selector P_PGID 100 WEXITED = some (-100)
      ∧ sys_waitid_selector P_PGID 0 WEXITED = none
      ∧ (sys_waitid_selector 3 100 WEXITED = none ↔ waitid_invalid 3 100 WEXITED) :=
  ⟨by decide, by decide, (sys_waitid_einval 3 100 WEXITED (by decide)).1⟩

lemma hash_REMOVE_LINKS (k : Kernel) (p : Nat) :
    (REMOVE_LINKS k p).nr_threads = k.nr_threads
      ∧ (REMOVE_LINKS k p).pid_hash = k.pid_hash := by
  unfold REMOVE_LINKS
  dsimp only
  split_ifs <;> exact ⟨rfl, rfl⟩

lemma hash_SET_LINKS (k : Kernel) (p : Nat) :
    (SET_LINKS k p).nr_threads = k.nr_threads ∧ (SET_LINKS k p).pid_hash = k.pid_hash := by
  unfold SET_LINKS
  dsimp only
  split_ifs <;> exact ⟨rfl, rfl⟩

lemma hash_ptrace_unlinked (k : Kernel) (p : Nat) :
    (ptrace_unlinked k p).nr_threads = k.nr_threads
      ∧ (ptrace_unlinked k p).pid_hash = k.pid_hash := by
  unfold ptrace_unlinked
  dsimp only
  have e : (SET_LINKS ((REMOVE_LINKS (ptrace_list_del (k.set_ptrace p 0) p) p).set_parent p
      ((REMOVE_LINKS (ptrace_list_del (k.set_ptrace p 0) p) p).tasks p).real_parent) p).nr_threads
        = k.nr_threads
      ∧ (SET_LINKS ((REMOVE_LINKS (ptrace_list_del (k.set_ptrace p 0) p) p).set_parent p
      ((REMOVE_LINKS (ptrace_list_del (k.set_ptrace p 0) p) p).tasks p).real_parent) p).pid_hash
        = k.pid_hash := by
    rw [(hash_SET_LINKS _ p).1, (hash_SET_LINKS _ p).2]
    show (REMOVE_LINKS (ptrace_list_del (k.set_ptrace p 0) p) p).nr_threads = _
      ∧ (REMOVE_LINKS (ptrace_list_del (k.set_ptrace p 0) p) p).pid_hash = _
    rw [(hash_REMOVE_LINKS _ p).1, (hash_REMOVE_LINKS _ p).2]
    exact ⟨rfl, rfl⟩
  split_ifs <;> first | exact e | exact ⟨rfl, rfl⟩

lemma hash___ptrace_unlink {k k' : Kernel} {p : Nat} (h : __ptrace_unlink k p = .ok k') :
    k'.nr_threads = k.nr_threads ∧ k'.pid_hash = k.pid_hash := by
  unfold __ptrace_unlink at h
  simp only [bind_eq_ok, BUG_ON_eq_ok, pure_eq_ok] at h
  obtain ⟨_, _, h⟩ := h
  subst h
  exact hash_ptrace_unlinked k p

lemma hash___unhash_process (k : Kernel) (p : Nat) :
    (__unhash_process k p).nr_threads = k.nr_threads - 1
      ∧ (__unhash_process k p).pid_hash .PIDTYPE_TGID
        = (detach_pid k p .PIDTYPE_TGID).pid_hash .PIDTYPE_TGID := by
  unfold __unhash_process
  dsimp only
  rw [(hash_REMOVE_LINKS _ p).1, (hash_REMOVE_LINKS _ p).2]
  split_ifs <;> exact ⟨rfl, rfl⟩

lemma hash_do_notify_parent (k : Kernel) (tsk : Nat) (sig : Int) :
    (do_notify_parent k tsk sig).nr_threads = k.nr_threads := by
  unfold do_notify_parent
  dsimp only
  split_ifs <;> rfl

lemma hash_put_task_struct (k : Kernel) (p : Nat) :
    (put_task_struct k p).nr_threads = k.nr_threads := by
  unfold put_task_struct
  dsimp only
  split_ifs <;> rfl

lemma exit_signal_put_task_struct (k : Kernel) (p q : Nat) :
    ((put_task_struct k p).tasks q).exit_signal = (k.tasks q).exit_signal := by
  have e : (put_task_struct k p).view task_struct.exit_signal
      = k.view task_struct.exit_signal := by
    unfold put_task_struct
    dsimp only
    split_ifs
    · rw [view_call, view_set_usage (v := task_struct.exit_signal) (fun _ _ => rfl)]
    · rw [view_set_usage (v := task_struct.exit_signal) (fun _ _ => rfl)]
  exact congrFun e q

lemma thread_group_empty_of_chain {k k' : Kernel} (p : Nat)
    (h2 : ∀ q, (k'.tasks q).tgid = (k.tasks q).tgid)
    (h8 : k'.pid_hash .PIDTYPE_TGID = k.pid_hash .PIDTYPE_TGID) :
    thread_group_empty k' p = thread_group_empty k p := by
  simp only [thread_group_empty, next_thread, thread_ring, h2, h8]

lemma linkFree_tgid : LinkFree task_struct.tgid :=
  ⟨fun _ _ => rfl, fun _ _ => rfl, fun _ _ => rfl, fun _ _ => rfl, fun _ _ => rfl,
    fun _ _ => rfl⟩

/-- What a pass of `release_task` that ends leaves: one thread fewer is
counted, the task handed on is the leader of `p`, and `zap_leader` is set
only when `p` is not the leader, the leader is a zombie and alone in the
group once `p` is detached, and the leader is self-reaping after the pass. -/
lemma release_task_pass_fields {k : Kernel} {p : Nat} {r : Kernel × Nat × Bool}
    (h : release_task_pass k p = .ok r) :
    r.1.nr_threads = k.nr_threads - 1
      ∧ r.2.1 = (k.tasks p).group_leader
      ∧ (r.2.2 = true → (k.tasks p).group_leader ≠ p
          ∧ thread_group_empty (detach_pid k p .PIDTYPE_TGID) (k.tasks p).group_leader = true
          ∧ (k.tasks (k.tasks p).group_leader).exit_state = EXIT_ZOMBIE
          ∧ (r.1.tasks (k.tasks p).group_leader).exit_signal = -1) := by
  have hv := view_release_task_pass linkFree_group_leader h
  unfold release_task_pass at h
  simp only [bind_eq_ok, BUG_ON_eq_ok, pure_eq_ok] at h
  obtain ⟨k2, hk2, _, _, r1, hr1, k7, hk7, h⟩ := h
  have e2 : k2.nr_threads = k.nr_threads ∧ k2.pid_hash = k.pid_hash := by
    split_ifs at hk2
    · have e := hash___ptrace_unlink hk2
      exact e
    · simp only [pure_eq_ok] at hk2
      subst hk2
      exact ⟨rfl, rfl⟩
  have v2 : ∀ {α : Type} (v : task_struct → α), LinkFree v → k2.view v = k.view v := by
    intro α v hv
    split_ifs at hk2
    · rw [view___ptrace_unlink hv hk2]; rfl
    · simp only [pure_eq_ok] at hk2
      subst hk2
      rfl
  generalize hK4 : __unhash_process ((k2.call .__exit_signal p 0).call .__exit_sighand p 0) p
    = k4 at hr1 h
  have n4 : k4.nr_threads = k.nr_threads - 1 := by
    rw [← hK4, (hash___unhash_process _ p).1, ← e2.1]
    rfl
  have v4 : ∀ {α : Type} (v : task_struct → α), LinkFree v → k4.view v = k.view v := by
    intro α v hv
    rw [← hK4, view___unhash_process hv, view_call, view_call, v2 v hv]
  have h4 : k4.pid_hash .PIDTYPE_TGID = (detach_pid k p .PIDTYPE_TGID).pid_hash .PIDTYPE_TGID := by
    rw [← hK4, (hash___unhash_process _ p).2]
    show (detach_pid k2 p .PIDTYPE_TGID).pid_hash .PIDTYPE_TGID = _
    unfold detach_pid
    dsimp only
    rw [e2.2]
  have g4 : (k4.tasks p).group_leader = (k.tasks p).group_leader :=
    congrFun (v4 _ linkFree_group_leader) p
  have n7 : k7.nr_threads = r1.1.nr_threads
      ∧ ∀ q, (k7.tasks q).exit_signal = (r1.1.tasks q).exit_signal := by
    unfold release_thread at hk7
    simp only [bind_eq_ok, BUG_ON_eq_ok, pure_eq_ok] at hk7
    obtain ⟨_, _, hk7⟩ := hk7
    subst hk7
    exact ⟨rfl, fun _ => rfl⟩
  subst h
  dsimp only
  rw [hash_put_task_struct, n7.1, g4]
  unfold release_task_leader at hr1
  split_ifs at hr1 with c
  · simp only [bind_eq_ok, BUG_ON_eq_ok, pure_eq_ok] at hr1
    obtain ⟨_, _, hr1⟩ := hr1
    subst hr1
    dsimp only
    rw [hash_do_notify_parent]
    refine ⟨n4, rfl, fun hz => ?_⟩
    have hz2 : ((do_notify_parent k4 (k4.tasks p).group_leader
        (k4.tasks (k4.tasks p).group_leader).exit_signal).tasks
          (k4.tasks p).group_leader).exit_signal = -1 := by
      simpa using hz
    rw [g4] at c hz2
    refine ⟨c.1, ?_, ?_, ?_⟩
    · rw [← c.2.1]
      exact (@thread_group_empty_of_chain (detach_pid k p .PIDTYPE_TGID) k4 _
        (fun q => (congrFun (v4 _ linkFree_tgid) q))
        h4).symm
    · rw [← c.2.2]
      exact (congrFun (v4 _ linkFree_exit_state) _).symm
    · rw [exit_signal_put_task_struct, n7.2, g4]
      exact hz2
  · simp only [pure_eq_ok] at hr1
    subst hr1
    exact ⟨n4, rfl, fun hz => absurd hz (by simp)⟩

lemma bind_ne_fuel {α β : Type} {x : Except Stop α} {f : α → Except Stop β}
    (hx : x ≠ .error .fuel) (hf : ∀ a, f a ≠ .error .fuel) : (x >>= f) ≠ .error .fuel := by
  cases x with
  | error e =>
    intro h
    have h2 : (Except.error e : Except Stop α) = .error .fuel := by
      cases e with
      | halt w s => cases h
      | fuel => rfl
    exact hx h2
  | ok a => exact hf a

lemma BUG_ON_ne_fuel (c : Bool) (l : Nat) (k : Kernel) : BUG_ON c l k ≠ .error .fuel := by
  unfold BUG_ON
  split_ifs <;> exact fun h => by cases h

lemma pure_ne_fuel {α : Type} (a : α) : (pure a : Except Stop α) ≠ .error .fuel :=
  fun h => by cases h

/-- A pass of `release_task` stops on a fatal check or ends; it has no loop
budget to run out of. -/
lemma release_task_pass_ne_fuel (k : Kernel) (p : Nat) :
    release_task_pass k p ≠ .error .fuel := by
  unfold release_task_pass
  refine bind_ne_fuel ?_ fun k2 => bind_ne_fuel (BUG_ON_ne_fuel _ _ _) fun _ =>
    bind_ne_fuel ?_ fun r => bind_ne_fuel ?_ fun k7 => pure_ne_fuel _
  · dsimp only
    split_ifs
    · unfold __ptrace_unlink
      exact bind_ne_fuel (BUG_ON_ne_fuel _ _ _) fun _ => pure_ne_fuel _
    · exact pure_ne_fuel _
  · unfold release_task_leader
    split_ifs
    · exact bind_ne_fuel (BUG_ON_ne_fuel _ _ _) fun _ => pure_ne_fuel _
    · exact pure_ne_fuel _
  · unfold release_thread
    exact bind_ne_fuel (BUG_ON_ne_fuel _ _ _) fun _ => pure_ne_fuel _

/-- C28: for a task `p` whose group leader is its own group leader,
`release_task` ends within two passes of its loop whatever budget of at
least two passes it is given: the run is the same as with a budget of two and
never runs out of it.  When it returns, either one pass ran, `zap_leader` was
clear and `nr_threads` is one less, or two passes ran and `nr_threads` is two
less; the second pass is for the leader and runs only when `p` is not the
leader, the leader is a zombie and alone in its group once `p` is detached,
and the leader is self-reaping (`exit_signal == -1`) after its parent was
notified in the first pass. -/
theorem release_task_two_passes (k : Kernel) (p fuel : Nat) (hfuel : 2 ≤ fuel)
    (hgl : (k.tasks (k.tasks p).group_leader).group_leader = (k.tasks p).group_leader) :
    release_task fuel k p = release_task 2 k p
      ∧ release_task fuel k p ≠ .error .fuel
      ∧ ∀ k', release_task fuel k p = .ok k' →
          ∃ r1, release_task_pass k p = .ok r1 ∧ r1.2.1 = (k.tasks p).group_leader
            ∧ ((r1.2.2 = false ∧ k' = r1.1 ∧ k'.nr_threads = k.nr_threads - 1)
              ∨ (r1.2.2 = true
                  ∧ (k.tasks p).group_leader ≠ p
                  ∧ thread_group_empty (detach_pid k p .PIDTYPE_TGID)
                      (k.tasks p).group_leader = true
                  ∧ (k.tasks (k.tasks p).group_leader).exit_state = EXIT_ZOMBIE
                  ∧ (r1.1.tasks (k.tasks p).group_leader).exit_signal = -1
                  ∧ ∃ r2, release_task_pass r1.1 (k.tasks p).group_leader = .ok r2
                      ∧ r2.2.2 = false ∧ k' = r2.1
                      ∧ k'.nr_threads = k.nr_threads - 2)) := by
  -- the second pass, over the leader, clears `zap_leader`
  have second : ∀ r1, release_task_pass k p = .ok r1 →
      ∀ r2, release_task_pass r1.1 r1.2.1 = .ok r2 → r2.2.2 = false := by
    intro r1 h1 r2 h2
    have f1 := release_task_pass_fields h1
    have f2 := release_task_pass_fields h2
    have g : (r1.1.tasks r1.2.1).group_leader = r1.2.1 := by
      have e := congrFun (view_release_task_pass linkFree_group_leader h1) r1.2.1
      unfold Kernel.view at e
      rw [e, f1.2.1]
      exact hgl
    cases hz : r2.2.2 with
    | false => rfl
    | true => exact absurd g (f2.2.2 hz).1
  have two : ∀ n, release_task (n + 2) k p
      = release_task_pass k p >>= fun r =>
          if r.2.2 then release_task_pass r.1 r.2.1 >>= fun r2 => pure r2.1 else pure r.1 := by
    intro n
    show (release_task_pass k p >>= fun r =>
      if r.2.2 then release_task (n + 1) r.1 r.2.1 else pure r.1) = _
    cases h1 : release_task_pass k p with
    | error e => rfl
    | ok r1 =>
      show (if r1.2.2 then release_task (n + 1) r1.1 r1.2.1 else pure r1.1)
        = if r1.2.2 then release_task_pass r1.1 r1.2.1 >>= fun r2 => pure r2.1 else pure r1.1
      split_ifs
      · show (release_task_pass r1.1 r1.2.1 >>= fun r =>
          if r.2.2 then release_task n r.1 r.2.1 else pure r.1) = _
        cases h2 : release_task_pass r1.1 r1.2.1 with
        | error e => rfl
        | ok r2 =>
          show (if r2.2.2 then release_task n r2.1 r2.2.1 else pure r2.1) = pure r2.1
          rw [second r1 h1 r2 h2]
          rfl
      · rfl
  obtain ⟨n, rfl⟩ : ∃ n, fuel = n + 2 := ⟨fuel - 2, by omega⟩
  refine ⟨(two n).trans (two 0).symm, ?_, fun k' h => ?_⟩
  · rw [two n]
    refine bind_ne_fuel (release_task_pass_ne_fuel k p) fun r => ?_
    split_ifs
    · exact bind_ne_fuel (release_task_pass_ne_fuel _ _) fun _ => pure_ne_fuel _
    · exact pure_ne_fuel _
  · rw [two n] at h
    simp only [bind_eq_ok] at h
    obtain ⟨r1, h1, h⟩ := h
    have f1 := release_task_pass_fields h1
    refine ⟨r1, h1, f1.2.1, ?_⟩
    split_ifs at h with hz
    · simp only [bind_eq_ok, pure_eq_ok] at h
      obtain ⟨r2, h2, h⟩ := h
      have f2 := release_task_pass_fields h2
      obtain ⟨a, b, c, d⟩ := f1.2.2 hz
      rw [f1.2.1] at h2
      refine Or.inr ⟨hz, a, b, c, d, r2, h2, second r1 h1 r2 (by rw [f1.2.1]; exact h2), h.symm, ?_⟩
      rw [← h, f2.1, f1.1]
      ring
    · simp only [pure_eq_ok] at h
      refine Or.inl ⟨by simpa using hz, h.symm, ?_⟩
      rw [← h]
      exact f1.1

/-- The witness of C28 on the group whose leader is a zombie: releasing the
last other thread takes two passes, and two threads fewer are counted. -/
theorem release_task_two_passes_witness :
    (release_task 7 demo_last_thread 5).toOption.map (fun a => a.nr_threads) = some 3
      ∧ release_task 7 demo_last_thread 5 = release_task 2 demo_last_thread 5
      ∧ release_task 7 demo_last_thread 5 ≠ .error .fuel := by
  have w := release_task_two_passes demo_last_thread 5 7 (by decide) (by decide)
  exact ⟨by decide, w.1, w.2.1⟩

lemma top_ebp_add (THREAD_SIZE stack_page : Nat) (hsize : 8 ≤ THREAD_SIZE)
    (hno : stack_page + THREAD_SIZE ≤ 2 ^ 32) :
    (top_ebp THREAD_SIZE + stack_page) % 2 ^ 32 = stack_page + THREAD_SIZE - 8 := by
  unfold top_ebp
  norm_num at hno ⊢
  omega

lemma top_esp_add (THREAD_SIZE stack_page : Nat) (hsize : 8 ≤ THREAD_SIZE)
    (hno : stack_page + THREAD_SIZE ≤ 2 ^ 32) :
    (top_esp THREAD_SIZE + stack_page) % 2 ^ 32 = stack_page + THREAD_SIZE - 4 := by
  unfold top_esp
  norm_num at hno ⊢
  omega

/-- A frame pointer outside the permitted range ends the loop with 0 and no
further read. -/
lemma get_wchan_loop_out (f : Nat → Bool) (mem : Nat → Nat) (THREAD_SIZE stack_page : Nat)
    (hsize : 8 ≤ THREAD_SIZE) (hno : stack_page + THREAD_SIZE ≤ 2 ^ 32)
    (left ebp : Nat) (reads : List StackRead)
    (h : ebp < stack_page ∨ stack_page + THREAD_SIZE - 8 < ebp) :
    get_wchan_loop f mem THREAD_SIZE stack_page left ebp reads = (0, reads) := by
  unfold get_wchan_loop
  rw [top_ebp_add _ _ hsize hno, if_pos h]

/-- The reads of the loop: those made before it, then at most `left + 1`
return addresses and as many frame pointers, each word inside the stack
area. -/
lemma get_wchan_loop_reads (f : Nat → Bool) (mem : Nat → Nat) (THREAD_SIZE stack_page : Nat)
    (hsize : 8 ≤ THREAD_SIZE) (hno : stack_page + THREAD_SIZE ≤ 2 ^ 32) :
    ∀ (left ebp : Nat) (reads : List StackRead),
      ∃ new, (get_wchan_loop f mem THREAD_SIZE stack_page left ebp reads).2 = reads ++ new
        ∧ (new.filter StackRead.is_eip).length ≤ left + 1
        ∧ new.length ≤ 2 * (left + 1)
        ∧ ∀ r ∈ new, stack_page ≤ r.addr ∧ r.addr + 4 ≤ stack_page + THREAD_SIZE := by
  intro left
  induction left with
  | zero =>
    intro ebp reads
    unfold get_wchan_loop
    rw [top_ebp_add _ _ hsize hno]
    dsimp only
    by_cases c : ebp < stack_page ∨ ebp > stack_page + THREAD_SIZE - 8
    · rw [if_pos c]
      exact ⟨[], by simp, by simp, by simp, by simp⟩
    · rw [if_neg c]
      have e4 : (ebp + 4) % 2 ^ 32 = ebp + 4 := by
        norm_num at hno ⊢
        omega
      rw [e4]
      split_ifs
      · refine ⟨[.eip (ebp + 4)], rfl, by simp [StackRead.is_eip], by simp, ?_⟩
        intro r hr
        simp only [List.mem_singleton] at hr
        subst hr
        simp only [StackRead.addr]
        omega
      · refine ⟨[.eip (ebp + 4), .ebp ebp], rfl, by simp [StackRead.is_eip], by simp, ?_⟩
        intro r hr
        simp only [List.mem_cons, List.mem_singleton, List.not_mem_nil, or_false] at hr
        rcases hr with hr | hr <;> subst hr <;> simp only [StackRead.addr] <;> omega
  | succ n ih =>
    intro ebp reads
    unfold get_wchan_loop
    rw [top_ebp_add _ _ hsize hno]
    dsimp only
    by_cases c : ebp < stack_page ∨ ebp > stack_page + THREAD_SIZE - 8
    · rw [if_pos c]
      exact ⟨[], by simp, by simp, by simp, by simp⟩
    · rw [if_neg c]
      have e4 : (ebp + 4) % 2 ^ 32 = ebp + 4 := by
        norm_num at hno ⊢
        omega
      rw [e4]
      split_ifs
      · refine ⟨[.eip (ebp + 4)], rfl, by simp [StackRead.is_eip],
          by simp only [List.length_cons, List.length_nil]; omega, ?_⟩
        intro r hr
        simp only [List.mem_singleton] at hr
        subst hr
        simp only [StackRead.addr]
        omega
      · obtain ⟨new, h1, h2, h3, h4⟩ := ih (mem ebp % 2 ^ 32)
          (reads ++ [.eip (ebp + 4), .ebp ebp])
        refine ⟨[.eip (ebp + 4), .ebp ebp] ++ new, ?_, ?_, ?_, ?_⟩
        · rw [h1, List.append_assoc]
        · simp only [List.filter_append, List.length_append]
          simp [StackRead.is_eip]
          omega
        · simp only [List.length_append, List.length_cons, List.length_nil]
          omega
        · intro r hr
          simp only [List.mem_append, List.mem_cons, List.mem_singleton, List.not_mem_nil,
            or_false] at hr
          rcases hr with (hr | hr) | hr
          · subst hr
            simp only [StackRead.addr]
            omega
          · subst hr
            simp only [StackRead.addr]
            omega
          · exact h4 r hr

/-- C29: for a stack area that holds two words and whose end
`stack_page + THREAD_SIZE` does not overflow, `get_wchan` returns 0 with no
read for a null task, the current task and a running task; it reads through
at most 17 frame pointers (17 return addresses, 17 saved frame pointers and
the word at the stack pointer); every word it reads lies in
`[stack_page, stack_page + THREAD_SIZE)`; a stack pointer outside the
permitted range makes it return 0 with no read, and a frame pointer outside
it ends the loop with 0 and no further read. -/
theorem get_wchan_reads_in_stack (k : Kernel) (thread_info esp : Nat → Nat)
    (in_sched_functions : Nat → Bool) (mem : Nat → Nat) (THREAD_SIZE p : Nat)
    (hsize : 8 ≤ THREAD_SIZE) (hno : thread_info p + THREAD_SIZE ≤ 2 ^ 32) :
    ((p = 0 ∨ p = k.current ∨ (k.tasks p).state = TASK_RUNNING) →
        get_wchan k thread_info esp in_sched_functions mem THREAD_SIZE p = (0, []))
      ∧ ((get_wchan k thread_info esp in_sched_functions mem THREAD_SIZE p).2.filter
          StackRead.is_eip).length ≤ 17
      ∧ (get_wchan k thread_info esp in_sched_functions mem THREAD_SIZE p).2.length ≤ 35
      ∧ (∀ r ∈ (get_wchan k thread_info esp in_sched_functions mem THREAD_SIZE p).2,
          thread_info p ≤ r.addr ∧ r.addr + 4 ≤ thread_info p + THREAD_SIZE)
      ∧ ((esp p < thread_info p ∨ thread_info p + THREAD_SIZE - 4 < esp p) →
          get_wchan k thread_info esp in_sched_functions mem THREAD_SIZE p = (0, []))
      ∧ ∀ (left ebp : Nat) (reads : List StackRead),
          (ebp < thread_info p ∨ thread_info p + THREAD_SIZE - 8 < ebp) →
          get_wchan_loop in_sched_functions mem THREAD_SIZE (thread_info p) left ebp reads
            = (0, reads) := by
  refine ⟨fun h => ?_, ?_, ?_, ?_, fun h => ?_,
    fun left ebp reads h => get_wchan_loop_out _ _ _ _ hsize hno left ebp reads h⟩
  · unfold get_wchan
    rw [if_pos h]
  all_goals unfold get_wchan
  all_goals rw [top_esp_add _ _ hsize hno]
  · split_ifs with c1 c2
    · simp
    · simp
    · obtain ⟨new, h1, h2, _, _⟩ := get_wchan_loop_reads in_sched_functions mem THREAD_SIZE
        (thread_info p) hsize hno 16 (mem (esp p) % 2 ^ 32) [.saved (esp p)]
      rw [h1]
      simp only [List.filter_append, List.length_append]
      simp [StackRead.is_eip]
      omega
  · split_ifs with c1 c2
    · simp
    · simp
    · obtain ⟨new, h1, _, h3, _⟩ := get_wchan_loop_reads in_sched_functions mem THREAD_SIZE
        (thread_info p) hsize hno 16 (mem (esp p) % 2 ^ 32) [.saved (esp p)]
      rw [h1]
      simp only [List.length_append, List.length_cons, List.length_nil]
      omega
  · split_ifs with c1 c2
    · simp
    · simp
    · obtain ⟨new, h1, _, _, h4⟩ := get_wchan_loop_reads in_sched_functions mem THREAD_SIZE
        (thread_info p) hsize hno 16 (mem (esp p) % 2 ^ 32) [.saved (esp p)]
      rw [h1]
      intro r hr
      simp only [List.mem_append, List.mem_singleton] at hr
      rcases hr with hr | hr
      · subst hr
        simp only [StackRead.addr]
        omega
      · exact h4 r hr
  · split_ifs with c1 c2
    · rfl
    · rfl
    · exact absurd (Or.inr h) c2

/-- The witness of C29 on a stack whose frames all lie in the scheduler and
point to one frame: 17 return addresses are read, then 0 is returned. -/
theorem get_wchan_reads_in_stack_witness :
    (get_wchan demo_stopped (fun _ => 0xc0002000) (fun _ => 0xc0003e00) (fun _ => true) demo_stack
        8192 3).1 = 0
      ∧ ((get_wchan demo_stopped (fun _ => 0xc0002000) (fun _ => 0xc0003e00) (fun _ => true) demo_stack
        8192 3).2.filter StackRead.is_eip).length = 17
      ∧ ((get_wchan demo_stopped (fun _ => 0xc0002000) (fun _ => 0xc0003e00) (fun _ => true) demo_stack
        8192 3).2.filter StackRead.is_eip).length ≤ 17
      ∧ get_wchan demo_stopped (fun _ => 0xc0002000) (fun _ => 0xc0003e00) (fun a => a != 7) demo_stack
        8192 3 = (7, [.saved 0xc0003e00, .eip 0xc0003f04]) :=
  ⟨by decide, by decide,
    (get_wchan_reads_in_stack demo_stopped (fun _ => 0xc0002000) (fun _ => 0xc0003e00) (fun _ => true)
      demo_stack 8192 3 (by decide) (by decide)).2.1, by decide⟩

/-- C24, the failing input: for the zombie leader of `demo_leader_exited` a
peek reports an exit with status 42, and the consuming wait that follows it
on the unchanged child reports a kill by signal 9. -/
theorem wait_task_zombie_peek_differs :
    ((wait_task_zombie 2 demo_leader_exited 3 true 0x1000 0 0).toOption.map fun r =>
        (r.1, peek_report r.2 0x1000, peek_fields (r.2.tasks 3)
          == peek_fields (demo_leader_exited.tasks 3)))
        = some (101, (some 101, some CLD_EXITED, some 42), true)
      ∧ ((wait_task_zombie 2 demo_leader_exited 3 true 0x1000 0 0 >>= fun r =>
          wait_task_zombie 2 r.2 3 false 0x1000 0 0).toOption.map fun r =>
            (r.1, peek_report r.2 0x1000))
        = some (101, (some 101, some CLD_KILLED, some 9)) := by
  decide

/-- C25, the failing input: the shell waits for its zombie child with a
status cell it cannot write.  The call returns `-EFAULT` and the child is a
zombie again, on the child list and with its exit code, but its five ticks
are in the accumulator of the parent; the wait repeated with a good cell
returns the pid and leaves ten ticks there. -/
theorem wait_task_zombie_fault_accounted :
    (demo_usage.sig 2).cutime = 0
      ∧ ((wait_task_zombie 2 demo_usage 3 false 0 0x2000 0).toOption.map fun r =>
          (r.1, (r.2.tasks 3).exit_state, (r.2.tasks 3).exit_code,
            decide (3 ∈ (r.2.tasks 2).children), (r.2.sig 2).cutime))
        = some (-EFAULT, EXIT_ZOMBIE, 0x2a00, true, 5)
      ∧ ((wait_task_zombie 2 demo_usage 3 false 0 0x2000 0 >>= fun r =>
          wait_task_zombie 2 r.2 3 false 0 0x1000 0).toOption.map fun r =>
            (r.1, (r.2.sig 2).cutime))
        = some (101, 10) := by
  decide

/-- C26, the failing input: the shell of `demo_sibling_tracer` exits while
its live sibling thread at 5 traces its child at 4.  Every task has its real
parent or a tracer as parent and the system reaper is not the one exiting;
the reaper chosen is the thread at 5, and the call of `choose_new_parent`
for the traced child stops at the `BUG()` of line 597. -/
theorem forget_original_parent_tracer_bug :
    (∀ q ∈ demo_sibling_tracer.procs,
        (demo_sibling_tracer.tasks q).parent = (demo_sibling_tracer.tasks q).real_parent
          ∨ (demo_sibling_tracer.tasks q).ptrace ≠ 0)
      ∧ demo_sibling_tracer.child_reaper ≠ 2
      ∧ (demo_sibling_tracer.tasks 2).ptrace_children = [4]
      ∧ (demo_sibling_tracer.tasks 4).real_parent = 2
      ∧ (demo_sibling_tracer.tasks 4).parent = 5
      ∧ (demo_sibling_tracer.tasks 5).tgid = (demo_sibling_tracer.tasks 2).tgid
      ∧ (demo_sibling_tracer.tasks 5).exit_state = 0
      ∧ find_reaper demo_sibling_tracer 2 = 5
      ∧ stopped_at (forget_original_parent demo_sibling_tracer 2) = some (.BUG 597)
      ∧ ((forget_children 2 5 [3] demo_sibling_tracer []).toOption.map fun r =>
          stopped_at (choose_new_parent r.1 4 5)) = some (some (.BUG 597)) := by
  decide

lemma put_user_frame (k : Kernel) (x : Int) (a : Nat) :
    ((put_user k x a).1 = 0 ∨ (put_user k x a).1 = -EFAULT)
      ∧ (put_user k x a).2.signals = k.signals ∧ (put_user k x a).2.tasks = k.tasks := by
  unfold put_user
  split_ifs
  · exact ⟨Or.inl rfl, rfl, rfl⟩
  · exact ⟨Or.inr rfl, rfl, rfl⟩

lemma put_user_if_frame (k : Kernel) (r : Int × Kernel) (x : Int) (a : Nat)
    (h : (r.1 = 0 ∨ r.1 = -EFAULT) ∧ r.2.signals = k.signals ∧ r.2.tasks = k.tasks) :
    ((put_user_if r x a).1 = 0 ∨ (put_user_if r x a).1 = -EFAULT)
      ∧ (put_user_if r x a).2.signals = k.signals ∧ (put_user_if r x a).2.tasks = k.tasks := by
  unfold put_user_if
  split_ifs
  · obtain ⟨a1, a2, a3⟩ := put_user_frame r.2 x a
    exact ⟨a1, a2.trans h.2.1, a3.trans h.2.2⟩
  · exact h

lemma put_user_ifp_frame (k : Kernel) (r : Int × Kernel) (ptr : Nat) (x : Int) (a : Nat)
    (h : (r.1 = 0 ∨ r.1 = -EFAULT) ∧ r.2.signals = k.signals ∧ r.2.tasks = k.tasks) :
    ((put_user_ifp r ptr x a).1 = 0 ∨ (put_user_ifp r ptr x a).1 = -EFAULT)
      ∧ (put_user_ifp r ptr x a).2.signals = k.signals
      ∧ (put_user_ifp r ptr x a).2.tasks = k.tasks := by
  unfold put_user_ifp
  split_ifs
  · obtain ⟨a1, a2, a3⟩ := put_user_frame r.2 x a
    exact ⟨a1, a2.trans h.2.1, a3.trans h.2.2⟩
  · exact h

lemma getrusage_opt_frame (k : Kernel) (p ru : Nat) :
    ((getrusage_opt k p ru).1 = 0 ∨ (getrusage_opt k p ru).1 = -EFAULT)
      ∧ (getrusage_opt k p ru).2.signals = k.signals
      ∧ (getrusage_opt k p ru).2.tasks = k.tasks := by
  unfold getrusage_opt getrusage
  split_ifs
  · exact ⟨Or.inl rfl, rfl, rfl⟩
  · exact ⟨Or.inr rfl, rfl, rfl⟩
  · exact ⟨Or.inl rfl, rfl, rfl⟩

/-- The copy-out step of a consuming `wait_task_zombie` ends with 0 or
`-EFAULT` and writes no signal structure and no task. -/
lemma wait_task_zombie_copyout_frame (k : Kernel) (p infop stat_addr ru : Nat) :
    ((wait_task_zombie_copyout k p infop stat_addr ru).1 = 0
        ∨ (wait_task_zombie_copyout k p infop stat_addr ru).1 = -EFAULT)
      ∧ (wait_task_zombie_copyout k p infop stat_addr ru).2.signals = k.signals
      ∧ (wait_task_zombie_copyout k p infop stat_addr ru).2.tasks = k.tasks := by
  unfold wait_task_zombie_copyout
  dsimp only
  have h0 := getrusage_opt_frame k p ru
  generalize getrusage_opt k p ru = r0 at h0 ⊢
  have h1 := put_user_ifp_frame k r0 stat_addr (wait_task_zombie_status r0.2 p) stat_addr h0
  generalize put_user_ifp r0 stat_addr (wait_task_zombie_status r0.2 p) stat_addr = r1 at h1 ⊢
  have h2 := put_user_ifp_frame k r1 infop SIGCHLD (infop + si_signo) h1
  generalize put_user_ifp r1 infop SIGCHLD (infop + si_signo) = r2 at h2 ⊢
  have h3 := put_user_ifp_frame k r2 infop 0 (infop + si_errno) h2
  generalize put_user_ifp r2 infop 0 (infop + si_errno) = r3 at h3 ⊢
  generalize zombie_why_status (wait_task_zombie_status r0.2 p) = ws
  have h4 : ∀ r4 : Int × Kernel,
      r4 = (if r3.1 = 0 ∧ infop ≠ 0 then
              put_user_if (put_user r3.2 ws.1 (infop + si_code)) ws.2 (infop + si_status)
            else r3) →
      (r4.1 = 0 ∨ r4.1 = -EFAULT) ∧ r4.2.signals = k.signals ∧ r4.2.tasks = k.tasks := by
    intro r4 e
    subst e
    split_ifs
    · obtain ⟨a1, a2, a3⟩ := put_user_frame r3.2 ws.1 (infop + si_code)
      exact put_user_if_frame k _ _ _ ⟨a1, a2.trans h3.2.1, a3.trans h3.2.2⟩
    · exact h3
  have h4 := h4 _ rfl
  generalize (if r3.1 = 0 ∧ infop ≠ 0 then
      put_user_if (put_user r3.2 ws.1 (infop + si_code)) ws.2 (infop + si_status)
    else r3) = r4 at h4 ⊢
  have h5 := put_user_ifp_frame k r4 infop (r4.2.tasks p).pid (infop + si_pid) h4
  generalize put_user_ifp r4 infop (r4.2.tasks p).pid (infop + si_pid) = r5 at h5 ⊢
  exact put_user_ifp_frame k r5 infop (r5.2.tasks p).uid (infop + si_uid) h5

lemma quiet_wait_task_zombie_release {fuel : Nat} {k k' : Kernel} {p : Nat}
    (h : wait_task_zombie_release fuel k p = .ok k') : k'.quiet 0 = k.quiet 0 := by
  unfold wait_task_zombie_release at h
  simp only [bind_eq_ok] at h
  obtain ⟨r, hr, h⟩ := h
  have e1 : r.1.quiet 0 = k.quiet 0 := by
    unfold wait_task_zombie_untrace at hr
    split_ifs at hr
    · rw [map_eq_ok] at hr
      obtain ⟨a, ha, hr⟩ := hr
      subst hr
      have ea := quiet___ptrace_unlink 0 ha
      split_ifs
      · exact ((quiet_do_notify_parent _ _ _ _).trans (quiet_set_exit_state _ _ _ _)).trans ea
      · exact (quiet_set_exit_state _ _ _ _).trans ea
    · simp only [pure_eq_ok] at hr
      subst hr
      rfl
  split_ifs at h
  · simp only [pure_eq_ok] at h
    subst h
    exact e1
  · exact (quiet_release_task 0 fuel h).trans e1

/-- The accounting step reads nothing that the exchange of the exit state of
the child has written. -/
lemma wait_task_zombie_account_set_exit_state (k : Kernel) (p : Nat) (x : Int) :
    (wait_task_zombie_account (k.set_exit_state p x) p).signals
      = (wait_task_zombie_account k p).signals := by
  have e : ∀ q, (k.set_exit_state p x).tasks q
      = { k.tasks q with exit_state := ((k.set_exit_state p x).tasks q).exit_state } := by
    intro q
    unfold Kernel.set_exit_state Kernel.setTask
    dsimp only
    split_ifs with c
    · rw [c]
    · rfl
  have es : ∀ q, (k.set_exit_state p x).sig q = k.sig q := by
    intro q
    unfold Kernel.sig
    rw [e q]
    rfl
  unfold wait_task_zombie_account
  simp only [es]
  rw [e p]
  dsimp only
  split_ifs
  · unfold Kernel.setSignal
    dsimp only
    rw [e (k.tasks p).parent]
    rfl
  · rfl

/-- The signal structures after a consuming `wait_task_zombie` that returned
a pid for a zombie are those the accounting step leaves, and each task has
the signal structure it had. -/
lemma wait_task_zombie_signals {fuel : Nat} {k k' : Kernel} {p infop stat_addr ru : Nat}
    {r : Int}
    (h : wait_task_zombie fuel k p false infop stat_addr ru = .ok (r, k'))
    (hz : (k.tasks p).exit_state = EXIT_ZOMBIE) (hr : 0 < r) :
    k'.signals = (wait_task_zombie_account k p).signals
      ∧ ∀ q, (k'.tasks q).signal = (k.tasks q).signal := by
  unfold wait_task_zombie at h
  rw [if_neg Bool.false_ne_true, if_neg (not_not.mpr hz)] at h
  unfold wait_task_zombie_reap at h
  obtain ⟨c1, c2, c3⟩ := wait_task_zombie_copyout_frame
    (wait_task_zombie_account (k.set_exit_state p EXIT_DEAD) p) p infop stat_addr ru
  split_ifs at h with d1 d2
  · simp only [pure_eq_ok, Prod.mk.injEq] at h
    omega
  · simp only [pure_eq_ok, Prod.mk.injEq] at h
    rcases c1 with c1 | c1
    · exact absurd c1 d2
    · rw [c1] at h
      have : r = -EFAULT := h.1.symm
      rw [this] at hr
      exact absurd hr (by decide)
  · simp only [bind_eq_ok, BUG_ON_eq_ok, pure_eq_ok, Prod.mk.injEq] at h
    obtain ⟨k4, h4, _, _, _, e⟩ := h
    subst e
    have q := quiet_wait_task_zombie_release h4
    refine ⟨((congrArg Prod.fst q).trans c2).trans
      (wait_task_zombie_account_set_exit_state k p EXIT_DEAD), fun t => ?_⟩
    have q2 := congrFun (congrArg (fun x => x.2.1) q) t
    refine q2.trans ?_
    show ((wait_task_zombie_copyout
      (wait_task_zombie_account (k.set_exit_state p EXIT_DEAD) p) p infop stat_addr
        ru).2.tasks t).signal = _
    rw [c3, (wait_task_zombie_account_fields _ p).1]
    exact congrFun (view_set_exit_state (v := task_struct.signal) (fun _ _ => rfl) k p _) t

/-- C23, counterexample: the shell claims its zombie child, which used five
ticks of user time, while its accumulator holds `2 ^ 32 - 1`; the sum is
`2 ^ 32 + 4` and the accumulator holds 4 afterwards. -/
theorem wait_task_zombie_accumulator_wraps :
    (demo_wrapped.tasks 3).real_parent = (demo_wrapped.tasks 3).parent
      ∧ (demo_wrapped.sig 2).cutime
          + ((demo_wrapped.tasks 3).utime
            + ((demo_wrapped.sig 3).utime + (demo_wrapped.sig 3).cutime)) = 2 ^ 32 + 4
      ∧ ((wait_task_zombie 2 demo_wrapped 3 false 0 0x1000 0).toOption.map fun r =>
          (r.1, (r.2.sig 2).cutime)) = some (101, 4) := by
  decide

/-- C23, amended: after a consuming `wait_task_zombie` has claimed the
zombie child `p` (it returned a pid), when the real parent of `p` is its
parent, each of the six accumulators of the signal structure of the parent
holds its previous value plus the sum of the counter of `p`, the counter of
the group of `p` and the accumulated-children counter of that group, reduced
modulo `2 ^ 32`, and every other signal structure is as before; when the
real parent differs from the parent, no signal structure has changed. -/
theorem wait_task_zombie_accumulates (fuel : Nat) (k k' : Kernel)
    (p infop stat_addr ru : Nat) (r : Int)
    (h : wait_task_zombie fuel k p false infop stat_addr ru = .ok (r, k'))
    (hz : (k.tasks p).exit_state = EXIT_ZOMBIE) (hr : 0 < r)
    (hsig : (k.tasks p).signal ≠ 0) :
    ((k.tasks p).real_parent = (k.tasks p).parent →
        (k'.sig (k.tasks p).parent).cutime
            = ((k.sig (k.tasks p).parent).cutime
                + ((k.tasks p).utime + ((k.sig p).utime + (k.sig p).cutime))) % 2 ^ 32
          ∧ (k'.sig (k.tasks p).parent).cstime
            = ((k.sig (k.tasks p).parent).cstime
                + ((k.tasks p).stime + ((k.sig p).stime + (k.sig p).cstime))) % 2 ^ 32
          ∧ (k'.sig (k.tasks p).parent).cmin_flt
            = ((k.sig (k.tasks p).parent).cmin_flt
                + ((k.tasks p).min_flt + (k.sig p).min_flt + (k.sig p).cmin_flt)) % 2 ^ 32
          ∧ (k'.sig (k.tasks p).parent).cmaj_flt
            = ((k.sig (k.tasks p).parent).cmaj_flt
                + ((k.tasks p).maj_flt + (k.sig p).maj_flt + (k.sig p).cmaj_flt)) % 2 ^ 32
          ∧ (k'.sig (k.tasks p).parent).cnvcsw
            = ((k.sig (k.tasks p).parent).cnvcsw
                + ((k.tasks p).nvcsw + (k.sig p).nvcsw + (k.sig p).cnvcsw)) % 2 ^ 32
          ∧ (k'.sig (k.tasks p).parent).cnivcsw
            = ((k.sig (k.tasks p).parent).cnivcsw
                + ((k.tasks p).nivcsw + (k.sig p).nivcsw + (k.sig p).cnivcsw)) % 2 ^ 32
          ∧ ∀ s, s ≠ (k.tasks (k.tasks p).parent).signal → k'.signals s = k.signals s)
      ∧ ((k.tasks p).real_parent ≠ (k.tasks p).parent → k'.signals = k.signals) := by
  obtain ⟨hs, ht⟩ := wait_task_zombie_signals h hz hr
  constructor
  · intro hp
    have ha : (wait_task_zombie_account k p).signals
        = fun q => if q = (k.tasks (k.tasks p).parent).signal then
            { k.sig (k.tasks p).parent with
              cutime := ((k.sig (k.tasks p).parent).cutime
                + ((k.tasks p).utime + ((k.sig p).utime + (k.sig p).cutime))) % 2 ^ 32
              cstime := ((k.sig (k.tasks p).parent).cstime
                + ((k.tasks p).stime + ((k.sig p).stime + (k.sig p).cstime))) % 2 ^ 32
              cmin_flt := ((k.sig (k.tasks p).parent).cmin_flt
                + ((k.tasks p).min_flt + (k.sig p).min_flt + (k.sig p).cmin_flt)) % 2 ^ 32
              cmaj_flt := ((k.sig (k.tasks p).parent).cmaj_flt
                + ((k.tasks p).maj_flt + (k.sig p).maj_flt + (k.sig p).cmaj_flt)) % 2 ^ 32
              cnvcsw := ((k.sig (k.tasks p).parent).cnvcsw
                + ((k.tasks p).nvcsw + (k.sig p).nvcsw + (k.sig p).cnvcsw)) % 2 ^ 32
              cnivcsw := ((k.sig (k.tasks p).parent).cnivcsw
                + ((k.tasks p).nivcsw + (k.sig p).nivcsw + (k.sig p).cnivcsw)) % 2 ^ 32 }
          else k.signals q := by
      unfold wait_task_zombie_account
      rw [if_pos ⟨hp, hsig⟩]
      rfl
    have hv : k'.sig (k.tasks p).parent = _ :=
      (show k'.sig (k.tasks p).parent = k'.signals (k'.tasks (k.tasks p).parent).signal
        from rfl).trans ((congrFun hs _).trans (congrFun ha _))
    rw [ht, if_pos rfl] at hv
    rw [hv]
    refine ⟨rfl, rfl, rfl, rfl, rfl, rfl, fun s hne => ?_⟩
    rw [hs, ha]
    exact if_neg hne
  · intro hp
    rw [hs]
    unfold wait_task_zombie_account
    rw [if_neg (fun c => hp c.1)]

/-- Witness for C23: the shell claims its zombie child, which used five
ticks of user time; its accumulator goes from 0 to 5. -/
theorem wait_task_zombie_accumulates_witness :
    ∃ k', wait_task_zombie 2 demo_usage 3 false 0 0x1000 0 = .ok (101, k')
      ∧ (demo_usage.sig 2).cutime = 0 ∧ (k'.sig 2).cutime = 5 := by
  obtain ⟨a, ha⟩ := ok_of_isSome (wait_task_zombie 2 demo_usage 3 false 0 0x1000 0) (by decide)
  have e : (wait_task_zombie 2 demo_usage 3 false 0 0x1000 0).toOption.map Prod.fst
      = some 101 := by decide
  have e1 : a.1 = 101 := Option.some.inj ((toOption_map_of_ok ha Prod.fst).symm.trans e)
  have ha2 : wait_task_zombie 2 demo_usage 3 false 0 0x1000 0 = .ok (101, a.2) := by
    rw [ha, ← e1]
  have w := (wait_task_zombie_accumulates 2 demo_usage a.2 3 0 0x1000 0 101 ha2 (by decide)
    (by decide) (by decide)).1 (by decide)
  exact ⟨a.2, ha2, by decide, w.1⟩

lemma group_calls_append (l1 l2 : List Event) :
    group_calls (l1 ++ l2) = group_calls l1 ++ group_calls l2 := by
  simp [group_calls]

lemma gc_call (k : Kernel) (f : Callee) (a b : Int) (h1 : f ≠ .acct_process)
    (h2 : f ≠ .disassociate_ctty) : (k.call f a b).group_calls = k.group_calls := by
  unfold Kernel.group_calls Kernel.call
  simp only [group_calls_append]
  have : group_calls [{ fn := f, a := a, b := b }] = [] := by
    simp [group_calls, h1, h2]
  rw [this, List.append_nil]

lemma gc_call_in (k : Kernel) (f : Callee) (a b : Int)
    (h : f = .acct_process ∨ f = .disassociate_ctty) :
    (k.call f a b).group_calls = k.group_calls ++ [{ fn := f, a := a, b := b }] := by
  unfold Kernel.group_calls Kernel.call
  simp only [group_calls_append]
  have : group_calls [{ fn := f, a := a, b := b }] = [{ fn := f, a := a, b := b }] := by
    rcases h with h | h <;> simp [group_calls, h]
  rw [this]

lemma gc_of_log {k k' : Kernel} (h : k'.log = k.log) : k'.group_calls = k.group_calls := by
  unfold Kernel.group_calls
  rw [h]

lemma gc_REMOVE_LINKS (k : Kernel) (p : Nat) :
    (REMOVE_LINKS k p).group_calls = k.group_calls := by
  unfold REMOVE_LINKS
  dsimp only
  split_ifs <;> rfl

lemma gc_SET_LINKS (k : Kernel) (p : Nat) : (SET_LINKS k p).group_calls = k.group_calls := by
  unfold SET_LINKS
  dsimp only
  split_ifs <;> rfl

lemma gc_do_notify_parent (k : Kernel) (p : Nat) (sig : Int) :
    (do_notify_parent k p sig).group_calls = k.group_calls := by
  unfold do_notify_parent
  dsimp only
  split_ifs
  · exact gc_call _ _ _ _ (by decide) (by decide)
  · exact gc_call _ _ _ _ (by decide) (by decide)

lemma gc_put_task_struct (k : Kernel) (p : Nat) :
    (put_task_struct k p).group_calls = k.group_calls := by
  unfold put_task_struct
  dsimp only
  split_ifs
  · exact gc_call _ _ _ _ (by decide) (by decide)
  · rfl

lemma gc_ptrace_unlinked (k : Kernel) (p : Nat) :
    (ptrace_unlinked k p).group_calls = k.group_calls := by
  unfold ptrace_unlinked
  dsimp only
  have e : (SET_LINKS ((REMOVE_LINKS (ptrace_list_del (k.set_ptrace p 0) p) p).set_parent p
      ((REMOVE_LINKS (ptrace_list_del (k.set_ptrace p 0) p) p).tasks p).real_parent)
        p).group_calls = k.group_calls := by
    rw [gc_SET_LINKS]
    exact gc_REMOVE_LINKS _ p
  split_ifs
  all_goals first
    | exact e
    | rfl
    | exact (gc_call _ _ _ _ (by decide) (by decide)).trans e
    | exact gc_call _ _ _ _ (by decide) (by decide)

lemma gc___ptrace_unlink {k k' : Kernel} {p : Nat}
    (h : __ptrace_unlink k p = .ok k') : k'.group_calls = k.group_calls := by
  unfold __ptrace_unlink at h
  simp only [bind_eq_ok, BUG_ON_eq_ok, pure_eq_ok] at h
  obtain ⟨_, _, h⟩ := h
  subst h
  exact gc_ptrace_unlinked k p

lemma gc___unhash_process (k : Kernel) (p : Nat) :
    (__unhash_process k p).group_calls = k.group_calls := by
  unfold __unhash_process
  dsimp only
  rw [gc_REMOVE_LINKS]
  split_ifs <;> rfl

lemma gc_release_thread {k k' : Kernel} {p : Nat}
    (h : release_thread k p = .ok k') : k'.group_calls = k.group_calls := by
  unfold release_thread at h
  simp only [bind_eq_ok, BUG_ON_eq_ok, pure_eq_ok] at h
  obtain ⟨_, _, h⟩ := h
  subst h
  exact gc_call _ _ _ _ (by decide) (by decide)

lemma gc_release_task_leader {k : Kernel} {p : Nat} {r : Kernel × Bool}
    (h : release_task_leader k p = .ok r) : r.1.group_calls = k.group_calls := by
  unfold release_task_leader at h
  split_ifs at h
  · simp only [bind_eq_ok, BUG_ON_eq_ok, pure_eq_ok] at h
    obtain ⟨_, _, h⟩ := h
    subst h
    exact gc_do_notify_parent _ _ _
  · simp only [pure_eq_ok] at h
    subst h
    rfl

lemma gc_release_task_pass {k : Kernel} {p : Nat} {r : Kernel × Nat × Bool}
    (h : release_task_pass k p = .ok r) : r.1.group_calls = k.group_calls := by
  unfold release_task_pass at h
  simp only [bind_eq_ok, BUG_ON_eq_ok, pure_eq_ok] at h
  obtain ⟨k2, hk2, _, _, r1, hr1, k7, hk7, h⟩ := h
  subst h
  have e2 : k2.group_calls = k.group_calls := by
    split_ifs at hk2
    · rw [gc___ptrace_unlink hk2]; rfl
    · simp only [pure_eq_ok] at hk2
      subst hk2
      rfl
  simp only [gc_put_task_struct, gc_release_thread hk7,
    gc_call _ _ _ _ (show Callee.sched_exit ≠ .acct_process by decide)
      (show Callee.sched_exit ≠ .disassociate_ctty by decide),
    gc_call _ _ _ _ (show Callee.proc_pid_flush ≠ .acct_process by decide)
      (show Callee.proc_pid_flush ≠ .disassociate_ctty by decide),
    gc_call _ _ _ _ (show Callee.__exit_signal ≠ .acct_process by decide)
      (show Callee.__exit_signal ≠ .disassociate_ctty by decide),
    gc_call _ _ _ _ (show Callee.__exit_sighand ≠ .acct_process by decide)
      (show Callee.__exit_sighand ≠ .disassociate_ctty by decide),
    gc_release_task_leader hr1, gc___unhash_process, e2]

lemma gc_release_task (fuel : Nat) :
    ∀ {k k' : Kernel} {p : Nat}, release_task fuel k p = .ok k' →
      k'.group_calls = k.group_calls := by
  induction fuel with
  | zero =>
    intro k k' p h
    exact absurd h (throw_ne_ok _ _)
  | succ n ih =>
    intro k k' p h
    unfold release_task at h
    simp only [bind_eq_ok] at h
    obtain ⟨r, hr, h⟩ := h
    split_ifs at h
    · rw [ih h, gc_release_task_pass hr]
    · simp only [pure_eq_ok] at h
      subst h
      exact gc_release_task_pass hr

lemma gc_release_ptrace_dead (fuel : Nat) :
    ∀ (l : List Nat) {k k' : Kernel}, release_ptrace_dead fuel l k = .ok k' →
      k'.group_calls = k.group_calls := by
  intro l
  induction l with
  | nil =>
    intro k k' h
    unfold release_ptrace_dead at h
    simp only [pure_eq_ok] at h
    subst h
    rfl
  | cons t rest ih =>
    intro k k' h
    unfold release_ptrace_dead at h
    simp only [bind_eq_ok] at h
    obtain ⟨a, ha, h⟩ := h
    rw [ih h, gc_release_task fuel ha]

lemma gc___kill_pg_info (k : Kernel) (sig pgrp : Int) :
    (__kill_pg_info k sig pgrp).group_calls = k.group_calls :=
  gc_call _ _ _ _ (by decide) (by decide)

lemma gc_reparent_signals (k : Kernel) (p : Nat) :
    (reparent_signals k p).group_calls = k.group_calls := by
  unfold reparent_signals
  dsimp only
  split_ifs
  all_goals first
    | rfl
    | exact gc_call _ _ _ _ (by decide) (by decide)

lemma gc_reparent_traced (k : Kernel) (p : Nat) :
    (reparent_traced k p).group_calls = k.group_calls := by
  unfold reparent_traced
  split_ifs <;> rfl

lemma gc_reparent_move (k : Kernel) (p : Nat) :
    (reparent_move k p).group_calls = k.group_calls := rfl

lemma gc_reparent_notify (k : Kernel) (p : Nat) :
    (reparent_notify k p).group_calls = k.group_calls := by
  unfold reparent_notify
  split_ifs
  · exact gc_do_notify_parent _ _ _
  · exact gc_call _ _ _ _ (by decide) (by decide)
  · rfl

lemma gc_reparent_orphan (k : Kernel) (p father : Nat) :
    (reparent_orphan k p father).group_calls = k.group_calls := by
  unfold reparent_orphan
  split_ifs
  · rw [gc___kill_pg_info, gc___kill_pg_info]
  · rfl
  · rfl

lemma gc_reparent_thread (k : Kernel) (p father : Nat) (traced : Bool) :
    (reparent_thread k p father traced).group_calls = k.group_calls := by
  unfold reparent_thread
  rw [gc_reparent_orphan]
  split_ifs
  · rw [gc_reparent_traced, gc_reparent_signals]
  · rw [gc_reparent_notify, gc_reparent_move, gc_reparent_signals]

lemma gc_choose_new_parent {k k' : Kernel} {p reaper : Nat}
    (h : choose_new_parent k p reaper = .ok k') : k'.group_calls = k.group_calls := by
  unfold choose_new_parent at h
  simp only [bind_eq_ok, BUG_ON_eq_ok, pure_eq_ok] at h
  obtain ⟨_, _, _, _, h⟩ := h
  subst h
  rfl

lemma gc_renotify (k : Kernel) (p : Nat) : (renotify k p).group_calls = k.group_calls := by
  unfold renotify
  split_ifs
  · exact gc_do_notify_parent _ _ _
  · rfl

lemma gc_forget_child_reparent {k k' : Kernel} {father reaper p : Nat}
    (h : forget_child_reparent k father reaper p = .ok k') :
    k'.group_calls = k.group_calls := by
  unfold forget_child_reparent at h
  split_ifs at h
  · rw [map_eq_ok] at h
    obtain ⟨a, ha, h⟩ := h
    subst h
    rw [gc_reparent_thread, gc_choose_new_parent ha]
  · rw [map_eq_ok] at h
    obtain ⟨a, ha, h⟩ := h
    subst h
    rw [gc_renotify, gc___ptrace_unlink ha]

lemma gc_forget_child {k : Kernel} {father reaper p : Nat} {l : List Nat}
    {r : Kernel × List Nat}
    (h : forget_child k father reaper l p = .ok r) : r.1.group_calls = k.group_calls := by
  unfold forget_child at h
  simp only [bind_eq_ok, BUG_ON_eq_ok, pure_eq_ok] at h
  obtain ⟨_, _, k1, hk1, h⟩ := h
  subst h
  exact gc_forget_child_reparent hk1

lemma gc_forget_children (father reaper : Nat) :
    ∀ (l : List Nat) {k : Kernel} {dead : List Nat} {r : Kernel × List Nat},
      forget_children father reaper l k dead = .ok r → r.1.group_calls = k.group_calls := by
  intro l
  induction l with
  | nil =>
    intro k dead r h
    unfold forget_children at h
    simp only [pure_eq_ok] at h
    subst h
    rfl
  | cons p rest ih =>
    intro k dead r h
    unfold forget_children at h
    simp only [bind_eq_ok] at h
    obtain ⟨a, ha, h⟩ := h
    rw [ih h, gc_forget_child ha]

lemma gc_forget_ptrace_children (father reaper : Nat) :
    ∀ (l : List Nat) {k k' : Kernel},
      forget_ptrace_children father reaper l k = .ok k' → k'.group_calls = k.group_calls := by
  intro l
  induction l with
  | nil =>
    intro k k' h
    unfold forget_ptrace_children at h
    simp only [pure_eq_ok] at h
    subst h
    rfl
  | cons p rest ih =>
    intro k k' h
    unfold forget_ptrace_children at h
    simp only [bind_eq_ok] at h
    obtain ⟨a, ha, h⟩ := h
    rw [ih h, gc_reparent_thread, gc_choose_new_parent ha]

lemma gc_forget_original_parent {k : Kernel} {father : Nat} {r : Kernel × List Nat}
    (h : forget_original_parent k father = .ok r) : r.1.group_calls = k.group_calls := by
  unfold forget_original_parent at h
  simp only [bind_eq_ok, pure_eq_ok] at h
  obtain ⟨a, ha, k2, hk2, h⟩ := h
  subst h
  rw [gc_forget_ptrace_children father _ _ hk2, gc_forget_children father _ _ ha]

lemma gc_exit_notify_wake : ∀ (l : List Nat) (k : Kernel),
    (exit_notify_wake k l).group_calls = k.group_calls := by
  intro l
  induction l with
  | nil =>
    intro k
    rfl
  | cons t rest ih =>
    intro k
    unfold exit_notify_wake
    dsimp only
    split_ifs
    · rw [ih]
      exact (gc_call _ _ _ _ (by decide) (by decide)).trans
        (gc_call k _ _ _ (by decide) (by decide))
    · rw [ih]
      exact gc_call k _ _ _ (by decide) (by decide)
    · exact ih k

lemma gc_exit_notify_woken (k : Kernel) (tsk : Nat) :
    (exit_notify_woken k tsk).group_calls = k.group_calls := by
  unfold exit_notify_woken
  split_ifs
  · exact gc_exit_notify_wake _ _
  · rfl

lemma gc_exit_notify_orphan (k : Kernel) (tsk : Nat) :
    (exit_notify_orphan k tsk).group_calls = k.group_calls := by
  unfold exit_notify_orphan
  dsimp only
  split_ifs
  · rw [gc___kill_pg_info, gc___kill_pg_info]
  · rfl

lemma gc_exit_notify_exit_signal (k : Kernel) (tsk : Nat) :
    (exit_notify_exit_signal k tsk).group_calls = k.group_calls := by
  unfold exit_notify_exit_signal
  dsimp only
  split_ifs <;> rfl

lemma gc_exit_notify_signal (k : Kernel) (tsk : Nat) :
    (exit_notify_signal k tsk).group_calls = k.group_calls := by
  unfold exit_notify_signal
  dsimp only
  split_ifs
  all_goals first
    | exact (gc_do_notify_parent _ _ _).trans (gc_exit_notify_exit_signal k tsk)
    | exact gc_exit_notify_exit_signal k tsk

lemma gc_exit_notify {fuel : Nat} {k k' : Kernel} {tsk : Nat}
    (h : exit_notify fuel k tsk = .ok k') : k'.group_calls = k.group_calls := by
  unfold exit_notify exit_notify_notified at h
  simp only [bind_eq_ok, BUG_ON_eq_ok, pure_eq_ok] at h
  obtain ⟨r, ⟨a, ha, _, _, _, _, hr⟩, k3, hk3, k4, hk4, h⟩ := h
  subst h
  subst hr
  have e3 := gc_release_ptrace_dead fuel _ hk3
  have e4 : k4.group_calls = k3.group_calls := by
    split_ifs at hk4
    · exact gc_release_task fuel hk4
    · simp only [pure_eq_ok] at hk4
      subst hk4
      rfl
  have e0 : (exit_notify_signal (exit_notify_orphan a.1 tsk) tsk).group_calls
      = k.group_calls := by
    rw [gc_exit_notify_signal, gc_exit_notify_orphan, gc_forget_original_parent ha,
      gc_exit_notify_woken]
  exact (show (k4.set_flags tsk _).group_calls = k4.group_calls from rfl).trans
    (e4.trans (e3.trans e0))

lemma sess_exit_mm {k k7 : Kernel} {tsk : Nat} (h : exit_mm k tsk = .ok k7) :
    k7.signals = k.signals ∧ k7.view task_struct.signal = k.view task_struct.signal
      ∧ k7.current = k.current ∧ k7.group_calls = k.group_calls := by
  unfold exit_mm at h
  split_ifs at h with c
  · simp only [pure_eq_ok] at h
    subst h
    exact ⟨rfl, rfl, rfl, gc_call _ _ _ _ (by decide) (by decide)⟩
  · simp only [bind_eq_ok, BUG_ON_eq_ok, pure_eq_ok] at h
    obtain ⟨_, _, h⟩ := h
    subst h
    have p1 : ∀ K : Kernel, (exit_mm_pin K (k.tasks tsk).mm).signals = K.signals
        ∧ (exit_mm_pin K (k.tasks tsk).mm).view task_struct.signal
          = K.view task_struct.signal
        ∧ (exit_mm_pin K (k.tasks tsk).mm).current = K.current
        ∧ (exit_mm_pin K (k.tasks tsk).mm).group_calls = K.group_calls := by
      intro K
      unfold exit_mm_pin
      dsimp only
      split_ifs
      all_goals first
        | exact ⟨rfl, rfl, rfl, rfl⟩
        | exact ⟨rfl, rfl, rfl, gc_call _ _ _ _ (by decide) (by decide)⟩
    have p2 : ∀ K : Kernel, (exit_mm_put K tsk (k.tasks tsk).mm).signals = K.signals
        ∧ (exit_mm_put K tsk (k.tasks tsk).mm).view task_struct.signal
          = K.view task_struct.signal
        ∧ (exit_mm_put K tsk (k.tasks tsk).mm).current = K.current
        ∧ (exit_mm_put K tsk (k.tasks tsk).mm).group_calls = K.group_calls := by
      intro K
      have v : (K.set_mm tsk 0).view task_struct.signal = K.view task_struct.signal :=
        view_set_mm (v := task_struct.signal) (fun _ _ => rfl) K tsk 0
      unfold exit_mm_put
      dsimp only
      split_ifs
      all_goals first
        | exact ⟨rfl, v, rfl, rfl⟩
        | exact ⟨rfl, v, rfl, gc_call _ _ _ _ (by decide) (by decide)⟩
    obtain ⟨a1, a2, a3, a4⟩ := p1 (k.call .mm_release tsk (k.tasks tsk).mm)
    obtain ⟨b1, b2, b3, b4⟩ := p2
      (exit_mm_pin (k.call .mm_release tsk (k.tasks tsk).mm) (k.tasks tsk).mm)
    exact ⟨b1.trans a1, b2.trans a2, b3.trans a3,
      b4.trans (a4.trans (gc_call _ _ _ _ (by decide) (by decide)))⟩

lemma sess___exit_files (k : Kernel) (tsk : Nat) :
    (__exit_files k tsk).signals = k.signals
      ∧ (__exit_files k tsk).view task_struct.signal = k.view task_struct.signal
      ∧ (__exit_files k tsk).current = k.current
      ∧ (__exit_files k tsk).group_calls = k.group_calls := by
  have v : (k.set_files tsk 0).view task_struct.signal = k.view task_struct.signal :=
    view_set_files (v := task_struct.signal) (fun _ _ => rfl) k tsk 0
  unfold __exit_files
  dsimp only
  split_ifs
  all_goals first
    | exact ⟨rfl, rfl, rfl, rfl⟩
    | exact ⟨rfl, v, rfl, rfl⟩
    | exact ⟨rfl, v, rfl, gc_call _ _ _ _ (by decide) (by decide)⟩

lemma sess___exit_fs (k : Kernel) (tsk : Nat) :
    (__exit_fs k tsk).signals = k.signals
      ∧ (__exit_fs k tsk).view task_struct.signal = k.view task_struct.signal
      ∧ (__exit_fs k tsk).current = k.current
      ∧ (__exit_fs k tsk).group_calls = k.group_calls := by
  have v : (k.set_fs tsk 0).view task_struct.signal = k.view task_struct.signal :=
    view_set_fs (v := task_struct.signal) (fun _ _ => rfl) k tsk 0
  unfold __exit_fs
  dsimp only
  split_ifs
  all_goals first
    | exact ⟨rfl, rfl, rfl, rfl⟩
    | exact ⟨rfl, v, rfl, rfl⟩
    | exact ⟨rfl, v, rfl, gc_call _ _ _ _ (by decide) (by decide)⟩

lemma sess_exit_thread (A : Arch) (k : Kernel) :
    (exit_thread A k).signals = k.signals
      ∧ (exit_thread A k).view task_struct.signal = k.view task_struct.signal
      ∧ (exit_thread A k).current = k.current
      ∧ (exit_thread A k).group_calls = k.group_calls := by
  unfold exit_thread
  dsimp only
  split_ifs
  · refine ⟨rfl, ?_, rfl, ?_⟩
    · show (((k.call .kfree_io_bitmap (k.tasks k.current).io_bitmap_ptr 0).set_io_bitmap_ptr
        k.current 0).set_io_bitmap_max k.current 0).view task_struct.signal = _
      rw [view_set_io_bitmap_max (v := task_struct.signal) (fun _ _ => rfl),
        view_set_io_bitmap_ptr (v := task_struct.signal) (fun _ _ => rfl), view_call]
    · exact gc_call k _ _ _ (by decide) (by decide)
  · exact ⟨rfl, rfl, rfl, rfl⟩

lemma do_exit_begin_eq (k : Kernel) (code : Int) :
    ∃ k4 : Kernel,
      do_exit_begin k code
        = (if decide (((k4.setSignal (k4.tasks k.current).signal
              { k4.sig k.current with live := (k4.sig k.current).live - 1 }).sig
                k.current).live = 0) = true then
            (k4.setSignal (k4.tasks k.current).signal
              { k4.sig k.current with live := (k4.sig k.current).live - 1 }).call
                .acct_process code 0
          else
            k4.setSignal (k4.tasks k.current).signal
              { k4.sig k.current with live := (k4.sig k.current).live - 1 },
          decide (((k4.setSignal (k4.tasks k.current).signal
              { k4.sig k.current with live := (k4.sig k.current).live - 1 }).sig
                k.current).live = 0))
      ∧ k4.signals = k.signals
      ∧ k4.view task_struct.signal = k.view task_struct.signal
      ∧ k4.group_calls = k.group_calls := by
  unfold do_exit_begin
  dsimp only
  refine ⟨_, rfl, ?_, ?_, ?_⟩
  · split_ifs <;> rfl
  · split_ifs <;>
      simp only [view_call, view_set_flags (v := task_struct.signal) (fun _ _ => rfl),
        view_set_ptrace_message (v := task_struct.signal) (fun _ _ => rfl)]
  · have c1 := fun K a b => gc_call K .del_timer_sync a b (by decide) (by decide)
    have c2 := fun K a b => gc_call K .acct_update_integrals a b (by decide) (by decide)
    have c3 := fun K a b => gc_call K .update_mem_hiwater a b (by decide) (by decide)
    have c4 := fun K a b => gc_call K .ptrace_notify a b (by decide) (by decide)
    have c5 := fun K a b => gc_call K .exit_io_context a b (by decide) (by decide)
    have f : ∀ (K : Kernel) (p : Nat) (x : Nat), (K.set_flags p x).group_calls = K.group_calls :=
      fun _ _ _ => rfl
    have m : ∀ (K : Kernel) (p : Nat) (x : Int),
        (K.set_ptrace_message p x).group_calls = K.group_calls := fun _ _ _ => rfl
    split_ifs <;> simp only [c1, c2, c3, c4, c5, f, m]

/-- The part of `do_exit` before `exit_mm`: `group_dead` says whether the
live count of the group has reached zero, `acct_process` is called with the
exit code exactly then, and the session leadership recorded in each
`signal_struct` is as before. -/
lemma do_exit_begin_group (k : Kernel) (code : Int) :
    (do_exit_begin k code).2 = decide ((k.sig k.current).live - 1 = 0)
      ∧ (do_exit_begin k code).1.group_calls
        = k.group_calls ++ (if (k.sig k.current).live - 1 = 0 then
            [{ fn := .acct_process, a := code, b := 0 }] else [])
      ∧ (∀ s, ((do_exit_begin k code).1.signals s).leader = (k.signals s).leader)
      ∧ (do_exit_begin k code).1.view task_struct.signal = k.view task_struct.signal
      ∧ (do_exit_begin k code).1.current = k.current := by
  obtain ⟨v, _, hc⟩ := do_exit_begin_fields task_struct.signal (fun _ _ => rfl)
    (fun _ _ => rfl) k code
  obtain ⟨k4, e, s4, v4, g4⟩ := do_exit_begin_eq k code
  have hsig : k4.sig k.current = k.sig k.current := by
    unfold Kernel.sig
    have := congrFun v4 k.current
    unfold Kernel.view at this
    rw [this, s4]
  have hlive : ((k4.setSignal (k4.tasks k.current).signal
      { k4.sig k.current with live := (k4.sig k.current).live - 1 }).sig k.current).live
        = (k.sig k.current).live - 1 := by
    rw [← hsig]
    simp [Kernel.sig, Kernel.setSignal]
  rw [hlive] at e
  refine ⟨?_, ?_, ?_, v, hc⟩
  · rw [e]
  · rw [e]
    dsimp only
    by_cases c : (k.sig k.current).live - 1 = 0
    · rw [if_pos (decide_eq_true c), if_pos c, gc_call_in _ _ _ _ (Or.inl rfl)]
      exact congrArg (· ++ _) g4
    · rw [if_neg (fun h => c (of_decide_eq_true h)), if_neg c, List.append_nil]
      exact g4
  · intro s
    rw [e]
    dsimp only
    have hs : ((k4.setSignal (k4.tasks k.current).signal
        { k4.sig k.current with live := (k4.sig k.current).live - 1 }).signals s).leader
          = (k.signals s).leader := by
      unfold Kernel.setSignal
      dsimp only
      split_ifs with c
      · show (k4.sig k.current).leader = _
        rw [c]
        unfold Kernel.sig
        rw [s4]
      · rw [s4]
    split_ifs
    · exact hs
    · exact hs

/-- The part of `do_exit` between `exit_mm` and `exit_notify` calls
`disassociate_ctty(1)` exactly when `group_dead` is set and the task leads
its session, as its `signal_struct` says. -/
lemma do_exit_release_group (A : Arch) (k : Kernel) (gd : Bool) (code : Int) :
    (do_exit_release A k gd code).group_calls
        = k.group_calls ++ (if gd = true ∧ (k.sig k.current).leader ≠ 0 then
            [{ fn := .disassociate_ctty, a := 1, b := 0 }] else [])
      ∧ (do_exit_release A k gd code).current = k.current := by
  obtain ⟨a1, a2, a3, a4⟩ := sess___exit_files (k.call .exit_sem k.current 0) k.current
  obtain ⟨b1, b2, b3, b4⟩ := sess___exit_fs
    (__exit_files (k.call .exit_sem k.current 0) k.current) k.current
  obtain ⟨c1, c2, c3, c4⟩ := sess_exit_thread A
    ((__exit_fs (__exit_files (k.call .exit_sem k.current 0) k.current) k.current).call
      .exit_namespace k.current 0)
  unfold do_exit_release
  dsimp only
  generalize hX : exit_thread A
    ((__exit_fs (__exit_files (k.call .exit_sem k.current 0) k.current) k.current).call
      .exit_namespace k.current 0) = X at c1 c2 c3 c4 ⊢
  generalize hY : __exit_fs (__exit_files (k.call .exit_sem k.current 0) k.current) k.current
    = Y at b1 b2 b3 b4 c1 c2 c3 c4
  generalize hZ : __exit_files (k.call .exit_sem k.current 0) k.current = Z at a1 a2 a3 a4 b1 b2 b3 b4
  have xs : X.signals = k.signals := c1.trans (b1.trans a1)
  have xv : X.view task_struct.signal = k.view task_struct.signal := c2.trans (b2.trans a2)
  have xc : X.current = k.current := c3.trans (b3.trans a3)
  have xg : X.group_calls = k.group_calls :=
    c4.trans ((gc_call Y _ _ _ (by decide) (by decide)).trans
      (b4.trans (a4.trans (gc_call k _ _ _ (by decide) (by decide)))))
  have hl : ((X.call .exit_keys k.current 0).sig k.current).leader = (k.sig k.current).leader := by
    show (X.signals (X.tasks k.current).signal).leader = _
    have := congrFun xv k.current
    unfold Kernel.view at this
    rw [this, xs]
    rfl
  rw [hl]
  have m1 := fun K a b => gc_call K .module_put a b (by decide) (by decide)
  have m2 := fun K a b => gc_call K .exit_keys a b (by decide) (by decide)
  have se : ∀ (K : Kernel) (p : Nat) (x : Int), (K.set_exit_code p x).group_calls = K.group_calls :=
    fun _ _ _ => rfl
  have sc : ∀ (K : Kernel) (p : Nat) (x : Int), (K.set_exit_code p x).current = K.current :=
    fun _ _ _ => rfl
  constructor
  · by_cases c : gd = true ∧ (k.sig k.current).leader ≠ 0
    · rw [if_pos c, if_pos c]
      split_ifs <;>
        simp only [se, m1, gc_call_in _ _ _ _ (Or.inr rfl), m2, xg]
    · rw [if_neg c, if_neg c, List.append_nil]
      split_ifs <;> simp only [se, m1, m2, xg]
  · rw [sc]
    split_ifs <;> exact xc

/-- C22, counterexample: the running child of `demo_exiting` is the only
member of its thread group and does not lead a session; its `do_exit` runs
to the end and calls `acct_process` with the exit code, and does not call
`disassociate_ctty`. -/
theorem do_exit_last_member_keeps_ctty :
    (demo_exiting.sig demo_exiting.current).live - 1 = 0
      ∧ (demo_exiting.sig demo_exiting.current).leader = 0
      ∧ demo_exiting.group_calls = []
      ∧ (do_exit i386 2 demo_exiting 256).toOption.map Kernel.group_calls
        = some [{ fn := .acct_process, a := 256, b := 0 }] := by
  decide

/-- C22, amended: over a `do_exit` that runs to its end, `acct_process` is
called, once and with the exit code, exactly when the decrement of the live
count of the group reaches zero, and `disassociate_ctty(1)` is called, once
and after it, exactly when moreover the signal structure of the task says it
leads its session; no other call of either is made. -/
theorem do_exit_group_dead (A : Arch) (fuel : Nat) (k k' : Kernel) (code : Int)
    (h : do_exit A fuel k code = .ok k') :
    k'.group_calls
      = k.group_calls
        ++ (if (k.sig k.current).live - 1 = 0 then
              [{ fn := .acct_process, a := code, b := 0 }] else [])
        ++ (if (k.sig k.current).live - 1 = 0 ∧ (k.sig k.current).leader ≠ 0 then
              [{ fn := .disassociate_ctty, a := 1, b := 0 }] else []) := by
  unfold do_exit at h
  simp only [bind_eq_ok, BUG_ON_eq_ok, pure_eq_ok] at h
  obtain ⟨_, _, k7, h7, k18, h18, _, _, h⟩ := h
  subst h
  obtain ⟨b1, b2, b3, b4, b5⟩ := do_exit_begin_group (k.call .profile_task_exit k.current 0) code
  obtain ⟨m1, m2, m3, m4⟩ := sess_exit_mm h7
  obtain ⟨r1, r2⟩ := do_exit_release_group A k7
    (do_exit_begin (k.call .profile_task_exit k.current 0) code).2 code
  have g18 := gc_exit_notify h18
  have g0 : (k.call .profile_task_exit k.current 0).group_calls = k.group_calls :=
    gc_call _ _ _ _ (by decide) (by decide)
  have hcur : k7.current = k.current := m3.trans b5
  have hlead : (k7.sig k7.current).leader = (k.sig k.current).leader := by
    rw [hcur]
    show (k7.signals (k7.tasks k.current).signal).leader = _
    have e1 := congrFun (m2.trans b4) k.current
    unfold Kernel.view at e1
    rw [e1, m1, b3]
    rfl
  rw [show (k18.call .schedule 0 0).group_calls = k18.group_calls from
    gc_call _ _ _ _ (by decide) (by decide), g18, r1, m4, b2, g0, b1, hlead]
  have hl : (k.call .profile_task_exit k.current 0).sig
      (k.call .profile_task_exit k.current 0).current = k.sig k.current := rfl
  rw [hl]
  simp only [decide_eq_true_eq]

/-- Witness for C22: the running child of `demo_session_leader` is the last
member of its group and leads its session; its `do_exit` calls
`acct_process` with the exit code and then `disassociate_ctty(1)`. -/
theorem do_exit_group_dead_witness :
    ∃ k', do_exit i386 2 demo_session_leader 256 = .ok k'
      ∧ k'.group_calls
        = [{ fn := .acct_process, a := 256, b := 0 }, { fn := .disassociate_ctty, a := 1, b := 0 }] := by
  obtain ⟨k', hk'⟩ := ok_of_isSome (do_exit i386 2 demo_session_leader 256) (by decide)
  refine ⟨k', hk', ?_⟩
  rw [do_exit_group_dead i386 2 demo_session_leader k' 256 hk']
  decide

lemma exit_state_set_exit_state (k : Kernel) (p : Nat) (x : Int) :
    ((k.set_exit_state p x).tasks p).exit_state = x := by
  simp [Kernel.set_exit_state, Kernel.setTask]

lemma put_user_ok (k : Kernel) (x : Int) (a : Nat) (ha : (k.umem a).isSome = true) :
    (put_user k x a).1 = 0
      ∧ (∀ b, ((put_user k x a).2.umem b).isSome = (k.umem b).isSome)
      ∧ (put_user k x a).2.umem a = some x
      ∧ (∀ b, b ≠ a → (put_user k x a).2.umem b = k.umem b)
      ∧ (put_user k x a).2.tasks = k.tasks ∧ (put_user k x a).2.procs = k.procs
      ∧ (put_user k x a).2.signals = k.signals := by
  refine ⟨?_, fun b => put_user_isSome k x a b, ?_, fun b hb => put_user_umem_other k x a b hb,
    put_user_tasks k x a, ?_, ?_⟩
  all_goals unfold put_user
  all_goals rw [if_pos ha]
  · simp

/-- One guarded store of the copy-out chain, into a cell that is null-guarded
or can be written: the chain goes on with 0. -/
lemma put_user_ifp_ok (r : Int × Kernel) (ptr : Nat) (x : Int) (a : Nat) (h0 : r.1 = 0)
    (ha : ptr = 0 ∨ (r.2.umem a).isSome = true) :
    (put_user_ifp r ptr x a).1 = 0
      ∧ (∀ b, ((put_user_ifp r ptr x a).2.umem b).isSome = (r.2.umem b).isSome)
      ∧ (ptr ≠ 0 → (put_user_ifp r ptr x a).2.umem a = some x)
      ∧ (∀ b, b ≠ a → (put_user_ifp r ptr x a).2.umem b = r.2.umem b)
      ∧ (put_user_ifp r ptr x a).2.tasks = r.2.tasks
      ∧ (put_user_ifp r ptr x a).2.procs = r.2.procs
      ∧ (put_user_ifp r ptr x a).2.signals = r.2.signals := by
  unfold put_user_ifp
  split_ifs with c
  · rcases ha with ha | ha
    · exact absurd ha c.2
    · obtain ⟨a1, a2, a3, a4, a5, a6, a7⟩ := put_user_ok r.2 x a ha
      exact ⟨a1, a2, fun _ => a3, a4, a5, a6, a7⟩
  · refine ⟨h0, fun _ => rfl, fun hp => absurd ⟨h0, hp⟩ c, fun _ _ => rfl, rfl, rfl, rfl⟩

lemma wait_task_zombie_status_congr {k a : Kernel} (p : Nat) (ht : a.tasks = k.tasks)
    (hs : a.signals = k.signals) : wait_task_zombie_status a p = wait_task_zombie_status k p := by
  unfold wait_task_zombie_status Kernel.sig
  rw [ht, hs]

/-- The copy-out step of a consuming `wait_task_zombie` into cells that can
be written ends with 0; with `infop` set, the reason and the status decoded
from the status word and the pid of the child are in `*infop`, and without
it the status word is in `*stat_addr`. -/
lemma wait_task_zombie_copyout_ok (k : Kernel) (p infop stat ru : Nat)
    (hw : wait_writable k infop stat ru) :
    (wait_task_zombie_copyout k p infop stat ru).1 = 0
      ∧ (wait_task_zombie_copyout k p infop stat ru).2.tasks = k.tasks
      ∧ (wait_task_zombie_copyout k p infop stat ru).2.procs = k.procs
      ∧ (wait_task_zombie_copyout k p infop stat ru).2.signals = k.signals
      ∧ (∀ b, ((wait_task_zombie_copyout k p infop stat ru).2.umem b).isSome = (k.umem b).isSome)
      ∧ Sub k (wait_task_zombie_copyout k p infop stat ru).2
      ∧ (infop ≠ 0 →
          (wait_task_zombie_copyout k p infop stat ru).2.umem (infop + si_code)
            = some (zombie_why_status (wait_task_zombie_status k p)).1
          ∧ (wait_task_zombie_copyout k p infop stat ru).2.umem (infop + si_status)
            = some (zombie_why_status (wait_task_zombie_status k p)).2
          ∧ (wait_task_zombie_copyout k p infop stat ru).2.umem (infop + si_pid)
            = some (k.tasks p).pid)
      ∧ (infop = 0 → stat ≠ 0 →
          (wait_task_zombie_copyout k p infop stat ru).2.umem stat
            = some (wait_task_zombie_status k p)) := by
  obtain ⟨hru, hst, hin⟩ := hw
  unfold wait_task_zombie_copyout
  dsimp only
  -- getrusage
  have g0 : (getrusage_opt k p ru).1 = 0 := getrusage_opt_ok k p ru hru
  have gu : (getrusage_opt k p ru).2.umem = k.umem := getrusage_opt_umem k p ru
  obtain ⟨_, gs, gt⟩ := getrusage_opt_frame k p ru
  have gp : (getrusage_opt k p ru).2.procs = k.procs := by
    unfold getrusage_opt getrusage
    split_ifs <;> rfl
  have gsub := sub_getrusage_opt k p ru
  have hstatus : wait_task_zombie_status (getrusage_opt k p ru).2 p
      = wait_task_zombie_status k p := wait_task_zombie_status_congr p gt gs
  rw [hstatus]
  generalize getrusage_opt k p ru = r0 at g0 gu gs gt gp gsub ⊢
  generalize wait_task_zombie_status k p = status
  -- the status word
  obtain ⟨a1, a2, a3, a4, a5, a6, a7⟩ := put_user_ifp_ok r0 stat status stat g0
    (by rw [gu]; exact hst)
  have asub := sub_put_user_ifp r0 stat status stat
  generalize put_user_ifp r0 stat status stat = r1 at a1 a2 a3 a4 a5 a6 a7 asub ⊢
  have u1 : ∀ b, (r1.2.umem b).isSome = (k.umem b).isSome := fun b => by rw [a2 b, gu]
  by_cases hi : infop = 0
  · subst hi
    simp only [put_user_ifp_null, ne_eq, not_true_eq_false, and_false, if_false]
    refine ⟨a1, a5.trans gt, a6.trans gp, a7.trans gs, u1, gsub.trans asub,
      fun c => by simp at c, fun _ hs => a3 hs⟩
  · have hin' : ∀ off ∈ [si_signo, si_errno, si_code, si_pid, si_uid, si_status],
        (k.umem (infop + off)).isSome = true := by
      rcases hin with h | h
      · exact absurd h hi
      · exact h
    have w : ∀ (r : Int × Kernel), (∀ b, (r.2.umem b).isSome = (k.umem b).isSome) →
        ∀ off ∈ [si_signo, si_errno, si_code, si_pid, si_uid, si_status],
          (r.2.umem (infop + off)).isSome = true := by
      intro r hr off ho
      rw [hr]
      exact hin' off ho
    -- si_signo
    obtain ⟨b1, b2, _, _, b5, b6, b7⟩ := put_user_ifp_ok r1 infop SIGCHLD (infop + si_signo) a1
      (Or.inr (w r1 u1 si_signo (by simp)))
    have bsub := sub_put_user_ifp r1 infop SIGCHLD (infop + si_signo)
    generalize put_user_ifp r1 infop SIGCHLD (infop + si_signo) = r2 at b1 b2 b5 b6 b7 bsub ⊢
    have u2 : ∀ b, (r2.2.umem b).isSome = (k.umem b).isSome := fun b => by rw [b2 b, u1]
    -- si_errno
    obtain ⟨c1, c2, _, _, c5, c6, c7⟩ := put_user_ifp_ok r2 infop 0 (infop + si_errno) b1
      (Or.inr (w r2 u2 si_errno (by simp)))
    have csub := sub_put_user_ifp r2 infop 0 (infop + si_errno)
    generalize put_user_ifp r2 infop 0 (infop + si_errno) = r3 at c1 c2 c5 c6 c7 csub ⊢
    have u3 : ∀ b, (r3.2.umem b).isSome = (k.umem b).isSome := fun b => by rw [c2 b, u2]
    rw [if_pos ⟨c1, hi⟩]
    -- si_code and si_status
    obtain ⟨d1, d2, d3, d4, d5, d6, d7⟩ := put_user_ok r3.2 (zombie_why_status status).1
      (infop + si_code) (w r3 u3 si_code (by simp))
    have dsub := sub_put_user r3.2 (zombie_why_status status).1 (infop + si_code)
    generalize put_user r3.2 (zombie_why_status status).1 (infop + si_code) = r3b
      at d1 d2 d3 d4 d5 d6 d7 dsub ⊢
    have u3b : ∀ b, (r3b.2.umem b).isSome = (k.umem b).isSome := fun b => by rw [d2 b, u3]
    have e4 : put_user_if r3b (zombie_why_status status).2 (infop + si_status)
        = put_user_ifp r3b infop (zombie_why_status status).2 (infop + si_status) := by
      unfold put_user_if put_user_ifp
      simp [hi]
    rw [e4]
    obtain ⟨e1, e2, e3, e4', e5, e6, e7⟩ := put_user_ifp_ok r3b infop (zombie_why_status status).2
      (infop + si_status) d1 (Or.inr (w r3b u3b si_status (by simp)))
    have esub := sub_put_user_ifp r3b infop (zombie_why_status status).2 (infop + si_status)
    generalize put_user_ifp r3b infop (zombie_why_status status).2 (infop + si_status) = r4
      at e1 e2 e3 e4' e5 e6 e7 esub ⊢
    have u4 : ∀ b, (r4.2.umem b).isSome = (k.umem b).isSome := fun b => by rw [e2 b, u3b]
    have t4 : r4.2.tasks = k.tasks :=
      e5.trans (d5.trans (c5.trans (b5.trans (a5.trans gt))))
    -- si_pid
    obtain ⟨f1, f2, f3, f4, f5, f6, f7⟩ := put_user_ifp_ok r4 infop (r4.2.tasks p).pid
      (infop + si_pid) e1 (Or.inr (w r4 u4 si_pid (by simp)))
    have fsub := sub_put_user_ifp r4 infop (r4.2.tasks p).pid (infop + si_pid)
    generalize put_user_ifp r4 infop (r4.2.tasks p).pid (infop + si_pid) = r5
      at f1 f2 f3 f4 f5 f6 f7 fsub ⊢
    have u5 : ∀ b, (r5.2.umem b).isSome = (k.umem b).isSome := fun b => by rw [f2 b, u4]
    -- si_uid
    obtain ⟨g1, g2, _, g4, g5, g6, g7⟩ := put_user_ifp_ok r5 infop (r5.2.tasks p).uid
      (infop + si_uid) f1 (Or.inr (w r5 u5 si_uid (by simp)))
    have hsub := sub_put_user_ifp r5 infop (r5.2.tasks p).uid (infop + si_uid)
    generalize put_user_ifp r5 infop (r5.2.tasks p).uid (infop + si_uid) = r6
      at g1 g2 g4 g5 g6 g7 hsub ⊢
    refine ⟨g1, g5.trans (f5.trans t4),
      g6.trans (f6.trans (e6.trans (d6.trans (c6.trans (b6.trans (a6.trans gp)))))),
      g7.trans (f7.trans (e7.trans (d7.trans (c7.trans (b7.trans (a7.trans gs)))))),
      fun b => by rw [g2 b, u5],
      (((((((gsub.trans asub).trans bsub).trans csub).trans dsub).trans esub).trans fsub).trans
        hsub),
      fun _ => ⟨?_, ?_, ?_⟩, fun c => absurd c hi⟩
    · rw [g4 _ (by simp [si_code, si_uid]), f4 _ (by simp [si_code, si_pid]),
        e4' _ (by simp [si_code, si_status]), d3]
    · rw [g4 _ (by simp [si_status, si_uid]), f4 _ (by simp [si_status, si_pid]), e3 hi]
    · rw [g4 _ (by simp [si_pid, si_uid]), f3 hi, t4]

/-- The rest of a consuming `wait_task_zombie` after a won exchange, for a
child that is not traced, reports its death and leads its group, and a caller
whose cells can be written: the pid of the child is returned, the child is
released and keeps its exit state, and the caller has the report. -/
lemma wait_task_zombie_reap_ok (fuel : Nat) (k : Kernel) (p infop stat ru : Nat)
    (hfuel : 0 < fuel)
    (hes : (k.tasks p).exit_signal ≠ -1) (hpid : (k.tasks p).pid ≠ 0)
    (hpar : (k.tasks p).real_parent = (k.tasks p).parent)
    (hnt : (k.tasks p).ptrace = 0) (hpl : ptrace_list_empty k p = true)
    (hpc : (k.tasks p).ptrace_children = []) (hgl : (k.tasks p).group_leader = p)
    (hmm : (k.tasks p).mm = 0) (hw : wait_writable k infop stat ru) :
    ∃ k', wait_task_zombie_reap fuel k p infop stat ru = .ok ((k.tasks p).pid, k')
      ∧ Sub k k' ∧ (∀ t, p ∉ (k'.tasks t).children)
      ∧ (k'.tasks p).exit_state = (k.tasks p).exit_state
      ∧ (∀ b, (k'.umem b).isSome = (k.umem b).isSome)
      ∧ (infop ≠ 0 →
          k'.umem (infop + si_code) = some (zombie_why_status (wait_task_zombie_status k p)).1
          ∧ k'.umem (infop + si_status)
            = some (zombie_why_status (wait_task_zombie_status k p)).2
          ∧ k'.umem (infop + si_pid) = some (k.tasks p).pid)
      ∧ (infop = 0 → stat ≠ 0 → k'.umem stat = some (wait_task_zombie_status k p)) := by
  obtain ⟨a1, a2, a3, a4, a5⟩ := wait_task_zombie_account_fields k p
  have hw' : wait_writable (wait_task_zombie_account k p) infop stat ru := by
    unfold wait_writable
    rw [a3]
    exact hw
  obtain ⟨c1, c2, c3, c4, c5, c6, c7, c8⟩ := wait_task_zombie_copyout_ok
    (wait_task_zombie_account k p) p infop stat ru hw'
  rw [wait_task_zombie_account_status] at c7 c8
  rw [a1] at c7
  have t3 : (wait_task_zombie_copyout (wait_task_zombie_account k p) p infop stat ru).2.tasks
      = k.tasks := c2.trans a1
  obtain ⟨k', h1, h2, h3⟩ := wait_task_zombie_release_plain fuel
    (wait_task_zombie_copyout (wait_task_zombie_account k p) p infop stat ru).2 p hfuel
    (by rw [t3]; exact hpar) (by rw [t3]; exact hnt)
    (by rw [ptrace_list_empty_congr k _ p (c3.trans a2) (by unfold Kernel.view; rw [t3])]; exact hpl)
    (by rw [t3]; exact hpc) (by rw [t3]; exact hgl) (by rw [t3]; exact hmm)
  have hum : k'.umem
      = (wait_task_zombie_copyout (wait_task_zombie_account k p) p infop stat ru).2.umem :=
    congrArg Prod.fst (shared_wait_task_zombie_release h1)
  have hex : (k'.tasks p).exit_state = (k.tasks p).exit_state := by
    have hu : wait_task_zombie_untrace
        (wait_task_zombie_copyout (wait_task_zombie_account k p) p infop stat ru).2 p
        = .ok ((wait_task_zombie_copyout (wait_task_zombie_account k p) p infop stat ru).2,
            false) := by
      unfold wait_task_zombie_untrace
      rw [t3, if_neg (not_not.mpr hpar)]
      rfl
    have h1' := h1
    unfold wait_task_zombie_release at h1'
    rw [bind_of_ok hu] at h1'
    simp only [Bool.false_eq_true, if_false] at h1'
    have := congrFun (view_release_task linkFree_exit_state fuel h1') p
    simp only [Kernel.view] at this
    rw [this, t3]
  refine ⟨k', ?_, ((sub_of_fields a1 a4 a5).trans c6).trans h2, h3, hex,
    fun b => by rw [hum, c5 b, a3], fun hi => ?_, fun hi hs => ?_⟩
  · unfold wait_task_zombie_reap
    rw [if_neg (fun c => hes c.1), if_neg (not_not.mpr c1)]
    dsimp only
    rw [bind_of_ok h1, t3]
    have hb : BUG_ON ((k.tasks p).pid == 0) 1315 k' = .ok () := by
      simp [BUG_ON, hpid]
    rw [bind_of_ok hb]
    rfl
  · rw [hum]
    exact c7 hi
  · rw [hum]
    exact c8 hi hs

/-- The consuming `wait_task_zombie` on a zombie that is not traced, reports
its death and leads its group, for a caller whose cells can be written. -/
lemma wait_task_zombie_ok (fuel : Nat) (k : Kernel) (p infop stat ru : Nat)
    (hfuel : 0 < fuel) (hz : (k.tasks p).exit_state = EXIT_ZOMBIE)
    (hes : (k.tasks p).exit_signal ≠ -1) (hpid : (k.tasks p).pid ≠ 0)
    (hpar : (k.tasks p).real_parent = (k.tasks p).parent)
    (hnt : (k.tasks p).ptrace = 0) (hpl : ptrace_list_empty k p = true)
    (hpc : (k.tasks p).ptrace_children = []) (hgl : (k.tasks p).group_leader = p)
    (hmm : (k.tasks p).mm = 0) (hw : wait_writable k infop stat ru) :
    ∃ k', wait_task_zombie fuel k p false infop stat ru = .ok ((k.tasks p).pid, k')
      ∧ (k'.tasks p).exit_state = EXIT_DEAD
      ∧ (∀ t, p ∉ (k'.tasks t).children)
      ∧ (infop ≠ 0 →
          k'.umem (infop + si_code) = some (zombie_why_status (wait_task_zombie_status k p)).1
          ∧ k'.umem (infop + si_status)
            = some (zombie_why_status (wait_task_zombie_status k p)).2
          ∧ k'.umem (infop + si_pid) = some (k.tasks p).pid)
      ∧ (infop = 0 → stat ≠ 0 → k'.umem stat = some (wait_task_zombie_status k p)) := by
  have hv : ∀ {α : Type} (v : task_struct → α), (∀ t x, v { t with exit_state := x } = v t) →
      v ((k.set_exit_state p EXIT_DEAD).tasks p) = v (k.tasks p) := by
    intro α v hv
    exact congrFun (view_set_exit_state hv k p EXIT_DEAD) p
  obtain ⟨k', h1, _, h3, h4, _, h6, h7⟩ := wait_task_zombie_reap_ok fuel
    (k.set_exit_state p EXIT_DEAD) p infop stat ru hfuel
    (by rw [hv task_struct.exit_signal fun _ _ => rfl]; exact hes)
    (by rw [hv task_struct.pid fun _ _ => rfl]; exact hpid)
    (by rw [hv task_struct.real_parent fun _ _ => rfl, hv task_struct.parent fun _ _ => rfl]
        exact hpar)
    (by rw [hv task_struct.ptrace fun _ _ => rfl]; exact hnt)
    (by rw [ptrace_list_empty_congr k (k.set_exit_state p EXIT_DEAD) p rfl
          (view_set_exit_state (v := task_struct.ptrace_children) (fun _ _ => rfl) k p _)]
        exact hpl)
    (by rw [hv task_struct.ptrace_children fun _ _ => rfl]; exact hpc)
    (by rw [hv task_struct.group_leader fun _ _ => rfl]; exact hgl)
    (by rw [hv task_struct.mm fun _ _ => rfl]; exact hmm)
    hw
  have hst : wait_task_zombie_status (k.set_exit_state p EXIT_DEAD) p
      = wait_task_zombie_status k p := by
    unfold wait_task_zombie_status Kernel.sig
    rw [hv task_struct.signal fun _ _ => rfl, hv task_struct.exit_code fun _ _ => rfl]
    rfl
  rw [hv task_struct.pid fun _ _ => rfl] at h1 h6
  rw [hst] at h6 h7
  rw [exit_state_set_exit_state] at h4
  refine ⟨k', ?_, h4, h3, h6, h7⟩
  unfold wait_task_zombie
  rw [if_neg Bool.false_ne_true, if_neg (not_not.mpr hz)]
  exact h1

lemma linkFree_state : LinkFree task_struct.state :=
  ⟨fun _ _ => rfl, fun _ _ => rfl, fun _ _ => rfl, fun _ _ => rfl, fun _ _ => rfl,
    fun _ _ => rfl⟩

lemma reapable_set_exit_state {k : Kernel} {p : Nat} {args : Nat → WaitArgs}
    (h : reapable k p args) (x : Int) : reapable (k.set_exit_state p x) p args := by
  have hv : ∀ {α : Type} (v : task_struct → α), (∀ t y, v { t with exit_state := y } = v t) →
      v ((k.set_exit_state p x).tasks p) = v (k.tasks p) := by
    intro α v hv
    exact congrFun (view_set_exit_state hv k p x) p
  obtain ⟨h1, h2, h3, h4, h5, h6, h7, h8, h9⟩ := h
  refine ⟨?_, ?_, ?_, ?_, ?_, ?_, ?_, ?_, fun i => h9 i⟩
  · rw [hv task_struct.exit_signal fun _ _ => rfl]; exact h1
  · rw [hv task_struct.pid fun _ _ => rfl]; exact h2
  · rw [hv task_struct.real_parent fun _ _ => rfl, hv task_struct.parent fun _ _ => rfl]
    exact h3
  · rw [hv task_struct.ptrace fun _ _ => rfl]; exact h4
  · rw [ptrace_list_empty_congr k (k.set_exit_state p x) p rfl
      (view_set_exit_state (v := task_struct.ptrace_children) (fun _ _ => rfl) k p _)]
    exact h5
  · rw [hv task_struct.ptrace_children fun _ _ => rfl]; exact h6
  · rw [hv task_struct.group_leader fun _ _ => rfl]; exact h7
  · rw [hv task_struct.mm fun _ _ => rfl]; exact h8

/-- A consuming `wait_task_zombie` past the exchange writes the `state` of
no task. -/
lemma wait_task_zombie_reap_state {fuel : Nat} {k k' : Kernel} {p infop stat ru : Nat} {r : Int}
    (h : wait_task_zombie_reap fuel k p infop stat ru = .ok (r, k')) :
    k'.view task_struct.state = k.view task_struct.state := by
  obtain ⟨_, _, c3⟩ := wait_task_zombie_copyout_frame (wait_task_zombie_account k p) p infop
    stat ru
  have t3 : (wait_task_zombie_copyout (wait_task_zombie_account k p) p infop stat ru).2.view
      task_struct.state = k.view task_struct.state := by
    unfold Kernel.view
    rw [c3, (wait_task_zombie_account_fields k p).1]
  unfold wait_task_zombie_reap at h
  split_ifs at h with d1 d2
  · simp only [pure_eq_ok, Prod.mk.injEq] at h
    rw [← h.2]
  · simp only [pure_eq_ok, Prod.mk.injEq] at h
    rw [← h.2, view_set_exit_state (v := task_struct.state) (fun _ _ => rfl)]
    exact t3
  · simp only [bind_eq_ok, BUG_ON_eq_ok, pure_eq_ok, Prod.mk.injEq] at h
    obtain ⟨k4, h4, _, _, _, e⟩ := h
    subst e
    refine Eq.trans ?_ t3
    unfold wait_task_zombie_release at h4
    simp only [bind_eq_ok] at h4
    obtain ⟨u, hu, h4⟩ := h4
    have e1 : u.1.view task_struct.state
        = (wait_task_zombie_copyout (wait_task_zombie_account k p) p infop stat ru).2.view
            task_struct.state := by
      unfold wait_task_zombie_untrace at hu
      split_ifs at hu
      · rw [map_eq_ok] at hu
        obtain ⟨a, ha, hu⟩ := hu
        subst hu
        have ea := view___ptrace_unlink linkFree_state ha
        split_ifs
        · exact ((view_do_notify_parent linkFree_state _ _ _).trans
            (view_set_exit_state (v := task_struct.state) (fun _ _ => rfl) _ _ _)).trans ea
        · exact (view_set_exit_state (v := task_struct.state) (fun _ _ => rfl) _ _ _).trans ea
      · simp only [pure_eq_ok] at hu
        subst hu
        rfl
    split_ifs at h4
    · simp only [pure_eq_ok] at h4
      subst h4
      exact e1
    · exact (view_release_task linkFree_state fuel h4).trans e1

/-- The rest of `wait_task_zombie` after a won exchange, for a child that
can be reaped: the pid of the child is returned, the child stays in
`EXIT_DEAD`, and the lists of the kernel only shrink. -/
lemma wait_task_zombie_reap_dead (fuel : Nat) (k : Kernel) (p : Nat) (args : Nat → WaitArgs)
    (i : Nat) (hfuel : 0 < fuel) (h : reapable k p args) :
    ∃ k', wait_task_zombie_reap fuel k p (args i).infop (args i).stat_addr (args i).ru
        = .ok ((k.tasks p).pid, k')
      ∧ (k'.tasks p).exit_state = (k.tasks p).exit_state
      ∧ Sub k k' ∧ (k'.tasks p).state = (k.tasks p).state := by
  obtain ⟨h1, h2, h3, h4, h5, h6, h7, h8, h9⟩ := h
  obtain ⟨k', e1, e2, _, e4, _⟩ := wait_task_zombie_reap_ok fuel k p (args i).infop
    (args i).stat_addr (args i).ru hfuel h1 h2 h3 h4 h5 h6 h7 h8 (h9 i)
  exact ⟨k', e1, e4, e2, congrFun (wait_task_zombie_reap_state e1) p⟩

lemma race_step_ready_zombie (fuel p : Nat) (args : Nat → WaitArgs) (s : Race) (i : Nat)
    (hp : s.phase i = .ready) (hz : (s.k.tasks p).exit_state = EXIT_ZOMBIE) :
    race_step fuel p args s i = .ok (s.set (s.k.set_exit_state p EXIT_DEAD) i .won) := by
  unfold race_step
  rw [hp]
  dsimp only
  rw [if_neg (not_not.mpr hz)]
  rfl

lemma race_step_ready_dead (fuel p : Nat) (args : Nat → WaitArgs) (s : Race) (i : Nat)
    (hp : s.phase i = .ready) (hz : (s.k.tasks p).exit_state = EXIT_DEAD) :
    race_step fuel p args s i = .ok (s.set (s.k.set_exit_state p EXIT_DEAD) i (.done 0)) := by
  unfold race_step
  rw [hp]
  dsimp only
  rw [if_pos (by rw [hz]; decide)]
  have hb : BUG_ON ((s.k.tasks p).exit_state != EXIT_DEAD) 1205
      (s.k.set_exit_state p EXIT_DEAD) = .ok () := by
    rw [hz]
    rfl
  rw [bind_of_ok hb]
  rfl

lemma race_step_done (fuel p : Nat) (args : Nat → WaitArgs) (s : Race) (i : Nat) (r : Int)
    (hp : s.phase i = .done r) : race_step fuel p args s i = .ok s := by
  unfold race_step
  rw [hp]
  rfl

lemma race_step_won_eq (fuel p : Nat) (args : Nat → WaitArgs) (s : Race) (i : Nat)
    (hp : s.phase i = .won) :
    race_step fuel p args s i
      = (wait_task_zombie_reap fuel s.k p (args i).infop (args i).stat_addr (args i).ru).map
          fun r => s.set r.2 i (.done r.1) := by
  unfold race_step
  rw [hp]

/-- Once the race has a winner, every step of every observer succeeds and
leaves the race with the same winner; the lists of the kernel only shrink and
the `state` of the child is kept. -/
lemma race_step_won (fuel p : Nat) (pid : Int) (args : Nat → WaitArgs) (j : Nat)
    (hfuel : 0 < fuel) {s : Race} (h : race_won p pid args j s) (i : Nat) :
    ∃ s', race_step fuel p args s i = .ok s' ∧ race_won p pid args j s'
      ∧ Sub s.k s'.k ∧ (s'.k.tasks p).state = (s.k.tasks p).state := by
  obtain ⟨hd, hj, ho⟩ := h
  by_cases hij : i = j
  · subst hij
    rcases hj with ⟨hw, hpid, hr⟩ | hdone
    · obtain ⟨k', e1, e2, e3, e4⟩ := wait_task_zombie_reap_dead fuel s.k p args i hfuel hr
      refine ⟨s.set k' i (.done (s.k.tasks p).pid), ?_, ⟨?_, ?_, ?_⟩, e3, e4⟩
      · rw [race_step_won_eq fuel p args s i hw, e1]
        rfl
      · exact e2.trans hd
      · right
        rw [hpid]
        simp [Race.set]
      · intro i' hi'
        have : (s.set k' i (.done (s.k.tasks p).pid)).phase i' = s.phase i' := by
          simp [Race.set, hi']
        rw [this]
        exact ho i' hi'
    · exact ⟨s, race_step_done fuel p args s i pid hdone, ⟨hd, Or.inr hdone, ho⟩, Sub.refl _,
        rfl⟩
  · rcases ho i hij with hr | hr
    · refine ⟨s.set (s.k.set_exit_state p EXIT_DEAD) i (.done 0),
        race_step_ready_dead fuel p args s i hr hd, ⟨exit_state_set_exit_state _ _ _, ?_, ?_⟩,
        sub_set_exit_state _ _ _,
        congrFun (view_set_exit_state (v := task_struct.state) (fun _ _ => rfl) s.k p
          EXIT_DEAD) p⟩
      · have hpj : (s.set (s.k.set_exit_state p EXIT_DEAD) i (.done 0)).phase j = s.phase j := by
          simp [Race.set, Ne.symm hij]
        rw [hpj]
        rcases hj with ⟨hw, hpid, hrp⟩ | hdone
        · refine Or.inl ⟨hw, ?_, reapable_set_exit_state hrp _⟩
          exact (congrFun (view_set_exit_state (v := task_struct.pid) (fun _ _ => rfl) s.k p
            EXIT_DEAD) p).trans hpid
        · exact Or.inr hdone
      · intro i' hi'
        by_cases e : i' = i
        · right
          simp [Race.set, e]
        · have : (s.set (s.k.set_exit_state p EXIT_DEAD) i (.done 0)).phase i' = s.phase i' := by
            simp [Race.set, e]
          rw [this]
          exact ho i' hi'
    · exact ⟨s, race_step_done fuel p args s i 0 hr, ⟨hd, hj, ho⟩, Sub.refl _, rfl⟩

lemma race_run_won (fuel p : Nat) (pid : Int) (args : Nat → WaitArgs) (j : Nat)
    (hfuel : 0 < fuel) :
    ∀ (sched : List Nat) {s : Race}, race_won p pid args j s →
      ∃ s', race_run fuel p args sched s = .ok s' ∧ race_won p pid args j s'
        ∧ Sub s.k s'.k ∧ (s'.k.tasks p).state = (s.k.tasks p).state := by
  intro sched
  induction sched with
  | nil => intro s h; exact ⟨s, rfl, h, Sub.refl _, rfl⟩
  | cons i rest ih =>
    intro s h
    obtain ⟨s1, e1, h1, f1, g1⟩ := race_step_won fuel p pid args j hfuel h i
    obtain ⟨s2, e2, h2, f2, g2⟩ := ih h1
    refine ⟨s2, ?_, h2, f1.trans f2, g2.trans g1⟩
    unfold race_run
    rw [bind_of_ok e1]
    exact e2

/-- A race over a zombie that can be reaped runs to its end whatever the
order of the steps, and the observer that steps first is its winner. -/
lemma race_run_first (fuel p : Nat) (args : Nat → WaitArgs) (k : Kernel) (j : Nat)
    (rest : List Nat) (hfuel : 0 < fuel) (hz : (k.tasks p).exit_state = EXIT_ZOMBIE)
    (hr : reapable k p args) :
    ∃ s', race_run fuel p args (j :: rest) { k := k, phase := fun _ => .ready } = .ok s'
      ∧ race_won p (k.tasks p).pid args j s'
      ∧ Sub k s'.k ∧ (s'.k.tasks p).state = (k.tasks p).state := by
  have e1 := race_step_ready_zombie fuel p args { k := k, phase := fun _ => .ready } j rfl hz
  have w1 : race_won p (k.tasks p).pid args j
      (Race.set { k := k, phase := fun _ => .ready } (k.set_exit_state p EXIT_DEAD) j .won) := by
    refine ⟨exit_state_set_exit_state _ _ _, Or.inl ⟨by simp [Race.set], ?_,
      reapable_set_exit_state hr _⟩, fun i hi => Or.inl (by simp [Race.set, hi])⟩
    exact congrFun (view_set_exit_state (v := task_struct.pid) (fun _ _ => rfl) k p EXIT_DEAD) p
  obtain ⟨s2, e2, h2, f2, g2⟩ := race_run_won fuel p (k.tasks p).pid args j hfuel rest w1
  refine ⟨s2, ?_, h2, (sub_set_exit_state k p EXIT_DEAD).trans f2, g2.trans
    (congrFun (view_set_exit_state (v := task_struct.state) (fun _ _ => rfl) k p EXIT_DEAD) p)⟩
  unfold race_run
  rw [bind_of_ok e1]
  exact e2

/-- The two steps of one observer, run back to back, are the consuming
`wait_task_zombie`. -/
lemma race_sequential (fuel p : Nat) (args : Nat → WaitArgs) (k : Kernel) (i : Nat) :
    (race_run fuel p args [i, i] { k := k, phase := fun _ => .ready }).map
        (fun s => ((s.phase i).retval, s.k))
      = wait_task_zombie fuel k p false (args i).infop (args i).stat_addr (args i).ru := by
  unfold wait_task_zombie
  rw [if_neg Bool.false_ne_true]
  by_cases hz : (k.tasks p).exit_state = EXIT_ZOMBIE
  · rw [if_neg (not_not.mpr hz)]
    unfold race_run
    rw [bind_of_ok (race_step_ready_zombie fuel p args _ i rfl hz)]
    unfold race_run
    rw [race_step_won_eq fuel p args _ i (by simp [Race.set])]
    dsimp only [Race.set]
    cases wait_task_zombie_reap fuel (k.set_exit_state p EXIT_DEAD) p (args i).infop
      (args i).stat_addr (args i).ru with
    | error e => rfl
    | ok r => simp [Except.map, race_run, bind, Except.bind, pure, Except.pure, Phase.retval]
  · rw [if_pos hz]
    unfold race_run race_step
    dsimp only
    rw [if_pos hz]
    cases hb : BUG_ON ((k.tasks p).exit_state != EXIT_DEAD) 1205
        (k.set_exit_state p EXIT_DEAD) with
    | error e => rfl
    | ok u =>
      simp [Race.set, Except.map, race_run, race_step, bind, Except.bind, pure, Except.pure,
        Phase.retval]

/-- What a step does to the phases once the race has a winner `j`: a step
of `j` leaves it returned with the pid, a step of another observer leaves
that observer returned with 0, and an observer that has returned stays so. -/
lemma race_step_progress (fuel p : Nat) (pid : Int) (args : Nat → WaitArgs) (j : Nat)
    (hfuel : 0 < fuel) {s s' : Race} (h : race_won p pid args j s) (i : Nat)
    (hs : race_step fuel p args s i = .ok s') :
    (i = j → s'.phase j = .done pid) ∧ (i ≠ j → s'.phase i = .done 0)
      ∧ ∀ i' r, s.phase i' = .done r → s'.phase i' = .done r := by
  obtain ⟨hd, hj, ho⟩ := h
  by_cases hij : i = j
  · subst hij
    rcases hj with ⟨hw, hpid, hr⟩ | hdone
    · obtain ⟨k', e1, _, _, _⟩ := wait_task_zombie_reap_dead fuel s.k p args i hfuel hr
      rw [race_step_won_eq fuel p args s i hw, e1] at hs
      have e : s' = s.set k' i (.done (s.k.tasks p).pid) := (Except.ok.inj hs).symm
      subst e
      refine ⟨fun _ => by rw [hpid]; simp [Race.set], fun c => absurd rfl c, fun i' r hr' => ?_⟩
      have : i' ≠ i := by
        intro c
        rw [c, hw] at hr'
        exact absurd hr' (by simp)
      simp [Race.set, this, hr']
    · rw [race_step_done fuel p args s i pid hdone] at hs
      have e : s' = s := (Except.ok.inj hs).symm
      subst e
      exact ⟨fun _ => hdone, fun c => absurd rfl c, fun _ _ hr' => hr'⟩
  · rcases ho i hij with hr | hr
    · rw [race_step_ready_dead fuel p args s i hr hd] at hs
      have e : s' = s.set (s.k.set_exit_state p EXIT_DEAD) i (.done 0) :=
        (Except.ok.inj hs).symm
      subst e
      refine ⟨fun c => absurd c hij, fun _ => by simp [Race.set], fun i' r hr' => ?_⟩
      have : i' ≠ i := by
        intro c
        rw [c, hr] at hr'
        exact absurd hr' (by simp)
      simp [Race.set, this, hr']
    · rw [race_step_done fuel p args s i 0 hr] at hs
      have e : s' = s := (Except.ok.inj hs).symm
      subst e
      exact ⟨fun c => absurd c hij, fun _ => hr, fun _ _ hr' => hr'⟩

/-- Over a run of a race with the winner `j`: an observer that has returned
stays so, the winner has returned the pid once it has stepped, and every
other observer that has stepped has returned 0. -/
lemma race_run_progress (fuel p : Nat) (pid : Int) (args : Nat → WaitArgs) (j : Nat)
    (hfuel : 0 < fuel) :
    ∀ (sched : List Nat) {s s' : Race}, race_won p pid args j s →
      race_run fuel p args sched s = .ok s' →
      (∀ i' r, s.phase i' = .done r → s'.phase i' = .done r)
        ∧ (j ∈ sched → s'.phase j = .done pid)
        ∧ (∀ i ∈ sched, i ≠ j → s'.phase i = .done 0) := by
  intro sched
  induction sched with
  | nil =>
    intro s s' _ hs
    have e : s' = s := (Except.ok.inj hs).symm
    subst e
    exact ⟨fun _ _ h => h, fun h => absurd h (by simp), fun i h => absurd h (by simp)⟩
  | cons i rest ih =>
    intro s s' h hs
    unfold race_run at hs
    simp only [bind_eq_ok] at hs
    obtain ⟨s1, e1, e2⟩ := hs
    obtain ⟨s1', e1', h1, _, _⟩ := race_step_won fuel p pid args j hfuel h i
    have : s1' = s1 := Except.ok.inj (e1'.symm.trans e1)
    subst this
    obtain ⟨a1, a2, a3⟩ := race_step_progress fuel p pid args j hfuel h i e1
    obtain ⟨b1, b2, b3⟩ := ih h1 e2
    refine ⟨fun i' r hr => b1 i' r (a3 i' r hr), fun hm => ?_, fun i' hm hne => ?_⟩
    · rcases List.mem_cons.mp hm with e | e
      · exact b1 j pid (a1 e.symm)
      · exact b2 e
    · rcases List.mem_cons.mp hm with e | e
      · subst e
        exact b1 i' 0 (a2 hne)
      · exact b3 i' e hne

/-- The child loop of `do_wait` passes over a child in `EXIT_DEAD` that is
not stopped: the flag is left as it was, as after a call of `wait_task_zombie`
that returned 0. -/
lemma do_wait_child_dead (fuel : Nat) (k : Kernel) (w : WaitArgs) (flag : Bool) (p : Nat)
    (hd : (k.tasks p).exit_state = EXIT_DEAD) (h1 : (k.tasks p).state ≠ TASK_TRACED)
    (h2 : (k.tasks p).state ≠ TASK_STOPPED) :
    do_wait_child fuel k w flag p = .ok (after_wait_task flag (0, k)) := by
  have ea : after_wait_task flag (0, k) = (k, .next flag) := by
    unfold after_wait_task
    simp
  rw [ea]
  unfold do_wait_child
  split_ifs with c1 c2 c3
  · rfl
  · exact absurd c2.1 h1
  · rcases c3 with c | c
    · exact absurd c h1
    · exact absurd c h2
  · rfl

lemma do_wait_children_passed (fuel : Nat) (w : WaitArgs) (k : Kernel) :
    ∀ (l : List Nat) (flag : Bool),
      (∀ q ∈ l, eligible_child k w.pid w.options q = 0
        ∨ ((k.tasks q).exit_state = EXIT_DEAD ∧ (k.tasks q).state ≠ TASK_TRACED
          ∧ (k.tasks q).state ≠ TASK_STOPPED)) →
      do_wait_children fuel w l k flag = .ok (k, .next flag) := by
  intro l
  induction l with
  | nil => intro flag _; rfl
  | cons q rest ih =>
    intro flag h
    have hq : do_wait_child fuel k w flag q = .ok (k, .next flag) := by
      rcases h q (List.mem_cons_self _ _) with c | ⟨c1, c2, c3⟩
      · unfold do_wait_child
        rw [if_pos c]
        rfl
      · rw [do_wait_child_dead fuel k w flag q c1 c2 c3]
        unfold after_wait_task
        simp
    unfold do_wait_children
    rw [bind_of_ok hq]
    exact ih flag fun q' hq' => h q' (List.mem_cons_of_mem _ hq')

lemma do_wait_threads_passed (fuel : Nat) (w : WaitArgs) (k : Kernel) :
    ∀ ring : List Nat,
      (∀ t ∈ (if hasFlag w.options __WNOTHREAD then ring.take 1 else ring),
        (k.tasks t).signal = (k.tasks k.current).signal
          ∧ (∀ q ∈ (k.tasks t).children, eligible_child k w.pid w.options q = 0
              ∨ ((k.tasks q).exit_state = EXIT_DEAD ∧ (k.tasks q).state ≠ TASK_TRACED
                ∧ (k.tasks q).state ≠ TASK_STOPPED))
          ∧ (∀ q ∈ (k.tasks t).ptrace_children, eligible_child k w.pid w.options q = 0)) →
      do_wait_threads fuel w ring k false = .ok (k, .next false) := by
  intro ring
  induction ring with
  | nil => intro _; rfl
  | cons t rest ih =>
    intro h
    have ht : t ∈ (if hasFlag w.options __WNOTHREAD then (t :: rest).take 1 else t :: rest) := by
      split_ifs <;> simp
    obtain ⟨a1, a2, a3⟩ := h t ht
    unfold do_wait_threads
    have hb : BUG_ON ((k.tasks t).signal != (k.tasks k.current).signal) 1607 k = .ok () := by
      rw [a1]
      simp [BUG_ON]
    rw [bind_of_ok hb, bind_of_ok (do_wait_children_passed fuel w k _ false a2)]
    have hf : do_wait_thread_flag k w t false = false := by
      unfold do_wait_thread_flag
      simp [do_wait_ptrace_children_inelig w k _ a3]
    dsimp only
    rw [hf]
    split_ifs with c
    · rfl
    · refine ih fun t' ht' => h t' ?_
      rw [if_neg c] at ht' ⊢
      exact List.mem_cons_of_mem _ ht'

/-- When every child of a scanned thread is not eligible or is in
`EXIT_DEAD` and not stopped, and no traced task of a scanned thread is
eligible, `do_wait` returns `-ECHILD` and does not call `schedule()`. -/
lemma do_wait_echild_passed (fuel : Nat) (k : Kernel) (w : WaitArgs) (hfuel : 0 < fuel)
    (h : ∀ t ∈ scanned_threads k w.options,
      (k.tasks t).signal = (k.tasks k.current).signal
        ∧ (∀ q ∈ (k.tasks t).children, eligible_child k w.pid w.options q = 0
            ∨ ((k.tasks q).exit_state = EXIT_DEAD ∧ (k.tasks q).state ≠ TASK_TRACED
              ∧ (k.tasks q).state ≠ TASK_STOPPED))
        ∧ (∀ q ∈ (k.tasks t).ptrace_children, eligible_child k w.pid w.options q = 0)) :
    ∃ k', do_wait fuel k w = .ok (k', .ret (-ECHILD)) ∧ schedule_calls k' = schedule_calls k := by
  obtain ⟨n, rfl⟩ := Nat.exists_eq_succ_of_ne_zero (Nat.pos_iff_ne_zero.mp hfuel)
  obtain ⟨e1, e2, e3, e4, e5, _, e7⟩ := do_wait_entry_fields k
  have hstate : ∀ q, (k.tasks q).state ≠ TASK_TRACED → (k.tasks q).state ≠ TASK_STOPPED →
      ((do_wait_entry k).tasks q).state ≠ TASK_TRACED
        ∧ ((do_wait_entry k).tasks q).state ≠ TASK_STOPPED := by
    intro q c1 c2
    unfold do_wait_entry Kernel.set_state Kernel.setTask
    dsimp only
    split_ifs
    · exact ⟨show TASK_INTERRUPTIBLE ≠ TASK_TRACED by decide,
        show TASK_INTERRUPTIBLE ≠ TASK_STOPPED by decide⟩
    · exact ⟨c1, c2⟩
  have hs := do_wait_threads_passed (n + 1) w (do_wait_entry k) (thread_ring k k.current)
    (by
      intro t ht
      obtain ⟨a1, a2, a3⟩ := h t ht
      refine ⟨?_, ?_, ?_⟩
      · rw [e3, e1, e3]
        exact a1
      · intro q hq
        rw [eligible_child_entry, e7]
        rcases a2 q (by rw [← e4]; exact hq) with c | ⟨c1, c2, c3⟩
        · exact Or.inl c
        · exact Or.inr ⟨c1, hstate q c2 c3⟩
      · intro q hq
        rw [eligible_child_entry]
        exact a3 q (by rw [← e5]; exact hq))
  refine ⟨(do_wait_end (do_wait_entry k) w (-ECHILD)).1, ?_,
    (do_wait_end_schedule _ _ _).trans (do_wait_entry_schedule k)⟩
  have hs' : do_wait_threads (n + 1) w
      (thread_ring (k.call .add_wait_queue k.current 0) (k.call .add_wait_queue k.current 0).current)
      ((k.call .add_wait_queue k.current 0).set_state
        (k.call .add_wait_queue k.current 0).current TASK_INTERRUPTIBLE) false
      = .ok (do_wait_entry k, .next false) := hs
  unfold do_wait do_wait_repeat
  rw [bind_of_ok hs']
  dsimp only
  unfold do_wait_after_scan
  simp only [Bool.false_eq_true, if_false]
  rw [← do_wait_end_neg _ w _ ECHILD_neg]
  rfl

lemma ERESTARTSYS_neg : -ERESTARTSYS < 0 := by decide

/-- A blocking `do_wait` whose first scan runs to its end: it returns
`-ECHILD` when the scan left the flag clear; when it left the flag set, it
returns `-ERESTARTSYS` if a signal is pending for the caller, and the caller
sleeps in `schedule()` otherwise. -/
lemma do_wait_scanned (fuel : Nat) (k k1 : Kernel) (w : WaitArgs) (flag : Bool)
    (hfuel : 0 < fuel)
    (hs : do_wait_threads fuel w (thread_ring k k.current) (do_wait_entry k) false
      = .ok (k1, .next flag))
    (hb : hasFlag w.options WNOHANG = false) :
    do_wait fuel k w
        = .ok (if flag then
            (if (k1.tasks k1.current).sigpending then do_wait_end k1 w (-ERESTARTSYS)
              else (k1.call .schedule 0 0, .sleeps))
          else do_wait_end k1 w (-ECHILD))
      ∧ (do_wait_end k1 w (-ECHILD)).2 = .ret (-ECHILD)
      ∧ (do_wait_end k1 w (-ERESTARTSYS)).2 = .ret (-ERESTARTSYS) := by
  obtain ⟨n, rfl⟩ := Nat.exists_eq_succ_of_ne_zero (Nat.pos_iff_ne_zero.mp hfuel)
  refine ⟨?_, do_wait_end_neg k1 w _ ECHILD_neg, do_wait_end_neg k1 w _ ERESTARTSYS_neg⟩
  have hs' : do_wait_threads (n + 1) w
      (thread_ring (k.call .add_wait_queue k.current 0) (k.call .add_wait_queue k.current 0).current)
      ((k.call .add_wait_queue k.current 0).set_state
        (k.call .add_wait_queue k.current 0).current TASK_INTERRUPTIBLE) false
      = .ok (k1, .next flag) := hs
  unfold do_wait do_wait_repeat
  rw [bind_of_ok hs']
  dsimp only
  unfold do_wait_after_scan
  cases flag with
  | false =>
    simp
    rfl
  | true =>
    simp [hb]
    rfl

/-- A `do_wait` in a later state of the system whose caller has, through
every thread of its group, no child but `p`, which is in `EXIT_DEAD` and not
stopped: it returns `-ECHILD` without a call of `schedule()`. -/
lemma do_wait_only_dead_child (fuel : Nat) (k k' : Kernel) (p cur : Nat) (w : WaitArgs)
    (hfuel : 0 < fuel) (hsub : Sub k k') (hd : (k'.tasks p).exit_state = EXIT_DEAD)
    (h1 : (k'.tasks p).state ≠ TASK_TRACED) (h2 : (k'.tasks p).state ≠ TASK_STOPPED)
    (hring : ∀ t ∈ thread_ring k cur, (k.tasks t).signal = (k.tasks cur).signal
      ∧ (∀ q ∈ (k.tasks t).children, q = p) ∧ (k.tasks t).ptrace_children = []) :
    ∃ k'', do_wait fuel { k' with current := cur } w = .ok (k'', .ret (-ECHILD))
      ∧ schedule_calls k'' = schedule_calls k' := by
  have hmem : ∀ t, t ∈ thread_ring { k' with current := cur } cur → t ∈ thread_ring k cur := by
    intro t ht
    rw [mem_thread_ring] at ht
    have e : ({ k' with current := cur } : Kernel).tasks = k'.tasks := rfl
    have e' : ({ k' with current := cur } : Kernel).pid_hash = k'.pid_hash := rfl
    rw [e, e', hsub.tgid] at ht
    split_ifs at ht with c
    · rw [mem_thread_ring, if_pos (hsub.chain _ _ c)]
      exact hsub.chain _ _ ht
    · rw [ht]
      exact self_mem_thread_ring k _
  refine do_wait_echild_passed fuel { k' with current := cur } w hfuel fun t ht => ?_
  have ht' : t ∈ thread_ring k cur := by
    refine hmem t ?_
    unfold scanned_threads at ht
    split_ifs at ht
    · exact List.mem_of_mem_take ht
    · exact ht
  obtain ⟨a1, a2, a3⟩ := hring t ht'
  refine ⟨?_, fun q hq => Or.inr ?_, fun q hq => ?_⟩
  · show (k'.tasks t).signal = (k'.tasks cur).signal
    rw [hsub.signal, hsub.signal]
    exact a1
  · have hq' : q = p := a2 q (hsub.children t q hq)
    subst hq'
    exact ⟨hd, h1, h2⟩
  · have hq' := hsub.ptrace_children t q hq
    rw [a3] at hq'
    exact absurd hq' (by simp)

/-- A blocking `do_wait` without a pending signal whose first scan runs to
its end over children with a pid: a scanned thread with a child that is
eligible, alive and not at a trace stop for another tracer has set the flag. -/
lemma do_wait_scan_flagged (fuel : Nat) (k k1 : Kernel) (w : WaitArgs) (flag : Bool)
    (hs : do_wait_threads fuel w (thread_ring k k.current) (do_wait_entry k) false
      = .ok (k1, .next flag))
    (hpid : ∀ t ∈ scanned_threads k w.options, ∀ q ∈ (k.tasks t).children, (k.tasks q).pid ≠ 0)
    (hlive : ∃ t ∈ scanned_threads k w.options, ∃ q ∈ (k.tasks t).children, flags_child k w q) :
    flag = true := by
  obtain ⟨e1, e2, e3, e4, e5, e6, e7⟩ := do_wait_entry_fields k
  obtain ⟨_, _, a3⟩ := do_wait_threads_next fuel w (thread_ring k k.current) hs
    (fun t ht q hq => by
      rw [e6]
      exact hpid t ht q (by rw [← e4]; exact hq))
  obtain ⟨t, ht, q, hq, hf⟩ := hlive
  exact a3 t ht (Or.inl ⟨q, by rw [e4]; exact hq, flags_child_entry hf⟩)

/-- An assignment to the task `p` leaves every other task as it is. -/
lemma at_setTask {α : Type} (v : task_struct → α) (k : Kernel) (p : Nat) (t : task_struct)
    (x : Nat) (hx : x ≠ p) : (k.setTask p t).view v x = k.view v x := by
  rw [view_setTask_gen]
  exact if_neg hx

lemma at_do_notify_parent {α : Type} (v : task_struct → α) (k : Kernel) (p : Nat) (sig : Int)
    (x : Nat) (hx : x ≠ p) : (do_notify_parent k p sig).view v x = k.view v x := by
  unfold do_notify_parent
  dsimp only
  split_ifs
  · exact at_setTask v _ p _ x hx
  · rfl

lemma at_reparent_signals {α : Type} (v : task_struct → α) (k : Kernel) (p : Nat)
    (x : Nat) (hx : x ≠ p) : (reparent_signals k p).view v x = k.view v x := by
  have e : ∀ a : Kernel, (if (a.tasks p).pdeath_signal ≠ 0 then
      a.call .group_send_sig_info (a.tasks p).pdeath_signal p else a).view v x = a.view v x := by
    intro a
    split_ifs <;> rfl
  unfold reparent_signals
  dsimp only
  rw [e]
  split_ifs
  · exact at_setTask v _ p _ x hx
  · rfl

lemma at_reparent_move {α : Type} {v : task_struct → α}
    (h4 : ∀ t x, v { t with children := x } = v t) (k : Kernel) (p : Nat)
    (x : Nat) (hx : x ≠ p) : (reparent_move k p).view v x = k.view v x := by
  unfold reparent_move
  dsimp only
  rw [view_add_parent_of h4]
  refine (at_setTask v _ p _ x hx).trans ?_
  rw [view_remove_parent_of h4]
  exact at_setTask v _ p _ x hx

lemma at_reparent_notify {α : Type} (v : task_struct → α) (k : Kernel) (p : Nat)
    (x : Nat) (hx : x ≠ p) : (reparent_notify k p).view v x = k.view v x := by
  unfold reparent_notify
  split_ifs
  · exact at_do_notify_parent v _ _ _ x hx
  · rfl
  · rfl

lemma view_ptrace_list_del_of {α : Type} {v : task_struct → α}
    (hv : ∀ t x, v { t with ptrace_children := x } = v t) (k : Kernel) (p : Nat) :
    (ptrace_list_del k p).view v = k.view v := by
  funext q
  exact hv _ _

lemma view_ptrace_list_add_of {α : Type} {v : task_struct → α}
    (hv : ∀ t x, v { t with ptrace_children := x } = v t) (k : Kernel) (p h : Nat) :
    (ptrace_list_add k p h).view v = k.view v :=
  view_set_ptrace_children hv _ _ _

lemma view_reparent_traced_of {α : Type} {v : task_struct → α}
    (hv : ∀ t x, v { t with ptrace_children := x } = v t) (k : Kernel) (p : Nat) :
    (reparent_traced k p).view v = k.view v := by
  unfold reparent_traced
  split_ifs
  · rw [view_ptrace_list_add_of hv, view_ptrace_list_del_of hv]
  · rw [view_ptrace_list_del_of hv]

lemma at_reparent_thread {α : Type} {v : task_struct → α}
    (h4 : ∀ t x, v { t with children := x } = v t)
    (h5 : ∀ t x, v { t with ptrace_children := x } = v t) (k : Kernel) (p father : Nat)
    (traced : Bool) (x : Nat) (hx : x ≠ p) :
    (reparent_thread k p father traced).view v x = k.view v x := by
  unfold reparent_thread
  rw [view_reparent_orphan]
  cases traced with
  | true =>
    simp only [if_true]
    rw [view_reparent_traced_of h5]
    exact at_reparent_signals v k p x hx
  | false =>
    simp only [Bool.false_eq_true, if_false]
    exact (at_reparent_notify v _ p x hx).trans
      ((at_reparent_move h4 _ p x hx).trans (at_reparent_signals v k p x hx))

lemma at_choose_new_parent {α : Type} (v : task_struct → α) {k k' : Kernel} {p reaper : Nat}
    (h : choose_new_parent k p reaper = .ok k') (x : Nat) (hx : x ≠ p) :
    k'.view v x = k.view v x := by
  unfold choose_new_parent at h
  simp only [bind_eq_ok, BUG_ON_eq_ok, pure_eq_ok] at h
  obtain ⟨_, _, _, _, h⟩ := h
  subst h
  exact at_setTask v _ p _ x hx

lemma at_ptrace_unlinked {α : Type} {v : task_struct → α}
    (h4 : ∀ t x, v { t with children := x } = v t)
    (h5 : ∀ t x, v { t with ptrace_children := x } = v t) (k : Kernel) (p : Nat)
    (x : Nat) (hx : x ≠ p) : (ptrace_unlinked k p).view v x = k.view v x := by
  have e1 : (k.set_ptrace p 0).view v x = k.view v x := at_setTask v _ p _ x hx
  have e2 : ∀ a : Kernel,
      (SET_LINKS ((REMOVE_LINKS a p).set_parent p ((REMOVE_LINKS a p).tasks p).real_parent)
        p).view v x = a.view v x := by
    intro a
    rw [view_SET_LINKS_of h4]
    refine (at_setTask v _ p _ x hx).trans ?_
    rw [view_REMOVE_LINKS_of h4]
  have e3 : ∀ a : Kernel, (if (a.tasks p).state = TASK_TRACED then
      a.call .ptrace_untrace p 0 else a).view v x = a.view v x := by
    intro a
    split_ifs <;> rfl
  unfold ptrace_unlinked
  dsimp only
  rw [e3]
  split_ifs
  · rw [e2, view_ptrace_list_del_of h5]
    exact e1
  · exact e1

lemma at___ptrace_unlink {α : Type} {v : task_struct → α}
    (h4 : ∀ t x, v { t with children := x } = v t)
    (h5 : ∀ t x, v { t with ptrace_children := x } = v t) {k k' : Kernel} {p : Nat}
    (h : __ptrace_unlink k p = .ok k') (x : Nat) (hx : x ≠ p) : k'.view v x = k.view v x := by
  unfold __ptrace_unlink at h
  simp only [bind_eq_ok, BUG_ON_eq_ok, pure_eq_ok] at h
  obtain ⟨_, _, h⟩ := h
  subst h
  exact at_ptrace_unlinked h4 h5 k p x hx

lemma at_renotify {α : Type} (v : task_struct → α) (k : Kernel) (p : Nat)
    (x : Nat) (hx : x ≠ p) : (renotify k p).view v x = k.view v x := by
  unfold renotify
  split_ifs
  · exact at_do_notify_parent v _ _ _ x hx
  · rfl

lemma at_forget_child {α : Type} {v : task_struct → α}
    (h4 : ∀ t x, v { t with children := x } = v t)
    (h5 : ∀ t x, v { t with ptrace_children := x } = v t) {k : Kernel} {father reaper p : Nat}
    {l : List Nat} {r : Kernel × List Nat} (h : forget_child k father reaper l p = .ok r)
    (x : Nat) (hx : x ≠ p) : r.1.view v x = k.view v x := by
  unfold forget_child at h
  simp only [bind_eq_ok, BUG_ON_eq_ok, pure_eq_ok] at h
  obtain ⟨_, _, k1, h1, h⟩ := h
  subst h
  show k1.view v x = k.view v x
  unfold forget_child_reparent at h1
  split_ifs at h1
  · rw [map_eq_ok] at h1
    obtain ⟨a, ha, h1⟩ := h1
    subst h1
    exact (at_reparent_thread h4 h5 a p father false x hx).trans (at_choose_new_parent v ha x hx)
  · rw [map_eq_ok] at h1
    obtain ⟨a, ha, h1⟩ := h1
    subst h1
    exact (at_renotify v a p x hx).trans (at___ptrace_unlink h4 h5 ha x hx)

lemma at_forget_children {α : Type} {v : task_struct → α}
    (h4 : ∀ t x, v { t with children := x } = v t)
    (h5 : ∀ t x, v { t with ptrace_children := x } = v t) (father reaper : Nat) :
    ∀ (L : List Nat) {k : Kernel} {l : List Nat} {r : Kernel × List Nat},
      forget_children father reaper L k l = .ok r → ∀ x, x ∉ L → r.1.view v x = k.view v x := by
  intro L
  induction L with
  | nil =>
    intro k l r h x _
    unfold forget_children at h
    simp only [pure_eq_ok] at h
    subst h
    rfl
  | cons p rest ih =>
    intro k l r h x hx
    unfold forget_children at h
    simp only [bind_eq_ok] at h
    obtain ⟨a, ha, h⟩ := h
    rw [ih h x fun c => hx (List.mem_cons_of_mem _ c)]
    exact at_forget_child h4 h5 ha x fun c => hx (c ▸ List.mem_cons_self _ _)

lemma at_forget_ptrace_children {α : Type} {v : task_struct → α}
    (h4 : ∀ t x, v { t with children := x } = v t)
    (h5 : ∀ t x, v { t with ptrace_children := x } = v t) (father reaper : Nat) :
    ∀ (L : List Nat) {k k' : Kernel},
      forget_ptrace_children father reaper L k = .ok k' → ∀ x, x ∉ L →
        k'.view v x = k.view v x := by
  intro L
  induction L with
  | nil =>
    intro k k' h x _
    unfold forget_ptrace_children at h
    simp only [pure_eq_ok] at h
    subst h
    rfl
  | cons p rest ih =>
    intro k k' h x hx
    have hp : x ≠ p := fun c => hx (c ▸ List.mem_cons_self _ _)
    unfold forget_ptrace_children at h
    simp only [bind_eq_ok] at h
    obtain ⟨a, ha, h⟩ := h
    rw [ih h x fun c => hx (List.mem_cons_of_mem _ c)]
    exact (at_reparent_thread h4 h5 a p father true x hp).trans (at_choose_new_parent v ha x hp)

/-- One turn of the first loop of `forget_original_parent` puts no task on a
traced list. -/
lemma forget_child_traced_shrinks {k : Kernel} {father reaper p : Nat} {l : List Nat}
    {r : Kernel × List Nat} (h : forget_child k father reaper l p = .ok r) (t x : Nat)
    (hx : x ∈ (r.1.tasks t).ptrace_children) : x ∈ (k.tasks t).ptrace_children := by
  unfold forget_child at h
  simp only [bind_eq_ok, BUG_ON_eq_ok, pure_eq_ok] at h
  obtain ⟨_, _, k1, h1, h⟩ := h
  subst h
  change x ∈ (k1.tasks t).ptrace_children at hx
  unfold forget_child_reparent at h1
  split_ifs at h1
  · rw [map_eq_ok] at h1
    obtain ⟨a, ha, h1⟩ := h1
    subst h1
    have e1 := congrFun (ptrace_children_reparent_thread a p father) t
    have e2 := congrFun
      (view_choose_new_parent (v := task_struct.ptrace_children) (fun _ _ => rfl) ha) t
    rw [show ((reparent_thread a p father false).tasks t).ptrace_children
      = (k.tasks t).ptrace_children from e1.trans e2] at hx
    exact hx
  · rw [map_eq_ok] at h1
    obtain ⟨a, ha, h1⟩ := h1
    subst h1
    unfold __ptrace_unlink at ha
    simp only [bind_eq_ok, BUG_ON_eq_ok, pure_eq_ok] at ha
    obtain ⟨_, _, ha⟩ := ha
    subst ha
    have e1 : (renotify (ptrace_unlinked k p) p).view task_struct.ptrace_children
        = (ptrace_unlinked k p).view task_struct.ptrace_children := by
      unfold renotify
      split_ifs
      · exact view_do_notify_parent_of (v := task_struct.ptrace_children) (fun _ _ => rfl) _ _ _
      · rfl
    rw [show ((renotify (ptrace_unlinked k p) p).tasks t).ptrace_children
      = ((ptrace_unlinked k p).tasks t).ptrace_children from congrFun e1 t] at hx
    have links : ∀ a : Kernel,
        (SET_LINKS ((REMOVE_LINKS a p).set_parent p ((REMOVE_LINKS a p).tasks p).real_parent)
          p).view task_struct.ptrace_children = a.view task_struct.ptrace_children := by
      intro a
      rw [view_SET_LINKS_of (v := task_struct.ptrace_children) (fun _ _ => rfl),
        view_set_parent (v := task_struct.ptrace_children) (fun _ _ => rfl),
        view_REMOVE_LINKS_of (v := task_struct.ptrace_children) (fun _ _ => rfl)]
    have e3 : ∀ a : Kernel, (if (a.tasks p).state = TASK_TRACED then
        a.call .ptrace_untrace p 0 else a).view task_struct.ptrace_children
        = a.view task_struct.ptrace_children := by
      intro a
      split_ifs <;> rfl
    have e0 := congrFun (view_set_ptrace (v := task_struct.ptrace_children) (fun _ _ => rfl)
      k p 0) t
    have hd : ∀ y, y ∈ ((ptrace_list_del (k.set_ptrace p 0) p).tasks t).ptrace_children →
        y ∈ (k.tasks t).ptrace_children := by
      intro y hy
      change y ∈ (((k.set_ptrace p 0).tasks t).ptrace_children.filter (fun q => q ≠ p)) at hy
      rw [show ((k.set_ptrace p 0).tasks t).ptrace_children = (k.tasks t).ptrace_children
        from e0] at hy
      exact List.mem_of_mem_filter hy
    unfold ptrace_unlinked at hx
    dsimp only at hx
    rw [show ∀ a : Kernel, ((if (a.tasks p).state = TASK_TRACED then
        a.call .ptrace_untrace p 0 else a).tasks t).ptrace_children
        = (a.tasks t).ptrace_children from fun a => congrFun (e3 a) t] at hx
    split_ifs at hx
    · rw [show ((SET_LINKS _ p).tasks t).ptrace_children = _ from congrFun (links _) t] at hx
      exact hd x hx
    · rw [show ((k.set_ptrace p 0).tasks t).ptrace_children = (k.tasks t).ptrace_children
        from e0] at hx
      exact hx

lemma forget_children_traced_shrinks (father reaper : Nat) :
    ∀ (L : List Nat) {k : Kernel} {l : List Nat} {r : Kernel × List Nat},
      forget_children father reaper L k l = .ok r → ∀ t x,
        x ∈ (r.1.tasks t).ptrace_children → x ∈ (k.tasks t).ptrace_children := by
  intro L
  induction L with
  | nil =>
    intro k l r h t x hx
    unfold forget_children at h
    simp only [pure_eq_ok] at h
    subst h
    exact hx
  | cons p rest ih =>
    intro k l r h t x hx
    unfold forget_children at h
    simp only [bind_eq_ok] at h
    obtain ⟨a, ha, h⟩ := h
    exact forget_child_traced_shrinks ha t x (ih h t x hx)

/-- The function `forget_original_parent` leaves a task that is on neither
list of `father` as it is, but for its own two lists. -/
lemma at_forget_original_parent {α : Type} {v : task_struct → α}
    (h4 : ∀ t x, v { t with children := x } = v t)
    (h5 : ∀ t x, v { t with ptrace_children := x } = v t) {k : Kernel} {father : Nat}
    {r : Kernel × List Nat} (h : forget_original_parent k father = .ok r) (x : Nat)
    (h1 : x ∉ (k.tasks father).children) (h2 : x ∉ (k.tasks father).ptrace_children) :
    r.1.view v x = k.view v x := by
  unfold forget_original_parent at h
  simp only [bind_eq_ok, pure_eq_ok] at h
  obtain ⟨a, ha, k2, hk2, h⟩ := h
  subst h
  show k2.view v x = k.view v x
  rw [at_forget_ptrace_children h4 h5 father _ _ hk2 x
    fun c => h2 (forget_children_traced_shrinks father _ _ ha father x c)]
  exact at_forget_children h4 h5 father _ _ ha x h1

lemma fixed_trans {a b c : Kernel} (h1 : b.current = a.current ∧ b.pid_hash = a.pid_hash)
    (h2 : c.current = b.current ∧ c.pid_hash = b.pid_hash) :
    c.current = a.current ∧ c.pid_hash = a.pid_hash :=
  ⟨h2.1.trans h1.1, h2.2.trans h1.2⟩

lemma fixed_do_notify_parent (k : Kernel) (p : Nat) (sig : Int) :
    (do_notify_parent k p sig).current = k.current
      ∧ (do_notify_parent k p sig).pid_hash = k.pid_hash := by
  unfold do_notify_parent
  dsimp only
  split_ifs <;> exact ⟨rfl, rfl⟩

lemma fixed_reparent_signals (k : Kernel) (p : Nat) :
    (reparent_signals k p).current = k.current ∧ (reparent_signals k p).pid_hash = k.pid_hash := by
  unfold reparent_signals
  dsimp only
  split_ifs <;> exact ⟨rfl, rfl⟩

lemma fixed_reparent_move (k : Kernel) (p : Nat) :
    (reparent_move k p).current = k.current ∧ (reparent_move k p).pid_hash = k.pid_hash :=
  ⟨rfl, rfl⟩

lemma fixed_reparent_notify (k : Kernel) (p : Nat) :
    (reparent_notify k p).current = k.current ∧ (reparent_notify k p).pid_hash = k.pid_hash := by
  unfold reparent_notify
  split_ifs
  · exact fixed_do_notify_parent _ _ _
  · exact ⟨rfl, rfl⟩
  · exact ⟨rfl, rfl⟩

lemma fixed_reparent_orphan (k : Kernel) (p father : Nat) :
    (reparent_orphan k p father).current = k.current
      ∧ (reparent_orphan k p father).pid_hash = k.pid_hash := by
  unfold reparent_orphan
  split_ifs <;> exact ⟨rfl, rfl⟩

lemma fixed_reparent_traced (k : Kernel) (p : Nat) :
    (reparent_traced k p).current = k.current ∧ (reparent_traced k p).pid_hash = k.pid_hash := by
  unfold reparent_traced
  split_ifs <;> exact ⟨rfl, rfl⟩

lemma fixed_reparent_thread (k : Kernel) (p father : Nat) (traced : Bool) :
    (reparent_thread k p father traced).current = k.current
      ∧ (reparent_thread k p father traced).pid_hash = k.pid_hash := by
  unfold reparent_thread
  refine fixed_trans ?_ (fixed_reparent_orphan _ p father)
  cases traced with
  | true =>
    simp only [if_true]
    exact fixed_trans (fixed_reparent_signals k p) (fixed_reparent_traced _ p)
  | false =>
    simp only [Bool.false_eq_true, if_false]
    exact fixed_trans (fixed_trans (fixed_reparent_signals k p) (fixed_reparent_move _ p))
      (fixed_reparent_notify _ p)

lemma fixed_choose_new_parent {k k' : Kernel} {p reaper : Nat}
    (h : choose_new_parent k p reaper = .ok k') :
    k'.current = k.current ∧ k'.pid_hash = k.pid_hash := by
  unfold choose_new_parent at h
  simp only [bind_eq_ok, BUG_ON_eq_ok, pure_eq_ok] at h
  obtain ⟨_, _, _, _, h⟩ := h
  subst h
  exact ⟨rfl, rfl⟩

lemma fixed_ptrace_unlinked (k : Kernel) (p : Nat) :
    (ptrace_unlinked k p).current = k.current ∧ (ptrace_unlinked k p).pid_hash = k.pid_hash := by
  have e1 : ∀ a : Kernel, (REMOVE_LINKS a p).current = a.current := by
    intro a
    unfold REMOVE_LINKS
    dsimp only
    split_ifs <;> rfl
  have e2 : ∀ a : Kernel, (SET_LINKS a p).current = a.current := by
    intro a
    unfold SET_LINKS
    dsimp only
    split_ifs <;> rfl
  refine ⟨?_, (hash_ptrace_unlinked k p).2⟩
  unfold ptrace_unlinked
  dsimp only
  have e : (SET_LINKS ((REMOVE_LINKS (ptrace_list_del (k.set_ptrace p 0) p) p).set_parent p
      ((REMOVE_LINKS (ptrace_list_del (k.set_ptrace p 0) p) p).tasks p).real_parent) p).current
        = k.current := by
    rw [e2]
    show (REMOVE_LINKS (ptrace_list_del (k.set_ptrace p 0) p) p).current = _
    rw [e1]
    rfl
  split_ifs <;> first | exact e | rfl

lemma fixed_renotify (k : Kernel) (p : Nat) :
    (renotify k p).current = k.current ∧ (renotify k p).pid_hash = k.pid_hash := by
  unfold renotify
  split_ifs
  · exact fixed_do_notify_parent _ _ _
  · exact ⟨rfl, rfl⟩

lemma fixed_forget_child {k : Kernel} {father reaper p : Nat} {l : List Nat}
    {r : Kernel × List Nat} (h : forget_child k father reaper l p = .ok r) :
    r.1.current = k.current ∧ r.1.pid_hash = k.pid_hash := by
  unfold forget_child at h
  simp only [bind_eq_ok, BUG_ON_eq_ok, pure_eq_ok] at h
  obtain ⟨_, _, k1, h1, h⟩ := h
  subst h
  show k1.current = k.current ∧ k1.pid_hash = k.pid_hash
  unfold forget_child_reparent at h1
  split_ifs at h1
  · rw [map_eq_ok] at h1
    obtain ⟨a, ha, h1⟩ := h1
    subst h1
    exact fixed_trans (fixed_choose_new_parent ha) (fixed_reparent_thread a p father false)
  · rw [map_eq_ok] at h1
    obtain ⟨a, ha, h1⟩ := h1
    subst h1
    unfold __ptrace_unlink at ha
    simp only [bind_eq_ok, BUG_ON_eq_ok, pure_eq_ok] at ha
    obtain ⟨_, _, ha⟩ := ha
    subst ha
    exact fixed_trans (fixed_ptrace_unlinked k p) (fixed_renotify _ p)

lemma fixed_forget_children (father reaper : Nat) :
    ∀ (L : List Nat) {k : Kernel} {l : List Nat} {r : Kernel × List Nat},
      forget_children father reaper L k l = .ok r →
      r.1.current = k.current ∧ r.1.pid_hash = k.pid_hash := by
  intro L
  induction L with
  | nil =>
    intro k l r h
    unfold forget_children at h
    simp only [pure_eq_ok] at h
    subst h
    exact ⟨rfl, rfl⟩
  | cons p rest ih =>
    intro k l r h
    unfold forget_children at h
    simp only [bind_eq_ok] at h
    obtain ⟨a, ha, h⟩ := h
    exact fixed_trans (fixed_forget_child ha) (ih h)

lemma fixed_forget_ptrace_children (father reaper : Nat) :
    ∀ (L : List Nat) {k k' : Kernel},
      forget_ptrace_children father reaper L k = .ok k' →
      k'.current = k.current ∧ k'.pid_hash = k.pid_hash := by
  intro L
  induction L with
  | nil =>
    intro k k' h
    unfold forget_ptrace_children at h
    simp only [pure_eq_ok] at h
    subst h
    exact ⟨rfl, rfl⟩
  | cons p rest ih =>
    intro k k' h
    unfold forget_ptrace_children at h
    simp only [bind_eq_ok] at h
    obtain ⟨a, ha, h⟩ := h
    exact fixed_trans (fixed_trans (fixed_choose_new_parent ha)
      (fixed_reparent_thread a p father true)) (ih h)

lemma fixed_forget_original_parent {k : Kernel} {father : Nat} {r : Kernel × List Nat}
    (h : forget_original_parent k father = .ok r) :
    r.1.current = k.current ∧ r.1.pid_hash = k.pid_hash := by
  unfold forget_original_parent at h
  simp only [bind_eq_ok, pure_eq_ok] at h
  obtain ⟨a, ha, k2, hk2, h⟩ := h
  subst h
  exact fixed_trans (fixed_forget_children father _ _ ha)
    (fixed_forget_ptrace_children father _ _ hk2)

lemma fixed_exit_notify_wake :
    ∀ (l : List Nat) (k : Kernel), (exit_notify_wake k l).current = k.current
      ∧ (exit_notify_wake k l).pid_hash = k.pid_hash := by
  intro l
  induction l with
  | nil => intro k; exact ⟨rfl, rfl⟩
  | cons t rest ih =>
    intro k
    unfold exit_notify_wake
    dsimp only
    split_ifs
    · exact fixed_trans ⟨rfl, rfl⟩ (ih _)
    · exact fixed_trans ⟨rfl, rfl⟩ (ih _)
    · exact ih _

lemma fixed_exit_notify_woken (k : Kernel) (tsk : Nat) :
    (exit_notify_woken k tsk).current = k.current
      ∧ (exit_notify_woken k tsk).pid_hash = k.pid_hash := by
  unfold exit_notify_woken
  split_ifs
  · exact fixed_exit_notify_wake _ _
  · exact ⟨rfl, rfl⟩

lemma fixed_exit_notify_orphan (k : Kernel) (tsk : Nat) :
    (exit_notify_orphan k tsk).current = k.current
      ∧ (exit_notify_orphan k tsk).pid_hash = k.pid_hash := by
  unfold exit_notify_orphan
  dsimp only
  split_ifs <;> exact ⟨rfl, rfl⟩

lemma do_notify_parent_log (k : Kernel) (p : Nat) (sig : Int) :
    (do_notify_parent k p sig).log = k.log ++ [{ fn := .do_notify_parent, a := p, b := sig }] := by
  unfold do_notify_parent
  dsimp only
  split_ifs <;> rfl

lemma exit_notify_exit_signal_forced (k : Kernel) (tsk : Nat) :
    ((exit_notify_exit_signal k tsk).tasks tsk).exit_signal
      = (if exit_signal_forced k tsk then SIGCHLD else (k.tasks tsk).exit_signal)
    ∧ (¬ exit_signal_forced k tsk → exit_notify_exit_signal k tsk = k) := by
  unfold exit_notify_exit_signal exit_signal_forced
  dsimp only
  by_cases c : (k.tasks tsk).exit_signal ≠ SIGCHLD ∧ (k.tasks tsk).exit_signal ≠ -1
        ∧ ((k.tasks tsk).parent_exec_id ≠ (k.tasks (k.tasks tsk).real_parent).self_exec_id
          ∨ (k.tasks tsk).self_exec_id ≠ (k.tasks tsk).parent_exec_id)
        ∧ (k.tasks k.current).cap_kill = false
  · rw [if_pos c, if_pos ⟨c.1, c.2.1, c.2.2.1, by simp [c.2.2.2]⟩]
    refine ⟨?_, fun h => absurd c h⟩
    simp [Kernel.set_exit_signal, Kernel.setTask]
  · have c' : ¬ ((k.tasks tsk).exit_signal ≠ SIGCHLD ∧ (k.tasks tsk).exit_signal ≠ -1
        ∧ ((k.tasks tsk).parent_exec_id ≠ (k.tasks (k.tasks tsk).real_parent).self_exec_id
          ∨ (k.tasks tsk).self_exec_id ≠ (k.tasks tsk).parent_exec_id)
        ∧ ¬ (k.tasks k.current).cap_kill = true) := by
      rintro ⟨c1, c2, c3, c4⟩
      exact c ⟨c1, c2, c3, by simpa using c4⟩
    rw [if_neg c, if_neg c']
    exact ⟨rfl, fun _ => rfl⟩

/-- The log of the parent-notification step of `exit_notify`: the
notifications for the exit signal the check has left. -/
lemma exit_notify_signal_log (a : Kernel) (tsk : Nat) :
    (exit_notify_signal a tsk).log
      = a.log ++ exit_notify_sent a tsk ((exit_notify_exit_signal a tsk).tasks tsk).exit_signal := by
  obtain ⟨f1, f2, f3, f4⟩ := exit_notify_exit_signal_fields a tsk
  have hg : thread_group_empty (exit_notify_exit_signal a tsk) tsk = thread_group_empty a tsk :=
    thread_group_empty_congr tsk (fun q => by rw [f1 q]) f3
  have hp : ((exit_notify_exit_signal a tsk).tasks tsk).parent = (a.tasks tsk).parent := by
    rw [f1 tsk]
  have hr : ((exit_notify_exit_signal a tsk).tasks tsk).real_parent = (a.tasks tsk).real_parent := by
    rw [f1 tsk]
  have ht : ((exit_notify_exit_signal a tsk).tasks tsk).ptrace = (a.tasks tsk).ptrace := by
    rw [f1 tsk]
  unfold exit_notify_signal exit_notify_sent
  dsimp only
  rw [hg, hp, hr, ht]
  split_ifs
  · rw [do_notify_parent_log, f4]
  · rw [do_notify_parent_log, f4]
  · rw [do_notify_parent_log, f4]
  · rw [f4]
    simp

/-- The state in which `exit_notify` makes the exit-signal check: the state
after the reparenting and the orphaned-group check.  It has the current task,
the thread groups, the execution-domain identifiers and the capabilities of
the entry state, and the terminating task has the exit signal, the parents
and the tracing flag of the entry state when it is on neither of its own
lists. -/
lemma exit_notify_check_state {k : Kernel} {tsk : Nat} {r : Kernel × List Nat}
    (h : exit_notify_notified k tsk = .ok r) :
    ∃ a : Kernel, r.1 = exit_notify_signal a tsk
      ∧ a.current = k.current
      ∧ (∀ q, thread_group_empty a q = thread_group_empty k q)
      ∧ (∀ q, (a.tasks q).parent_exec_id = (k.tasks q).parent_exec_id)
      ∧ (∀ q, (a.tasks q).self_exec_id = (k.tasks q).self_exec_id)
      ∧ (∀ q, (a.tasks q).cap_kill = (k.tasks q).cap_kill)
      ∧ (tsk ∉ (k.tasks tsk).children → tsk ∉ (k.tasks tsk).ptrace_children →
          (a.tasks tsk).exit_signal = (k.tasks tsk).exit_signal
            ∧ (a.tasks tsk).real_parent = (k.tasks tsk).real_parent
            ∧ (a.tasks tsk).parent = (k.tasks tsk).parent
            ∧ (a.tasks tsk).ptrace = (k.tasks tsk).ptrace) := by
  unfold exit_notify_notified at h
  simp only [bind_eq_ok, BUG_ON_eq_ok, pure_eq_ok] at h
  obtain ⟨fr, ha, _, _, _, _, h⟩ := h
  have hfix := fixed_trans (fixed_trans (fixed_exit_notify_woken k tsk)
    (fixed_forget_original_parent ha)) (fixed_exit_notify_orphan fr.1 tsk)
  have hv : ∀ {α : Type} (v : task_struct → α), LinkFree v →
      (∀ t x, v { t with real_parent := x } = v t) →
      (∀ t x, v { t with sigpending := x } = v t) →
      ∀ q, v ((exit_notify_orphan fr.1 tsk).tasks q) = v (k.tasks q) := by
    intro α v l1 l2 l3 q
    have e : (exit_notify_orphan fr.1 tsk).view v = k.view v := by
      rw [view_exit_notify_orphan, view_forget_original_parent l1 l2 ha,
        view_exit_notify_woken l3]
    exact congrFun e q
  have hw : ∀ {α : Type} (v : task_struct → α), (∀ t x, v { t with children := x } = v t) →
      (∀ t x, v { t with ptrace_children := x } = v t) →
      (∀ t x, v { t with sigpending := x } = v t) →
      tsk ∉ (k.tasks tsk).children → tsk ∉ (k.tasks tsk).ptrace_children →
      v ((exit_notify_orphan fr.1 tsk).tasks tsk) = v (k.tasks tsk) := by
    intro α v l4 l5 l3 h1 h2
    have e0 : ∀ {β : Type} (u : task_struct → β), (∀ t x, u { t with sigpending := x } = u t) →
        u ((exit_notify_woken k tsk).tasks tsk) = u (k.tasks tsk) :=
      fun u hu => congrFun (view_exit_notify_woken hu k tsk) tsk
    have e1 := congrFun (view_exit_notify_orphan v fr.1 tsk) tsk
    have e2 := at_forget_original_parent l4 l5 ha tsk
      (by rw [e0 task_struct.children fun _ _ => rfl]; exact h1)
      (by rw [e0 task_struct.ptrace_children fun _ _ => rfl]; exact h2)
    exact e1.trans (e2.trans (e0 v l3))
  refine ⟨exit_notify_orphan fr.1 tsk, by rw [← h], hfix.1, fun q => ?_, ?_, ?_, ?_,
    fun h1 h2 => ⟨?_, ?_, ?_, ?_⟩⟩
  · exact thread_group_empty_congr q
      (hv task_struct.tgid linkFree_tgid (fun _ _ => rfl) (fun _ _ => rfl)) hfix.2
  · exact hv task_struct.parent_exec_id ⟨fun _ _ => rfl, fun _ _ => rfl, fun _ _ => rfl,
      fun _ _ => rfl, fun _ _ => rfl, fun _ _ => rfl⟩ (fun _ _ => rfl) (fun _ _ => rfl)
  · exact hv task_struct.self_exec_id ⟨fun _ _ => rfl, fun _ _ => rfl, fun _ _ => rfl,
      fun _ _ => rfl, fun _ _ => rfl, fun _ _ => rfl⟩ (fun _ _ => rfl) (fun _ _ => rfl)
  · exact hv task_struct.cap_kill ⟨fun _ _ => rfl, fun _ _ => rfl, fun _ _ => rfl,
      fun _ _ => rfl, fun _ _ => rfl, fun _ _ => rfl⟩ (fun _ _ => rfl) (fun _ _ => rfl)
  · exact hw task_struct.exit_signal (fun _ _ => rfl) (fun _ _ => rfl) (fun _ _ => rfl) h1 h2
  · exact hw task_struct.real_parent (fun _ _ => rfl) (fun _ _ => rfl) (fun _ _ => rfl) h1 h2
  · exact hw task_struct.parent (fun _ _ => rfl) (fun _ _ => rfl) (fun _ _ => rfl) h1 h2
  · exact hw task_struct.ptrace (fun _ _ => rfl) (fun _ _ => rfl) (fun _ _ => rfl) h1 h2

/-- C19, amended: in every run of `exit_notify` up to the notification of
the parent, the exit-signal check is made in a state `a` and the notification
step starts from it.  The check sets the exit signal of the terminating task
to `SIGCHLD` when that signal is neither `SIGCHLD` nor -1, the
execution-domain identifiers no longer match and the caller lacks `CAP_KILL`;
when one of these conditions is false the check changes nothing; in both
cases no other field and no other task is changed.  The notification that
follows is computed from the exit signal the check has left: for a forced
task exactly one notification is sent, with `SIGCHLD`, when the thread group
is empty or the task is traced, and none otherwise.  When the task is on
neither of its own lists at entry, the conditions, the exit signal, the
thread group and the tracing flag are those of the entry state. -/
theorem exit_notify_forces_sigchld (k : Kernel) (tsk : Nat) (r : Kernel × List Nat)
    (h : exit_notify_notified k tsk = .ok r) :
    ∃ a : Kernel, r.1 = exit_notify_signal a tsk
      ∧ ((exit_notify_exit_signal a tsk).tasks tsk).exit_signal
          = (if exit_signal_forced a tsk then SIGCHLD else (a.tasks tsk).exit_signal)
      ∧ (¬ exit_signal_forced a tsk → exit_notify_exit_signal a tsk = a)
      ∧ (∀ q, (exit_notify_exit_signal a tsk).tasks q
          = { a.tasks q with
              exit_signal := ((exit_notify_exit_signal a tsk).tasks q).exit_signal })
      ∧ (∀ q, q ≠ tsk → ((exit_notify_exit_signal a tsk).tasks q).exit_signal
          = (a.tasks q).exit_signal)
      ∧ r.1.log = a.log
          ++ exit_notify_sent a tsk ((exit_notify_exit_signal a tsk).tasks tsk).exit_signal
      ∧ (exit_signal_forced a tsk →
          r.1.log = a.log
            ++ (if thread_group_empty a tsk = true ∨ (a.tasks tsk).ptrace ≠ 0 then
                [{ fn := .do_notify_parent, a := tsk, b := SIGCHLD }]
              else []))
      ∧ (tsk ∉ (k.tasks tsk).children → tsk ∉ (k.tasks tsk).ptrace_children →
          (exit_signal_forced a tsk ↔ exit_signal_forced k tsk)
            ∧ (a.tasks tsk).exit_signal = (k.tasks tsk).exit_signal
            ∧ thread_group_empty a tsk = thread_group_empty k tsk
            ∧ (a.tasks tsk).ptrace = (k.tasks tsk).ptrace
            ∧ ((exit_notify_exit_signal a tsk).tasks tsk).exit_signal
                = (if exit_signal_forced k tsk then SIGCHLD else (k.tasks tsk).exit_signal)
            ∧ (exit_signal_forced k tsk →
                r.1.log = a.log
                  ++ (if thread_group_empty k tsk = true ∨ (k.tasks tsk).ptrace ≠ 0 then
                      [{ fn := .do_notify_parent, a := tsk, b := SIGCHLD }]
                    else []))) := by
  obtain ⟨a, ha, c1, c2, c3, c4, c5, c6⟩ := exit_notify_check_state h
  obtain ⟨f1, f2, _, _⟩ := exit_notify_exit_signal_fields a tsk
  obtain ⟨g1, g2⟩ := exit_notify_exit_signal_forced a tsk
  have hlog : r.1.log = a.log
      ++ exit_notify_sent a tsk ((exit_notify_exit_signal a tsk).tasks tsk).exit_signal := by
    rw [ha]
    exact exit_notify_signal_log a tsk
  have hforced : exit_signal_forced a tsk →
      r.1.log = a.log
        ++ (if thread_group_empty a tsk = true ∨ (a.tasks tsk).ptrace ≠ 0 then
            [{ fn := .do_notify_parent, a := tsk, b := SIGCHLD }]
          else []) := by
    intro hf
    rw [hlog, g1, if_pos hf]
    unfold exit_notify_sent
    have hs : (if (a.tasks tsk).parent = (a.tasks tsk).real_parent then SIGCHLD else SIGCHLD)
        = SIGCHLD := by
      split_ifs <;> rfl
    rw [hs]
    by_cases hg : thread_group_empty a tsk = true
    · rw [if_pos ⟨by decide, hg⟩, if_pos (Or.inl hg)]
    · rw [if_neg (fun c => hg c.2)]
      by_cases hp : (a.tasks tsk).ptrace ≠ 0
      · rw [if_pos hp, if_pos (Or.inr hp)]
      · rw [if_neg hp, if_neg (fun c => c.elim hg hp)]
  refine ⟨a, ha, g1, g2, f1, f2, hlog, hforced, fun h1 h2 => ?_⟩
  obtain ⟨e1, e2, e3, e4⟩ := c6 h1 h2
  have hiff : exit_signal_forced a tsk ↔ exit_signal_forced k tsk := by
    unfold exit_signal_forced
    rw [e1, e2, c3, c4, c4, c1, c5]
  refine ⟨hiff, e1, c2 tsk, e4, ?_, fun hf => ?_⟩
  · rw [g1, e1]
    by_cases hf : exit_signal_forced k tsk
    · rw [if_pos hf, if_pos (hiff.mpr hf)]
    · rw [if_neg hf, if_neg (fun c => hf (hiff.mp c))]
  · rw [hforced (hiff.mpr hf), c2 tsk, e4]

/-- Witness for C19: the clone-style child of the small system that changed
execution domain terminates, and its parent is told with `SIGCHLD`. -/
theorem exit_notify_forces_sigchld_witness :
    ∃ r, exit_notify_notified demo_exec 4 = .ok r
      ∧ r.1.log.getLast? = some { fn := .do_notify_parent, a := 4, b := SIGCHLD } := by
  obtain ⟨r, hr⟩ := ok_of_isSome (exit_notify_notified demo_exec 4) (by decide)
  obtain ⟨a, _, _, _, _, _, _, _, h8⟩ := exit_notify_forces_sigchld demo_exec 4 r hr
  obtain ⟨_, _, _, _, _, h6⟩ := h8 (by decide) (by decide)
  refine ⟨r, hr, ?_⟩
  rw [h6 (by decide), if_pos (Or.inl (by decide))]
  simp

/-- A run of guarded stores into distinct cells that can all be written ends
with 0 and leaves each value in its cell. -/
lemma put_users_ok (L : List (Int × Nat)) (hL : (L.map Prod.snd).Nodup) :
    ∀ r : Int × Kernel, r.1 = 0 → (∀ xa ∈ L, (r.2.umem xa.2).isSome = true) →
      (put_users r L).1 = 0 ∧ ∀ xa ∈ L, (put_users r L).2.umem xa.2 = some xa.1 := by
  induction L with
  | nil =>
    intro r h0 _
    exact ⟨h0, fun xa hx => absurd hx (by simp)⟩
  | cons ya rest ih =>
    intro r h0 hw
    simp only [List.map_cons, List.nodup_cons] at hL
    have es : put_users r (ya :: rest) = put_users (put_user_if r ya.1 ya.2) rest := rfl
    have e1 : put_user_if r ya.1 ya.2 = put_user r.2 ya.1 ya.2 := by
      unfold put_user_if
      rw [if_pos h0]
    obtain ⟨a1, a2, a3, _, _, _, _⟩ := put_user_ok r.2 ya.1 ya.2 (hw ya (List.mem_cons_self _ _))
    rw [← e1] at a1 a2 a3
    obtain ⟨b1, b2⟩ := ih hL.2 (put_user_if r ya.1 ya.2) a1 (fun xa hx => by
      rw [a2]
      exact hw xa (List.mem_cons_of_mem _ hx))
    rw [es]
    refine ⟨b1, fun xa hx => ?_⟩
    rcases List.mem_cons.mp hx with e | e
    · subst e
      rw [put_users_umem_other _ _ _ hL.1]
      exact a3
    · exact b2 xa e

/-- The peek path of `wait_task_zombie` on a zombie that is looked at, for a
caller whose cells can be written: the pid of the child is returned, and the
pid, the reason and the status decoded from the exit code of the child are
in `*infop`. -/
lemma wait_task_zombie_peek_ok (k : Kernel) (p infop ru : Nat)
    (hz : (k.tasks p).exit_state = EXIT_ZOMBIE)
    (hn : ¬ ((k.tasks p).exit_signal = -1 ∧ (k.tasks p).ptrace = 0))
    (hru : ru = 0 ∨ (k.umem ru).isSome = true)
    (hin : ∀ off ∈ [si_signo, si_errno, si_code, si_pid, si_uid, si_status],
      (k.umem (infop + off)).isSome = true) :
    (wait_task_zombie_peek k p infop ru).1 = (k.tasks p).pid
      ∧ peek_report (wait_task_zombie_peek k p infop ru).2 infop
        = (some (k.tasks p).pid, some (zombie_why_status (k.tasks p).exit_code).1,
            some (zombie_why_status (k.tasks p).exit_code).2) := by
  unfold wait_task_zombie_peek
  rw [if_neg (by rw [hz]; simp), if_neg hn, wait_noreap_copyout_eq]
  have hg : (get_task_struct k p).umem = k.umem := rfl
  have h0 : (getrusage_opt (get_task_struct k p) p ru).1 = 0 :=
    getrusage_opt_ok _ p ru (by rw [hg]; exact hru)
  have hu : (put_task_struct (getrusage_opt (get_task_struct k p) p ru).2 p).umem = k.umem := by
    rw [put_task_struct_umem, getrusage_opt_umem]
    rfl
  obtain ⟨a1, a2⟩ := put_users_ok
    (copyout_writes (k.tasks p).pid (k.tasks p).uid (zombie_why_status (k.tasks p).exit_code).1
      (zombie_why_status (k.tasks p).exit_code).2 infop)
    (copyout_writes_nodup _ _ _ _ _)
    ((getrusage_opt (get_task_struct k p) p ru).1,
      put_task_struct (getrusage_opt (get_task_struct k p) p ru).2 p) h0
    (fun xa hx => by
      show ((put_task_struct (getrusage_opt (get_task_struct k p) p ru).2 p).umem xa.2).isSome
        = true
      rw [hu]
      unfold copyout_writes at hx
      simp only [List.mem_cons, List.mem_singleton, List.not_mem_nil, or_false] at hx
      rcases hx with e | e | e | e | e | e <;> subst e
      · exact hin si_signo (by simp)
      · exact hin si_errno (by simp)
      · exact hin si_code (by simp)
      · exact hin si_pid (by simp)
      · exact hin si_uid (by simp)
      · exact hin si_status (by simp))
  rw [if_pos a1]
  refine ⟨rfl, ?_⟩
  unfold peek_report
  have m3 := a2 ((zombie_why_status (k.tasks p).exit_code).1, infop + si_code)
    (by simp [copyout_writes])
  have m4 := a2 ((k.tasks p).pid, infop + si_pid) (by simp [copyout_writes])
  have m6 := a2 ((zombie_why_status (k.tasks p).exit_code).2, infop + si_status)
    (by simp [copyout_writes])
  dsimp only at m3 m4 m6 ⊢
  rw [m3, m4, m6]

/-- A consuming `wait_task_zombie` that has won the exchange and runs to its
end, for a child that is looked at and a caller whose cells can be written:
it returns the pid of the child, and the caller has the report decoded from
the status word. -/
lemma wait_task_zombie_reap_report {fuel : Nat} {k k' : Kernel} {p infop stat ru : Nat} {r : Int}
    (h : wait_task_zombie_reap fuel k p infop stat ru = .ok (r, k'))
    (hn : ¬ ((k.tasks p).exit_signal = -1 ∧ (k.tasks p).ptrace = 0))
    (hw : wait_writable k infop stat ru) :
    r = (k.tasks p).pid
      ∧ (infop ≠ 0 →
          k'.umem (infop + si_code) = some (zombie_why_status (wait_task_zombie_status k p)).1
          ∧ k'.umem (infop + si_status)
            = some (zombie_why_status (wait_task_zombie_status k p)).2
          ∧ k'.umem (infop + si_pid) = some (k.tasks p).pid)
      ∧ (infop = 0 → stat ≠ 0 → k'.umem stat = some (wait_task_zombie_status k p)) := by
  obtain ⟨a1, a2, a3, a4, a5⟩ := wait_task_zombie_account_fields k p
  have hw' : wait_writable (wait_task_zombie_account k p) infop stat ru := by
    unfold wait_writable
    rw [a3]
    exact hw
  obtain ⟨c1, c2, _, _, _, _, c7, c8⟩ := wait_task_zombie_copyout_ok
    (wait_task_zombie_account k p) p infop stat ru hw'
  rw [wait_task_zombie_account_status] at c7 c8
  rw [a1] at c7
  unfold wait_task_zombie_reap at h
  rw [if_neg hn, if_neg (by rw [c1]; simp)] at h
  simp only [bind_eq_ok, BUG_ON_eq_ok, pure_eq_ok, Prod.mk.injEq] at h
  obtain ⟨k4, h4, _, _, hr, hk⟩ := h
  subst hk
  have hu : k4.umem = (wait_task_zombie_copyout (wait_task_zombie_account k p) p infop stat
      ru).2.umem := congrArg Prod.fst (shared_wait_task_zombie_release h4)
  refine ⟨?_, fun hi => ?_, fun hi hs => ?_⟩
  · rw [← hr, c2, a1]
  · rw [hu]
    exact c7 hi
  · rw [hu]
    exact c8 hi hs

/-- A consuming `wait_task_zombie` on a zombie that runs to its end, for a
child that is looked at and a caller whose cells can be written. -/
lemma wait_task_zombie_report {fuel : Nat} {k k' : Kernel} {p infop stat ru : Nat} {r : Int}
    (h : wait_task_zombie fuel k p false infop stat ru = .ok (r, k'))
    (hz : (k.tasks p).exit_state = EXIT_ZOMBIE)
    (hn : ¬ ((k.tasks p).exit_signal = -1 ∧ (k.tasks p).ptrace = 0))
    (hw : wait_writable k infop stat ru) :
    r = (k.tasks p).pid
      ∧ (infop ≠ 0 →
          k'.umem (infop + si_code) = some (zombie_why_status (wait_task_zombie_status k p)).1
          ∧ k'.umem (infop + si_status)
            = some (zombie_why_status (wait_task_zombie_status k p)).2
          ∧ k'.umem (infop + si_pid) = some (k.tasks p).pid)
      ∧ (infop = 0 → stat ≠ 0 → k'.umem stat = some (wait_task_zombie_status k p)) := by
  have hv : ∀ {α : Type} (v : task_struct → α), (∀ t x, v { t with exit_state := x } = v t) →
      v ((k.set_exit_state p EXIT_DEAD).tasks p) = v (k.tasks p) := by
    intro α v hv
    exact congrFun (view_set_exit_state hv k p EXIT_DEAD) p
  have hst : wait_task_zombie_status (k.set_exit_state p EXIT_DEAD) p
      = wait_task_zombie_status k p := by
    unfold wait_task_zombie_status Kernel.sig
    rw [hv task_struct.signal fun _ _ => rfl, hv task_struct.exit_code fun _ _ => rfl]
    rfl
  unfold wait_task_zombie at h
  rw [if_neg (by simp), if_neg (by rw [hz]; simp)] at h
  have := wait_task_zombie_reap_report h
    (by rw [hv task_struct.exit_signal fun _ _ => rfl, hv task_struct.ptrace fun _ _ => rfl]
        exact hn)
    hw
  rw [hst, hv task_struct.pid fun _ _ => rfl] at this
  exact this

/-- C27, counterexample: the running child of the small system, for whose
thread group a group exit with code 9 is recorded, calls `sys_exit(42)` and is
left a zombie with the exit code `0x2a00`.  A peek of its parent reports an
exit with status 42, but the consuming path of `wait_task_zombie`, called by
the parent, reports a kill by signal 9,
in `*infop` for a caller in the style of `waitid` and as the status word 9
for a caller in the style of `wait4`. -/
theorem sys_exit_status_group_exit :
    (sys_exit i386 2 demo_group_exit 42).toOption.map
        (fun k' => ((k'.tasks 4).exit_code, (k'.tasks 4).exit_state))
      = some (0x2a00, EXIT_ZOMBIE)
    ∧ (sys_exit i386 2 demo_group_exit 42 >>= fun k' =>
        wait_task_zombie 2 { k' with current := 2 } 4 true 0x1000 0 0).toOption.map
          (fun r => (r.1, peek_report r.2 0x1000))
      = some (102, (some 102, some CLD_EXITED, some 42))
    ∧ (sys_exit i386 2 demo_group_exit 42 >>= fun k' =>
        wait_task_zombie 2 { k' with current := 2 } 4 false 0x1000 0 0).toOption.map
          (fun r => (r.1, peek_report r.2 0x1000))
      = some (102, (some 102, some CLD_KILLED, some 9))
    ∧ (sys_exit i386 2 demo_group_exit 42 >>= fun k' =>
        wait_task_zombie 2 { k' with current := 2 } 4 false 0 0x1000 0).toOption.map
          (fun r => (r.1, r.2.umem 0x1000))
      = some (102, some 9) := by
  decide

/-- C27, amended: for every integer `c`, (1) `sys_exit(c)` leaves the exit
code `(c & 0xff) << 8` in the caller, and `c & 0xff` is a value from 0 to
255.  For a zombie with that exit code that `wait_task_zombie` looks at: (2)
the peek path, for a caller whose cells can be written, returns the pid of
the child and reports the reason `CLD_EXITED` with the status `c & 0xff`; (3)
every run of the consuming path that returns, for a caller whose cells can
be written and a child for which no group exit is recorded, returns the pid
of the child and reports the reason `CLD_EXITED` with the status `c & 0xff`
in `*infop`, or the status word `(c & 0xff) << 8` in `*stat_addr` when
`infop` is null; (4) the consuming path does return when the child is not
traced, reports its death and leads its group; and (5) when a group exit is
recorded for the child, the consuming path reports what it decodes from the
code of the group exit instead. -/
theorem sys_exit_status_round_trip (c : Int) :
    (∀ (A : Arch) (fuel : Nat) (k k' : Kernel), sys_exit A fuel k c = .ok k' →
        (k'.tasks k.current).exit_code = band c 0xff * 256)
      ∧ (0 ≤ band c 0xff ∧ band c 0xff < 256)
      ∧ (∀ (fuel : Nat) (k : Kernel) (p infop stat ru : Nat),
          (k.tasks p).exit_code = band c 0xff * 256 →
          (k.tasks p).exit_state = EXIT_ZOMBIE →
          ¬ ((k.tasks p).exit_signal = -1 ∧ (k.tasks p).ptrace = 0) →
          (ru = 0 ∨ (k.umem ru).isSome = true) →
          (∀ off ∈ [si_signo, si_errno, si_code, si_pid, si_uid, si_status],
            (k.umem (infop + off)).isSome = true) →
          ∃ k', wait_task_zombie fuel k p true infop stat ru = .ok ((k.tasks p).pid, k')
            ∧ peek_report k' infop
              = (some (k.tasks p).pid, some CLD_EXITED, some (band c 0xff)))
      ∧ (∀ (fuel : Nat) (k k' : Kernel) (p infop stat ru : Nat) (r : Int),
          wait_task_zombie fuel k p false infop stat ru = .ok (r, k') →
          (k.tasks p).exit_code = band c 0xff * 256 →
          (k.tasks p).exit_state = EXIT_ZOMBIE →
          ¬ ((k.tasks p).exit_signal = -1 ∧ (k.tasks p).ptrace = 0) →
          wait_writable k infop stat ru →
          hasFlag (k.sig p).flags SIGNAL_GROUP_EXIT = false →
          r = (k.tasks p).pid
            ∧ (infop ≠ 0 → k'.umem (infop + si_code) = some CLD_EXITED
                ∧ k'.umem (infop + si_status) = some (band c 0xff))
            ∧ (infop = 0 → stat ≠ 0 → k'.umem stat = some (band c 0xff * 256)))
      ∧ (∀ (fuel : Nat) (k : Kernel) (p infop stat ru : Nat), 0 < fuel →
          (k.tasks p).exit_state = EXIT_ZOMBIE →
          (k.tasks p).exit_signal ≠ -1 → (k.tasks p).pid ≠ 0 →
          (k.tasks p).real_parent = (k.tasks p).parent →
          (k.tasks p).ptrace = 0 → ptrace_list_empty k p = true →
          (k.tasks p).ptrace_children = [] → (k.tasks p).group_leader = p →
          (k.tasks p).mm = 0 →
          wait_writable k infop stat ru →
          ∃ k', wait_task_zombie fuel k p false infop stat ru = .ok ((k.tasks p).pid, k'))
      ∧ (∀ (fuel : Nat) (k k' : Kernel) (p infop stat ru : Nat) (r : Int),
          wait_task_zombie fuel k p false infop stat ru = .ok (r, k') →
          (k.tasks p).exit_state = EXIT_ZOMBIE →
          ¬ ((k.tasks p).exit_signal = -1 ∧ (k.tasks p).ptrace = 0) →
          wait_writable k infop stat ru →
          hasFlag (k.sig p).flags SIGNAL_GROUP_EXIT = true →
          (infop ≠ 0 →
              k'.umem (infop + si_code) = some (zombie_why_status (k.sig p).group_exit_code).1
              ∧ k'.umem (infop + si_status)
                = some (zombie_why_status (k.sig p).group_exit_code).2)
            ∧ (infop = 0 → stat ≠ 0 → k'.umem stat = some (k.sig p).group_exit_code)) := by
  obtain ⟨n, hn, e⟩ := band_byte c
  have hd : zombie_why_status (band c 0xff * 256) = (CLD_EXITED, band c 0xff) := by
    rw [e]
    exact zombie_why_status_byte n hn
  refine ⟨fun A fuel k k' h => (do_exit_task_fields h).1, ⟨?_, ?_⟩, ?_, ?_, ?_, ?_⟩
  · rw [e]
    positivity
  · rw [e]
    exact_mod_cast hn
  · intro fuel k p infop stat ru hc hz hne hru hin
    obtain ⟨a1, a2⟩ := wait_task_zombie_peek_ok k p infop ru hz hne hru hin
    rw [hc, hd] at a2
    refine ⟨(wait_task_zombie_peek k p infop ru).2, ?_, a2⟩
    unfold wait_task_zombie
    rw [if_pos rfl, ← a1]
    rfl
  · intro fuel k k' p infop stat ru r h hc hz hne hw hf
    obtain ⟨a1, a2, a3⟩ := wait_task_zombie_report h hz hne hw
    have hs : wait_task_zombie_status k p = band c 0xff * 256 := by
      unfold wait_task_zombie_status
      rw [hf, if_neg Bool.false_ne_true, hc]
    rw [hs] at a2 a3
    rw [hd] at a2
    exact ⟨a1, fun hi => ⟨(a2 hi).1, (a2 hi).2.1⟩, a3⟩
  · intro fuel k p infop stat ru hfuel hz h1 h2 h3 h4 h5 h6 h7 h8 hw
    obtain ⟨k', a1, _⟩ := wait_task_zombie_ok fuel k p infop stat ru hfuel hz h1 h2 h3 h4 h5 h6
      h7 h8 hw
    exact ⟨k', a1⟩
  · intro fuel k k' p infop stat ru r h hz hne hw hf
    obtain ⟨_, a2, a3⟩ := wait_task_zombie_report h hz hne hw
    have hs : wait_task_zombie_status k p = (k.sig p).group_exit_code := by
      unfold wait_task_zombie_status
      rw [hf, if_pos rfl]
    rw [hs] at a2 a3
    exact ⟨fun hi => ⟨(a2 hi).1, (a2 hi).2.1⟩, a3⟩

/-- Witness for C27: the running child of the small system calls
`sys_exit(-1)` and is left with the exit code `0xff00`; a peek of its parent
and a consuming wait of its parent each return its pid and report an exit
with status 255. -/
theorem sys_exit_status_round_trip_witness :
    ∃ k', sys_exit i386 2 demo_exiting (-1) = .ok k'
      ∧ (k'.tasks 4).exit_code = 0xff00
      ∧ (∃ k1, wait_task_zombie 2 { k' with current := 2 } 4 true 0x1000 0 0 = .ok (102, k1)
          ∧ peek_report k1 0x1000 = (some 102, some CLD_EXITED, some 255))
      ∧ (∃ k2, wait_task_zombie 2 { k' with current := 2 } 4 false 0x1000 0 0 = .ok (102, k2)
          ∧ k2.umem (0x1000 + si_code) = some CLD_EXITED
          ∧ k2.umem (0x1000 + si_status) = some 255) := by
  obtain ⟨k', hk'⟩ := ok_of_isSome (sys_exit i386 2 demo_exiting (-1)) (by decide)
  obtain ⟨h1, _, h3, h4, h5, _⟩ := sys_exit_status_round_trip (-1)
  have e : (sys_exit i386 2 demo_exiting (-1)).toOption.map (fun a =>
      decide ((a.tasks 4).exit_state = EXIT_ZOMBIE ∧ (a.tasks 4).exit_signal ≠ -1
        ∧ (a.tasks 4).pid = 102 ∧ (a.tasks 4).real_parent = (a.tasks 4).parent
        ∧ (a.tasks 4).ptrace = 0 ∧ ptrace_list_empty { a with current := 2 } 4 = true
        ∧ (a.tasks 4).ptrace_children = [] ∧ (a.tasks 4).group_leader = 4
        ∧ (a.tasks 4).mm = 0 ∧ wait_writable { a with current := 2 } 0x1000 0 0
        ∧ hasFlag (({ a with current := 2 } : Kernel).sig 4).flags SIGNAL_GROUP_EXIT = false))
      = some true := by
    decide
  rw [toOption_map_of_ok hk'] at e
  obtain ⟨z1, z2, z3, z4, z5, z6, z7, z8, z9, z10, z11⟩ :=
    of_decide_eq_true (Option.some.inj e)
  have hc : (k'.tasks 4).exit_code = 0xff00 := h1 i386 2 demo_exiting k' hk'
  have hne : ¬ ((k'.tasks 4).exit_signal = -1 ∧ (k'.tasks 4).ptrace = 0) := fun c => z2 c.1
  refine ⟨k', hk', hc, ?_, ?_⟩
  · obtain ⟨k1, a1, a2⟩ := h3 2 { k' with current := 2 } 4 0x1000 0 0 hc z1 hne (Or.inl rfl)
      (z10.2.2.resolve_left (by decide))
    have hp : (({ k' with current := 2 } : Kernel).tasks 4).pid = 102 := z3
    rw [hp] at a1 a2
    exact ⟨k1, a1, a2⟩
  · obtain ⟨k2, a1⟩ := h5 2 { k' with current := 2 } 4 0x1000 0 0 (by decide) z1 z2
      (by rw [show (({ k' with current := 2 } : Kernel).tasks 4).pid = 102 from z3]; decide)
      z4 z5 z6 z7 z8 z9 z10
    obtain ⟨_, b2, _⟩ := h4 2 { k' with current := 2 } k2 4 0x1000 0 0 _ a1 hc z1 hne z10 z11
    have hp : (({ k' with current := 2 } : Kernel).tasks 4).pid = 102 := z3
    rw [hp] at a1
    exact ⟨k2, a1, (b2 (by decide)).1, (b2 (by decide)).2⟩

end Proc
